import Mathlib

/-!
Verification development for voixen-vad.

Shallow embedding of

* `src/src/simplevad.c`: the VAD session state, the sample iterator
  (`vadFrameBegin` / `vadFrameNext` / `vadFrameEnd`), `vadProcessAudio` and
  `vadDecision`;
* `src/src/mpa_bindings.cc`: the frame-info cache (`IsNewFrameInfo`,
  `getLastFrameInfo`) and the decode worker (`Execute`, `StartDecoding`,
  `HandleOKCallback`).

Conventions.  C `int` values are `Int`; where the C code computes in `int`
the result is reduced with `wrap32` (two's complement).  `size_t` values are
`Nat`.  The external primitives (the inner WebRTC VAD and the inner MPEG
decoder) are parameters of the embedding: arbitrary deterministic functions
on an abstract state.  Memory faults and non-termination are explicit: the
embedded functions return `Except Fault _` and loops take fuel.
-/

namespace SimpleVad

/-! ## Machine arithmetic -/

/-- Reduction of a mathematical integer to a 32-bit two's-complement C `int`. -/
def wrap32 (x : Int) : Int := (x + 2147483648) % 4294967296 - 2147483648

/-- Reduction of a mathematical integer to a 16-bit two's-complement C `short`. -/
def wrap16 (x : Int) : Int := (x + 32768) % 65536 - 32768

/-- Conversion of a C `int` to `size_t` (64 bit, modular). -/
def toSizeT (x : Int) : Nat := (x % 18446744073709551616).toNat

/-! ## Constants and macros of `simplevad.c` -/

/-- `CALC_FRAME_SIZE(duration, rate)`: `((rate) / 1000) * (duration)` in `int`. -/
def CALC_FRAME_SIZE (duration rate : Int) : Int := wrap32 (Int.tdiv rate 1000 * duration)

/-- `MAX_SAMPLERATE`. -/
def MAX_SAMPLERATE : Int := 48000

/-- `MAX_FRAME_LENGTH` (milliseconds). -/
def MAX_FRAME_LENGTH : Int := 30

/-- `MAX_BUFFER_SIZE`: the capacity of `short frame[MAX_BUFFER_SIZE]`. -/
def MAX_BUFFER_SIZE : Nat := (CALC_FRAME_SIZE MAX_FRAME_LENGTH MAX_SAMPLERATE).toNat

/-- `EVENT_COUNT`: number of histogram slots. -/
def EVENT_COUNT : Nat := 4

/-- The enumeration `vad_event` of `simplevad.h`. -/
inductive vad_event where
  | VAD_EVENT_ERROR
  | VAD_EVENT_SILENCE
  | VAD_EVENT_VOICE
  | VAD_EVENT_NOISE
  deriving DecidableEq, Repr

open vad_event

/-- The integer code of an event (`-1, 0, 1, 2`). -/
def vad_event.code : vad_event → Int
  | VAD_EVENT_ERROR => -1
  | VAD_EVENT_SILENCE => 0
  | VAD_EVENT_VOICE => 1
  | VAD_EVENT_NOISE => 2

/-- `EVENT_OFFSET(event)`: `(event) + 1`, the histogram slot of an event. -/
def EVENT_OFFSET (event : vad_event) : Nat := (event.code + 1).toNat

/-- `SELECT_EVENT(event, histogram)`: `histogram[EVENT_OFFSET(event)]`. -/
def SELECT_EVENT (event : vad_event) (histogram : List Int) : Int :=
  histogram.getD (EVENT_OFFSET event) 0

/-- `CLIP(value)`: `(short)(value < -32768 ? 32768 : value > 32767 ? 32767 : value)`. -/
def CLIP (value : Int) : Int :=
  wrap16 (if value < -32768 then 32768 else if value > 32767 then 32767 else value)

/-! ## State -/

/-- Faults of the embedded code: a store outside `frame`, or a loop that has
not finished within the fuel it was given. -/
inductive Fault where
  | outOfBounds
  | outOfFuel
  deriving DecidableEq, Repr

/-- `struct _vadstate_t`.  `vad` is the state of the inner VAD instance. -/
structure vadstate_t (σ : Type) where
  frame : List Int
  frame_length : Int
  frame_offset : Int
  sample_rate : Int
  vad : σ

/-- `vad_sample_iterator`.  `ptr` is the list of input samples not yet
consumed; the C field `len` is its length. -/
structure vad_sample_iterator (α : Type) where
  buf : List Int
  ptr : List α
  ofs : Nat
  inc : Nat

/-- The inner VAD `WebRtcVad_Process(vad, rate, frame, length)`: a
deterministic function of the instance state, the rate and the frame, that
returns a verdict and the new instance state. -/
abbrev InnerVad (σ : Type) := σ → Int → List Int → Nat → vad_event × σ

/-! ## Operations -/

/-- `vadInitState`: stores the rate, the frame length and a zero offset, and
returns `!(rate == 8000 || rate == 16000 || rate == 32000 || rate == 48000)`. -/
def vadInitState {σ : Type} (state : vadstate_t σ) (rate : Int) : vadstate_t σ × Int :=
  ({ state with
      sample_rate := rate
      frame_length := CALC_FRAME_SIZE MAX_FRAME_LENGTH rate
      frame_offset := 0 },
   if rate = 8000 ∨ rate = 16000 ∨ rate = 32000 ∨ rate = 48000 then 0 else 1)

/-- `vadFrameBegin`. -/
def vadFrameBegin {σ α : Type} (state : vadstate_t σ) (samples : List α) :
    vad_sample_iterator α :=
  { buf := state.frame
    inc := toSizeT state.frame_length
    ptr := samples
    ofs := toSizeT state.frame_offset }

/-- The `for` loop of `vadFrameNext`; the first argument is `fill - i`.
`scale x` is the value of the C expression `(int)(x * 32768)` for the input
sample `x`. -/
def vadFill {α : Type} (scale : α → Int) :
    Nat → vad_sample_iterator α → Except Fault (vad_sample_iterator α)
  | 0, it => .ok it
  | fill + 1, it =>
    match it.ptr with
    | [] => .ok it
    | x :: rest =>
      if it.ofs < MAX_BUFFER_SIZE then
        vadFill scale fill
          { it with buf := it.buf.set it.ofs (CLIP (scale x)), ofs := it.ofs + 1, ptr := rest }
      else .error Fault.outOfBounds

/-- `vadFrameNext`: returns the C return value and the updated iterator. -/
def vadFrameNext {α : Type} (scale : α → Int) (it : vad_sample_iterator α) :
    Except Fault (Int × vad_sample_iterator α) :=
  if it.ofs ≥ it.inc then .ok (0, { it with ofs := 0 })
  else if it.ptr.length = 0 then .ok (1, it)
  else
    match vadFill scale (it.inc - it.ofs) it with
    | .error e => .error e
    | .ok it1 => .ok (if it1.ofs < it1.inc then 1 else 0, it1)

/-- `vadFrameEnd`: stores the iterator offset (converted to `int`). -/
def vadFrameEnd {σ α : Type} (state : vadstate_t σ) (it : vad_sample_iterator α) :
    vadstate_t σ :=
  { state with frame := it.buf, frame_offset := wrap32 it.ofs }

/-- `vadDecision`. -/
def vadDecision (histogram : List Int) : vad_event :=
  let sum := (List.range EVENT_COUNT).foldl (fun sum i => wrap32 (sum + histogram.getD i 0)) 0
  if sum = 0 then VAD_EVENT_SILENCE
  else
    let maj := Int.tdiv (wrap32 (sum * 80)) 100
    if SELECT_EVENT VAD_EVENT_ERROR histogram > 0 then VAD_EVENT_ERROR
    else if SELECT_EVENT VAD_EVENT_VOICE histogram ≥ maj then VAD_EVENT_VOICE
    else VAD_EVENT_SILENCE

/-- State of the `while (!vadFrameNext(&it))` loop of `vadProcessAudio`:
the iterator, the inner VAD state, the histogram and (ghost) the calls made
to the inner VAD so far, in order: the frame handed over and the verdict. -/
structure LoopState (σ α : Type) where
  it : vad_sample_iterator α
  vad : σ
  histogram : List Int
  calls : List (List Int × vad_event)

/-- The `while (!vadFrameNext(&it)) { ... }` loop of `vadProcessAudio`. One
unit of fuel is one evaluation of the loop condition. -/
def vadLoop {σ α : Type} (process : InnerVad σ) (scale : α → Int) (samplerate : Int) :
    Nat → LoopState σ α → Except Fault (LoopState σ α)
  | 0, _ => .error Fault.outOfFuel
  | fuel + 1, st =>
    match vadFrameNext scale st.it with
    | .error e => .error e
    | .ok (r, it1) =>
      if r ≠ 0 then .ok { st with it := it1 }
      else
        let frame := it1.buf.take it1.inc
        let res := process st.vad samplerate frame it1.inc
        let slot := EVENT_OFFSET res.1
        vadLoop process scale samplerate fuel
          { it := it1
            vad := res.2
            histogram := st.histogram.set slot (wrap32 (st.histogram.getD slot 0 + 1))
            calls := st.calls ++ [(frame, res.1)] }

/-- What one `vadProcessAudio` call produces: the returned event, the handle
state it leaves and (ghost) the inner VAD calls it made, in order. -/
structure ProcessResult (σ : Type) where
  event : vad_event
  state : vadstate_t σ
  calls : List (List Int × vad_event)

/-- `vadProcessAudio`. -/
def vadProcessAudio {σ α : Type} (process : InnerVad σ) (scale : α → Int) (fuel : Nat)
    (state : vadstate_t σ) (samplerate : Int) (samples : List α) :
    Except Fault (ProcessResult σ) :=
  let init := if state.sample_rate = 0 then vadInitState state samplerate else (state, 0)
  let state1 := init.1
  if state.sample_rate = 0 ∧ init.2 ≠ 0 then
    .ok { event := VAD_EVENT_ERROR, state := state1, calls := [] }
  else if state1.sample_rate ≠ samplerate then
    .ok { event := VAD_EVENT_ERROR, state := state1, calls := [] }
  else
    match vadLoop process scale samplerate fuel
        { it := vadFrameBegin state1 samples
          vad := state1.vad
          histogram := List.replicate EVENT_COUNT 0
          calls := [] } with
    | .error e => .error e
    | .ok st =>
      .ok { event := vadDecision st.histogram
            state := vadFrameEnd { state1 with vad := st.vad } st.it
            calls := st.calls }

/-- A sequence of `vadProcessAudio` calls on one handle, each given as
`(samplerate, samples)`; returns the final handle state and the result of
every call in order. -/
def vadRun {σ α : Type} (process : InnerVad σ) (scale : α → Int) (fuel : Nat) :
    vadstate_t σ → List (Int × List α) → Except Fault (vadstate_t σ × List (ProcessResult σ))
  | state, [] => .ok (state, [])
  | state, (rate, samples) :: calls =>
    match vadProcessAudio process scale fuel state rate samples with
    | .error e => .error e
    | .ok r =>
      match vadRun process scale fuel r.state calls with
      | .error e => .error e
      | .ok (final, rs) => .ok (final, r :: rs)

/-- The sample rates accepted by `vadInitState`. -/
def supportedRate (rate : Int) : Prop :=
  rate = 8000 ∨ rate = 16000 ∨ rate = 32000 ∨ rate = 48000

instance (rate : Int) : Decidable (supportedRate rate) := by
  unfold supportedRate; infer_instance

/-- An inner VAD that reports silence for every frame (used for concrete runs). -/
def silentVad : InnerVad Unit := fun _ _ _ _ => (VAD_EVENT_SILENCE, ())

/-! ## Sample-at-a-time description of the iterator loop (proof device) -/

/-- The part of a `LoopState` that does not depend on the pending input. -/
structure Stream (σ : Type) where
  buf : List Int
  ofs : Nat
  vad : σ
  histogram : List Int
  calls : List (List Int × vad_event)

/-- The loop state with frame length `L` and pending input `ptr` over a stream state. -/
def ofStream {σ α : Type} (L : Nat) (ptr : List α) (s : Stream σ) : LoopState σ α :=
  { it := { buf := s.buf, ptr := ptr, ofs := s.ofs, inc := L }
    vad := s.vad
    histogram := s.histogram
    calls := s.calls }

/-- Store one converted sample at the current offset. -/
def put {σ α : Type} (scale : α → Int) (s : Stream σ) (x : α) : Stream σ :=
  { s with buf := s.buf.set s.ofs (CLIP (scale x)), ofs := s.ofs + 1 }

/-- Hand the first `L` slots of the buffer to the inner VAD once and count the verdict. -/
def yield {σ : Type} (process : InnerVad σ) (rate : Int) (L : Nat) (s : Stream σ) : Stream σ :=
  let frame := s.buf.take L
  let res := process s.vad rate frame L
  let slot := EVENT_OFFSET res.1
  { s with
      vad := res.2
      histogram := s.histogram.set slot (wrap32 (s.histogram.getD slot 0 + 1))
      calls := s.calls ++ [(frame, res.1)] }

/-- Consume one input sample: store it and, when it completes the frame, hand
the frame to the inner VAD twice and reset the offset. -/
def feed {σ α : Type} (process : InnerVad σ) (scale : α → Int) (rate : Int) (L : Nat)
    (s : Stream σ) (x : α) : Stream σ :=
  let s1 := put scale s x
  if s1.ofs < L then s1 else { yield process rate L (yield process rate L s1) with ofs := 0 }

/-- The stream state a `vadProcessAudio` call starts its loop from. -/
def startStream {σ : Type} (state : vadstate_t σ) : Stream σ :=
  { buf := state.frame
    ofs := toSizeT state.frame_offset
    vad := state.vad
    histogram := List.replicate EVENT_COUNT 0
    calls := [] }

/-- The result of a `vadProcessAudio` call whose loop ended in stream state `s`. -/
def finishStream {σ : Type} (state : vadstate_t σ) (s : Stream σ) : ProcessResult σ :=
  { event := vadDecision s.histogram
    state := { state with frame := s.buf, frame_offset := wrap32 s.ofs, vad := s.vad }
    calls := s.calls }

/-- Two stream states that agree except for the histogram and a prefix `p` of
earlier inner VAD calls. -/
def Stream.sim {σ : Type} (p : List (List Int × vad_event)) (a b : Stream σ) : Prop :=
  b.buf = a.buf ∧ b.ofs = a.ofs ∧ b.vad = a.vad ∧ b.calls = p ++ a.calls

/-- A handle locked to rate `R`: the state `vadInitState` and `vadFrameEnd`
maintain on a handle whose first call carried the rate `R`. -/
def Locked {σ : Type} (R : Int) (s : vadstate_t σ) : Prop :=
  s.sample_rate = R ∧ s.frame_length = CALC_FRAME_SIZE MAX_FRAME_LENGTH R ∧
    0 ≤ s.frame_offset ∧ s.frame_offset < s.frame_length

instance {σ : Type} (R : Int) (s : vadstate_t σ) : Decidable (Locked R s) := by
  unfold Locked; infer_instance

/-- A handle locked to 16 kHz (frame length 480) holding an overhang of 200 samples. -/
def overhangState : vadstate_t Unit :=
  { frame := List.replicate 1440 0, frame_length := 480, frame_offset := 200,
    sample_rate := 16000, vad := () }

/-- A freshly allocated handle: `vadAllocate` has set `sample_rate` to 0. -/
def freshState : vadstate_t Unit :=
  { frame := List.replicate 1440 0, frame_length := 0, frame_offset := 0,
    sample_rate := 0, vad := () }

/-- How many of the inner VAD calls returned the verdict `e`. -/
def tally (calls : List (List Int × vad_event)) (e : vad_event) : Int :=
  ((calls.filter (fun c => decide (c.2 = e))).length : Int)

/-- The histogram that counts the verdicts of the given inner VAD calls. -/
def tallies (calls : List (List Int × vad_event)) : List Int :=
  [tally calls VAD_EVENT_ERROR, tally calls VAD_EVENT_SILENCE, tally calls VAD_EVENT_VOICE,
    tally calls VAD_EVENT_NOISE]

/-- A call that gets past the rate check on a well-formed handle: either the
handle is fresh and the rate is supported, or the handle is locked to the
rate of the call, with a frame length that fits the frame buffer and an
overhang below the frame length. -/
def PassesRateCheck {σ : Type} (rate : Int) (state : vadstate_t σ) : Prop :=
  (state.sample_rate = 0 ∧ supportedRate rate) ∨
    (state.sample_rate = rate ∧ rate ≠ 0 ∧ 0 < state.frame_length ∧
      state.frame_length ≤ (MAX_BUFFER_SIZE : Int) ∧
      0 ≤ state.frame_offset ∧ state.frame_offset < state.frame_length)

instance {σ : Type} (rate : Int) (state : vadstate_t σ) :
    Decidable (PassesRateCheck rate state) := by
  unfold PassesRateCheck; infer_instance

/-- The handle state a call works on once `vadInitState` has run (if it runs). -/
def effectiveState {σ : Type} (rate : Int) (state : vadstate_t σ) : vadstate_t σ :=
  if state.sample_rate = 0 then (vadInitState state rate).1 else state

/-- An inner VAD that reports an error for every frame (used for concrete runs). -/
def failingVad : InnerVad Unit := fun _ _ _ _ => (VAD_EVENT_ERROR, ())

/-- The value of the C expression `(int)(x * 32768)` of `vadFrameNext` for a
float sample whose value is the rational `x`: the product by a power of two
is exact, and the conversion to `int` discards the fractional part (it rounds
toward zero). C defines the conversion when the result fits an `int`. -/
def scaleSample (x : ℚ) : Int := if 0 ≤ x then ⌊x * 32768⌋ else ⌈x * 32768⌉

/-- The conversion in the words of spec.md, section 4.5:
`clip_to_±32767(round(float_sample × 32768))`. -/
def specConversion (x : ℚ) : Int := max (-32767) (min 32767 (round (x * 32768)))

/-! ## Allocation (`vadAllocate`) -/

/-- `sizeof(struct _vadstate_t)` (LP64): the frame buffer of `MAX_BUFFER_SIZE`
shorts, three `int`s, four bytes of padding and the `VadInst*` pointer. -/
def sizeof_vadstate_t : Nat := 2 * MAX_BUFFER_SIZE + 4 + 4 + 4 + 4 + 8

/-- A store into the region `mem` handed to `vadAllocate`: byte offset from
`mem` and number of bytes. -/
structure MemWrite where
  offset : Nat
  size : Nat
  deriving DecidableEq, Repr

/-- The external `WebRtcVad_CreateUser(addr, size)`. `query size` is the value
of the call with a null address, which is given no region to write to;
`create size` is the value of the call with the address `VAD_ADDR(mem)`,
together with the stores it makes into the region. -/
structure CreateUser where
  query : Int → Int
  create : Int → Int × List MemWrite

/-- What a `vadAllocate(mem, memSize)` call leaves: whether the returned
pointer is `NULL`, the content of `memSize[0]` (`none` when `memSize` is
`NULL`), and (ghost) the stores made into the region. -/
structure AllocateResult where
  isNull : Bool
  memSize : Option Nat
  writes : List MemWrite
  deriving DecidableEq, Repr

/-- `vadAllocate(mem, memSize)`: `mem` tells whether the region pointer is
non-null, `memSize` is the content of `memSize[0]` (`none` for a null
`memSize`). -/
def vadAllocate (ext : CreateUser) (mem : Bool) (memSize : Option Nat) : AllocateResult :=
  let size : Int := wrap32 ((memSize.getD 0 : Nat) : Int)
  let required : Int := wrap32 (ext.query size + (sizeof_vadstate_t : Int))
  if size < required ∨ mem = false then
    { isNull := true, memSize := memSize.map (fun _ => toSizeT required), writes := [] }
  else
    let r := ext.create size
    if r.1 = 0 then
      { isNull := false
        memSize := memSize
        writes := r.2 ++ [{ offset := 2 * MAX_BUFFER_SIZE + 8, size := 4 },
                          { offset := 2 * MAX_BUFFER_SIZE + 16, size := 8 }] }
    else
      { isNull := true
        memSize := memSize.map (fun _ =>
          if r.1 > 0 then (toSizeT r.1 + sizeof_vadstate_t) % 18446744073709551616 else 0)
        writes := r.2 }

/-- An inner VAD, for concrete runs, whose state takes 736 bytes. -/
def sampleCreateUser : CreateUser :=
  { query := fun _ => 736
    create := fun _ => (0, [{ offset := sizeof_vadstate_t, size := 736 }]) }

end SimpleVad

namespace Mpa

open SimpleVad (wrap32)

/-! ## Frame info (`mpadec.h`) and its object representation -/

/-- `mp3data_struct` of `mpadec.h`. -/
structure mp3data_struct where
  header_parsed : Int
  version : Int
  layer : Int
  stereo : Int
  samplerate : Int
  bitrate : Int
  mode : Int
  mode_ext : Int
  framesize : Int
  nsamp : Nat
  totalframes : Int
  deriving DecidableEq, Repr

/-- The record after `memset(&data, 0, sizeof data)`. -/
def mp3data_zero : mp3data_struct :=
  { header_parsed := 0, version := 0, layer := 0, stereo := 0, samplerate := 0, bitrate := 0,
    mode := 0, mode_ext := 0, framesize := 0, nsamp := 0, totalframes := 0 }

/-- The four bytes of a C `int` (two's complement, least significant first). -/
def int_bytes (x : Int) : List Nat :=
  let u := (x % 4294967296).toNat
  [u % 256, u / 256 % 256, u / 65536 % 256, u / 16777216 % 256]

/-- The eight bytes of an `unsigned long` (least significant first). -/
def ulong_bytes (x : Nat) : List Nat :=
  (List.range 8).map (fun i => x / 256 ^ i % 256)

/-- The bytes of an `mp3data_struct` in member order: nine `int`s, four bytes
of padding, the `unsigned long`, one `int`, four bytes of padding (LP64
layout). Padding is zero: both the worker's record and the cache start from
a `memset` to zero. -/
def mp3data_bytes (d : mp3data_struct) : List Nat :=
  int_bytes d.header_parsed ++ int_bytes d.version ++ int_bytes d.layer ++ int_bytes d.stereo
    ++ int_bytes d.samplerate ++ int_bytes d.bitrate ++ int_bytes d.mode ++ int_bytes d.mode_ext
    ++ int_bytes d.framesize ++ [0, 0, 0, 0] ++ ulong_bytes d.nsamp ++ int_bytes d.totalframes
    ++ [0, 0, 0, 0]

/-- `sizeof(mp3data_struct)`. -/
def sizeof_mp3data_struct : Nat := 56

/-- `memcmp(a, b, n)`: zero iff the first `n` bytes agree, else the sign of
the first difference. -/
def memcmp : List Nat → List Nat → Nat → Int
  | _, _, 0 => 0
  | [], _, _ + 1 => 0
  | _ :: _, [], _ + 1 => 0
  | a :: as, b :: bs, n + 1 => if a = b then memcmp as bs n else if a < b then -1 else 1

/-- `memchr(s, c, n)`: the position of the first byte equal to `c` among the
first `n` bytes, or `none` for the null pointer. -/
def memchr : List Nat → Nat → Nat → Option Nat
  | _, _, 0 => none
  | [], _, _ + 1 => none
  | b :: bs, c, n + 1 => if b = c then some 0 else (memchr bs c n).map (fun i => i + 1)

/-- `SIGNIFICANT_FRAME_INFO_SIZE` of `IsNewFrameInfo`. -/
def SIGNIFICANT_FRAME_INFO_SIZE : Nat := 28

/-- `IsNewFrameInfo(current, last)`. -/
def IsNewFrameInfo (current last : mp3data_struct) : Bool :=
  current.header_parsed ≠ 0 &&
    memcmp (mp3data_bytes current) (mp3data_bytes last) SIGNIFICANT_FRAME_INFO_SIZE ≠ 0

/-- The JS object built by `GetFrameInfoObject`. -/
structure FrameInfoObject where
  bitrate : Int
  channels : Int
  samplerate : Int
  bitsPerSample : Int
  layer : Int
  version : String
  mode : Int
  deriving DecidableEq, Repr

/-- The table `VERSIONS` of `GetFrameInfoObject`. -/
def VERSIONS : List String := ["MPEG1", "MPEG2", "MPEG2.5"]

/-- `GetFrameInfoObject(data, bitsPerSample)`. The index `data.version % 3` is
taken with the C remainder; the decoder only writes versions 0, 1 and 2. -/
def GetFrameInfoObject (data : mp3data_struct) (bitsPerSample : Int) : FrameInfoObject :=
  { bitrate := data.bitrate
    channels := data.stereo
    samplerate := data.samplerate
    bitsPerSample := bitsPerSample
    layer := data.layer
    version := VERSIONS.getD (Int.tmod data.version 3).toNat ""
    mode := data.mode }

/-! ## Decoder handle -/

/-- `HIP_SIGNATURE`. -/
def HIP_SIGNATURE : Int := 0xDEADC0DE

/-- The host buffer behind a decoder handle: the inner decoder state (`mp`,
with its `signature` word kept apart), then the cached `mp3data_struct`
(`GetFrameInfo(handle)`), then the cached bits per sample. -/
structure DecoderHandle (σ : Type) where
  mp : σ
  signature : Int
  lastFrame : mp3data_struct
  bitsPerSample : Int
  deriving DecidableEq

/-- `hip_validate` for a non-null handle: `signature - HIP_SIGNATURE`. -/
def hip_validate {σ : Type} (h : DecoderHandle σ) : Int := wrap32 (h.signature - HIP_SIGNATURE)

/-- `hip_decode_init` for a non-null handle; `InitMP3` is the external
initialiser of the inner state. -/
def hip_decode_init {σ : Type} (InitMP3 : σ → σ) (h : DecoderHandle σ) : DecoderHandle σ × Int :=
  ({ h with mp := InitMP3 h.mp, signature := wrap32 HIP_SIGNATURE }, 0)

/-- `initDecoder` called with a buffer: returns the handle it leaves and the
value handed back to the host. -/
def initDecoder {σ : Type} (InitMP3 : σ → σ) (h : DecoderHandle σ) : DecoderHandle σ × Int :=
  let r := hip_decode_init InitMP3 h
  if r.2 = 0 then ({ r.1 with lastFrame := mp3data_zero }, r.2) else r

/-- The exception thrown synchronously by the bindings. -/
inductive TypeError where
  | invalidArgument
  | invalidDecoderState
  deriving DecidableEq, Repr

/-- `getLastFrameInfo`: `none` in the argument is a value that is not a
buffer; `none` in the result is the JS value `undefined`. -/
def getLastFrameInfo {σ : Type} (arg : Option (DecoderHandle σ)) :
    Except TypeError (Option FrameInfoObject) :=
  match arg with
  | none => .ok none
  | some h =>
    if hip_validate h ≠ 0 then .error TypeError.invalidDecoderState
    else
      match memchr (mp3data_bytes h.lastFrame) 0 sizeof_mp3data_struct with
      | none => .ok none
      | some _ => .ok (some (GetFrameInfoObject h.lastFrame h.bitsPerSample))

/-! ## Decode worker -/

/-- The inner decoder `Decoder<T>::decode(mp, input, length, left, right, &data)`:
an arbitrary deterministic function of the inner state (which comprises the
input and output buffers), the length argument and the current `data`
record; it returns the sample count and the new `data` and inner state. -/
abbrev InnerDecoder (σ : Type) := σ → Int → mp3data_struct → Int × mp3data_struct × σ

/-- The members of `DecodeFrameWorker<T>`; `calls` is ghost: the length
argument and the return value of every inner decoder call made, in order. -/
structure DecodeFrameWorker (σ : Type) where
  data : mp3data_struct
  mp : σ
  length : Int
  needData : Bool
  isError : Bool
  samplesRead : Int
  calls : List (Int × Int)

/-- The constructor of `DecodeFrameWorker<T>`. -/
def DecodeFrameWorker.new {σ : Type} (mp : σ) (length : Int) : DecodeFrameWorker σ :=
  { data := mp3data_zero, mp := mp, length := length, needData := false, isError := false,
    samplesRead := 0, calls := [] }

/-- `samplesRead = Decoder<T>::decode(mp, input, len, outLeft, outRight, &data)`. -/
def DecodeFrameWorker.decode {σ : Type} (decode : InnerDecoder σ) (w : DecodeFrameWorker σ)
    (len : Int) : DecodeFrameWorker σ :=
  let r := decode w.mp len w.data
  { w with samplesRead := r.1, data := r.2.1, mp := r.2.2, calls := w.calls ++ [(len, r.1)] }

/-- `enum e_state` of `StartDecoding`. -/
inductive e_state where
  | init
  | head
  | frame
  | done
  deriving DecidableEq, Repr

/-- One pass through the `switch` of `StartDecoding`. -/
def StartDecoding_switch {σ : Type} (decode : InnerDecoder σ) (w : DecodeFrameWorker σ) :
    e_state → DecodeFrameWorker σ × e_state
  | e_state.init =>
    let w1 := w.decode decode w.length
    (w1, if w1.samplesRead ≠ 0 then e_state.done
         else if w1.data.header_parsed = 0 then e_state.head
         else e_state.frame)
  | e_state.head =>
    let w1 := w.decode decode 0
    (w1, if w1.samplesRead ≠ 0 ∨ w1.data.header_parsed = 0 then e_state.done else e_state.frame)
  | e_state.frame => (w.decode decode 0, e_state.done)
  | e_state.done => (w, e_state.done)

/-- The loop `while (state != done) switch (state) ...` of `StartDecoding`;
one unit of fuel is one pass through the `switch`. -/
def StartDecoding_while {σ : Type} (decode : InnerDecoder σ) :
    Nat → DecodeFrameWorker σ → e_state → Option (DecodeFrameWorker σ × e_state)
  | fuel, w, state =>
    if state = e_state.done then some (w, state)
    else
      match fuel with
      | 0 => none
      | fuel + 1 =>
        let r := StartDecoding_switch decode w state
        StartDecoding_while decode fuel r.1 r.2

/-- `StartDecoding`. -/
def StartDecoding {σ : Type} (decode : InnerDecoder σ) (fuel : Nat) (w : DecodeFrameWorker σ) :
    Option (DecodeFrameWorker σ) :=
  match StartDecoding_while decode fuel w e_state.init with
  | none => none
  | some (w1, state) =>
    some { w1 with
            isError := decide (w1.samplesRead < 0)
            needData := decide (state = e_state.done) && decide (w1.samplesRead = 0) }

/-- `Execute`. -/
def Execute {σ : Type} (decode : InnerDecoder σ) (fuel : Nat) (w : DecodeFrameWorker σ) :
    Option (DecodeFrameWorker σ) :=
  if w.length > 0 then StartDecoding decode fuel w
  else
    let w1 := w.decode decode w.length
    some { w1 with isError := decide (w1.samplesRead < 0), needData := decide (w1.samplesRead = 0) }

/-- The caller's output buffers, as referenced by the result object. -/
inductive BufferRef where
  | left
  | right
  deriving DecidableEq, Repr

/-- The result object passed to the callback by `HandleOKCallback`; an
absent property is `none`. -/
structure DecodeResult where
  sampleCount : Int
  needMoreData : Bool
  error : Bool
  frameInfo : Option FrameInfoObject
  samplesLeft : Option BufferRef
  samplesRight : Option BufferRef
  deriving DecidableEq, Repr

/-- `HandleOKCallback`: the result object and the handle with the updated
frame-info cache; `bits` is `sizeof(T) * 8`. -/
def HandleOKCallback {σ : Type} (bits : Int) (w : DecodeFrameWorker σ) (h : DecoderHandle σ) :
    DecodeResult × DecoderHandle σ :=
  let emitFrameInfo := IsNewFrameInfo w.data h.lastFrame
  ({ sampleCount := w.samplesRead
     needMoreData := w.needData
     error := w.isError
     frameInfo := if emitFrameInfo then some (GetFrameInfoObject w.data bits) else none
     samplesLeft := if w.samplesRead ≠ 0 then some BufferRef.left else none
     samplesRight := if w.samplesRead ≠ 0 then some BufferRef.right else none },
   if emitFrameInfo then { h with mp := w.mp, lastFrame := w.data, bitsPerSample := bits }
   else { h with mp := w.mp })

/-- A `decodeFrame<T>` call on a valid handle with valid buffers, run to the
delivery of its callback: worker construction, `Execute`, `HandleOKCallback`.
`bits` is 16 for `decodeFrame` and 32 for `decodeFrameFloat`. -/
def decodeFrame {σ : Type} (decode : InnerDecoder σ) (bits : Int) (fuel : Nat)
    (h : DecoderHandle σ) (length : Int) : Option (DecodeResult × DecoderHandle σ) :=
  match Execute decode fuel (DecodeFrameWorker.new h.mp length) with
  | none => none
  | some w => some (HandleOKCallback bits w h)

/-- A sequence of decode calls on one handle (one outstanding at a time),
each given by its length argument; returns, for every call in order, (ghost)
the worker's `data` record at completion and the result object, and the
final handle. -/
def decodeRun {σ : Type} (decode : InnerDecoder σ) (bits : Int) (fuel : Nat) :
    DecoderHandle σ → List Int →
      Option (List (mp3data_struct × DecodeResult) × DecoderHandle σ)
  | h, [] => some ([], h)
  | h, length :: rest =>
    match Execute decode fuel (DecodeFrameWorker.new h.mp length) with
    | none => none
    | some w =>
      match decodeRun decode bits fuel (HandleOKCallback bits w h).2 rest with
      | none => none
      | some (outs, h2) => some ((w.data, (HandleOKCallback bits w h).1) :: outs, h2)

/-! ## Auxiliary notions for the frame-info cache (proof devices and inputs of concrete runs) -/

/-- The first `SIGNIFICANT_FRAME_INFO_SIZE` bytes of the record. -/
def significant (d : mp3data_struct) : List Nat :=
  int_bytes d.header_parsed ++ (int_bytes d.version ++ (int_bytes d.layer ++
    (int_bytes d.stereo ++ (int_bytes d.samplerate ++ (int_bytes d.bitrate ++
      int_bytes d.mode)))))

/-- The value is a C `int`. -/
def IsCInt (x : Int) : Prop := -2147483648 ≤ x ∧ x < 2147483648

/-- The six audio parameters carried by a parsed frame info are C `int`s. -/
def paramsInRange (d : mp3data_struct) : Prop :=
  IsCInt d.version ∧ IsCInt d.layer ∧ IsCInt d.stereo ∧ IsCInt d.samplerate ∧
    IsCInt d.bitrate ∧ IsCInt d.mode

/-- Two frame infos carry the same version, layer, channel count, sample
rate, bitrate and mode. -/
def sameParams (a b : mp3data_struct) : Prop :=
  a.version = b.version ∧ a.layer = b.layer ∧ a.stereo = b.stereo ∧
    a.samplerate = b.samplerate ∧ a.bitrate = b.bitrate ∧ a.mode = b.mode

instance (a b : mp3data_struct) : Decidable (sameParams a b) := by
  unfold sameParams; infer_instance

instance (x : Int) : Decidable (IsCInt x) := by
  unfold IsCInt; infer_instance

instance (d : mp3data_struct) : Decidable (paramsInRange d) := by
  unfold paramsInRange; infer_instance

/-- A stretch of decode results with constant audio parameters: the records
of `pre` are not header-parsed, `d` is the first header-parsed record, and
every header-parsed record of `rest` carries the parameters of `d`. The
inner decoder writes 0 or 1 into `header_parsed`. -/
def Stretch (pre : List mp3data_struct) (d : mp3data_struct) (rest : List mp3data_struct) :
    Prop :=
  (∀ x ∈ pre, x.header_parsed = 0) ∧ d.header_parsed = 1 ∧
    ∀ x ∈ rest, x.header_parsed = 0 ∨ (x.header_parsed = 1 ∧ sameParams x d)

instance (pre : List mp3data_struct) (d : mp3data_struct) (rest : List mp3data_struct) :
    Decidable (Stretch pre d rest) := by
  unfold Stretch; infer_instance

/-- Which results of a run carry `frameInfo`, computed from the cache content
and the `data` records of the calls. -/
def emitTrace : mp3data_struct → List mp3data_struct → List Bool
  | _, [] => []
  | c, d :: ds => IsNewFrameInfo d c :: emitTrace (if IsNewFrameInfo d c then d else c) ds

/-- The cache content after a run. -/
def cacheAfter : mp3data_struct → List mp3data_struct → mp3data_struct
  | c, [] => c
  | c, d :: ds => cacheAfter (if IsNewFrameInfo d c then d else c) ds

/-- An inner decoder that reports an error (-1) on every call. -/
def failingDecoder : InnerDecoder Unit := fun _ _ d => (-1, d, ())

/-- A decoder handle as left by `initDecoder`: valid signature, zeroed cache. -/
def initHandle : DecoderHandle Unit :=
  { mp := (), signature := wrap32 HIP_SIGNATURE, lastFrame := mp3data_zero, bitsPerSample := 0 }

/-- A frame info as written for a parsed header with the given bitrate
(MPEG1 layer III, stereo, 44.1 kHz). -/
def parsedInfo (bitrate : Int) : mp3data_struct :=
  { mp3data_zero with
      header_parsed := 1, version := 0, layer := 3, stereo := 2, samplerate := 44100,
      bitrate := bitrate, mode := 1, framesize := 1152 }

/-- An inner decoder following a script: its state is the list of outcomes
`(n, data)` of its future calls; once the script is used up it asks for more
data. -/
def scriptedDecoder : InnerDecoder (List (Int × mp3data_struct)) := fun st _ d =>
  match st with
  | [] => (0, { d with header_parsed := 0 }, [])
  | (n, d1) :: rest => (n, d1, rest)

/-- A record written by a call that has not parsed a header. -/
def unparsedInfo : mp3data_struct := mp3data_zero

/-- An initialised handle whose inner decoder follows a script: two calls
that find no header, a header at 128 kbit/s followed by two frames, then two
frames at 64 kbit/s. -/
def scriptHandle : DecoderHandle (List (Int × mp3data_struct)) :=
  { mp := [(0, unparsedInfo), (0, unparsedInfo), (0, parsedInfo 128), (1152, parsedInfo 128),
           (1152, parsedInfo 128), (1152, parsedInfo 64), (1152, parsedInfo 64)]
    signature := wrap32 HIP_SIGNATURE
    lastFrame := mp3data_zero
    bitsPerSample := 0 }

/-- An initialised handle whose inner decoder finds a header in the first
input but produces no samples from it: both the first call and the follow-up
call with length 0 return 0 with `header_parsed = 1`. -/
def headerOnlyHandle : DecoderHandle (List (Int × mp3data_struct)) :=
  { mp := [(0, parsedInfo 128), (0, parsedInfo 128)]
    signature := wrap32 HIP_SIGNATURE
    lastFrame := mp3data_zero
    bitsPerSample := 0 }

/-- A store made through a pointer derived from `node::Buffer::Data(handle)`:
the byte offset from the start of the host buffer and the number of bytes
written. -/
structure Store where
  offset : Int
  size : Nat
  deriving DecidableEq, Repr

/-- The store stays inside a host buffer of `length` bytes. -/
def Store.inBounds (length : Nat) (s : Store) : Prop :=
  0 ≤ s.offset ∧ s.offset + (s.size : Int) ≤ (length : Int)

instance (length : Nat) (s : Store) : Decidable (s.inBounds length) := by
  unfold Store.inBounds
  infer_instance

/-- `GetFrameInfo(handle)` as a byte offset into the host buffer:
`Length(handle) - sizeof(mp3data_struct) - sizeof(int)`. -/
def GetFrameInfo (length : Nat) : Int := (length : Int) - (sizeof_mp3data_struct : Int) - 4

/-- `initDecoder` called without a buffer, the size query:
`hip_decode_init(NULL) + sizeof(mp3data_struct) + sizeof(int)`, where
`hip_decode_init(NULL)` is `sizeof(hip_global_flags)`. -/
def initDecoder_size (sizeof_hip_global_flags : Nat) : Int :=
  wrap32 ((sizeof_hip_global_flags : Int) + (sizeof_mp3data_struct : Int) + 4)

/-- The stores of `hip_decode_init(mp)` for a non-null `mp`, and its result:
the stores of the external `InitMP3`, then the `signature` word at its offset
inside the decoder state. -/
def hip_decode_init_stores (InitMP3_stores : List Store) (signature_offset : Nat) :
    List Store × Int :=
  (InitMP3_stores ++ [{ offset := (signature_offset : Int), size := 4 }], 0)

/-- The stores of `initDecoder` called with a host buffer of `length` bytes,
and the value it hands back: `hip_decode_init(mp)`, then, when that returned
0, `memset(GetFrameInfo(info[0]), 0, sizeof(mp3data_struct))`. -/
def initDecoder_stores (InitMP3_stores : List Store) (signature_offset length : Nat) :
    List Store × Int :=
  let r := hip_decode_init_stores InitMP3_stores signature_offset
  if r.2 = 0 then
    (r.1 ++ [{ offset := GetFrameInfo length, size := sizeof_mp3data_struct }], r.2)
  else r

/-! ## Validation and release of a decoder handle -/

/-- `hip_validate(hip)` for a pointer that may be null (`none`):
`hip ? (((PMPSTR)hip)->signature - HIP_SIGNATURE) : 0`. -/
def hip_validate_ptr {σ : Type} (hip : Option (DecoderHandle σ)) : Int :=
  match hip with
  | none => 0
  | some h => hip_validate h

/-- `hip_decode_exit(hip)`: `ExitMP3` is the external release of the inner
state; the result is always 0. -/
def hip_decode_exit {σ : Type} (ExitMP3 : σ → σ) (hip : Option (DecoderHandle σ)) :
    Option (DecoderHandle σ) × Int :=
  match hip with
  | none => (none, 0)
  | some h => (some { h with mp := ExitMP3 h.mp }, 0)

/-- `freeDecoder`: `none` in the argument is a value that is not a buffer; the
result is the handle the call leaves, or the exception thrown. -/
def freeDecoder {σ : Type} (ExitMP3 : σ → σ) (arg : Option (DecoderHandle σ)) :
    Except TypeError (Option (DecoderHandle σ)) :=
  match arg with
  | none => .ok none
  | some h =>
    if hip_validate_ptr (some h) ≠ 0 then .error TypeError.invalidDecoderState
    else .ok (hip_decode_exit ExitMP3 (some h)).1

/-- A zero-filled host buffer read as a decoder handle. -/
def zeroHandle {σ : Type} (mp : σ) : DecoderHandle σ :=
  { mp := mp, signature := 0, lastFrame := mp3data_zero, bitsPerSample := 0 }

/-- The sample types `T` the bindings instantiate `decodeFrame<T>` with. -/
inductive SampleType where
  | int16_t
  | float
  deriving DecidableEq, Repr

/-- `sizeof(T)`. -/
def SampleType.sizeof : SampleType → Int
  | SampleType.int16_t => 2
  | SampleType.float => 4

/-- `sizeof(T) * 8`, the bits per sample `HandleOKCallback` reports and caches. -/
def SampleType.bits (T : SampleType) : Int := T.sizeof * 8

/-! ## Float output (`Decoder<float>::decode`) -/

/-- Rounding of a rational to the nearest integer, a tie going to the even
one: the rounding of IEEE 754 arithmetic in its default mode. -/
def roundTiesEven (q : ℚ) : Int :=
  if q - ⌊q⌋ < 1 / 2 then ⌊q⌋
  else if 1 / 2 < q - ⌊q⌋ then ⌊q⌋ + 1
  else if ⌊q⌋ % 2 = 0 then ⌊q⌋ else ⌊q⌋ + 1

/-- A finite `float` (IEEE 754 binary32) value, as a rational: an integer
significand of magnitude below 2^24 times a power of two whose exponent lies
between -149 (the last bit of a subnormal) and 104 (the last bit of the
largest float). -/
def isFloat32 (q : ℚ) : Prop :=
  ∃ m e : Int, |m| < 2 ^ 24 ∧ -149 ≤ e ∧ e ≤ 104 ∧ q = (m : ℚ) * (2 : ℚ) ^ e

/-- `normalise(f)`: the `float` product `f * (1.0f / 32768.0f)` of a finite
float `f`, modelled by its rational value. The factor is exactly 2^-15. When
the exact product has magnitude at least 2^-126, the smallest normal float, it
is a float itself (the significand of `f` with the exponent lowered by 15) and
is the result; below that the result is the exact product rounded to a
multiple of 2^-149, the spacing of the subnormal floats, ties to even. -/
def normalise (f : ℚ) : ℚ :=
  if 1 / 2 ^ 126 ≤ |f * (1 / 32768)| then f * (1 / 32768)
  else (roundTiesEven (f * (1 / 32768) * 2 ^ 149) : ℚ) / 2 ^ 149

/-- `std::transform(first, first + n, first, op)` on a sample buffer: `none`
when the range `[first, first + n)` is not inside the buffer. -/
def transform (buf : List ℚ) (n : Nat) (op : ℚ → ℚ) : Option (List ℚ) :=
  if n ≤ buf.length then some ((buf.take n).map op ++ buf.drop n) else none

/-- What a float decode call leaves: its return value, the two output
buffers, the `data` record and the inner decoder state. -/
structure FloatDecode (σ : Type) where
  ret : Int
  left : List ℚ
  right : List ℚ
  data : mp3data_struct
  mp : σ

/-- The inner `hip_decode1_headers_unclipped(hip, input, length, left, right,
data)`: an arbitrary deterministic function of the inner state, the length
argument, the output buffers and the `data` record. -/
abbrev InnerUnclipped (σ : Type) :=
  σ → Int → List ℚ → List ℚ → mp3data_struct → FloatDecode σ

/-- `Decoder<float>::decode`. -/
def Decoder_float_decode {σ : Type} (inner : InnerUnclipped σ) (hip : σ) (length : Int)
    (left right : List ℚ) (data : mp3data_struct) : Option (FloatDecode σ) :=
  let r := inner hip length left right data
  if r.ret > 0 then
    match transform r.left r.ret.toNat normalise with
    | none => none
    | some l =>
      if r.data.stereo > 1 then
        match transform r.right r.ret.toNat normalise with
        | none => none
        | some rr => some { r with left := l, right := rr }
      else some { r with left := l }
  else some r

/-- An inner unclipped decoder, for concrete runs, that writes the outcome it
finds in its state. -/
def replayUnclipped : InnerUnclipped (FloatDecode Unit) := fun st _ _ _ _ =>
  { ret := st.ret, left := st.left, right := st.right, data := st.data, mp := st }

/-- A stereo frame of two samples per channel in buffers of three, the first
left sample above full scale. -/
def stereoOutcome : FloatDecode Unit :=
  { ret := 2, left := [65536, -16384, 7], right := [32768, 0, 9],
    data := parsedInfo 128, mp := () }

/-- A mono frame of two samples in buffers of three, for concrete runs: the
left samples are 2^-140, whose product with 2^-15 underflows, and 2^-120,
whose product is the subnormal float 2^-135. -/
def underflowOutcome : FloatDecode Unit :=
  { ret := 2, left := [1 / 2 ^ 140, 1 / 2 ^ 120, 7], right := [5, 6, 9],
    data := { parsedInfo 128 with stereo := 1 }, mp := () }

/-! ## The transition table of the bootstrap state machine, as the specification words it -/

/-- The transition table of spec.md, section 4.2, read row by row: the state
that follows `s` when the inner call made in `s` returned `n` and left
`header_parsed`; `none` where no row of the table applies. -/
def spec_transition (s : e_state) (n header_parsed : Int) : Option e_state :=
  match s with
  | e_state.init =>
    if n > 0 then some e_state.done
    else if n = 0 ∧ header_parsed = 0 then some e_state.head
    else if n = 0 ∧ header_parsed ≠ 0 then some e_state.frame
    else none
  | e_state.head =>
    if n > 0 ∨ header_parsed = 0 then some e_state.done
    else if n = 0 ∧ header_parsed ≠ 0 then some e_state.frame
    else none
  | e_state.frame => some e_state.done
  | e_state.done => none

/-- The length argument of the action the table of section 4.2 gives for a
state: the input length in `init`, zero for the two flush calls. -/
def spec_action_length (s : e_state) (length : Int) : Int :=
  match s with
  | e_state.init => length
  | _ => 0

/-- One pass of the loop of `StartDecoding` on a pair of worker and state. -/
def StartDecoding_pass {σ : Type} (decode : InnerDecoder σ)
    (p : DecodeFrameWorker σ × e_state) : DecodeFrameWorker σ × e_state :=
  StartDecoding_switch decode p.1 p.2

/-- The inner decoder calls of a decode call as section 4.2 words them,
without the worker: call number 1 is `decode(input, length)` on the handle's
inner state and the zeroed `data` record, every later call is the flush
`decode(null, 0)` on the inner state and the record the call before it left.
`innerCall decode mp length k` is what call number `k + 1` returns: the value
n, the record and the inner state. -/
def innerCall {σ : Type} (decode : InnerDecoder σ) (mp : σ) (length : Int) :
    Nat → Int × mp3data_struct × σ
  | 0 => decode mp length mp3data_zero
  | k + 1 => decode (innerCall decode mp length k).2.2 0 (innerCall decode mp length k).2.1

/-- The length argument and the value returned by each of the first `k` inner
calls of `innerCall`. -/
def innerTrace {σ : Type} (decode : InnerDecoder σ) (mp : σ) (length : Int) (k : Nat) :
    List (Int × Int) :=
  (List.range k).map (fun j => (if j = 0 then length else 0, (innerCall decode mp length j).1))

/-- An initialised handle whose inner decoder finds no header in the first
input and reports the error -7 on the flush call. -/
def errorOnFlushHandle : DecoderHandle (List (Int × mp3data_struct)) :=
  { mp := [(0, unparsedInfo), (-7, unparsedInfo)]
    signature := wrap32 HIP_SIGNATURE
    lastFrame := mp3data_zero
    bitsPerSample := 0 }

/-- An initialised handle whose inner decoder finds no header in the first
input, parses the header on the first flush call and decodes a frame of 1152
samples on the second. -/
def threeCallHandle : DecoderHandle (List (Int × mp3data_struct)) :=
  { mp := [(0, unparsedInfo), (0, parsedInfo 128), (1152, parsedInfo 128)]
    signature := wrap32 HIP_SIGNATURE
    lastFrame := mp3data_zero
    bitsPerSample := 0 }

end Mpa

namespace Mpadec

open Mpa (mp3data_struct)

open SimpleVad (wrap32 toSizeT)

/-! ## Header parsing (`bitstream.c`) -/

/-- `tabsel_123[2][3][16]`: each row has 15 initialisers, the sixteenth
element is zero-initialised. -/
def tabsel_123 : List (List (List Int)) :=
  [[[0, 32, 64, 96, 128, 160, 192, 224, 256, 288, 320, 352, 384, 416, 448, 0],
    [0, 32, 48, 56, 64, 80, 96, 112, 128, 160, 192, 224, 256, 320, 384, 0],
    [0, 32, 40, 48, 56, 64, 80, 96, 112, 128, 160, 192, 224, 256, 320, 0]],
   [[0, 32, 48, 56, 64, 80, 96, 112, 128, 144, 160, 176, 192, 224, 256, 0],
    [0, 8, 16, 24, 32, 40, 48, 56, 64, 80, 96, 112, 128, 144, 160, 0],
    [0, 8, 16, 24, 32, 40, 48, 56, 64, 80, 96, 112, 128, 144, 160, 0]]]

/-- `freqs[9]`. -/
def freqs : List Int := [44100, 48000, 32000, 22050, 24000, 16000, 11025, 12000, 8000]

/-- `MAX_INPUT_FRAMESIZE`. -/
def MAX_INPUT_FRAMESIZE : Int := 4096

/-- `SBLIMIT`. -/
def SBLIMIT : Int := 32

/-- `MPG_MD_MONO`. -/
def MPG_MD_MONO : Int := 3

/-- What stops a run of the header code short of its return. -/
inductive Fault where
  | assertion
  | outOfBounds
  | divisionByZero
  deriving DecidableEq, Repr

/-- An array read `t[i]`: a fault when the index is outside the array. -/
def index {α : Type} (t : List α) (i : Int) : Except Fault α :=
  if i < 0 then .error Fault.outOfBounds
  else
    match t[i.toNat]? with
    | some x => .ok x
    | none => .error Fault.outOfBounds

/-- Integer division `a / b` of C: a fault when the divisor is zero. -/
def divide (a b : Int) : Except Fault Int :=
  if b = 0 then .error Fault.divisionByZero else .ok (Int.tdiv a b)

/-- `head_check(head, check_layer)`; `head` is the `unsigned long` argument. -/
def head_check (head : Nat) (check_layer : Int) : Bool :=
  let nLayer : Int := (4 : Int) - (((head >>> 17) &&& 3 : Nat) : Int)
  if head &&& 0xffe00000 ≠ 0xffe00000 then false
  else if nLayer = 4 then false
  else if check_layer > 0 ∧ nLayer ≠ check_layer then false
  else if (head >>> 12) &&& 0xf = 0xf then false
  else if (head >>> 10) &&& 0x3 = 0x3 then false
  else if head &&& 0x3 = 0x2 then false
  else true

/-- The members of `struct frame` that `decode_header` and the frame-info
population read or write. -/
structure frame where
  stereo : Int
  lsf : Int
  mpeg25 : Int
  lay : Int
  error_protection : Int
  bitrate_index : Int
  sampling_frequency : Int
  padding : Int
  extension : Int
  mode : Int
  mode_ext : Int
  copyright : Int
  original : Int
  emphasis : Int
  framesize : Int
  down_sample_sblimit : Int
  down_sample : Int

/-- A `struct frame` with every member zero. -/
def frame_zero : frame :=
  { stereo := 0, lsf := 0, mpeg25 := 0, lay := 0, error_protection := 0, bitrate_index := 0,
    sampling_frequency := 0, padding := 0, extension := 0, mode := 0, mode_ext := 0,
    copyright := 0, original := 0, emphasis := 0, framesize := 0, down_sample_sblimit := 0,
    down_sample := 0 }

/-- The assignments of `decode_header` that precede its `switch`. A failed
`assert` is a fault. -/
def decode_header_fields (fr : frame) (newhead : Nat) : Except Fault frame :=
  let lsf : Int :=
    if newhead &&& (1 <<< 20) ≠ 0 then (if newhead &&& (1 <<< 19) ≠ 0 then 0 else 1) else 1
  let mpeg25 : Int := if newhead &&& (1 <<< 20) ≠ 0 then 0 else 1
  let lay : Int := (4 : Int) - (((newhead >>> 17) &&& 3 : Nat) : Int)
  if (newhead >>> 10) &&& 0x3 = 0x3 then .error Fault.assertion
  else
    let sampling_frequency : Int :=
      if mpeg25 ≠ 0 then (6 : Int) + (((newhead >>> 10) &&& 0x3 : Nat) : Int)
      else (((newhead >>> 10) &&& 0x3 : Nat) : Int) + lsf * 3
    let mode : Int := (((newhead >>> 6) &&& 0x3 : Nat) : Int)
    .ok { fr with
      lsf := lsf
      mpeg25 := mpeg25
      lay := lay
      sampling_frequency := sampling_frequency
      error_protection := ((((newhead >>> 16) &&& 0x1) ^^^ 0x1 : Nat) : Int)
      bitrate_index := (((newhead >>> 12) &&& 0xf : Nat) : Int)
      padding := (((newhead >>> 9) &&& 0x1 : Nat) : Int)
      extension := (((newhead >>> 8) &&& 0x1 : Nat) : Int)
      mode := mode
      mode_ext := (((newhead >>> 4) &&& 0x3 : Nat) : Int)
      copyright := (((newhead >>> 3) &&& 0x1 : Nat) : Int)
      original := (((newhead >>> 2) &&& 0x1 : Nat) : Int)
      emphasis := ((newhead &&& 0x3 : Nat) : Int)
      stereo := if mode = MPG_MD_MONO then 1 else 2 }

/-- The `switch (fr->lay)` of `decode_header` and its return value. The
shifts `<< 2` and `<< lsf` are written as multiplications by powers of two. -/
def decode_header_switch (fr : frame) : Except Fault (frame × Int) :=
  if fr.lay = 1 then do
    let row ← index tabsel_123 fr.lsf
    let col ← index row 0
    let t ← index col fr.bitrate_index
    let f ← index freqs fr.sampling_frequency
    let q ← divide (t * 12000) f
    .ok ({ fr with framesize := (q + fr.padding) * 2 ^ 2 - 4, down_sample := 0,
                   down_sample_sblimit := SBLIMIT }, 1)
  else if fr.lay = 2 then do
    let row ← index tabsel_123 fr.lsf
    let col ← index row 1
    let t ← index col fr.bitrate_index
    let f ← index freqs fr.sampling_frequency
    let q ← divide (t * 144000) f
    .ok ({ fr with framesize := q + (fr.padding - 4), down_sample := 0,
                   down_sample_sblimit := SBLIMIT }, 1)
  else if fr.lay = 3 then
    if fr.framesize > MAX_INPUT_FRAMESIZE then
      .ok ({ fr with framesize := MAX_INPUT_FRAMESIZE }, 0)
    else if fr.bitrate_index = 0 then .ok ({ fr with framesize := 0 }, 1)
    else do
      let row ← index tabsel_123 fr.lsf
      let col ← index row 2
      let t ← index col fr.bitrate_index
      let f ← index freqs fr.sampling_frequency
      let q ← divide (t * 144000) (f * 2 ^ fr.lsf.toNat)
      .ok ({ fr with framesize := q + fr.padding - 4 }, 1)
  else .ok (fr, 0)

/-- `decode_header(mp, fr, newhead)`: the frame it leaves and its return value. -/
def decode_header (fr : frame) (newhead : Nat) : Except Fault (frame × Int) := do
  let fr1 ← decode_header_fields fr newhead
  decode_header_switch fr1




/-! ## Frame info population (`mpadec_interface.c`) -/

/-- The members of `MPSTR` read by the frame-info population of
`decode1_headersB_clipchoice`. -/
structure MPSTR where
  num_frames : Int
  enc_delay : Int
  enc_padding : Int
  header_parsed : Int
  framesize : Int
  fsizeold : Int
  fr : frame

/-- `smpls[2][4]` of `decode1_headersB_clipchoice`. -/
def smpls : List (List Int) := [[0, 384, 1152, 1152], [0, 384, 1152, 576]]

/-- The conversion of a `double` to `int`: the fractional part is discarded. -/
def truncate (q : ℚ) : Int := if 0 ≤ q then ⌊q⌋ else ⌈q⌉

/-- The expression `8 * (4 + size) * samplerate / (1.e3 * framesize) + 0.5`
assigned to the `int` member `bitrate`: an `int` product, then a quotient and
a sum of `double`s (modelled by exact rationals), then the conversion to
`int`. A zero divisor is a fault. -/
def bitrate_of_size (size samplerate framesize : Int) : Except Fault Int :=
  if framesize = 0 then .error Fault.divisionByZero
  else
    .ok (truncate (((wrap32 (8 * (4 + size) * samplerate) : Int) : ℚ)
      / (1000 * (framesize : ℚ)) + 1 / 2))

/-- The frame-info population of `decode1_headersB_clipchoice`: the
assignment `mp3data->header_parsed = 0` and, after the inner decoder call has
left the decoder state `pmp`, the block guarded by
`pmp->header_parsed || pmp->fsizeold > 0 || pmp->framesize > 0`. The result
is the record and the values of `*enc_delay` and `*enc_padding`. -/
def decode1_headersB_clipchoice_info (pmp : MPSTR) (mp3data : mp3data_struct)
    (enc_delay enc_padding : Int) : Except Fault (mp3data_struct × Int × Int) :=
  if pmp.header_parsed ≠ 0 ∨ pmp.fsizeold > 0 ∨ pmp.framesize > 0 then do
    let samplerate ← index freqs pmp.fr.sampling_frequency
    let row ← index smpls pmp.fr.lsf
    let framesize ← index row pmp.fr.lay
    let bitrate ←
      if pmp.fsizeold > 0 then bitrate_of_size pmp.fsizeold samplerate framesize
      else if pmp.framesize > 0 then bitrate_of_size pmp.framesize samplerate framesize
      else do
        let plane ← index tabsel_123 pmp.fr.lsf
        let line ← index plane (pmp.fr.lay - 1)
        index line pmp.fr.bitrate_index
    let d : mp3data_struct :=
      { mp3data with
        header_parsed := 1
        stereo := pmp.fr.stereo
        samplerate := samplerate
        mode := pmp.fr.mode
        mode_ext := pmp.fr.mode_ext
        framesize := framesize
        layer := pmp.fr.lay
        version := wrap32 (pmp.fr.lsf + pmp.fr.mpeg25)
        bitrate := bitrate }
    if pmp.num_frames > 0 then
      .ok ({ d with totalframes := pmp.num_frames,
                    nsamp := toSizeT (wrap32 (framesize * pmp.num_frames)) },
        pmp.enc_delay, pmp.enc_padding)
    else .ok (d, enc_delay, enc_padding)
  else .ok ({ mp3data with header_parsed := 0 }, enc_delay, enc_padding)

/-! ## Bit reader (`bitstream.c`) -/

/-- The bit reader inside `MPSTR`: the memory `wordpointer` points into, the
position of `wordpointer` in it (`none` for a null pointer) and `bitindex`. -/
structure BitReader where
  bytes : List Nat
  wordpointer : Option Nat
  bitindex : Int

/-- `getbits(mp, number_of_bits)`: the value returned and the reader it
leaves. A read outside the memory and a shift by a negative count are
faults. -/
def getbits (mp : BitReader) (number_of_bits : Int) : Except Fault (Nat × BitReader) :=
  match mp.wordpointer with
  | none => .ok (0, mp)
  | some wp =>
    if number_of_bits ≤ 0 then .ok (0, mp)
    else if mp.bitindex < 0 ∨ 24 - number_of_bits < 0 then .error Fault.assertion
    else do
      let b0 ← index mp.bytes (wp : Int)
      let b1 ← index mp.bytes ((wp : Int) + 1)
      let b2 ← index mp.bytes ((wp : Int) + 2)
      let rval : Nat := ((((b0 <<< 8) ||| b1) <<< 8) ||| b2) <<< mp.bitindex.toNat
      let rval : Nat := rval &&& 0xffffff
      let bitindex : Int := mp.bitindex + number_of_bits
      let rval : Nat := rval >>> (24 - number_of_bits).toNat
      .ok (rval % 4294967296,
        { mp with wordpointer := some (wp + (bitindex.toNat >>> 3)),
                  bitindex := ((bitindex.toNat &&& 7 : Nat) : Int) })

/-- `getbits_fast(mp, number_of_bits)`. -/
def getbits_fast (mp : BitReader) (number_of_bits : Int) : Except Fault (Nat × BitReader) :=
  match mp.wordpointer with
  | none => .error Fault.outOfBounds
  | some wp =>
    if mp.bitindex < 0 ∨ 16 - number_of_bits < 0 ∨ mp.bitindex + number_of_bits < 0 then
      .error Fault.assertion
    else do
      let b0 ← index mp.bytes (wp : Int)
      let b1 ← index mp.bytes ((wp : Int) + 1)
      let rval : Nat := ((b0 <<< 8) ||| b1) <<< mp.bitindex.toNat
      let rval : Nat := rval &&& 0xffff
      let bitindex : Int := mp.bitindex + number_of_bits
      let rval : Nat := rval >>> (16 - number_of_bits).toNat
      .ok (rval % 4294967296,
        { mp with wordpointer := some (wp + (bitindex.toNat >>> 3)),
                  bitindex := ((bitindex.toNat &&& 7 : Nat) : Int) })

/-- Bit `i` of a byte stream, counted from the most significant bit of the
first byte. -/
def streamBit (bytes : List Nat) (i : Nat) : Nat := bytes.getD (i / 8) 0 / 2 ^ (7 - i % 8) % 2

/-- The `n` bits of a byte stream that start at bit position `pos`, most
significant first, read as an unsigned number. -/
def nextBits (bytes : List Nat) (pos n : Nat) : Nat :=
  (List.range n).foldl (fun acc k => 2 * acc + streamBit bytes (pos + k)) 0

/-! ## VBR tag (`vbrtag.c`) -/

/-- `VBRTag0`, the character codes of "Xing". -/
def VBRTag0 : List Nat := [0x58, 0x69, 0x6E, 0x67]

/-- `VBRTag1`, the character codes of "Info". -/
def VBRTag1 : List Nat := [0x49, 0x6E, 0x66, 0x6F]

/-- `bitrate_table[3][16]`. -/
def bitrate_table : List (List Int) :=
  [[0, 8, 16, 24, 32, 40, 48, 56, 64, 80, 96, 112, 128, 144, 160, -1],
   [0, 32, 40, 48, 56, 64, 80, 96, 112, 128, 160, 192, 224, 256, 320, -1],
   [0, 8, 16, 24, 32, 40, 48, 56, 64, -1, -1, -1, -1, -1, -1, -1]]

/-- `samplerate_table[3][4]`. -/
def samplerate_table : List (List Int) :=
  [[22050, 24000, 16000, -1], [44100, 48000, 32000, -1], [11025, 12000, 8000, -1]]

/-- `FRAMES_FLAG`. -/
def FRAMES_FLAG : Nat := 0x0001

/-- `BYTES_FLAG`. -/
def BYTES_FLAG : Nat := 0x0002

/-- `TOC_FLAG`. -/
def TOC_FLAG : Nat := 0x0004

/-- `VBR_SCALE_FLAG`. -/
def VBR_SCALE_FLAG : Nat := 0x0008

/-- `NUMTOCENTRIES`. -/
def NUMTOCENTRIES : Nat := 100

/-- `VBRTAGDATA`. -/
structure VBRTAGDATA where
  h_id : Int
  samprate : Int
  flags : Int
  frames : Int
  bytes : Int
  vbr_scale : Int
  toc : List Nat
  headersize : Int
  enc_delay : Int
  enc_padding : Int

/-- `ExtractI4(buf + ofs)`: the big-endian word, as an `int`. -/
def ExtractI4 (buf : List Nat) (ofs : Int) : Except Fault Int := do
  let b0 ← index buf ofs
  let b1 ← index buf (ofs + 1)
  let b2 ← index buf (ofs + 2)
  let b3 ← index buf (ofs + 3)
  .ok (wrap32 ((((((b0 <<< 8) ||| b1) <<< 8) ||| b2) <<< 8 ||| b3 : Nat) : Int))

/-- A chain `buf[0] == tag[0] && buf[1] == tag[1] && ...` at `buf + ofs`: a
byte is read only when all bytes before it matched. -/
def matchTag (buf : List Nat) : Int → List Nat → Except Fault Bool
  | _, [] => .ok true
  | ofs, c :: cs => do
    let b ← index buf ofs
    if b = c then matchTag buf (ofs + 1) cs else .ok false

/-- `IsVbrTag(buf + ofs)`. -/
def IsVbrTag (buf : List Nat) (ofs : Int) : Except Fault Bool := do
  let isTag0 ← matchTag buf ofs VBRTag0
  let isTag1 ← matchTag buf ofs VBRTag1
  .ok (isTag0 || isTag1)

/-- The test `x & flag` on the `int` `x` (two's complement). -/
def flagSet (x : Int) (flag : Nat) : Bool := ((x % 4294967296).toNat &&& flag) ≠ 0

/-- The `NUMTOCENTRIES` bytes `buf[ofs] ...` copied into `toc`. -/
def readToc (buf : List Nat) (ofs : Int) : Nat → Except Fault (List Nat)
  | 0 => .ok []
  | k + 1 => do
    let b ← index buf ofs
    let rest ← readToc buf (ofs + 1) k
    .ok (b :: rest)

/-- The part of `GetVbrTag` that follows the read of the flags word: the
optional fields, the header size and the encoder delay and padding; `ofs` is
the position of `buf` after `buf += 4; /* get flags */`. -/
def GetVbrTag_fields (t2 : VBRTAGDATA) (buf : List Nat) (head_flags : Int) (ofs : Int)
    (h_id : Nat) (h_bitrate samprate : Int) : Except Fault (VBRTAGDATA × Bool) := do
  let (t3, ofs) ← (if flagSet head_flags FRAMES_FLAG then do
      let v ← ExtractI4 buf ofs
      .ok ({ t2 with frames := v }, ofs + 4)
    else .ok (t2, ofs) : Except Fault (VBRTAGDATA × Int))
  let (t4, ofs) ← (if flagSet head_flags BYTES_FLAG then do
      let v ← ExtractI4 buf ofs
      .ok ({ t3 with bytes := v }, ofs + 4)
    else .ok (t3, ofs) : Except Fault (VBRTAGDATA × Int))
  let (t5, ofs) ← (if flagSet head_flags TOC_FLAG then do
      let toc ← readToc buf ofs NUMTOCENTRIES
      .ok ({ t4 with toc := toc }, ofs + (NUMTOCENTRIES : Int))
    else .ok (t4, ofs) : Except Fault (VBRTAGDATA × Int))
  let t6 : VBRTAGDATA := { t5 with vbr_scale := -1 }
  let (t7, ofs) ← (if flagSet head_flags VBR_SCALE_FLAG then do
      let v ← ExtractI4 buf ofs
      .ok ({ t6 with vbr_scale := v }, ofs + 4)
    else .ok (t6, ofs) : Except Fault (VBRTAGDATA × Int))
  let headersize ← divide (wrap32 (((h_id : Int) + 1) * 72000 * h_bitrate)) samprate
  let ofs := ofs + 21
  let c0 ← index buf ofs
  let c1 ← index buf (ofs + 1)
  let c2 ← index buf (ofs + 2)
  let enc_delay : Int := (((c0 <<< 4) + (c1 >>> 4) : Nat) : Int)
  let enc_padding : Int := (((((c1 &&& 0x0F) <<< 8) + c2 : Nat)) : Int)
  let enc_delay : Int := if enc_delay < 0 ∨ enc_delay > 3000 then -1 else enc_delay
  let enc_padding : Int := if enc_padding < 0 ∨ enc_padding > 3000 then -1 else enc_padding
  .ok ({ t7 with headersize := headersize, enc_delay := enc_delay,
                 enc_padding := enc_padding }, true)

/-- The offset of the tag from the start of the frame: `32 + 4` for MPEG1
that is not mono, `17 + 4` for MPEG1 mono and for MPEG2 that is not mono,
`9 + 4` for MPEG2 mono. -/
def tagOffset (h_id h_mode : Nat) : Int :=
  if h_id ≠ 0 then (if h_mode ≠ 3 then 32 + 4 else 17 + 4)
  else (if h_mode ≠ 3 then 17 + 4 else 9 + 4)

/-- `GetVbrTag(pTagData, buf)`: the tag data it leaves and its result. -/
def GetVbrTag (pTagData : VBRTAGDATA) (buf : List Nat) : Except Fault (VBRTAGDATA × Bool) := do
  let t0 : VBRTAGDATA := { pTagData with flags := 0 }
  let b1 ← index buf 1
  let h_layer : Nat := (b1 >>> 1) &&& 3
  if h_layer ≠ 0x01 then .ok (t0, false)
  else do
    let h_id : Nat := (b1 >>> 3) &&& 1
    let b2 ← index buf 2
    let h_sr_index : Nat := (b2 >>> 2) &&& 3
    let b3 ← index buf 3
    let h_mode : Nat := (b3 >>> 6) &&& 3
    let bitrates ← index bitrate_table (h_id : Int)
    let h_bitrate ← index bitrates (((b2 >>> 4) &&& 0xf : Nat) : Int)
    let rates ← index samplerate_table (if b1 >>> 4 = 0xE then 2 else (h_id : Int))
    let samprate ← index rates (h_sr_index : Int)
    let t1 : VBRTAGDATA := { t0 with samprate := samprate }
    let ofs : Int := tagOffset h_id h_mode
    let isTag ← IsVbrTag buf ofs
    if !isTag then .ok (t1, false)
    else do
      let ofs := ofs + 4
      let head_flags ← ExtractI4 buf ofs
      let t2 : VBRTAGDATA := { t1 with h_id := (h_id : Int), flags := head_flags }
      GetVbrTag_fields t2 buf head_flags (ofs + 4) h_id h_bitrate samprate

/-- The big-endian 32-bit word at byte `ofs` of a buffer. -/
def bigEndian32 (buf : List Nat) (ofs : Nat) : Nat :=
  buf.getD ofs 0 * 2 ^ 24 + buf.getD (ofs + 1) 0 * 2 ^ 16 + buf.getD (ofs + 2) 0 * 2 ^ 8
    + buf.getD (ofs + 3) 0

/-- The frame size that the `switch` of `decode_header` assigns when it
returns 1, as a function of the members it reads. -/
def frame_size_of (lay lsf bitrate_index sampling_frequency padding : Int) :
    Except Fault Int :=
  if lay = 1 then do
    let row ← index tabsel_123 lsf
    let col ← index row 0
    let t ← index col bitrate_index
    let f ← index freqs sampling_frequency
    let q ← divide (t * 12000) f
    .ok ((q + padding) * 2 ^ 2 - 4)
  else if lay = 2 then do
    let row ← index tabsel_123 lsf
    let col ← index row 1
    let t ← index col bitrate_index
    let f ← index freqs sampling_frequency
    let q ← divide (t * 144000) f
    .ok (q + (padding - 4))
  else if bitrate_index = 0 then .ok 0
  else do
    let row ← index tabsel_123 lsf
    let col ← index row 2
    let t ← index col bitrate_index
    let f ← index freqs sampling_frequency
    let q ← divide (t * 144000) (f * 2 ^ lsf.toNat)
    .ok (q + padding - 4)

/-- The entry `tabsel_123[lsf][lay - 1][bitrate_index]`, zero outside the table. -/
def bitrateOf (lsf lay bitrate_index : Int) : Int :=
  ((tabsel_123.getD lsf.toNat []).getD (lay - 1).toNat []).getD bitrate_index.toNat 0

/-- The entry `freqs[sampling_frequency]`, zero outside the table. -/
def freqOf (sampling_frequency : Int) : Int := freqs.getD sampling_frequency.toNat 0

/-- The entry `smpls[lsf][lay]`, zero outside the table. -/
def samplesOf (lsf lay : Int) : Int := (smpls.getD lsf.toNat []).getD lay.toNat 0

/-- The values of a one-bit member. -/
def bitValues : List Int := [0, 1]

/-- The layers `head_check` lets through. -/
def layerValues : List Int := [1, 2, 3]

/-- The bitrate indices `head_check` lets through. -/
def bitrateIndexValues : List Int := [0, 1, 2, 3, 4, 5, 6, 7, 8, 9, 10, 11, 12, 13, 14]

/-- The values `decode_header` gives `sampling_frequency` for a value of `lsf`. -/
def samplingValues (lsf : Int) : List Int := if lsf = 0 then [0, 1, 2] else [3, 4, 5, 6, 7, 8]

/-- The members of a frame as `decode_header` derives them from the bit
fields of a header. -/
def HeaderFields (head : Nat) (fr : frame) : Prop :=
  fr.lay = 4 - ((head / 2 ^ 17 % 4 : Nat) : Int) ∧
    fr.bitrate_index = ((head / 2 ^ 12 % 16 : Nat) : Int) ∧
    fr.padding = ((head / 2 ^ 9 % 2 : Nat) : Int) ∧
    fr.mode = ((head / 2 ^ 6 % 4 : Nat) : Int) ∧
    fr.mode_ext = ((head / 2 ^ 4 % 4 : Nat) : Int) ∧
    fr.stereo = (if head / 2 ^ 6 % 4 = 3 then 1 else 2) ∧
    fr.mpeg25 = (if head / 2 ^ 20 % 2 = 1 then 0 else 1) ∧
    fr.lsf = (if head / 2 ^ 20 % 2 = 1 ∧ head / 2 ^ 19 % 2 = 1 then 0 else 1) ∧
    fr.sampling_frequency
      = (if head / 2 ^ 20 % 2 = 1 then
          (if head / 2 ^ 19 % 2 = 1 then ((head / 2 ^ 10 % 4 : Nat) : Int)
           else ((head / 2 ^ 10 % 4 : Nat) : Int) + 3)
         else 6 + ((head / 2 ^ 10 % 4 : Nat) : Int))

/-! ## The header tables of the specification -/

/-- The sample rate of the standard MPEG table for a version (0 = MPEG1,
1 = MPEG2, 2 = MPEG2.5) and a sampling-rate index. -/
def standard_rate (version : Int) (rate_index : Nat) : Int :=
  if version = 0 then [44100, 48000, 32000].getD rate_index 0
  else if version = 1 then [22050, 24000, 16000].getD rate_index 0
  else if version = 2 then [11025, 12000, 8000].getD rate_index 0
  else 0

/-- The samples per frame of the MPEG matrix: 384 for layer I, 1152 for layer
II and MPEG1 layer III, 576 for MPEG2 and MPEG2.5 layer III. -/
def standard_samples_per_frame (version layer : Int) : Int :=
  if layer = 1 then 384
  else if layer = 2 then 1152
  else if version = 0 then 1152
  else 576

/-- A decoder state for concrete runs: header parsed, no frame size known yet,
no VBR header. -/
def parsedState (fr : frame) : MPSTR :=
  { num_frames := 0, enc_delay := 0, enc_padding := 0, header_parsed := 1, framesize := 0,
    fsizeold := 0, fr := fr }

/-- A `VBRTAGDATA` with every field zero and an empty table of contents. -/
def VBRTAGDATA_zero : VBRTAGDATA :=
  { h_id := 0, samprate := 0, flags := 0, frames := 0, bytes := 0, vbr_scale := 0, toc := [],
    headersize := 0, enc_delay := 0, enc_padding := 0 }

/-- A 180-byte MPEG1 Layer III joint-stereo frame (header FF FB 90 40) whose
side information is followed by a "Xing" tag with `FRAMES_FLAG` set and a frame
count of 100. -/
def xingFrame : List Nat :=
  [0xFF, 0xFB, 0x90, 0x40] ++ List.replicate 32 0 ++ VBRTag0 ++ [0, 0, 0, 1] ++ [0, 0, 0, 100]
    ++ List.replicate 132 0

/-- A reader at bit 3 of the three bytes A5 3C 0F. -/
def sampleReader : BitReader := { bytes := [0xA5, 0x3C, 0x0F], wordpointer := some 0, bitindex := 3 }

end Mpadec

namespace Spl

/-! ## Complex bit reversal (`spl_core.c`, `complex_bit_reverse.c`) -/

/-- `index_7[112]`: the pairs of indexes swapped for `stages == 7`. -/
def index_7 : List Nat :=
  [1, 64, 2, 32, 3, 96, 4, 16, 5, 80, 6, 48, 7, 112, 9, 72, 10, 40, 11, 104, 12, 24, 13, 88, 14,
   56, 15, 120, 17, 68, 18, 36, 19, 100, 21, 84, 22, 52, 23, 116, 25, 76, 26, 44, 27, 108, 29,
   92, 30, 60, 31, 124, 33, 66, 35, 98, 37, 82, 38, 50, 39, 114, 41, 74, 43, 106, 45, 90, 46, 58,
   47, 122, 49, 70, 51, 102, 53, 86, 55, 118, 57, 78, 59, 110, 61, 94, 63, 126, 67, 97, 69, 81,
   71, 113, 75, 105, 77, 89, 79, 121, 83, 101, 87, 117, 91, 109, 95, 125, 103, 115, 111, 123]

/-- `index_8[240]`: the pairs of indexes swapped for `stages == 8`. -/
def index_8 : List Nat :=
  [1, 128, 2, 64, 3, 192, 4, 32, 5, 160, 6, 96, 7, 224, 8, 16, 9, 144, 10, 80, 11, 208, 12, 48,
   13, 176, 14, 112, 15, 240, 17, 136, 18, 72, 19, 200, 20, 40, 21, 168, 22, 104, 23, 232, 25,
   152, 26, 88, 27, 216, 28, 56, 29, 184, 30, 120, 31, 248, 33, 132, 34, 68, 35, 196, 37, 164,
   38, 100, 39, 228, 41, 148, 42, 84, 43, 212, 44, 52, 45, 180, 46, 116, 47, 244, 49, 140, 50,
   76, 51, 204, 53, 172, 54, 108, 55, 236, 57, 156, 58, 92, 59, 220, 61, 188, 62, 124, 63, 252,
   65, 130, 67, 194, 69, 162, 70, 98, 71, 226, 73, 146, 74, 82, 75, 210, 77, 178, 78, 114, 79,
   242, 81, 138, 83, 202, 85, 170, 86, 106, 87, 234, 89, 154, 91, 218, 93, 186, 94, 122, 95, 250,
   97, 134, 99, 198, 101, 166, 103, 230, 105, 150, 107, 214, 109, 182, 110, 118, 111, 246, 113,
   142, 115, 206, 117, 174, 119, 238, 121, 158, 123, 222, 125, 190, 127, 254, 131, 193, 133, 161,
   135, 225, 137, 145, 139, 209, 141, 177, 143, 241, 147, 201, 149, 169, 151, 233, 155, 217, 157,
   185, 159, 249, 163, 197, 167, 229, 171, 213, 173, 181, 175, 245, 179, 205, 183, 237, 187, 221,
   191, 253, 199, 227, 203, 211, 207, 243, 215, 235, 223, 251, 239, 247]

/-- The swap `temp = p[a]; p[a] = p[b]; p[b] = temp;` on the array of 32-bit
complex elements; `none` when an index is outside the array. The elements are
kept abstract: the function only moves them. -/
def swap {α : Type} (data : List α) (a b : Nat) : Option (List α) := do
  let temp ← data[a]?
  let y ← data[b]?
  some ((data.set a y).set b temp)

/-- The loop `for (m = 0; m < length; m += 2)` of the table branch, with `k`
iterations left. -/
def tableLoop {α : Type} (index : List Nat) : Nat → Nat → List α → Option (List α)
  | 0, _, data => some data
  | k + 1, m, data => do
    let a ← index[m]?
    let b ← index[m + 1]?
    let data1 ← swap data a b
    tableLoop index k (m + 2) data1

/-- The branch `if (stages == 7 || stages == 8)` of
`WebRtcSpl_ComplexBitReverse`. -/
def ComplexBitReverse_table {α : Type} (complex_data : List α) (stages : Nat) :
    Option (List α) :=
  let length : Nat := if stages = 8 then 240 else 112
  let index : List Nat := if stages = 8 then index_8 else index_7
  tableLoop index ((length + 1) / 2) 0 complex_data

/-- The loop `do { l >>= 1; } while (l > nn - mr);`. It can only fail to end
with `l == 0`, which `l` reaches after `stages + 1` halvings of `1 << stages`;
`none` stands for that endless loop. -/
def halve (nn mr : Nat) : Nat → Nat → Option Nat
  | 0, _ => none
  | fuel + 1, l =>
    let l1 := l >>> 1
    if (l1 : Int) > (nn : Int) - (mr : Int) then halve nn mr fuel l1 else some l1

/-- The loop `for (m = 1; m <= nn; ++m)` of the generic branch, with `k`
iterations left. In `mr & (l - 1)` the mask is `-1` when `l == 0`. -/
def genericLoop {α : Type} (stages n : Nat) : Nat → Nat → Nat → List α → Option (List α)
  | 0, _, _, data => some data
  | k + 1, m, mr, data => do
    let l ← halve (n - 1) mr (stages + 2) n
    let mr1 : Nat := (if l = 0 then mr else mr &&& (l - 1)) + l
    if mr1 ≤ m then genericLoop stages n k (m + 1) mr1 data
    else do
      let data1 ← swap data m mr1
      genericLoop stages n k (m + 1) mr1 data1

/-- The `else` branch of `WebRtcSpl_ComplexBitReverse`, for `stages` in 0..30
(where `1 << stages` is an `int`). -/
def ComplexBitReverse_generic {α : Type} (complex_data : List α) (stages : Nat) :
    Option (List α) :=
  let n : Nat := 1 <<< stages
  let nn : Nat := n - 1
  genericLoop stages n nn 1 0 complex_data

/-- `WebRtcSpl_ComplexBitReverse(complex_data, stages)`: the array it leaves. -/
def WebRtcSpl_ComplexBitReverse {α : Type} (complex_data : List α) (stages : Nat) :
    Option (List α) :=
  if stages = 7 ∨ stages = 8 then ComplexBitReverse_table complex_data stages
  else ComplexBitReverse_generic complex_data stages

/-- The number whose `stages`-bit binary representation is that of `i`
reversed. -/
def bitReverse (stages i : Nat) : Nat :=
  (List.range stages).foldl (fun acc k => 2 * acc + i / 2 ^ k % 2) 0

/-- The swaps of a table of index pairs, laid out as `index_7` and `index_8`
are, applied in order. -/
def swapAll {α : Type} : List Nat → List α → Option (List α)
  | a :: b :: rest, data => (swap data a b).bind (swapAll rest)
  | _, data => some data

/-- The index pairs `m, mr` that `genericLoop` swaps, in order and laid out as
`index_7` and `index_8` are; `none` when its inner loop does not end. -/
def genericSwaps (stages n : Nat) : Nat → Nat → Nat → Option (List Nat)
  | 0, _, _ => some []
  | k + 1, m, mr => do
    let l ← halve (n - 1) mr (stages + 2) n
    let mr1 : Nat := (if l = 0 then mr else mr &&& (l - 1)) + l
    let rest ← genericSwaps stages n k (m + 1) mr1
    if mr1 ≤ m then some rest else some (m :: mr1 :: rest)

/-- The index paired with `j` in a table of index pairs, `j` itself when
there is none. -/
def partner : List Nat → Nat → Nat
  | a :: b :: rest, j => if j = a then b else if j = b then a else partner rest j
  | _, j => j

/-- No index occurs twice in a table. -/
def distinct : List Nat → Bool
  | [] => true
  | a :: rest => !rest.contains a && distinct rest

/-- A table of index pairs is the bit reversal of `stages` bits: no index
occurs twice, every index is below `2 ^ stages`, and every index below
`2 ^ stages` is paired with its reversal or, when it is its own reversal, with
nothing. -/
def isBitReversal (stages : Nat) (index : List Nat) : Bool :=
  distinct index && index.all (fun x => decide (x < 2 ^ stages))
    && (List.range (2 ^ stages)).all (fun j => partner index j == bitReverse stages j)

end Spl

namespace SimpleVad

section LoopLemmas

variable {σ α : Type} (process : InnerVad σ) (scale : α → Int) (rate : Int)

theorem MAX_BUFFER_SIZE_eq : MAX_BUFFER_SIZE = 1440 := by decide

theorem put_foldl_ofs (xs : List α) (s : Stream σ) :
    (xs.foldl (put scale) s).ofs = s.ofs + xs.length := by
  induction xs generalizing s with
  | nil => simp
  | cons x xs ih => simp [ih, put]; omega

theorem put_foldl_vad (xs : List α) (s : Stream σ) :
    (xs.foldl (put scale) s).vad = s.vad := by
  induction xs generalizing s with
  | nil => rfl
  | cons x xs ih => simp [ih, put]

theorem put_foldl_histogram (xs : List α) (s : Stream σ) :
    (xs.foldl (put scale) s).histogram = s.histogram := by
  induction xs generalizing s with
  | nil => rfl
  | cons x xs ih => simp [ih, put]

theorem put_foldl_calls (xs : List α) (s : Stream σ) :
    (xs.foldl (put scale) s).calls = s.calls := by
  induction xs generalizing s with
  | nil => rfl
  | cons x xs ih => simp [ih, put]

theorem vadFill_eq (L : Nat) (fill : Nat) (ptr : List α) (s : Stream σ)
    (h : s.ofs + min fill ptr.length ≤ MAX_BUFFER_SIZE) :
    vadFill scale fill (ofStream L ptr s : LoopState σ α).it
      = .ok (ofStream L (ptr.drop fill) ((ptr.take fill).foldl (put scale) s) : LoopState σ α).it := by
  induction fill generalizing ptr s with
  | zero => simp [vadFill, ofStream]
  | succ fill ih =>
    cases ptr with
    | nil => simp [vadFill, ofStream]
    | cons x rest =>
      have h1 : s.ofs < MAX_BUFFER_SIZE := by
        simp at h; omega
      have h2 : (put scale s x).ofs + min fill rest.length ≤ MAX_BUFFER_SIZE := by
        simp [put] at h ⊢; omega
      have := ih rest (put scale s x) h2
      simp only [ofStream] at this ⊢
      simp only [vadFill, h1, if_true, List.take_succ_cons, List.drop_succ_cons, List.foldl_cons]
      exact this

theorem feed_foldl_below (L : Nat) (xs : List α) (s : Stream σ)
    (h : s.ofs + xs.length < L) :
    xs.foldl (feed process scale rate L) s = xs.foldl (put scale) s := by
  induction xs generalizing s with
  | nil => rfl
  | cons x xs ih =>
    have h1 : (put scale s x).ofs < L := by simp [put] at h ⊢; omega
    have h2 : (put scale s x).ofs + xs.length < L := by simp [put] at h ⊢; omega
    simp only [List.foldl_cons]
    rw [← ih (put scale s x) h2]
    simp [feed, h1]

theorem feed_foldl_complete (L : Nat) (xs : List α) (s : Stream σ)
    (hne : xs ≠ []) (h : s.ofs + xs.length = L) :
    xs.foldl (feed process scale rate L) s
      = { yield process rate L (yield process rate L (xs.foldl (put scale) s)) with ofs := 0 } := by
  induction xs generalizing s with
  | nil => exact absurd rfl hne
  | cons x xs ih =>
    cases xs with
    | nil =>
      have h1 : ¬ (put scale s x).ofs < L := by simp [put] at h ⊢; omega
      simp [feed, h1]
    | cons y ys =>
      have h1 : (put scale s x).ofs < L := by simp [put] at h ⊢; omega
      have h2 : (put scale s x).ofs + (y :: ys).length = L := by simp [put] at h ⊢; omega
      have := ih (put scale s x) (by simp) h2
      simp only [List.foldl_cons] at this ⊢
      rw [← this]
      simp [feed, h1]

theorem feed_ofs_lt (L : Nat) (hL : 0 < L) (s : Stream σ) (x : α) :
    (feed process scale rate L s x).ofs < L := by
  unfold feed
  by_cases h : (put scale s x).ofs < L
  · simp [h]
  · simp [h, hL]

theorem feed_foldl_ofs_lt (L : Nat) (hL : 0 < L) (xs : List α) (s : Stream σ)
    (h : s.ofs < L) : (xs.foldl (feed process scale rate L) s).ofs < L := by
  induction xs generalizing s with
  | nil => simpa using h
  | cons x xs ih => exact ih _ (feed_ofs_lt process scale rate L hL s x)

/-- The iterator loop, started with a partially filled frame (`ofs < L`),
terminates within `2 * ((ofs + n) / L) + 1` evaluations of its condition and
ends in the state obtained by feeding the input one sample at a time. -/
theorem vadLoop_eq_feed (L : Nat) (hL : 0 < L) (hmax : L ≤ MAX_BUFFER_SIZE) (q : Nat) :
    ∀ (ptr : List α) (s : Stream σ) (fuel : Nat), s.ofs < L →
      (s.ofs + ptr.length) / L = q → 2 * q + 1 ≤ fuel →
      vadLoop process scale rate fuel (ofStream L ptr s)
        = .ok (ofStream L [] (ptr.foldl (feed process scale rate L) s)) := by
  induction q with
  | zero =>
    intro ptr s fuel hofs hq hfuel
    have hlt : s.ofs + ptr.length < L := by
      rcases Nat.lt_or_ge (s.ofs + ptr.length) L with h | h
      · exact h
      · have := Nat.div_pos h hL; omega
    obtain ⟨f, rfl⟩ : ∃ f, fuel = f + 1 := ⟨fuel - 1, by omega⟩
    cases ptr with
    | nil =>
      have : ¬ (L ≤ s.ofs) := by omega
      simp [vadLoop, vadFrameNext, ofStream, this]
    | cons x rest =>
      have hfill := vadFill_eq scale L (L - s.ofs) (x :: rest) s (by
        have : min (L - s.ofs) (x :: rest).length = (x :: rest).length := by
          apply Nat.min_eq_right; omega
        rw [this]; omega)
      have htake : (x :: rest).take (L - s.ofs) = x :: rest := by
        apply List.take_of_length_le; omega
      have hdrop : (x :: rest).drop (L - s.ofs) = [] := by
        apply List.drop_of_length_le; omega
      rw [htake, hdrop] at hfill
      have hofs2 : ((x :: rest).foldl (put scale) s).ofs < L := by
        rw [put_foldl_ofs]; exact hlt
      rw [feed_foldl_below process scale rate L (x :: rest) s hlt]
      have hnot : ¬ (L ≤ s.ofs) := by omega
      have hv := put_foldl_vad scale (x :: rest) s
      have hh := put_foldl_histogram scale (x :: rest) s
      have hf := put_foldl_calls scale (x :: rest) s
      simp only [ofStream] at hfill ⊢
      simp only [vadLoop, vadFrameNext, hfill]
      rw [hv, hh, hf]
      simp only [List.length_cons, ge_iff_le, hnot, if_false, hofs2, if_true]
      simp
  | succ q ih =>
    intro ptr s fuel hofs hq hfuel
    have hge : L ≤ s.ofs + ptr.length := by
      rcases Nat.lt_or_ge (s.ofs + ptr.length) L with h | h
      · rw [Nat.div_eq_of_lt h] at hq; omega
      · exact h
    obtain ⟨f, rfl⟩ : ∃ f, fuel = f + 2 := ⟨fuel - 2, by omega⟩
    have hlen : L - s.ofs ≤ ptr.length := by omega
    have hfill := vadFill_eq scale L (L - s.ofs) ptr s (by
      rw [Nat.min_eq_left hlen]; omega)
    have htl : (ptr.take (L - s.ofs)).length = L - s.ofs := by
      rw [List.length_take]; exact Nat.min_eq_left hlen
    have hne : ptr.take (L - s.ofs) ≠ [] := by
      intro h0; rw [h0] at htl; simp at htl; omega
    have hpne : ptr.length ≠ 0 := by omega
    have hofs2 : ((ptr.take (L - s.ofs)).foldl (put scale) s).ofs = L := by
      rw [put_foldl_ofs, htl]; omega
    have hcomp := feed_foldl_complete process scale rate L (ptr.take (L - s.ofs)) s hne
      (by rw [htl]; omega)
    have hsplit : ptr.foldl (feed process scale rate L) s
        = (ptr.drop (L - s.ofs)).foldl (feed process scale rate L)
            ((ptr.take (L - s.ofs)).foldl (feed process scale rate L) s) := by
      rw [← List.foldl_append, List.take_append_drop]
    have hq2 : (0 + (ptr.drop (L - s.ofs)).length) / L = q := by
      rw [List.length_drop, Nat.zero_add]
      have h3 : s.ofs + ptr.length = (ptr.length - (L - s.ofs)) + L := by omega
      rw [h3, Nat.add_div_right _ hL] at hq
      omega
    have hrec := ih (ptr.drop (L - s.ofs))
      ({ yield process rate L (yield process rate L ((ptr.take (L - s.ofs)).foldl (put scale) s))
          with ofs := 0 }) f (by simpa using hL) hq2 (by omega)
    rw [hsplit, hcomp, ← hrec]
    have hnot : ¬ (L ≤ s.ofs) := by omega
    have hv := put_foldl_vad scale (ptr.take (L - s.ofs)) s
    have hh := put_foldl_histogram scale (ptr.take (L - s.ofs)) s
    have hf := put_foldl_calls scale (ptr.take (L - s.ofs)) s
    simp only [ofStream] at hfill ⊢
    simp only [vadLoop, vadFrameNext, hfill]
    simp [hnot, hofs2, hpne, yield, hv, hh, hf]

theorem feed_foldl_calls_length (L : Nat) (hL : 0 < L) (xs : List α) (s : Stream σ)
    (h : s.ofs < L) :
    (xs.foldl (feed process scale rate L) s).calls.length
      = s.calls.length + 2 * ((s.ofs + xs.length) / L) := by
  induction xs generalizing s with
  | nil => simp [Nat.div_eq_of_lt h]
  | cons x xs ih =>
    simp only [List.foldl_cons, List.length_cons]
    rw [ih _ (feed_ofs_lt process scale rate L hL s x)]
    by_cases h1 : (put scale s x).ofs < L
    · have e1 : feed process scale rate L s x = put scale s x := by simp [feed, h1]
      rw [e1]
      have e2 : (put scale s x).ofs + xs.length = s.ofs + (xs.length + 1) := by
        simp [put]; omega
      rw [e2]; simp [put]
    · have e1 : feed process scale rate L s x
          = { yield process rate L (yield process rate L (put scale s x)) with ofs := 0 } := by
        simp [feed, h1]
      rw [e1]
      have e3 : s.ofs + 1 = L := by simp [put] at h1; omega
      have e2 : s.ofs + (xs.length + 1) = xs.length + L := by omega
      rw [e2, Nat.add_div_right _ hL]
      simp [yield, put]
      omega

theorem toSizeT_natCast (n : Nat) (h : n < 18446744073709551616) : toSizeT (n : Int) = n := by
  unfold toSizeT; omega

theorem wrap32_natCast (n : Nat) (h : n < 2147483648) : wrap32 (n : Int) = n := by
  unfold wrap32; omega

/-- A `vadProcessAudio` call that passes the rate check on a handle with
frame length `0 < L ≤ MAX_BUFFER_SIZE` and overhang `o < L` returns, and its
result is the one obtained by feeding the samples one at a time. -/
theorem vadProcessAudio_eq_feed (state : vadstate_t σ) (samples : List α) (fuel L o : Nat)
    (hlock : state.sample_rate = rate) (hne : rate ≠ 0)
    (hL : state.frame_length = L) (ho : state.frame_offset = o)
    (hoL : o < L) (hmax : L ≤ MAX_BUFFER_SIZE)
    (hfuel : 2 * ((o + samples.length) / L) + 1 ≤ fuel) :
    vadProcessAudio process scale fuel state rate samples
      = .ok (finishStream state
          (samples.foldl (feed process scale rate L) (startStream state))) := by
  have hmax2 : L ≤ 1440 := by rw [← MAX_BUFFER_SIZE_eq]; exact hmax
  have hLs : toSizeT state.frame_length = L := by rw [hL]; exact toSizeT_natCast L (by omega)
  have hos : toSizeT state.frame_offset = o := by rw [ho]; exact toSizeT_natCast o (by omega)
  have hsr : state.sample_rate ≠ 0 := by rw [hlock]; exact hne
  have hloop := vadLoop_eq_feed process scale rate L (by omega) hmax
    ((o + samples.length) / L) samples (startStream state) fuel
    (by simp [startStream, hos]; exact hoL) (by simp [startStream, hos]) hfuel
  have hstart : LoopState.mk (vadFrameBegin state samples) state.vad
        (List.replicate EVENT_COUNT 0) []
      = ofStream L samples (startStream state) := by
    simp [ofStream, startStream, vadFrameBegin, hLs]
  unfold vadProcessAudio
  simp only [hlock, hne, if_false, false_and, ne_eq, not_true_eq_false]
  rw [hstart, hloop]
  simp [finishStream, vadFrameEnd, ofStream, hlock]

theorem div_le_length (o n L : Nat) (h : o < L) : (o + n) / L ≤ n := by
  have h1 : (o + n) / L < n + 1 := by
    rw [Nat.div_lt_iff_lt_mul (by omega)]
    have : n ≤ n * L := Nat.le_mul_of_pos_right n (by omega)
    have : (n + 1) * L = n * L + L := by ring
    omega
  omega

/-- The call that follows a call which ended in stream state `a`. -/
theorem vadProcessAudio_restart (state : vadstate_t σ) (a : Stream σ) (samples : List α)
    (fuel L : Nat) (hlock : state.sample_rate = rate) (hne : rate ≠ 0)
    (hL : state.frame_length = L) (haL : a.ofs < L) (hmax : L ≤ MAX_BUFFER_SIZE)
    (hfuel : 2 * samples.length + 1 ≤ fuel) :
    vadProcessAudio process scale fuel (finishStream state a).state rate samples
      = .ok (finishStream (finishStream state a).state
          (samples.foldl (feed process scale rate L)
            (startStream (finishStream state a).state))) := by
  have hmx := MAX_BUFFER_SIZE_eq
  have hw : wrap32 (a.ofs : Int) = a.ofs := wrap32_natCast _ (by omega)
  have hd := div_le_length a.ofs samples.length L haL
  exact vadProcessAudio_eq_feed process scale rate (finishStream state a).state samples fuel L
    a.ofs hlock hne hL hw haL hmax (by omega)

theorem feed_sim (L : Nat) (p : List (List Int × vad_event)) (a b : Stream σ) (x : α)
    (h : Stream.sim p a b) :
    Stream.sim p (feed process scale rate L a x) (feed process scale rate L b x) := by
  obtain ⟨h1, h2, h3, h4⟩ := h
  unfold feed
  by_cases hlt : (put scale a x).ofs < L
  · have hlt2 : (put scale b x).ofs < L := by simpa [put, h2] using hlt
    simp only [hlt, hlt2, if_true]
    simp [Stream.sim, put, h1, h2, h3, h4]
  · have hlt2 : ¬ (put scale b x).ofs < L := by simpa [put, h2] using hlt
    simp only [hlt, hlt2, if_false]
    simp [Stream.sim, put, yield, h1, h2, h3, h4]

theorem feed_foldl_sim (L : Nat) (p : List (List Int × vad_event)) (xs : List α)
    (a b : Stream σ) (h : Stream.sim p a b) :
    Stream.sim p (xs.foldl (feed process scale rate L) a)
      (xs.foldl (feed process scale rate L) b) := by
  induction xs generalizing a b with
  | nil => simpa using h
  | cons x xs ih => exact ih _ _ (feed_sim process scale rate L p a b x h)

theorem sim_restart (state : vadstate_t σ) (a : Stream σ) (h : a.ofs < 2147483648) :
    Stream.sim a.calls (startStream (finishStream state a).state) a := by
  have h1 : toSizeT (wrap32 (a.ofs : Int)) = a.ofs := by
    rw [wrap32_natCast _ h, toSizeT_natCast _ (by omega)]
  unfold Stream.sim
  simp only [startStream, finishStream, h1, List.append_nil, and_self]

end LoopLemmas

section VadTheorems

variable {σ α : Type} (process : InnerVad σ) (scale : α → Int)

theorem supportedRate_frame_size (R : Int) (h : supportedRate R) :
    CALC_FRAME_SIZE MAX_FRAME_LENGTH R = 240 ∨ CALC_FRAME_SIZE MAX_FRAME_LENGTH R = 480 ∨
      CALC_FRAME_SIZE MAX_FRAME_LENGTH R = 960 ∨ CALC_FRAME_SIZE MAX_FRAME_LENGTH R = 1440 := by
  rcases h with h | h | h | h <;> subst h <;> decide

theorem supportedRate_ne_zero (R : Int) (h : supportedRate R) : R ≠ 0 := by
  rcases h with h | h | h | h <;> subst h <;> decide

/-- On a handle in a `Locked` state of a supported rate, a call at that rate
returns a result computed by `feed`. -/
theorem vadProcessAudio_locked (R : Int) (hR : supportedRate R) (state : vadstate_t σ)
    (hlk : Locked R state) (samples : List α) (fuel : Nat)
    (hfuel : 2 * samples.length + 1 ≤ fuel) :
    vadProcessAudio process scale fuel state R samples
      = .ok (finishStream state
          (samples.foldl (feed process scale R state.frame_length.toNat) (startStream state))) := by
  obtain ⟨h1, h2, h3, h4⟩ := hlk
  have hsz := supportedRate_frame_size R hR
  have hL : state.frame_length = (state.frame_length.toNat : Int) := by omega
  have ho : state.frame_offset = (state.frame_offset.toNat : Int) := by omega
  have hoL : state.frame_offset.toNat < state.frame_length.toNat := by omega
  have hmax : state.frame_length.toNat ≤ MAX_BUFFER_SIZE := by
    rw [MAX_BUFFER_SIZE_eq]; omega
  have hdiv := div_le_length state.frame_offset.toNat samples.length state.frame_length.toNat hoL
  exact vadProcessAudio_eq_feed process scale R state samples fuel state.frame_length.toNat
    state.frame_offset.toNat h1 (supportedRate_ne_zero R hR) hL ho hoL hmax (by omega)

theorem finishStream_locked (R : Int) (hR : supportedRate R) (state : vadstate_t σ)
    (hlk : Locked R state) (xs : List α) :
    Locked R (finishStream state
      (xs.foldl (feed process scale R state.frame_length.toNat) (startStream state))).state := by
  obtain ⟨h1, h2, h3, h4⟩ := hlk
  have hsz := supportedRate_frame_size R hR
  have hos : toSizeT state.frame_offset = state.frame_offset.toNat := by
    unfold toSizeT; omega
  have hlt := feed_foldl_ofs_lt process scale R state.frame_length.toNat (by omega) xs
    (startStream state) (by simp [startStream, hos]; omega)
  have hw := wrap32_natCast _ (show (xs.foldl (feed process scale R state.frame_length.toNat)
    (startStream state)).ofs < 2147483648 by omega)
  refine ⟨h1, h2, ?_, ?_⟩
  · simp only [finishStream]; rw [hw]; omega
  · simp only [finishStream]; rw [hw]; omega

/-- A call whose rate differs from the locked rate returns the error event
and leaves the handle as it was. -/
theorem vadProcessAudio_mismatch (state : vadstate_t σ) (rate : Int) (samples : List α)
    (fuel : Nat) (h0 : state.sample_rate ≠ 0) (hne : state.sample_rate ≠ rate) :
    vadProcessAudio process scale fuel state rate samples
      = .ok { event := vad_event.VAD_EVENT_ERROR, state := state, calls := [] } := by
  unfold vadProcessAudio
  simp [h0, hne]

/-- The first call on a fresh handle, at a supported rate, behaves as a call
on the handle initialised by `vadInitState`. -/
theorem vadProcessAudio_fresh (R : Int) (hR : supportedRate R) (state : vadstate_t σ)
    (hfresh : state.sample_rate = 0) (samples : List α) (fuel : Nat) :
    vadProcessAudio process scale fuel state R samples
      = vadProcessAudio process scale fuel (vadInitState state R).1 R samples := by
  have hne := supportedRate_ne_zero R hR
  have hR2 : R = 8000 ∨ R = 16000 ∨ R = 32000 ∨ R = 48000 := hR
  unfold vadProcessAudio
  simp [hfresh, vadInitState, hR2, hne]

theorem vadInitState_locked (R : Int) (hR : supportedRate R) (state : vadstate_t σ) :
    Locked R (vadInitState state R).1 := by
  have hsz := supportedRate_frame_size R hR
  refine ⟨rfl, rfl, ?_, ?_⟩
  · simp [vadInitState]
  · simp only [vadInitState]; omega

/-- Every sequence of calls on a handle locked to a supported rate returns:
the handle stays locked to that rate and each call at another rate yields
the error event. -/
theorem vadRun_locked (R : Int) (hR : supportedRate R) (calls : List (Int × List α)) :
    ∀ (state : vadstate_t σ) (fuel : Nat), Locked R state →
      (∀ c ∈ calls, 2 * c.2.length + 1 ≤ fuel) →
      ∃ final rs, vadRun process scale fuel state calls = .ok (final, rs) ∧
        Locked R final ∧ rs.length = calls.length ∧
        ∀ p ∈ List.zip calls rs, p.1.1 ≠ R → p.2.event = vad_event.VAD_EVENT_ERROR := by
  induction calls with
  | nil =>
    intro state fuel hlk _
    exact ⟨state, [], rfl, hlk, rfl, by simp⟩
  | cons c calls ih =>
    intro state fuel hlk hfuel
    obtain ⟨rate, samples⟩ := c
    have hne0 := supportedRate_ne_zero R hR
    by_cases hr : rate = R
    · subst hr
      have hcall := vadProcessAudio_locked process scale rate hR state hlk samples fuel
        (hfuel (rate, samples) (by simp))
      have hlk2 := finishStream_locked process scale rate hR state hlk samples
      obtain ⟨final, rs, hrun, hfin, hlen, hev⟩ := ih _ fuel hlk2
        (fun c hc => hfuel c (List.mem_cons_of_mem _ hc))
      refine ⟨final, finishStream state (samples.foldl
        (feed process scale rate state.frame_length.toNat) (startStream state)) :: rs,
        ?_, hfin, by simp [hlen], ?_⟩
      · simp [vadRun, hcall, hrun]
      · intro p hp hpne
        simp only [List.zip_cons_cons, List.mem_cons] at hp
        rcases hp with hp | hp
        · subst hp; exact absurd rfl hpne
        · exact hev p hp hpne
    · have hsr : state.sample_rate ≠ 0 := by rw [hlk.1]; exact hne0
      have hne : state.sample_rate ≠ rate := by rw [hlk.1]; exact fun h => hr h.symm
      have hcall := vadProcessAudio_mismatch process scale state rate samples fuel hsr hne
      obtain ⟨final, rs, hrun, hfin, hlen, hev⟩ := ih state fuel hlk
        (fun c hc => hfuel c (List.mem_cons_of_mem _ hc))
      refine ⟨final, { event := vad_event.VAD_EVENT_ERROR, state := state, calls := [] } :: rs,
        ?_, hfin, by simp [hlen], ?_⟩
      · simp [vadRun, hcall, hrun]
      · intro p hp hpne
        simp only [List.zip_cons_cons, List.mem_cons] at hp
        rcases hp with hp | hp
        · subst hp; rfl
        · exact hev p hp hpne

theorem vadFill_fault (fill : Nat) :
    ∀ (it : vad_sample_iterator α), it.ofs ≤ MAX_BUFFER_SIZE →
      MAX_BUFFER_SIZE < it.ofs + min fill it.ptr.length →
      vadFill scale fill it = .error Fault.outOfBounds := by
  induction fill with
  | zero => intro it _ h2; simp at h2; omega
  | succ fill ih =>
    intro it h1 h2
    obtain ⟨buf, ptr, ofs, inc⟩ := it
    simp only at h1 h2
    cases ptr with
    | nil => simp at h2; omega
    | cons x rest =>
      by_cases hlt : ofs < MAX_BUFFER_SIZE
      · simp only [vadFill, hlt, if_true]
        apply ih
        · simp only; omega
        · simp only [List.length_cons] at h2 ⊢; omega
      · simp [vadFill, hlt]

theorem wrap32_of_range (x : Int) (h1 : -2147483648 ≤ x) (h2 : x < 2147483648) :
    wrap32 x = x := by
  unfold wrap32; omega

theorem vadDecision_eq (e s v n : Int) (he : 0 ≤ e) (hs : 0 ≤ s) (hv : 0 ≤ v) (hn : 0 ≤ n)
    (hrange : 80 * (e + s + v + n) < 2147483648) :
    vadDecision [e, s, v, n]
      = if e + s + v + n = 0 then vad_event.VAD_EVENT_SILENCE
        else if e > 0 then vad_event.VAD_EVENT_ERROR
        else if v ≥ 80 * (e + s + v + n) / 100 then vad_event.VAD_EVENT_VOICE
        else vad_event.VAD_EVENT_SILENCE := by
  have hr : List.range EVENT_COUNT = [0, 1, 2, 3] := by decide
  have w1 : wrap32 (0 + e) = e := by rw [wrap32_of_range] <;> omega
  have w2 : wrap32 (e + s) = e + s := by rw [wrap32_of_range] <;> omega
  have w3 : wrap32 (e + s + v) = e + s + v := by rw [wrap32_of_range] <;> omega
  have w4 : wrap32 (e + s + v + n) = e + s + v + n := by rw [wrap32_of_range] <;> omega
  have w5 : wrap32 ((e + s + v + n) * 80) = 80 * (e + s + v + n) := by
    rw [wrap32_of_range] <;> omega
  have hd : Int.tdiv (80 * (e + s + v + n)) 100 = 80 * (e + s + v + n) / 100 :=
    Int.tdiv_eq_ediv (by omega) (by omega)
  have hsel0 : SELECT_EVENT vad_event.VAD_EVENT_ERROR [e, s, v, n] = e := by
    simp [SELECT_EVENT, EVENT_OFFSET, vad_event.code]
  have hsel2 : SELECT_EVENT vad_event.VAD_EVENT_VOICE [e, s, v, n] = v := by
    simp [SELECT_EVENT, EVENT_OFFSET, vad_event.code]
  unfold vadDecision
  simp only [hr, List.foldl_cons, List.foldl_nil, List.getD_cons_zero, List.getD_cons_succ,
    w1, w2, w3, w4, w5, hd, hsel0, hsel2]

/-- C1 (behaviour of the code): on a handle locked to a supported rate with
frame length L and stored overhang o < L, a `vadProcessAudio` call with n
input samples returns and has invoked the inner VAD exactly
2 * floor((o + n) / L) times: every completed sub-frame is handed over twice,
once when `vadFrameNext` fills it and once more when the next `vadFrameNext`
resets the offset. -/
theorem C1_inner_vad_invoked_twice_per_frame (state : vadstate_t σ) (rate : Int)
    (samples : List α) (fuel : Nat)
    (hrate : supportedRate rate) (hlock : state.sample_rate = rate)
    (hlen : state.frame_length = CALC_FRAME_SIZE MAX_FRAME_LENGTH rate)
    (ho : 0 ≤ state.frame_offset) (hoL : state.frame_offset < state.frame_length)
    (hfuel : 2 * samples.length + 1 ≤ fuel) :
    ∃ r, vadProcessAudio process scale fuel state rate samples = .ok r ∧
      r.calls.length
        = 2 * ((state.frame_offset.toNat + samples.length) / state.frame_length.toNat) := by
  have hlk : Locked rate state := ⟨hlock, hlen, ho, hoL⟩
  have hsz := supportedRate_frame_size rate hrate
  refine ⟨_, vadProcessAudio_locked process scale rate hrate state hlk samples fuel hfuel, ?_⟩
  have hos : toSizeT state.frame_offset = state.frame_offset.toNat := by
    unfold toSizeT; omega
  have hcount := feed_foldl_calls_length process scale rate state.frame_length.toNat
    (by omega) samples (startStream state) (by simp [startStream, hos]; omega)
  simp only [finishStream]
  rw [hcount]
  simp [startStream, hos]

/-- C1, scenario E6: with an overhang of 200 samples at 16 kHz, a call with
280 samples makes two inner VAD calls. -/
theorem C1_inner_vad_invoked_twice_per_frame_witness :
    supportedRate 16000 ∧ overhangState.sample_rate = 16000 ∧
      overhangState.frame_length = CALC_FRAME_SIZE MAX_FRAME_LENGTH 16000 ∧
      0 ≤ overhangState.frame_offset ∧
      overhangState.frame_offset < overhangState.frame_length ∧
      2 * (List.replicate 280 (0 : Int)).length + 1 ≤ 561 ∧
      ∃ r, vadProcessAudio silentVad (fun x : Int => x) 561 overhangState 16000
          (List.replicate 280 (0 : Int)) = .ok r ∧ r.calls.length = 2 := by
  have h1 : supportedRate 16000 := by decide
  have h3 : overhangState.frame_length = CALC_FRAME_SIZE MAX_FRAME_LENGTH 16000 := by decide
  have h4 : 0 ≤ overhangState.frame_offset := by decide
  have h5 : overhangState.frame_offset < overhangState.frame_length := by decide
  have hl : (List.replicate 280 (0 : Int)).length = 280 := List.length_replicate _ _
  have h6 : 2 * (List.replicate 280 (0 : Int)).length + 1 ≤ 561 := by omega
  refine ⟨h1, rfl, h3, h4, h5, h6, ?_⟩
  obtain ⟨r, hr, hc⟩ := C1_inner_vad_invoked_twice_per_frame silentVad (fun x : Int => x)
    overhangState 16000 (List.replicate 280 (0 : Int)) 561 h1 rfl h3 h4 h5 h6
  have hq : 2 * ((overhangState.frame_offset.toNat + 280) / overhangState.frame_length.toNat)
      = 2 := by decide
  refine ⟨r, hr, ?_⟩
  rw [hc, hl]
  exact hq

/-- C2 (failing run): on a fresh handle a first call at 96000 Hz returns the
error event but leaves the handle locked to 96000 Hz with frame length 2880;
a second call at 96000 Hz with more than 1440 samples then stores past
the last slot of the 1440-sample frame buffer. -/
theorem C2_unsupported_rate_overruns_frame (state : vadstate_t σ) (first samples : List α)
    (fuel : Nat) (hfresh : state.sample_rate = 0)
    (hn : MAX_BUFFER_SIZE < samples.length) (hfuel : 0 < fuel) :
    ∃ r1, vadProcessAudio process scale fuel state 96000 first = .ok r1 ∧
      r1.event = vad_event.VAD_EVENT_ERROR ∧ r1.state.sample_rate = 96000 ∧
      r1.state.frame_length = 2880 ∧
      vadProcessAudio process scale fuel r1.state 96000 samples
        = .error Fault.outOfBounds := by
  obtain ⟨f, rfl⟩ : ∃ f, fuel = f + 1 := ⟨fuel - 1, by omega⟩
  have hcalc : CALC_FRAME_SIZE MAX_FRAME_LENGTH 96000 = 2880 := by decide
  have hinc : toSizeT 2880 = 2880 := by decide
  have hofs : toSizeT 0 = 0 := by decide
  have hmx := MAX_BUFFER_SIZE_eq
  refine ⟨{ event := vad_event.VAD_EVENT_ERROR, state := (vadInitState state 96000).1,
            calls := [] }, ?_, rfl, rfl, hcalc, ?_⟩
  · unfold vadProcessAudio
    simp [hfresh, vadInitState]
  · have hfill := vadFill_fault scale (2880 - 0)
      (vadFrameBegin (vadInitState state 96000).1 samples)
      (by simp [vadFrameBegin, vadInitState, hofs])
      (by simp [vadFrameBegin, vadInitState, hofs]; omega)
    have hlen : samples.length ≠ 0 := by omega
    unfold vadProcessAudio
    simp only [vadInitState, hcalc] at hfill ⊢
    simp [vadLoop, vadFrameNext, vadFrameBegin, hinc, hofs, hlen] at hfill ⊢
    rw [hfill]

/-- C2, concrete run: rate 96000 twice on a fresh handle, the second time
with 1441 samples. -/
theorem C2_unsupported_rate_overruns_frame_witness :
    freshState.sample_rate = 0 ∧ MAX_BUFFER_SIZE < (List.replicate 1441 (0 : Int)).length ∧
      0 < 1 ∧
      ∃ r1, vadProcessAudio silentVad (fun x : Int => x) 1 freshState 96000 [] = .ok r1 ∧
        r1.event = vad_event.VAD_EVENT_ERROR ∧ r1.state.sample_rate = 96000 ∧
        r1.state.frame_length = 2880 ∧
        vadProcessAudio silentVad (fun x : Int => x) 1 r1.state 96000
          (List.replicate 1441 (0 : Int)) = .error Fault.outOfBounds :=
  ⟨rfl, by rw [List.length_replicate, MAX_BUFFER_SIZE_eq]; omega, by decide,
    C2_unsupported_rate_overruns_frame silentVad (fun x : Int => x) freshState []
      (List.replicate 1441 (0 : Int)) 1 rfl
      (by rw [List.length_replicate, MAX_BUFFER_SIZE_eq]; omega) (by decide)⟩

/-- C3 (counterexample): for the histogram (0, 1, 0, 0), a single silence
verdict, 5·v ≥ 4·total fails, yet `vadDecision` returns voice. -/
theorem C3_counterexample :
    ¬ ((5 : Int) * 0 ≥ 4 * (0 + 1 + 0 + 0)) ∧
      vadDecision [0, 1, 0, 0] = vad_event.VAD_EVENT_VOICE := by
  decide

/-- C3 (amended): for non-negative counts with e = 0, total > 0 and
80·total within `int` range, `vadDecision` returns voice if
v ≥ floor(80·total / 100), that is if 5·(v + 1) > 4·total, and silence
otherwise. -/
theorem C3_vadDecision_integer_threshold (e s v n : Int) (he : e = 0) (hs : 0 ≤ s)
    (hv : 0 ≤ v) (hn : 0 ≤ n) (htot : 0 < e + s + v + n)
    (hrange : 80 * (e + s + v + n) < 2147483648) :
    vadDecision [e, s, v, n]
      = if 5 * (v + 1) > 4 * (e + s + v + n) then vad_event.VAD_EVENT_VOICE
        else vad_event.VAD_EVENT_SILENCE := by
  rw [vadDecision_eq e s v n (by omega) hs hv hn hrange]
  have h0 : ¬ (e + s + v + n = 0) := by omega
  have h1 : ¬ (e > 0) := by omega
  have h2 : (v ≥ 80 * (e + s + v + n) / 100) ↔ (5 * (v + 1) > 4 * (e + s + v + n)) := by
    constructor <;> intro h <;> omega
  simp only [h0, h1, if_false, h2]

/-- C3 (amended), instance: one voice verdict among two is not enough, two
among three are. -/
theorem C3_vadDecision_integer_threshold_witness :
    (0 : Int) = 0 ∧ (0 : Int) ≤ 1 ∧ (0 : Int) ≤ 2 ∧ (0 : Int) ≤ 0 ∧
      (0 : Int) < 0 + 1 + 2 + 0 ∧ (80 : Int) * (0 + 1 + 2 + 0) < 2147483648 ∧
      vadDecision [0, 1, 2, 0]
        = if (5 : Int) * (2 + 1) > 4 * (0 + 1 + 2 + 0) then vad_event.VAD_EVENT_VOICE
          else vad_event.VAD_EVENT_SILENCE :=
  ⟨rfl, by decide, by decide, by decide, by decide, by decide,
    C3_vadDecision_integer_threshold 0 1 2 0 rfl (by decide) (by decide) (by decide)
      (by decide) (by decide)⟩

/-- C4: after a first `vadProcessAudio` call at a supported rate R on a fresh
handle, every sequence of later calls returns, the handle stays locked to R,
and every later call whose rate differs from R returns `VAD_EVENT_ERROR`,
whatever samples it is given. -/
theorem C4_rate_lock (state : vadstate_t σ) (R : Int) (first : List α)
    (calls : List (Int × List α)) (fuel : Nat)
    (hfresh : state.sample_rate = 0) (hR : supportedRate R)
    (hfuel : ∀ c ∈ (R, first) :: calls, 2 * c.2.length + 1 ≤ fuel) :
    ∃ final r1 rs, vadRun process scale fuel state ((R, first) :: calls) = .ok (final, r1 :: rs) ∧
      rs.length = calls.length ∧ final.sample_rate = R ∧
      ∀ p ∈ List.zip calls rs, p.1.1 ≠ R → p.2.event = vad_event.VAD_EVENT_ERROR := by
  have hinit := vadInitState_locked R hR state
  have hcall := vadProcessAudio_locked process scale R hR (vadInitState state R).1 hinit first fuel
    (hfuel (R, first) (by simp))
  rw [← vadProcessAudio_fresh process scale R hR state hfresh first fuel] at hcall
  have hlk2 := finishStream_locked process scale R hR (vadInitState state R).1 hinit first
  obtain ⟨final, rs, hrun, hfin, hlen, hev⟩ := vadRun_locked process scale R hR calls _ fuel hlk2
    (fun c hc => hfuel c (List.mem_cons_of_mem _ hc))
  refine ⟨final, finishStream (vadInitState state R).1 (first.foldl
    (feed process scale R (vadInitState state R).1.frame_length.toNat)
    (startStream (vadInitState state R).1)), rs, ?_, hlen, hfin.1, hev⟩
  simp [vadRun, hcall, hrun]

/-- C4, scenario E5: a first call at 16 kHz, then a call at 8 kHz. -/
theorem C4_rate_lock_witness :
    freshState.sample_rate = 0 ∧ supportedRate 16000 ∧
      (∀ c ∈ [((16000 : Int), ([] : List Int)), (8000, [])], 2 * c.2.length + 1 ≤ 1) ∧
      ∃ final r1 rs, vadRun silentVad (fun x : Int => x) 1 freshState
          [(16000, []), (8000, [])] = .ok (final, r1 :: rs) ∧
        rs.length = [((8000 : Int), ([] : List Int))].length ∧ final.sample_rate = 16000 ∧
        ∀ p ∈ List.zip [((8000 : Int), ([] : List Int))] rs,
          p.1.1 ≠ 16000 → p.2.event = vad_event.VAD_EVENT_ERROR := by
  have hf : ∀ c ∈ [((16000 : Int), ([] : List Int)), (8000, [])], 2 * c.2.length + 1 ≤ 1 := by
    intro c hc
    simp only [List.mem_cons, List.mem_singleton, List.not_mem_nil, or_false] at hc
    rcases hc with rfl | rfl <;> simp
  exact ⟨rfl, by decide, hf,
    C4_rate_lock silentVad (fun x : Int => x) freshState 16000 [] [(8000, [])] 1 rfl
      (by decide) hf⟩

/-- C5: on a handle locked to a rate with frame length 0 < L ≤ 1440 and
overhang o < L, submitting b1 and then b2 in two `vadProcessAudio` calls
makes the same inner VAD calls, in the same order with the same frames and
verdicts, as submitting b1 ++ b2 in one call, and leaves the same handle
state (frame buffer, overhang, inner VAD state). -/
theorem C5_overhang_concatenation (state : vadstate_t σ) (rate : Int) (b1 b2 : List α)
    (fuel : Nat) (hlock : state.sample_rate = rate) (hne : rate ≠ 0)
    (hL : 0 < state.frame_length) (hmax : state.frame_length ≤ (MAX_BUFFER_SIZE : Int))
    (ho : 0 ≤ state.frame_offset) (hoL : state.frame_offset < state.frame_length)
    (hfuel : 2 * (b1.length + b2.length) + 1 ≤ fuel) :
    ∃ r1 r2 r, vadProcessAudio process scale fuel state rate b1 = .ok r1 ∧
      vadProcessAudio process scale fuel r1.state rate b2 = .ok r2 ∧
      vadProcessAudio process scale fuel state rate (b1 ++ b2) = .ok r ∧
      r.calls = r1.calls ++ r2.calls ∧ r.state = r2.state := by
  have hmx := MAX_BUFFER_SIZE_eq
  have hLn : state.frame_length = (state.frame_length.toNat : Int) := by omega
  have hon : state.frame_offset = (state.frame_offset.toNat : Int) := by omega
  have hoLn : state.frame_offset.toNat < state.frame_length.toNat := by omega
  have hmaxn : state.frame_length.toNat ≤ MAX_BUFFER_SIZE := by omega
  have hL0 : 0 < state.frame_length.toNat := by omega
  have hos : toSizeT state.frame_offset = state.frame_offset.toNat := by
    unfold toSizeT; omega
  have hstart : (startStream state).ofs < state.frame_length.toNat := by
    simp only [startStream, hos]; exact hoLn
  have hf1 : 2 * ((state.frame_offset.toNat + b1.length) / state.frame_length.toNat) + 1
      ≤ fuel := by
    have := div_le_length state.frame_offset.toNat b1.length state.frame_length.toNat hoLn
    omega
  have hf12 : 2 * ((state.frame_offset.toNat + (b1 ++ b2).length) / state.frame_length.toNat)
      + 1 ≤ fuel := by
    have := div_le_length state.frame_offset.toNat (b1 ++ b2).length
      state.frame_length.toNat hoLn
    have hl12 : (b1 ++ b2).length = b1.length + b2.length := List.length_append _ _
    omega
  have hf2 : 2 * b2.length + 1 ≤ fuel := by omega
  have h31 : state.frame_length.toNat ≤ 2147483648 := by omega
  -- the three calls
  have hc1 := vadProcessAudio_eq_feed process scale rate state b1 fuel state.frame_length.toNat
    state.frame_offset.toNat hlock hne hLn hon hoLn hmaxn hf1
  have hc12 := vadProcessAudio_eq_feed process scale rate state (b1 ++ b2) fuel
    state.frame_length.toNat state.frame_offset.toNat hlock hne hLn hon hoLn hmaxn hf12
  have halt := feed_foldl_ofs_lt process scale rate state.frame_length.toNat hL0 b1
    (startStream state) hstart
  have hc2 := vadProcessAudio_restart process scale rate state
    (b1.foldl (feed process scale rate state.frame_length.toNat) (startStream state))
    b2 fuel state.frame_length.toNat hlock hne hLn halt hmaxn hf2
  -- the second call starts from the stream state the first one ended in
  have hsim := sim_restart state
    (b1.foldl (feed process scale rate state.frame_length.toNat) (startStream state))
    (lt_of_lt_of_le halt h31)
  have hsim2 := feed_foldl_sim process scale rate state.frame_length.toNat _ b2 _ _ hsim
  obtain ⟨e1, e2, e3, e4⟩ := hsim2
  rw [List.foldl_append] at hc12
  refine ⟨_, _, _, hc1, hc2, hc12, ?_, ?_⟩
  · simp only [finishStream]; exact e4
  · simp only [finishStream, e1, e2, e3]

/-- C5, instance: an overhang of 200 samples at 16 kHz, then 280 and 200 samples. -/
theorem C5_overhang_concatenation_witness :
    overhangState.sample_rate = 16000 ∧ (16000 : Int) ≠ 0 ∧ 0 < overhangState.frame_length ∧
      overhangState.frame_length ≤ (MAX_BUFFER_SIZE : Int) ∧ 0 ≤ overhangState.frame_offset ∧
      overhangState.frame_offset < overhangState.frame_length ∧
      2 * ((List.replicate 280 (0 : Int)).length + (List.replicate 200 (1 : Int)).length) + 1
        ≤ 961 ∧
      ∃ r1 r2 r,
        vadProcessAudio silentVad (fun x : Int => x) 961 overhangState 16000
          (List.replicate 280 (0 : Int)) = .ok r1 ∧
        vadProcessAudio silentVad (fun x : Int => x) 961 r1.state 16000
          (List.replicate 200 (1 : Int)) = .ok r2 ∧
        vadProcessAudio silentVad (fun x : Int => x) 961 overhangState 16000
          (List.replicate 280 (0 : Int) ++ List.replicate 200 (1 : Int)) = .ok r ∧
        r.calls = r1.calls ++ r2.calls ∧ r.state = r2.state := by
  have hl1 : (List.replicate 280 (0 : Int)).length = 280 := List.length_replicate _ _
  have hl2 : (List.replicate 200 (1 : Int)).length = 200 := List.length_replicate _ _
  have h7 : 2 * ((List.replicate 280 (0 : Int)).length + (List.replicate 200 (1 : Int)).length)
      + 1 ≤ 961 := by omega
  exact ⟨rfl, by decide, by decide, by decide, by decide, by decide, h7,
    C5_overhang_concatenation silentVad (fun x : Int => x) overhangState 16000
      (List.replicate 280 (0 : Int)) (List.replicate 200 (1 : Int)) 961 rfl (by decide)
      (by decide) (by decide) (by decide) (by decide) h7⟩

theorem tally_nil (e : vad_event) : tally [] e = 0 := rfl

theorem tally_snoc (calls : List (List Int × vad_event)) (f : List Int) (v e : vad_event) :
    tally (calls ++ [(f, v)]) e = tally calls e + (if v = e then 1 else 0) := by
  unfold tally
  by_cases h : v = e <;> simp [List.filter_append, h]

theorem tally_nonneg (calls : List (List Int × vad_event)) (e : vad_event) :
    0 ≤ tally calls e := by
  unfold tally; omega

theorem tally_sum (calls : List (List Int × vad_event)) :
    tally calls vad_event.VAD_EVENT_ERROR + tally calls vad_event.VAD_EVENT_SILENCE
      + tally calls vad_event.VAD_EVENT_VOICE + tally calls vad_event.VAD_EVENT_NOISE
      = calls.length := by
  induction calls using List.reverseRecOn with
  | nil => simp [tally_nil]
  | append_singleton cs c ih =>
    obtain ⟨f, v⟩ := c
    simp only [tally_snoc, List.length_append, List.length_singleton]
    cases v <;> simp <;> omega

theorem tally_pos_of_mem (calls : List (List Int × vad_event)) (e : vad_event)
    (h : ∃ c ∈ calls, c.2 = e) : 0 < tally calls e := by
  obtain ⟨c, hc, he⟩ := h
  unfold tally
  have : c ∈ calls.filter (fun c => decide (c.2 = e)) := by
    simp [List.mem_filter, hc, he]
  have := List.length_pos_of_mem this
  omega

theorem tally_eq_zero_of_all (calls : List (List Int × vad_event)) (e0 e : vad_event)
    (h : ∀ c ∈ calls, c.2 = e0) (hne : e0 ≠ e) : tally calls e = 0 := by
  unfold tally
  have : calls.filter (fun c => decide (c.2 = e)) = [] := by
    rw [List.filter_eq_nil_iff]
    intro c hc
    simp [h c hc, hne]
  simp [this]

theorem yield_tallies (rate : Int) (L : Nat) (s : Stream σ)
    (hinv : s.histogram = tallies s.calls) (hlen : s.calls.length + 1 < 2147483648) :
    (yield process rate L s).histogram = tallies (yield process rate L s).calls := by
  have hsum := tally_sum s.calls
  have h0 := tally_nonneg s.calls vad_event.VAD_EVENT_ERROR
  have h1 := tally_nonneg s.calls vad_event.VAD_EVENT_SILENCE
  have h2 := tally_nonneg s.calls vad_event.VAD_EVENT_VOICE
  have h3 := tally_nonneg s.calls vad_event.VAD_EVENT_NOISE
  have w0 : wrap32 (tally s.calls vad_event.VAD_EVENT_ERROR + 1)
      = tally s.calls vad_event.VAD_EVENT_ERROR + 1 := by
    apply wrap32_of_range <;> omega
  have w1 : wrap32 (tally s.calls vad_event.VAD_EVENT_SILENCE + 1)
      = tally s.calls vad_event.VAD_EVENT_SILENCE + 1 := by
    apply wrap32_of_range <;> omega
  have w2 : wrap32 (tally s.calls vad_event.VAD_EVENT_VOICE + 1)
      = tally s.calls vad_event.VAD_EVENT_VOICE + 1 := by
    apply wrap32_of_range <;> omega
  have w3 : wrap32 (tally s.calls vad_event.VAD_EVENT_NOISE + 1)
      = tally s.calls vad_event.VAD_EVENT_NOISE + 1 := by
    apply wrap32_of_range <;> omega
  simp only [yield, hinv]
  cases (process s.vad rate (List.take L s.buf) L).1 <;>
    simp [tallies, tally_snoc, EVENT_OFFSET, vad_event.code, w0, w1, w2, w3]

theorem yield_calls_length (rate : Int) (L : Nat) (s : Stream σ) :
    (yield process rate L s).calls.length = s.calls.length + 1 := by
  simp [yield]

theorem feed_tallies (rate : Int) (L : Nat) (s : Stream σ) (x : α)
    (hinv : s.histogram = tallies s.calls) (hlen : s.calls.length + 2 < 2147483648) :
    (feed process scale rate L s x).histogram = tallies (feed process scale rate L s x).calls ∧
      (feed process scale rate L s x).calls.length ≤ s.calls.length + 2 := by
  unfold feed
  by_cases h : (put scale s x).ofs < L
  · simp only [h, if_true]
    exact ⟨by simpa [put] using hinv, by simp [put]⟩
  · simp only [h, if_false]
    have hp : (put scale s x).histogram = tallies (put scale s x).calls := by
      simpa [put] using hinv
    have hpl : (put scale s x).calls.length = s.calls.length := by simp [put]
    have y1 := yield_tallies process rate L (put scale s x) hp (by omega)
    have l1 := yield_calls_length process rate L (put scale s x)
    have y2 := yield_tallies process rate L (yield process rate L (put scale s x)) y1 (by omega)
    have l2 := yield_calls_length process rate L (yield process rate L (put scale s x))
    exact ⟨y2, by show (yield process rate L (yield process rate L (put scale s x))).calls.length ≤ _; omega⟩

theorem feed_foldl_tallies (rate : Int) (L : Nat) (xs : List α) :
    ∀ (s : Stream σ), s.histogram = tallies s.calls →
      s.calls.length + 2 * xs.length < 2147483648 →
      (xs.foldl (feed process scale rate L) s).histogram
        = tallies (xs.foldl (feed process scale rate L) s).calls := by
  induction xs with
  | nil => intro s h _; simpa using h
  | cons x xs ih =>
    intro s hinv hlen
    simp only [List.length_cons] at hlen
    obtain ⟨h1, h2⟩ := feed_tallies process scale rate L s x hinv (by omega)
    simp only [List.foldl_cons]
    exact ih _ h1 (by omega)

theorem startStream_tallies (state : vadstate_t σ) :
    (startStream state).histogram = tallies (startStream state).calls := by
  simp [startStream, tallies, tally_nil, EVENT_COUNT, List.replicate]

theorem feed_calls_forall (P : vad_event → Prop)
    (hP : ∀ st r f n, P (process st r f n).1) (rate : Int) (L : Nat) (s : Stream σ) (x : α)
    (h : ∀ c ∈ s.calls, P c.2) : ∀ c ∈ (feed process scale rate L s x).calls, P c.2 := by
  unfold feed
  by_cases hlt : (put scale s x).ofs < L
  · simp only [hlt, if_true]
    simpa [put] using h
  · simp only [hlt, if_false]
    intro c hc
    simp only [yield, put, List.mem_append, List.mem_singleton] at hc
    rcases hc with (hc | hc) | hc
    · exact h c hc
    · rw [hc]; exact hP _ _ _ _
    · rw [hc]; exact hP _ _ _ _

theorem feed_foldl_calls_forall (P : vad_event → Prop)
    (hP : ∀ st r f n, P (process st r f n).1) (rate : Int) (L : Nat) (xs : List α) :
    ∀ (s : Stream σ), (∀ c ∈ s.calls, P c.2) →
      ∀ c ∈ (xs.foldl (feed process scale rate L) s).calls, P c.2 := by
  induction xs with
  | nil => intro s h; simpa using h
  | cons x xs ih =>
    intro s h
    simp only [List.foldl_cons]
    exact ih _ (feed_calls_forall process scale P hP rate L s x h)

theorem take_succ_set (l : List Int) (i : Nat) (c : Int) (h : i < l.length) :
    (l.set i c).take (i + 1) = l.take i ++ [c] := by
  induction l generalizing i with
  | nil => simp at h
  | cons a l ih =>
    cases i with
    | zero => simp
    | succ i =>
      simp only [List.length_cons, Nat.add_lt_add_iff_right] at h
      simp [ih i h]

/-- What the buffer and the call trace look like after feeding `xs` to a
stream that starts below the frame length: the offset is the fill level
modulo `L`, the slots below the offset hold the most recent conversions, and
when a frame has just been completed the last two inner VAD calls received
that frame. -/
theorem feed_foldl_overhang (rate : Int) (L : Nat) (hL : 0 < L) (s : Stream σ)
    (hofs : s.ofs < L) (hbuf : L ≤ s.buf.length) (xs : List α) :
    ∃ q, s.ofs + xs.length = q * L + (xs.foldl (feed process scale rate L) s).ofs ∧
      (xs.foldl (feed process scale rate L) s).ofs < L ∧
      (xs.foldl (feed process scale rate L) s).buf.length = s.buf.length ∧
      (xs.foldl (feed process scale rate L) s).buf.take
          (xs.foldl (feed process scale rate L) s).ofs
        = (s.buf.take s.ofs ++ xs.map (fun x => CLIP (scale x))).drop
            (s.ofs + xs.length - (xs.foldl (feed process scale rate L) s).ofs) ∧
      ((xs.foldl (feed process scale rate L) s).ofs = 0 → 0 < q →
        ∃ earlier v1 v2, (xs.foldl (feed process scale rate L) s).calls
          = earlier ++ [((s.buf.take s.ofs ++ xs.map (fun x => CLIP (scale x))).drop
              (s.ofs + xs.length - L), v1),
            ((s.buf.take s.ofs ++ xs.map (fun x => CLIP (scale x))).drop
              (s.ofs + xs.length - L), v2)]) := by
  induction xs using List.reverseRecOn with
  | nil =>
    refine ⟨0, by simp, by simpa using hofs, by simp, by simp, ?_⟩
    intro _ hq; exact absurd hq (by decide)
  | append_singleton xs x ih =>
    obtain ⟨q, heq, hlt, hlen, htake, _⟩ := ih
    rw [List.foldl_append, List.foldl_cons, List.foldl_nil]
    generalize xs.foldl (feed process scale rate L) s = S at heq hlt hlen htake ⊢
    have hall : (s.buf.take s.ofs ++ xs.map (fun x => CLIP (scale x))).length
        = s.ofs + xs.length := by
      rw [List.length_append, List.length_take, List.length_map, Nat.min_eq_left (by omega)]
    have hSlen : S.ofs < S.buf.length := by omega
    have hset := take_succ_set S.buf S.ofs (CLIP (scale x)) hSlen
    have hdrop : (s.buf.take s.ofs ++ (xs ++ [x]).map (fun x => CLIP (scale x))).drop
          (s.ofs + xs.length - S.ofs)
        = (s.buf.take s.ofs ++ xs.map (fun x => CLIP (scale x))).drop
            (s.ofs + xs.length - S.ofs) ++ [CLIP (scale x)] := by
      rw [List.map_append, ← List.append_assoc]
      rw [List.drop_append_of_le_length (by rw [hall]; omega)]
      rfl
    by_cases h1 : (put scale S x).ofs < L
    · have hfeed : feed process scale rate L S x = put scale S x := by simp [feed, h1]
      rw [hfeed]
      have h1' : S.ofs + 1 < L := by simpa [put] using h1
      refine ⟨q, ?_, h1, ?_, ?_, ?_⟩
      · simp only [put, List.length_append, List.length_singleton]; omega
      · simp only [put, List.length_set]; exact hlen
      · simp only [put, List.length_append, List.length_singleton]
        rw [hset, htake]
        have e : s.ofs + (xs.length + 1) - (S.ofs + 1) = s.ofs + xs.length - S.ofs := by omega
        rw [e, hdrop]
      · intro h0; simp [put] at h0
    · have hfeed : feed process scale rate L S x
          = { yield process rate L (yield process rate L (put scale S x)) with ofs := 0 } := by
        simp [feed, h1]
      rw [hfeed]
      have h1' : S.ofs + 1 = L := by simp [put] at h1; omega
      refine ⟨q + 1, ?_, hL, ?_, ?_, ?_⟩
      · simp only [List.length_append, List.length_singleton]
        have : (q + 1) * L = q * L + L := by ring
        omega
      · simp only [yield, put, List.length_set]; exact hlen
      · simp only [List.take_zero, List.length_append, List.length_singleton, Nat.sub_zero]
        rw [List.drop_eq_nil_of_le]
        rw [List.length_append, List.length_take, List.length_map, List.length_append,
          List.length_singleton, Nat.min_eq_left (by omega)]
      · intro _ _
        have hframe : (S.buf.set S.ofs (CLIP (scale x))).take L
            = (s.buf.take s.ofs ++ (xs ++ [x]).map (fun x => CLIP (scale x))).drop
                (s.ofs + (xs ++ [x]).length - L) := by
          rw [← h1', hset, htake]
          have e : s.ofs + (xs ++ [x]).length - (S.ofs + 1) = s.ofs + xs.length - S.ofs := by
            simp only [List.length_append, List.length_singleton]; omega
          rw [e, hdrop]
        refine ⟨S.calls,
          (process S.vad rate ((S.buf.set S.ofs (CLIP (scale x))).take L) L).1,
          (process (process S.vad rate ((S.buf.set S.ofs (CLIP (scale x))).take L) L).2 rate
            ((S.buf.set S.ofs (CLIP (scale x))).take L) L).1, ?_⟩
        rw [← hframe]
        simp only [yield, put, List.append_assoc, List.singleton_append]

theorem vadDecision_error (e s v n : Int) (he : 0 < e) (hs : 0 ≤ s) (hv : 0 ≤ v) (hn : 0 ≤ n)
    (hrange : e + s + v + n < 2147483648) :
    vadDecision [e, s, v, n] = vad_event.VAD_EVENT_ERROR := by
  have hr : List.range EVENT_COUNT = [0, 1, 2, 3] := by decide
  have w1 : wrap32 (0 + e) = e := by rw [wrap32_of_range] <;> omega
  have w2 : wrap32 (e + s) = e + s := by rw [wrap32_of_range] <;> omega
  have w3 : wrap32 (e + s + v) = e + s + v := by rw [wrap32_of_range] <;> omega
  have w4 : wrap32 (e + s + v + n) = e + s + v + n := by rw [wrap32_of_range] <;> omega
  have hsel0 : SELECT_EVENT vad_event.VAD_EVENT_ERROR [e, s, v, n] = e := by
    simp [SELECT_EVENT, EVENT_OFFSET, vad_event.code]
  have hne : ¬ (e + s + v + n = 0) := by omega
  unfold vadDecision
  simp only [hr, List.foldl_cons, List.foldl_nil, List.getD_cons_zero, List.getD_cons_succ,
    w1, w2, w3, w4, hsel0, hne, if_false, gt_iff_lt, he, if_true]

theorem finish_event_error (S : Stream σ) (hinv : S.histogram = tallies S.calls)
    (hlen : S.calls.length < 2147483648)
    (herr : ∃ c ∈ S.calls, c.2 = vad_event.VAD_EVENT_ERROR) :
    vadDecision S.histogram = vad_event.VAD_EVENT_ERROR := by
  have hsum := tally_sum S.calls
  have h0 := tally_pos_of_mem S.calls vad_event.VAD_EVENT_ERROR herr
  have h1 := tally_nonneg S.calls vad_event.VAD_EVENT_SILENCE
  have h2 := tally_nonneg S.calls vad_event.VAD_EVENT_VOICE
  have h3 := tally_nonneg S.calls vad_event.VAD_EVENT_NOISE
  rw [hinv]
  exact vadDecision_error _ _ _ _ h0 h1 h2 h3 (by omega)

theorem finish_event_silence (S : Stream σ) (hinv : S.histogram = tallies S.calls) (q : Nat)
    (hlen : S.calls.length = 2 * q) (hr : 160 * q < 2147483648)
    (hall : ∀ c ∈ S.calls, c.2 = vad_event.VAD_EVENT_SILENCE) :
    vadDecision S.histogram = vad_event.VAD_EVENT_SILENCE := by
  have hsum := tally_sum S.calls
  have h0 := tally_eq_zero_of_all S.calls _ vad_event.VAD_EVENT_ERROR hall (by decide)
  have h2 := tally_eq_zero_of_all S.calls _ vad_event.VAD_EVENT_VOICE hall (by decide)
  have h3 := tally_eq_zero_of_all S.calls _ vad_event.VAD_EVENT_NOISE hall (by decide)
  have h1 : tally S.calls vad_event.VAD_EVENT_SILENCE = 2 * (q : Int) := by omega
  rw [hinv]
  simp only [tallies, h0, h1, h2, h3]
  rw [vadDecision_eq 0 (2 * (q : Int)) 0 0 (by omega) (by omega) (by omega) (by omega)
    (by omega)]
  by_cases hq : q = 0
  · subst hq; simp
  · have hz : ¬ ((0 : Int) + 2 * (q : Int) + 0 + 0 = 0) := by omega
    have hv : ¬ ((0 : Int) ≥ 80 * (0 + 2 * (q : Int) + 0 + 0) / 100) := by omega
    simp only [hz, if_false, gt_iff_lt, lt_self_iff_false, hv]

theorem effectiveState_fresh (rate : Int) (state : vadstate_t σ) (h : state.sample_rate = 0) :
    effectiveState rate state = (vadInitState state rate).1 := by
  simp [effectiveState, h]

theorem effectiveState_locked (rate : Int) (state : vadstate_t σ) (h : state.sample_rate ≠ 0) :
    effectiveState rate state = state := by
  simp [effectiveState, h]

/-- A call that passes the rate check on a well-formed handle returns, and
its result is the one obtained by feeding the samples one at a time, starting
from the handle state that `vadInitState` leaves if it runs. -/
theorem vadProcessAudio_passes (state : vadstate_t σ) (rate : Int) (samples : List α)
    (fuel : Nat) (h : PassesRateCheck rate state) (hfuel : 2 * samples.length + 1 ≤ fuel) :
    ∃ L : Nat, 0 < L ∧ L ≤ MAX_BUFFER_SIZE ∧
      (effectiveState rate state).frame_length = L ∧
      (startStream (effectiveState rate state)).ofs < L ∧
      vadProcessAudio process scale fuel state rate samples
        = .ok (finishStream (effectiveState rate state)
            (samples.foldl (feed process scale rate L)
              (startStream (effectiveState rate state)))) := by
  have hmx := MAX_BUFFER_SIZE_eq
  rcases h with ⟨hfresh, hR⟩ | ⟨hlock, hne, hL, hmax, ho, hoL⟩
  · rw [effectiveState_fresh rate state hfresh]
    have hlk := vadInitState_locked rate hR state
    have hsz := supportedRate_frame_size rate hR
    obtain ⟨_, h2, h3, h4⟩ := hlk
    have hos : toSizeT (vadInitState state rate).1.frame_offset
        = (vadInitState state rate).1.frame_offset.toNat := by
      unfold toSizeT; omega
    refine ⟨(vadInitState state rate).1.frame_length.toNat, by omega, by omega, by omega, ?_, ?_⟩
    · simp only [startStream, hos]; omega
    · rw [vadProcessAudio_fresh process scale rate hR state hfresh samples fuel]
      exact vadProcessAudio_locked process scale rate hR _ (vadInitState_locked rate hR state)
        samples fuel hfuel
  · have hsr : state.sample_rate ≠ 0 := by rw [hlock]; exact hne
    rw [effectiveState_locked rate state hsr]
    have hos : toSizeT state.frame_offset = state.frame_offset.toNat := by
      unfold toSizeT; omega
    have hoLn : state.frame_offset.toNat < state.frame_length.toNat := by omega
    have hd := div_le_length state.frame_offset.toNat samples.length state.frame_length.toNat hoLn
    refine ⟨state.frame_length.toNat, by omega, by omega, by omega, ?_, ?_⟩
    · simp only [startStream, hos]; exact hoLn
    · exact vadProcessAudio_eq_feed process scale rate state samples fuel
        state.frame_length.toNat state.frame_offset.toNat hlock hne (by omega) (by omega) hoLn
        (by omega) (by omega)

/-- The number of inner VAD calls of a call that starts below the frame
length is even and at most twice the number of samples. -/
theorem feed_foldl_calls_even (rate : Int) (L : Nat) (hL : 0 < L) (xs : List α) (s : Stream σ)
    (h : s.ofs < L) (h0 : s.calls = []) :
    ∃ q, (xs.foldl (feed process scale rate L) s).calls.length = 2 * q ∧ q ≤ xs.length := by
  refine ⟨(s.ofs + xs.length) / L, ?_, div_le_length s.ofs xs.length L h⟩
  rw [feed_foldl_calls_length process scale rate L hL xs s h, h0]
  simp

/-- A call that passes the rate check returns; the number of its inner VAD
calls is twice the number of frames completed, and every verdict it recorded
is a verdict the inner VAD can return. -/
theorem vadProcessAudio_passes_calls (state : vadstate_t σ) (rate : Int) (samples : List α)
    (fuel : Nat) (h : PassesRateCheck rate state) (hfuel : 2 * samples.length + 1 ≤ fuel) :
    ∃ r, vadProcessAudio process scale fuel state rate samples = .ok r ∧
      r.calls.length = 2 * ((toSizeT (effectiveState rate state).frame_offset + samples.length)
        / (effectiveState rate state).frame_length.toNat) ∧
      ∀ P : vad_event → Prop, (∀ st r f n, P (process st r f n).1) → ∀ c ∈ r.calls, P c.2 := by
  obtain ⟨L, hL, _, hLe, hofs, hcall⟩ :=
    vadProcessAudio_passes process scale state rate samples fuel h hfuel
  have hLn : (effectiveState rate state).frame_length.toNat = L := by omega
  refine ⟨_, hcall, ?_, ?_⟩
  · have := feed_foldl_calls_length process scale rate L hL samples
      (startStream (effectiveState rate state)) hofs
    rw [hLn]
    simpa [finishStream, startStream] using this
  · intro P hP c hc
    exact feed_foldl_calls_forall process scale P hP rate L samples
      (startStream (effectiveState rate state)) (by simp [startStream]) c hc

/-- C13: for every histogram with error count e > 0 (counts non-negative,
total within `int` range) `vadDecision` returns `VAD_EVENT_ERROR` whatever
the silence, voice and noise counts are; and a `vadProcessAudio` call that
passes the rate check returns, with `VAD_EVENT_ERROR` as its result whenever
one of its inner VAD invocations returned the error verdict. -/
theorem C13_inner_error_is_fatal (state : vadstate_t σ) (rate : Int) (samples : List α)
    (fuel : Nat) (hpass : PassesRateCheck rate state) (hfuel : 2 * samples.length + 1 ≤ fuel)
    (hrange : 2 * samples.length < 2147483648) :
    (∀ e s v n : Int, 0 < e → 0 ≤ s → 0 ≤ v → 0 ≤ n → e + s + v + n < 2147483648 →
        vadDecision [e, s, v, n] = vad_event.VAD_EVENT_ERROR) ∧
      ∃ r, vadProcessAudio process scale fuel state rate samples = .ok r ∧
        ((∃ c ∈ r.calls, c.2 = vad_event.VAD_EVENT_ERROR) →
          r.event = vad_event.VAD_EVENT_ERROR) := by
  refine ⟨fun e s v n he hs hv hn hr => vadDecision_error e s v n he hs hv hn hr, ?_⟩
  obtain ⟨L, hL, _, _, hofs, hcall⟩ :=
    vadProcessAudio_passes process scale state rate samples fuel hpass hfuel
  obtain ⟨q, hq, hqn⟩ := feed_foldl_calls_even process scale rate L hL samples
    (startStream (effectiveState rate state)) hofs rfl
  have hinv := feed_foldl_tallies process scale rate L samples
    (startStream (effectiveState rate state)) (startStream_tallies _)
    (by simp only [startStream, List.length_nil]; omega)
  have hlen : (samples.foldl (feed process scale rate L)
      (startStream (effectiveState rate state))).calls.length < 2147483648 := by omega
  refine ⟨_, hcall, ?_⟩
  intro herr
  exact finish_event_error _ hinv hlen herr

/-- C13, instance: an overhang of 200 samples at 16 kHz, 280 more samples,
and an inner VAD that reports an error: the call returns the error event. -/
theorem C13_inner_error_is_fatal_witness :
    PassesRateCheck 16000 overhangState ∧
      2 * (List.replicate 280 (0 : Int)).length + 1 ≤ 561 ∧
      2 * (List.replicate 280 (0 : Int)).length < 2147483648 ∧
      vadDecision [1, 0, 7, 0] = vad_event.VAD_EVENT_ERROR ∧
      ∃ r, vadProcessAudio failingVad (fun x : Int => x) 561 overhangState 16000
          (List.replicate 280 (0 : Int)) = .ok r ∧
        r.calls.length = 2 ∧ (∃ c ∈ r.calls, c.2 = vad_event.VAD_EVENT_ERROR) ∧
        r.event = vad_event.VAD_EVENT_ERROR := by
  have hl : (List.replicate 280 (0 : Int)).length = 280 := List.length_replicate _ _
  have h1 : PassesRateCheck 16000 overhangState := by decide
  have h2 : 2 * (List.replicate 280 (0 : Int)).length + 1 ≤ 561 := by omega
  have h3 : 2 * (List.replicate 280 (0 : Int)).length < 2147483648 := by omega
  have hq : 2 * ((toSizeT (effectiveState 16000 overhangState).frame_offset + 280)
      / (effectiveState 16000 overhangState).frame_length.toNat) = 2 := by decide
  obtain ⟨hdec, r, hr, himp⟩ := C13_inner_error_is_fatal failingVad (fun x : Int => x)
    overhangState 16000 (List.replicate 280 (0 : Int)) 561 h1 h2 h3
  obtain ⟨r2, hr2, hc2, hall⟩ := vadProcessAudio_passes_calls failingVad (fun x : Int => x)
    overhangState 16000 (List.replicate 280 (0 : Int)) 561 h1 h2
  rw [hr] at hr2
  cases hr2
  rw [hl, hq] at hc2
  have hex : ∃ c ∈ r.calls, c.2 = vad_event.VAD_EVENT_ERROR := by
    cases hcs : r.calls with
    | nil => rw [hcs] at hc2; exact absurd hc2 (by decide)
    | cons c cs =>
      exact ⟨c, List.mem_cons_self _ _,
        hall (fun e => e = vad_event.VAD_EVENT_ERROR) (fun _ _ _ _ => rfl) c
          (by rw [hcs]; exact List.mem_cons_self _ _)⟩
  exact ⟨h1, h2, h3, hdec 1 0 7 0 (by decide) (by decide) (by decide) (by decide) (by decide),
    r, hr, hc2, hex, himp hex⟩

theorem natCast_lt_of_lt_toNat (x : Int) (m : Nat) (h : m < x.toNat) : (m : Int) < x := by
  omega

theorem feed_foldl_overhang_mod (rate : Int) (L : Nat) (hL : 0 < L) (s : Stream σ)
    (hofs : s.ofs < L) (hbuf : L ≤ s.buf.length) (xs : List α) :
    (xs.foldl (feed process scale rate L) s).ofs = (s.ofs + xs.length) % L ∧
      (xs.foldl (feed process scale rate L) s).buf.take ((s.ofs + xs.length) % L)
        = (s.buf.take s.ofs ++ xs.map (fun x => CLIP (scale x))).drop
            (s.ofs + xs.length - (s.ofs + xs.length) % L) ∧
      ((s.ofs + xs.length) % L = 0 → 0 < s.ofs + xs.length →
        ∃ earlier v1 v2, (xs.foldl (feed process scale rate L) s).calls
          = earlier ++ [((s.buf.take s.ofs ++ xs.map (fun x => CLIP (scale x))).drop
              (s.ofs + xs.length - L), v1),
            ((s.buf.take s.ofs ++ xs.map (fun x => CLIP (scale x))).drop
              (s.ofs + xs.length - L), v2)]) := by
  obtain ⟨q, heq, hlt, _, htake, hcalls⟩ :=
    feed_foldl_overhang process scale rate L hL s hofs hbuf xs
  generalize xs.foldl (feed process scale rate L) s = S at heq hlt htake hcalls ⊢
  have hmod : (s.ofs + xs.length) % L = S.ofs := by
    rw [heq, Nat.mul_add_mod_of_lt hlt]
  refine ⟨hmod.symm, by rw [hmod]; exact htake, ?_⟩
  intro h0 hpos
  have hS0 : S.ofs = 0 := by rw [← hmod]; exact h0
  have hq : 0 < q := by
    rcases Nat.eq_zero_or_pos q with hq0 | hq0
    · subst hq0; omega
    · exact hq0
  exact hcalls hS0 hq

/-- C15: a `vadProcessAudio` call that passes the rate check on a handle
with frame length L and stored overhang o < L, given n samples, returns and
stores the overhang (o + n) mod L (again below L); the first (o + n) mod L
slots of the frame buffer then hold the last (o + n) mod L entries of the
old overhang followed by the conversions of the input, that is the samples
that are not yet part of a completed frame. -/
theorem C15_overhang_after_call (state : vadstate_t σ) (rate : Int) (samples : List α)
    (fuel : Nat) (hlock : state.sample_rate = rate) (hne : rate ≠ 0)
    (hL : 0 < state.frame_length) (hmax : state.frame_length ≤ (MAX_BUFFER_SIZE : Int))
    (ho : 0 ≤ state.frame_offset) (hoL : state.frame_offset < state.frame_length)
    (hbuf : state.frame.length = MAX_BUFFER_SIZE)
    (hfuel : 2 * samples.length + 1 ≤ fuel) :
    ∃ r, vadProcessAudio process scale fuel state rate samples = .ok r ∧
      r.state.frame_offset
        = (((state.frame_offset.toNat + samples.length) % state.frame_length.toNat : Nat) : Int) ∧
      r.state.frame_offset < state.frame_length ∧
      r.state.frame_length = state.frame_length ∧
      r.state.frame.take ((state.frame_offset.toNat + samples.length) % state.frame_length.toNat)
        = (state.frame.take state.frame_offset.toNat
            ++ samples.map (fun x => CLIP (scale x))).drop
            (state.frame_offset.toNat + samples.length
              - (state.frame_offset.toNat + samples.length) % state.frame_length.toNat) := by
  have hmx := MAX_BUFFER_SIZE_eq
  have hLn : state.frame_length = (state.frame_length.toNat : Int) := by omega
  have hon : state.frame_offset = (state.frame_offset.toNat : Int) := by omega
  have hoLn : state.frame_offset.toNat < state.frame_length.toNat := by omega
  have hmaxn : state.frame_length.toNat ≤ MAX_BUFFER_SIZE := by omega
  have hL0 : 0 < state.frame_length.toNat := by omega
  have hos : toSizeT state.frame_offset = state.frame_offset.toNat := by
    unfold toSizeT; omega
  have hf : 2 * ((state.frame_offset.toNat + samples.length) / state.frame_length.toNat) + 1
      ≤ fuel := by
    have := div_le_length state.frame_offset.toNat samples.length state.frame_length.toNat hoLn
    omega
  have hmodlt : (state.frame_offset.toNat + samples.length) % state.frame_length.toNat
      < state.frame_length.toNat := Nat.mod_lt _ hL0
  have hw : wrap32 (((state.frame_offset.toNat + samples.length) % state.frame_length.toNat
      : Nat) : Int)
      = (((state.frame_offset.toNat + samples.length) % state.frame_length.toNat : Nat) : Int) :=
    wrap32_natCast _ (by omega)
  have hlt2 : (((state.frame_offset.toNat + samples.length) % state.frame_length.toNat : Nat)
      : Int) < state.frame_length := natCast_lt_of_lt_toNat _ _ hmodlt
  have hcall := vadProcessAudio_eq_feed process scale rate state samples fuel
    state.frame_length.toNat state.frame_offset.toNat hlock hne hLn hon hoLn hmaxn hf
  have hso : (startStream state).ofs = state.frame_offset.toNat := by
    simp only [startStream, hos]
  have hsb : (startStream state).buf = state.frame := rfl
  have hov := feed_foldl_overhang_mod process scale rate state.frame_length.toNat hL0
    (startStream state) (by rw [hso]; exact hoLn) (by rw [hsb, hbuf]; exact hmaxn) samples
  rw [hso, hsb] at hov
  generalize samples.foldl (feed process scale rate state.frame_length.toNat)
    (startStream state) = S at hcall hov
  obtain ⟨e1, e2, _⟩ := hov
  refine ⟨finishStream state S, hcall, ?_, ?_, rfl, ?_⟩
  · simp only [finishStream]
    rw [e1]; exact hw
  · simp only [finishStream]
    rw [e1, hw]; exact hlt2
  · simp only [finishStream]
    exact e2

/-- C15, instance: an overhang of 200 samples at 16 kHz and 300 more samples
leave an overhang of 20 samples. -/
theorem C15_overhang_after_call_witness :
    overhangState.sample_rate = 16000 ∧ (16000 : Int) ≠ 0 ∧ 0 < overhangState.frame_length ∧
      overhangState.frame_length ≤ (MAX_BUFFER_SIZE : Int) ∧ 0 ≤ overhangState.frame_offset ∧
      overhangState.frame_offset < overhangState.frame_length ∧
      overhangState.frame.length = MAX_BUFFER_SIZE ∧
      2 * (List.replicate 300 (5 : Int)).length + 1 ≤ 601 ∧
      ∃ r, vadProcessAudio silentVad (fun x : Int => x) 601 overhangState 16000
          (List.replicate 300 (5 : Int)) = .ok r ∧
        r.state.frame_offset = 20 ∧
        r.state.frame.take 20
          = (overhangState.frame.take 200
              ++ (List.replicate 300 (5 : Int)).map (fun x => CLIP x)).drop 480 := by
  have hl : (List.replicate 300 (5 : Int)).length = 300 := List.length_replicate _ _
  have hb : overhangState.frame.length = MAX_BUFFER_SIZE := by
    rw [MAX_BUFFER_SIZE_eq]; exact List.length_replicate _ _
  have h8 : 2 * (List.replicate 300 (5 : Int)).length + 1 ≤ 601 := by omega
  have ho : overhangState.frame_offset.toNat = 200 := by decide
  have hL : overhangState.frame_length.toNat = 480 := by decide
  obtain ⟨r, hr, h1, _, _, h4⟩ := C15_overhang_after_call silentVad (fun x : Int => x)
    overhangState 16000 (List.replicate 300 (5 : Int)) 601 rfl (by decide) (by decide)
    (by decide) (by decide) (by decide) hb h8
  rw [ho, hL, hl] at h1 h4
  exact ⟨rfl, by decide, by decide, by decide, by decide, by decide, hb, h8, r, hr, h1, h4⟩

/-- C17: a `vadProcessAudio` call that passes the rate check (any overhang
below the frame length, any number of samples within `int` range of the
counters) returns, and if the inner VAD returned silence on every invocation
made during the call, the call returns `VAD_EVENT_SILENCE`. -/
theorem C17_all_silence_gives_silence (state : vadstate_t σ) (rate : Int) (samples : List α)
    (fuel : Nat) (hpass : PassesRateCheck rate state) (hfuel : 2 * samples.length + 1 ≤ fuel)
    (hrange : 160 * samples.length < 2147483648) :
    ∃ r, vadProcessAudio process scale fuel state rate samples = .ok r ∧
      ((∀ c ∈ r.calls, c.2 = vad_event.VAD_EVENT_SILENCE) →
        r.event = vad_event.VAD_EVENT_SILENCE) := by
  obtain ⟨L, hL, _, _, hofs, hcall⟩ :=
    vadProcessAudio_passes process scale state rate samples fuel hpass hfuel
  obtain ⟨q, hq, hqn⟩ := feed_foldl_calls_even process scale rate L hL samples
    (startStream (effectiveState rate state)) hofs rfl
  have hinv := feed_foldl_tallies process scale rate L samples
    (startStream (effectiveState rate state)) (startStream_tallies _)
    (by simp only [startStream, List.length_nil]; omega)
  have hr : 160 * q < 2147483648 := by omega
  refine ⟨_, hcall, ?_⟩
  intro hall
  exact finish_event_silence _ hinv q hq hr hall

/-- C17, scenario E4: 480 zero samples at 16 kHz on a fresh handle with an
inner VAD that reports silence: the call returns `VAD_EVENT_SILENCE`. -/
theorem C17_all_silence_gives_silence_witness :
    PassesRateCheck 16000 freshState ∧
      2 * (List.replicate 480 (0 : Int)).length + 1 ≤ 961 ∧
      160 * (List.replicate 480 (0 : Int)).length < 2147483648 ∧
      ∃ r, vadProcessAudio silentVad (fun x : Int => x) 961 freshState 16000
          (List.replicate 480 (0 : Int)) = .ok r ∧
        r.calls.length = 2 ∧ (∀ c ∈ r.calls, c.2 = vad_event.VAD_EVENT_SILENCE) ∧
        r.event = vad_event.VAD_EVENT_SILENCE := by
  have hl : (List.replicate 480 (0 : Int)).length = 480 := List.length_replicate _ _
  have h1 : PassesRateCheck 16000 freshState := by decide
  have h2 : 2 * (List.replicate 480 (0 : Int)).length + 1 ≤ 961 := by omega
  have h3 : 160 * (List.replicate 480 (0 : Int)).length < 2147483648 := by omega
  have hq : 2 * ((toSizeT (effectiveState 16000 freshState).frame_offset + 480)
      / (effectiveState 16000 freshState).frame_length.toNat) = 2 := by decide
  obtain ⟨r, hr, himp⟩ := C17_all_silence_gives_silence silentVad (fun x : Int => x)
    freshState 16000 (List.replicate 480 (0 : Int)) 961 h1 h2 h3
  obtain ⟨r2, hr2, hc2, hall⟩ := vadProcessAudio_passes_calls silentVad (fun x : Int => x)
    freshState 16000 (List.replicate 480 (0 : Int)) 961 h1 h2
  rw [hr] at hr2
  cases hr2
  rw [hl, hq] at hc2
  have hall2 : ∀ c ∈ r.calls, c.2 = vad_event.VAD_EVENT_SILENCE :=
    hall (fun e => e = vad_event.VAD_EVENT_SILENCE) (fun _ _ _ _ => rfl)
  exact ⟨h1, h2, h3, r, hr, hc2, hall2, himp hall2⟩

theorem CLIP_eq_clamp (v : Int) : CLIP v = max (-32768) (min 32767 v) := by
  unfold CLIP wrap16
  simp only [max_def, min_def]
  split_ifs <;> omega

/-- C18 (counterexample): for the sample -1.0 the iterator stores -32768,
where clipping to [-32767, +32767] would give -32767; for the sample
3/131072 (product 0.75) it stores 0, where rounding to nearest would give 1. -/
theorem C18_counterexample :
    CLIP (scaleSample (-1)) = -32768 ∧ specConversion (-1) = -32767 ∧
      CLIP (scaleSample (3 / 131072)) = 0 ∧ specConversion (3 / 131072) = 1 := by
  have h1 : scaleSample (-1) = -32768 := by norm_num [scaleSample, Int.ceil_eq_iff]
  have h2 : scaleSample (3 / 131072) = 0 := by norm_num [scaleSample, Int.floor_eq_iff]
  have h3 : round ((-1 : ℚ) * 32768) = -32768 := by norm_num [round_eq, Int.floor_eq_iff]
  have h4 : round ((3 / 131072 : ℚ) * 32768) = 1 := by norm_num [round_eq, Int.floor_eq_iff]
  refine ⟨?_, ?_, ?_, ?_⟩
  · rw [h1]; decide
  · unfold specConversion; rw [h3]; decide
  · rw [h2]; decide
  · unfold specConversion; rw [h4]; decide

/-- C18 (amended): for a float sample of value x whose product x × 32768,
truncated toward zero, fits an `int`, the int16 sample the iterator stores is
that truncated product clipped to the int16 range [-32768, +32767]; the
fractional part of the product is discarded, not rounded. -/
theorem C18_conversion_truncates_and_clips (x : ℚ) (buf : List Int) (rest : List ℚ)
    (ofs inc : Nat) (hofs : ofs < MAX_BUFFER_SIZE)
    (hlo : -2147483648 ≤ scaleSample x) (hhi : scaleSample x < 2147483648) :
    wrap32 (scaleSample x) = scaleSample x ∧
      vadFill scaleSample 1 { buf := buf, ptr := x :: rest, ofs := ofs, inc := inc }
        = .ok { buf := buf.set ofs (max (-32768) (min 32767 (scaleSample x))), ptr := rest,
                ofs := ofs + 1, inc := inc } ∧
      -32768 ≤ max (-32768) (min 32767 (scaleSample x)) ∧
      max (-32768) (min 32767 (scaleSample x)) ≤ 32767 ∧
      (0 ≤ x → (scaleSample x : ℚ) ≤ x * 32768 ∧ x * 32768 < (scaleSample x : ℚ) + 1) ∧
      (x < 0 → x * 32768 ≤ (scaleSample x : ℚ) ∧ (scaleSample x : ℚ) - 1 < x * 32768) := by
  refine ⟨wrap32_of_range _ hlo hhi, ?_, ?_, ?_, ?_, ?_⟩
  · simp [vadFill, hofs, CLIP_eq_clamp]
  · exact le_max_left _ _
  · exact max_le (by decide) (min_le_left _ _)
  · intro h
    simp only [scaleSample, h, if_true]
    exact ⟨Int.floor_le _, Int.lt_floor_add_one _⟩
  · intro h
    have h' : ¬ (0 ≤ x) := not_le.mpr h
    simp only [scaleSample, h', if_false]
    refine ⟨Int.le_ceil _, ?_⟩
    have := Int.ceil_lt_add_one (x * 32768)
    linarith

/-- C18 (amended), instance: the sample -1.5 is stored as -32768. -/
theorem C18_conversion_truncates_and_clips_witness :
    0 < MAX_BUFFER_SIZE ∧ -2147483648 ≤ scaleSample (-3 / 2) ∧
      scaleSample (-3 / 2) < 2147483648 ∧ scaleSample (-3 / 2) = -49152 ∧
      wrap32 (scaleSample (-3 / 2)) = scaleSample (-3 / 2) ∧
      vadFill scaleSample 1 { buf := [7, 7], ptr := [(-3 / 2 : ℚ)], ofs := 0, inc := 480 }
        = .ok { buf := [7, 7].set 0 (max (-32768) (min 32767 (scaleSample (-3 / 2)))),
                ptr := [], ofs := 0 + 1, inc := 480 } ∧
      -32768 ≤ max (-32768) (min 32767 (scaleSample (-3 / 2))) ∧
      max (-32768) (min 32767 (scaleSample (-3 / 2))) ≤ 32767 ∧
      ((0 : ℚ) ≤ -3 / 2 → (scaleSample (-3 / 2) : ℚ) ≤ -3 / 2 * 32768 ∧
        (-3 / 2 : ℚ) * 32768 < (scaleSample (-3 / 2) : ℚ) + 1) ∧
      ((-3 / 2 : ℚ) < 0 → (-3 / 2 : ℚ) * 32768 ≤ (scaleSample (-3 / 2) : ℚ) ∧
        (scaleSample (-3 / 2) : ℚ) - 1 < -3 / 2 * 32768) := by
  have hv : scaleSample (-3 / 2) = -49152 := by norm_num [scaleSample, Int.ceil_eq_iff]
  have h0 : 0 < MAX_BUFFER_SIZE := by decide
  have hlo : -2147483648 ≤ scaleSample (-3 / 2) := by rw [hv]; decide
  have hhi : scaleSample (-3 / 2) < 2147483648 := by rw [hv]; decide
  exact ⟨h0, hlo, hhi, hv,
    C18_conversion_truncates_and_clips (-3 / 2) [7, 7] [] 0 480 h0 hlo hhi⟩

/-- C14 (failing run): on a fresh handle a first call at an unsupported
non-zero rate returns the error event but stores that rate; the handle is
then locked to it and a later call at a supported rate is rejected with the
error event and cannot lock the handle. -/
theorem C14_unsupported_rate_is_stored (state : vadstate_t σ) (rate R : Int)
    (first samples : List α) (fuel : Nat) (hfresh : state.sample_rate = 0)
    (hbad : ¬ supportedRate rate) (hne : rate ≠ 0) (hR : supportedRate R) :
    ∃ r1, vadProcessAudio process scale fuel state rate first = .ok r1 ∧
      r1.event = vad_event.VAD_EVENT_ERROR ∧ r1.state.sample_rate = rate ∧
      ¬ supportedRate r1.state.sample_rate ∧ r1.state.sample_rate ≠ 0 ∧
      vadProcessAudio process scale fuel r1.state R samples
        = .ok { event := vad_event.VAD_EVENT_ERROR, state := r1.state, calls := [] } := by
  have hbad2 : ¬ (rate = 8000 ∨ rate = 16000 ∨ rate = 32000 ∨ rate = 48000) := hbad
  have hRr : rate ≠ R := fun h => hbad (h ▸ hR)
  refine ⟨{ event := vad_event.VAD_EVENT_ERROR, state := (vadInitState state rate).1,
            calls := [] }, ?_, rfl, rfl, hbad, hne, ?_⟩
  · unfold vadProcessAudio
    simp [hfresh, vadInitState, hbad2]
  · exact vadProcessAudio_mismatch process scale (vadInitState state rate).1 R samples fuel
      hne hRr

/-- C14, concrete run: 44100 Hz on a fresh handle, then 16000 Hz. -/
theorem C14_unsupported_rate_is_stored_witness :
    freshState.sample_rate = 0 ∧ ¬ supportedRate 44100 ∧ (44100 : Int) ≠ 0 ∧
      supportedRate 16000 ∧
      ∃ r1, vadProcessAudio silentVad (fun x : Int => x) 1 freshState 44100 [] = .ok r1 ∧
        r1.event = vad_event.VAD_EVENT_ERROR ∧ r1.state.sample_rate = 44100 ∧
        ¬ supportedRate r1.state.sample_rate ∧ r1.state.sample_rate ≠ 0 ∧
        vadProcessAudio silentVad (fun x : Int => x) 1 r1.state 16000 [0, 0, 0]
          = .ok { event := vad_event.VAD_EVENT_ERROR, state := r1.state, calls := [] } :=
  ⟨rfl, by decide, by decide, by decide,
    C14_unsupported_rate_is_stored silentVad (fun x : Int => x) freshState 44100 16000 []
      [0, 0, 0] 1 rfl (by decide) (by decide) (by decide)⟩

/-- C19: on a freshly allocated handle (stored rate 0) a first
`vadProcessAudio` call with a rate outside {8000, 16000, 32000, 48000}
returns `VAD_EVENT_ERROR` and makes no inner VAD call. -/
theorem C19_unsupported_first_call (state : vadstate_t σ) (rate : Int) (samples : List α)
    (fuel : Nat) (hfresh : state.sample_rate = 0) (hbad : ¬ supportedRate rate) :
    ∃ r, vadProcessAudio process scale fuel state rate samples = .ok r ∧
      r.event = vad_event.VAD_EVENT_ERROR ∧ r.calls = [] := by
  have hbad2 : ¬ (rate = 8000 ∨ rate = 16000 ∨ rate = 32000 ∨ rate = 48000) := hbad
  refine ⟨{ event := vad_event.VAD_EVENT_ERROR, state := (vadInitState state rate).1,
            calls := [] }, ?_, rfl, rfl⟩
  unfold vadProcessAudio
  simp [hfresh, vadInitState, hbad2]

/-- C19, instance: 44100 Hz on a fresh handle. -/
theorem C19_unsupported_first_call_witness :
    freshState.sample_rate = 0 ∧ ¬ supportedRate 44100 ∧
      ∃ r, vadProcessAudio silentVad (fun x : Int => x) 0 freshState 44100 [0, 0, 0] = .ok r ∧
        r.event = vad_event.VAD_EVENT_ERROR ∧ r.calls = [] :=
  ⟨rfl, by decide,
    C19_unsupported_first_call silentVad (fun x : Int => x) freshState 44100 [0, 0, 0] 0 rfl
      (by decide)⟩

/-- C20: a `vadProcessAudio` call whose rate differs from the rate the handle
is locked to returns `VAD_EVENT_ERROR` without processing: no inner VAD call
is made and the frame buffer, frame length, overhang offset, locked rate and
inner VAD state are unchanged. -/
theorem C20_mismatch_leaves_handle (state : vadstate_t σ) (rate : Int) (samples : List α)
    (fuel : Nat) (hlocked : state.sample_rate ≠ 0) (hne : rate ≠ state.sample_rate) :
    ∃ r, vadProcessAudio process scale fuel state rate samples = .ok r ∧
      r.event = vad_event.VAD_EVENT_ERROR ∧ r.calls = [] ∧
      r.state.frame = state.frame ∧ r.state.frame_length = state.frame_length ∧
      r.state.frame_offset = state.frame_offset ∧ r.state.sample_rate = state.sample_rate ∧
      r.state.vad = state.vad :=
  ⟨{ event := vad_event.VAD_EVENT_ERROR, state := state, calls := [] },
    vadProcessAudio_mismatch process scale state rate samples fuel hlocked
      (fun h => hne h.symm), rfl, rfl, rfl, rfl, rfl, rfl, rfl⟩

/-- C20, instance: a call at 8 kHz on a handle locked to 16 kHz. -/
theorem C20_mismatch_leaves_handle_witness :
    overhangState.sample_rate ≠ 0 ∧ (8000 : Int) ≠ overhangState.sample_rate ∧
      ∃ r, vadProcessAudio silentVad (fun x : Int => x) 0 overhangState 8000 [0, 0, 0] = .ok r ∧
        r.event = vad_event.VAD_EVENT_ERROR ∧ r.calls = [] ∧
        r.state.frame = overhangState.frame ∧
        r.state.frame_length = overhangState.frame_length ∧
        r.state.frame_offset = overhangState.frame_offset ∧
        r.state.sample_rate = overhangState.sample_rate ∧
        r.state.vad = overhangState.vad :=
  ⟨by decide, by decide,
    C20_mismatch_leaves_handle silentVad (fun x : Int => x) overhangState 8000 [0, 0, 0] 0
      (by decide) (by decide)⟩

theorem wrap32_add_wrap32 (a b : Int) : wrap32 (wrap32 a + b) = wrap32 (a + b) := by
  unfold wrap32; omega

/-- `vadDecision` on a four-slot histogram, with its wrapping sum written out. -/
theorem vadDecision_sum (e s v n : Int) :
    vadDecision [e, s, v, n]
      = if wrap32 (e + s + v + n) = 0 then vad_event.VAD_EVENT_SILENCE
        else if e > 0 then vad_event.VAD_EVENT_ERROR
        else if v ≥ Int.tdiv (wrap32 (wrap32 (e + s + v + n) * 80)) 100 then
          vad_event.VAD_EVENT_VOICE
        else vad_event.VAD_EVENT_SILENCE := by
  have hr : List.range EVENT_COUNT = [0, 1, 2, 3] := by decide
  have w : wrap32 (wrap32 (wrap32 (wrap32 (0 + e) + s) + v) + n) = wrap32 (e + s + v + n) := by
    unfold wrap32; omega
  have hsel0 : SELECT_EVENT vad_event.VAD_EVENT_ERROR [e, s, v, n] = e := by
    simp [SELECT_EVENT, EVENT_OFFSET, vad_event.code]
  have hsel2 : SELECT_EVENT vad_event.VAD_EVENT_VOICE [e, s, v, n] = v := by
    simp [SELECT_EVENT, EVENT_OFFSET, vad_event.code]
  unfold vadDecision
  simp only [hr, List.foldl_cons, List.foldl_nil, List.getD_cons_zero, List.getD_cons_succ,
    w, hsel0, hsel2]

/-- C21: for every histogram of non-negative counts with e = 0, total > 0
and 80·total within `int` range, `vadDecision` returns voice if and only if
v ≥ total × 80 / 100 in integer arithmetic, and silence otherwise. -/
theorem C21_voice_iff_threshold (s v n : Int) (hs : 0 ≤ s) (hv : 0 ≤ v) (hn : 0 ≤ n)
    (htot : 0 < 0 + s + v + n) (hrange : 80 * (0 + s + v + n) < 2147483648) :
    (vadDecision [0, s, v, n] = vad_event.VAD_EVENT_VOICE
        ↔ v ≥ (0 + s + v + n) * 80 / 100) ∧
      (vadDecision [0, s, v, n] = vad_event.VAD_EVENT_SILENCE
        ↔ v < (0 + s + v + n) * 80 / 100) := by
  rw [vadDecision_eq 0 s v n (le_refl 0) hs hv hn hrange]
  have h0 : ¬ (0 + s + v + n = 0) := by omega
  have h1 : ¬ ((0 : Int) > 0) := by omega
  have hm : (0 + s + v + n) * 80 / 100 = 80 * (0 + s + v + n) / 100 := by
    rw [Int.mul_comm]
  rw [hm]
  simp only [h0, h1, if_false]
  by_cases hge : v ≥ 80 * (0 + s + v + n) / 100
  · have hlt : ¬ v < 80 * (0 + s + v + n) / 100 := not_lt.mpr hge
    simp [hge, hlt]
  · have hlt : v < 80 * (0 + s + v + n) / 100 := not_le.mp hge
    simp [hge, hlt]

/-- C21, instances: with total 5 the threshold is 4, so four voice verdicts
give voice; the threshold for total 3 is 2. -/
theorem C21_voice_iff_threshold_witness :
    (0 : Int) ≤ 1 ∧ (0 : Int) ≤ 4 ∧ (0 : Int) ≤ 0 ∧ (0 : Int) < 0 + 1 + 4 + 0 ∧
      (80 : Int) * (0 + 1 + 4 + 0) < 2147483648 ∧
      ((vadDecision [0, 1, 4, 0] = vad_event.VAD_EVENT_VOICE
          ↔ (4 : Int) ≥ (0 + 1 + 4 + 0) * 80 / 100) ∧
        (vadDecision [0, 1, 4, 0] = vad_event.VAD_EVENT_SILENCE
          ↔ (4 : Int) < (0 + 1 + 4 + 0) * 80 / 100)) ∧
      vadDecision [0, 1, 4, 0] = vad_event.VAD_EVENT_VOICE :=
  ⟨by decide, by decide, by decide, by decide, by decide,
    C21_voice_iff_threshold 1 4 0 (by decide) (by decide) (by decide) (by decide) (by decide),
    by decide⟩

/-- C22: a `vadProcessAudio` call that passes the rate check, with overhang o
and n input samples such that o + n is below the frame length, returns
without having invoked the inner VAD and its result is `VAD_EVENT_SILENCE`,
the decision for the all-zero histogram. -/
theorem C22_short_input_is_silence (state : vadstate_t σ) (rate : Int) (samples : List α)
    (fuel : Nat) (hpass : PassesRateCheck rate state) (hfuel : 2 * samples.length + 1 ≤ fuel)
    (hshort : toSizeT (effectiveState rate state).frame_offset + samples.length
      < (effectiveState rate state).frame_length.toNat) :
    ∃ r, vadProcessAudio process scale fuel state rate samples = .ok r ∧
      r.calls = [] ∧ r.event = vad_event.VAD_EVENT_SILENCE ∧
      vadDecision (List.replicate EVENT_COUNT 0) = vad_event.VAD_EVENT_SILENCE := by
  obtain ⟨L, hL, _, hLe, hofs, hcall⟩ :=
    vadProcessAudio_passes process scale state rate samples fuel hpass hfuel
  have hLn : (effectiveState rate state).frame_length.toNat = L := by omega
  rw [hLn] at hshort
  have hbelow := feed_foldl_below process scale rate L samples
    (startStream (effectiveState rate state)) hshort
  rw [hbelow] at hcall
  refine ⟨_, hcall, ?_, ?_, by decide⟩
  · show (samples.foldl (put scale) (startStream (effectiveState rate state))).calls = []
    rw [put_foldl_calls]
    rfl
  · show vadDecision (samples.foldl (put scale)
      (startStream (effectiveState rate state))).histogram = vad_event.VAD_EVENT_SILENCE
    rw [put_foldl_histogram]
    show vadDecision (List.replicate EVENT_COUNT 0) = vad_event.VAD_EVENT_SILENCE
    decide

/-- C22, instance: 279 samples short of a frame: an overhang of 200 samples
at 16 kHz (frame length 480) and three more samples. -/
theorem C22_short_input_is_silence_witness :
    PassesRateCheck 16000 overhangState ∧ 2 * [(0 : Int), 0, 0].length + 1 ≤ 7 ∧
      toSizeT (effectiveState 16000 overhangState).frame_offset + [(0 : Int), 0, 0].length
        < (effectiveState 16000 overhangState).frame_length.toNat ∧
      ∃ r, vadProcessAudio failingVad (fun x : Int => x) 7 overhangState 16000 [0, 0, 0]
          = .ok r ∧
        r.calls = [] ∧ r.event = vad_event.VAD_EVENT_SILENCE ∧
        vadDecision (List.replicate EVENT_COUNT 0) = vad_event.VAD_EVENT_SILENCE :=
  ⟨by decide, by decide, by decide,
    C22_short_input_is_silence failingVad (fun x : Int => x) overhangState 16000 [0, 0, 0] 7
      (by decide) (by decide) (by decide)⟩

/-- C23: `vadDecision` never returns `VAD_EVENT_NOISE`, and its result depends
on the silence and noise counts only through their sum. -/
theorem C23_noise_counts_as_silence (histogram : List Int) (e s v n : Int) :
    vadDecision histogram ≠ vad_event.VAD_EVENT_NOISE ∧
      vadDecision [e, s, v, n] = vadDecision [e, s + n, v, 0] := by
  constructor
  · unfold vadDecision
    simp only
    split_ifs <;> decide
  · rw [vadDecision_sum e s v n, vadDecision_sum e (s + n) v 0]
    have h : e + (s + n) + v + 0 = e + s + v + n := by omega
    rw [h]

/-- C28: `vadAllocate` called with no memory, or with a region whose stated
size is below the inner VAD state size K plus the size of the state record,
returns `NULL`, stores that required byte count in `memSize[0]` when
`memSize` is given, and makes no store into the region. -/
theorem C28_vadAllocate_refuses (ext : CreateUser) (mem : Bool) (memSize : Option Nat)
    (K : Nat) (hK : ext.query (wrap32 ((memSize.getD 0 : Nat) : Int)) = (K : Int))
    (hrange : K + sizeof_vadstate_t < 2147483648)
    (hsmall : mem = false ∨ memSize.getD 0 < K + sizeof_vadstate_t) :
    (vadAllocate ext mem memSize).isNull = true ∧
      (vadAllocate ext mem memSize).memSize = memSize.map (fun _ => K + sizeof_vadstate_t) ∧
      (vadAllocate ext mem memSize).writes = [] := by
  have hreq : wrap32 ((K : Int) + (sizeof_vadstate_t : Int)) = ((K + sizeof_vadstate_t : Nat) : Int) := by
    rw [wrap32_of_range _ (by omega) (by omega)]
    push_cast
    rfl
  have hts : toSizeT ((K + sizeof_vadstate_t : Nat) : Int) = K + sizeof_vadstate_t :=
    toSizeT_natCast _ (by omega)
  have hcond : wrap32 ((memSize.getD 0 : Nat) : Int) < ((K + sizeof_vadstate_t : Nat) : Int)
      ∨ mem = false := by
    rcases hsmall with h | h
    · exact Or.inr h
    · left
      rw [wrap32_of_range _ (by omega) (by omega)]
      exact_mod_cast h
  unfold vadAllocate
  simp only [hK, hreq, hcond, if_true, hts]
  exact ⟨trivial, trivial, trivial⟩

/-- C28, instances: a region of 100 bytes where 3640 are required, and no
region at all. -/
theorem C28_vadAllocate_refuses_witness :
    sampleCreateUser.query (wrap32 (((some 100 : Option Nat).getD 0 : Nat) : Int)) = ((736 : Nat) : Int) ∧
      736 + sizeof_vadstate_t < 2147483648 ∧
      (true = false ∨ (some 100 : Option Nat).getD 0 < 736 + sizeof_vadstate_t) ∧
      ((vadAllocate sampleCreateUser true (some 100)).isNull = true ∧
        (vadAllocate sampleCreateUser true (some 100)).memSize
          = (some 100 : Option Nat).map (fun _ => 736 + sizeof_vadstate_t) ∧
        (vadAllocate sampleCreateUser true (some 100)).writes = []) ∧
      vadAllocate sampleCreateUser false none
        = { isNull := true, memSize := none, writes := [] } ∧
      vadAllocate sampleCreateUser true (some 100)
        = { isNull := true, memSize := some 3640, writes := [] } :=
  ⟨rfl, by decide, Or.inr (by decide),
    C28_vadAllocate_refuses sampleCreateUser true (some 100) 736 rfl (by decide)
      (Or.inr (by decide)),
    by decide, by decide⟩

end VadTheorems

end SimpleVad

namespace Mpa

section DecoderTheorems

open SimpleVad (wrap32)

variable {σ : Type} (decode : InnerDecoder σ)

theorem decode_last_call (w : DecodeFrameWorker σ) (len : Int) :
    (w.decode decode len).calls.getLast? = some (len, (w.decode decode len).samplesRead) := by
  simp [DecodeFrameWorker.decode]

theorem StartDecoding_while_done (fuel : Nat) (w : DecodeFrameWorker σ) :
    StartDecoding_while decode fuel w e_state.done = some (w, e_state.done) := by
  cases fuel <;> simp [StartDecoding_while]

theorem StartDecoding_while_frame (fuel : Nat) (w : DecodeFrameWorker σ) :
    StartDecoding_while decode (fuel + 1) w e_state.frame
      = some (w.decode decode 0, e_state.done) := by
  simp [StartDecoding_while, StartDecoding_switch, StartDecoding_while_done]

theorem StartDecoding_while_head (fuel : Nat) (w : DecodeFrameWorker σ) :
    StartDecoding_while decode (fuel + 2) w e_state.head
      = if (w.decode decode 0).samplesRead ≠ 0 ∨ (w.decode decode 0).data.header_parsed = 0
        then some (w.decode decode 0, e_state.done)
        else some ((w.decode decode 0).decode decode 0, e_state.done) := by
  by_cases h : (w.decode decode 0).samplesRead ≠ 0 ∨ (w.decode decode 0).data.header_parsed = 0
  · simp only [StartDecoding_while, StartDecoding_switch, h, if_true]
    simp [StartDecoding_while_done]
  · simp only [StartDecoding_while, StartDecoding_switch, h, if_false]
    simp [StartDecoding_switch, StartDecoding_while_done]

theorem StartDecoding_while_init (fuel : Nat) (w : DecodeFrameWorker σ) :
    StartDecoding_while decode (fuel + 3) w e_state.init
      = if (w.decode decode w.length).samplesRead ≠ 0
        then some (w.decode decode w.length, e_state.done)
        else if (w.decode decode w.length).data.header_parsed = 0
        then StartDecoding_while decode (fuel + 2) (w.decode decode w.length) e_state.head
        else some ((w.decode decode w.length).decode decode 0, e_state.done) := by
  rw [StartDecoding_while]
  by_cases h1 : (w.decode decode w.length).samplesRead = 0
  · by_cases h2 : (w.decode decode w.length).data.header_parsed = 0
    · simp [StartDecoding_switch, h1, h2]
    · simp [StartDecoding_switch, h1, h2, StartDecoding_while_frame]
  · simp [StartDecoding_switch, h1, StartDecoding_while_done]

/-- With fuel for three passes the loop of `StartDecoding` ends in `done`,
and `samplesRead` is the value returned by the last inner call made. -/
theorem StartDecoding_while_returns (fuel : Nat) (hfuel : 3 ≤ fuel) (w : DecodeFrameWorker σ) :
    ∃ w1, StartDecoding_while decode fuel w e_state.init = some (w1, e_state.done) ∧
      ∃ len, w1.calls.getLast? = some (len, w1.samplesRead) := by
  obtain ⟨f, rfl⟩ : ∃ f, fuel = f + 3 := ⟨fuel - 3, by omega⟩
  rw [StartDecoding_while_init]
  by_cases h1 : (w.decode decode w.length).samplesRead = 0
  · by_cases h2 : (w.decode decode w.length).data.header_parsed = 0
    · rw [StartDecoding_while_head]
      by_cases h3 : ((w.decode decode w.length).decode decode 0).samplesRead ≠ 0 ∨
          ((w.decode decode w.length).decode decode 0).data.header_parsed = 0
      · refine ⟨(w.decode decode w.length).decode decode 0, ?_, 0, decode_last_call decode _ 0⟩
        simp [h1, h2, h3]
      · refine ⟨((w.decode decode w.length).decode decode 0).decode decode 0, ?_, 0,
          decode_last_call decode _ 0⟩
        simp [h1, h2, h3]
    · refine ⟨(w.decode decode w.length).decode decode 0, ?_, 0, decode_last_call decode _ 0⟩
      simp [h1, h2]
  · refine ⟨w.decode decode w.length, ?_, w.length, decode_last_call decode w w.length⟩
    simp [h1]

/-- `Execute` returns, and its outputs are computed from the value returned
by the last inner decoder call. -/
theorem Execute_returns (fuel : Nat) (hfuel : 3 ≤ fuel) (w : DecodeFrameWorker σ) :
    ∃ w1, Execute decode fuel w = some w1 ∧
      (∃ len, w1.calls.getLast? = some (len, w1.samplesRead)) ∧
      w1.isError = decide (w1.samplesRead < 0) ∧ w1.needData = decide (w1.samplesRead = 0) := by
  by_cases hl : w.length > 0
  · obtain ⟨w1, hw, hlast⟩ := StartDecoding_while_returns decode fuel hfuel w
    refine ⟨{ w1 with isError := decide (w1.samplesRead < 0),
                      needData := decide (e_state.done = e_state.done) &&
                        decide (w1.samplesRead = 0) }, ?_, hlast, rfl, by simp⟩
    simp [Execute, hl, StartDecoding, hw]
  · refine ⟨{ w.decode decode w.length with
        isError := decide ((w.decode decode w.length).samplesRead < 0),
        needData := decide ((w.decode decode w.length).samplesRead = 0) }, ?_, ?_, rfl, rfl⟩
    · simp only [Execute, hl, if_false]
    · exact ⟨w.length, decode_last_call decode w w.length⟩

theorem decodeFrame_eq (bits : Int) (fuel : Nat) (h : DecoderHandle σ) (length : Int)
    (w : DecodeFrameWorker σ)
    (hw : Execute decode fuel (DecodeFrameWorker.new h.mp length) = some w) :
    decodeFrame decode bits fuel h length = some (HandleOKCallback bits w h) := by
  simp [decodeFrame, hw]

/-- The loop of `StartDecoding`, traced against the inner decoder itself: with
fuel for three passes it ends in `done` after `k` passes, 1 ≤ k ≤ 3; the
worker then holds the value, the record and the inner state returned by inner
call number `k`, where call 1 is the inner decoder applied to the input
length and every later call is the inner decoder applied to length 0 and to
what the call before it left; the states visited are those the conditions on
the returned values select. -/
theorem bootstrap_run (fuel : Nat) (hfuel : 3 ≤ fuel) (mp : σ) (length : Int) :
    ∃ (k : Nat) (w1 : DecodeFrameWorker σ), 1 ≤ k ∧ k ≤ 3 ∧
      StartDecoding_while decode fuel (DecodeFrameWorker.new mp length) e_state.init
        = some (w1, e_state.done) ∧
      (StartDecoding_pass decode)^[k] (DecodeFrameWorker.new mp length, e_state.init)
        = (w1, e_state.done) ∧
      (∀ j, j < k →
        ((StartDecoding_pass decode)^[j]
          (DecodeFrameWorker.new mp length, e_state.init)).2 ≠ e_state.done) ∧
      (w1.samplesRead, w1.data, w1.mp) = innerCall decode mp length (k - 1) ∧
      w1.calls = innerTrace decode mp length k ∧
      w1.length = length ∧
      ((StartDecoding_pass decode)^[1] (DecodeFrameWorker.new mp length, e_state.init)).2
        = (if (innerCall decode mp length 0).1 ≠ 0 then e_state.done
           else if (innerCall decode mp length 0).2.1.header_parsed = 0 then e_state.head
           else e_state.frame) ∧
      (((StartDecoding_pass decode)^[1]
          (DecodeFrameWorker.new mp length, e_state.init)).2 = e_state.head →
        ((StartDecoding_pass decode)^[2] (DecodeFrameWorker.new mp length, e_state.init)).2
          = (if (innerCall decode mp length 1).1 ≠ 0 ∨
                (innerCall decode mp length 1).2.1.header_parsed = 0 then e_state.done
             else e_state.frame)) ∧
      (((StartDecoding_pass decode)^[1]
          (DecodeFrameWorker.new mp length, e_state.init)).2 = e_state.frame →
        ((StartDecoding_pass decode)^[2] (DecodeFrameWorker.new mp length, e_state.init)).2
          = e_state.done) ∧
      (((StartDecoding_pass decode)^[2]
          (DecodeFrameWorker.new mp length, e_state.init)).2 = e_state.frame →
        ((StartDecoding_pass decode)^[3] (DecodeFrameWorker.new mp length, e_state.init)).2
          = e_state.done) := by
  obtain ⟨f, rfl⟩ : ∃ f, fuel = f + 3 := ⟨fuel - 3, by omega⟩
  have hwhile := StartDecoding_while_init decode f (DecodeFrameWorker.new mp length)
  have hl : (DecodeFrameWorker.new mp length).length = length := rfl
  rw [hl] at hwhile
  have e1 : ((DecodeFrameWorker.new mp length).decode decode length).samplesRead
      = (innerCall decode mp length 0).1 := rfl
  have e2 : ((DecodeFrameWorker.new mp length).decode decode length).data
      = (innerCall decode mp length 0).2.1 := rfl
  have e3 : (((DecodeFrameWorker.new mp length).decode decode length).decode decode 0).samplesRead
      = (innerCall decode mp length 1).1 := rfl
  have e4 : (((DecodeFrameWorker.new mp length).decode decode length).decode decode 0).data
      = (innerCall decode mp length 1).2.1 := rfl
  rw [e1, e2] at hwhile
  by_cases h1 : (innerCall decode mp length 0).1 = 0
  · by_cases h2 : (innerCall decode mp length 0).2.1.header_parsed = 0
    · have hhead := StartDecoding_while_head decode f
        ((DecodeFrameWorker.new mp length).decode decode length)
      rw [e3, e4] at hhead
      by_cases h3 : (innerCall decode mp length 1).1 ≠ 0 ∨
          (innerCall decode mp length 1).2.1.header_parsed = 0
      · have hw : StartDecoding_while decode (f + 3) (DecodeFrameWorker.new mp length)
            e_state.init
            = some (((DecodeFrameWorker.new mp length).decode decode length).decode decode 0,
                e_state.done) := by
          rw [hwhile, hhead]
          simp [h1, h2, h3]
        refine ⟨2, _, by omega, by omega, hw, ?_, ?_, rfl, rfl, rfl, ?_, ?_, ?_, ?_⟩
        · simp [StartDecoding_pass, StartDecoding_switch, hl, e1, e2, e3, e4, h1, h2, h3]
        · intro j hj
          interval_cases j
          · simp
          · simp [StartDecoding_pass, StartDecoding_switch, hl, e1, e2, h1, h2]
        · simp [StartDecoding_pass, StartDecoding_switch, hl, e1, e2, h1, h2]
        · intro _
          simp [StartDecoding_pass, StartDecoding_switch, hl, e1, e2, e3, e4, h1, h2, h3]
        · simp [StartDecoding_pass, StartDecoding_switch, hl, e1, e2, h1, h2]
        · simp [StartDecoding_pass, StartDecoding_switch, hl, e1, e2, e3, e4, h1, h2, h3]
      · have hw : StartDecoding_while decode (f + 3) (DecodeFrameWorker.new mp length)
            e_state.init
            = some ((((DecodeFrameWorker.new mp length).decode decode length).decode decode
                0).decode decode 0, e_state.done) := by
          rw [hwhile, hhead]
          simp [h1, h2, h3]
        refine ⟨3, _, by omega, by omega, hw, ?_, ?_, rfl, rfl, rfl, ?_, ?_, ?_, ?_⟩
        · simp [StartDecoding_pass, StartDecoding_switch, hl, e1, e2, e3, e4, h1, h2, h3]
        · intro j hj
          interval_cases j
          · simp
          · simp [StartDecoding_pass, StartDecoding_switch, hl, e1, e2, h1, h2]
          · simp [StartDecoding_pass, StartDecoding_switch, hl, e1, e2, e3, e4, h1, h2, h3]
        · simp [StartDecoding_pass, StartDecoding_switch, hl, e1, e2, h1, h2]
        · intro _
          simp [StartDecoding_pass, StartDecoding_switch, hl, e1, e2, e3, e4, h1, h2, h3]
        · simp [StartDecoding_pass, StartDecoding_switch, hl, e1, e2, h1, h2]
        · intro _
          simp [StartDecoding_pass, StartDecoding_switch, hl, e1, e2, e3, e4, h1, h2, h3]
    · have hw : StartDecoding_while decode (f + 3) (DecodeFrameWorker.new mp length)
          e_state.init
          = some (((DecodeFrameWorker.new mp length).decode decode length).decode decode 0,
              e_state.done) := by
        rw [hwhile]
        simp [h1, h2]
      refine ⟨2, _, by omega, by omega, hw, ?_, ?_, rfl, rfl, rfl, ?_, ?_, ?_, ?_⟩
      · simp [StartDecoding_pass, StartDecoding_switch, hl, e1, e2, h1, h2]
      · intro j hj
        interval_cases j
        · simp
        · simp [StartDecoding_pass, StartDecoding_switch, hl, e1, e2, h1, h2]
      · simp [StartDecoding_pass, StartDecoding_switch, hl, e1, e2, h1, h2]
      · simp [StartDecoding_pass, StartDecoding_switch, hl, e1, e2, h1, h2]
      · intro _
        simp [StartDecoding_pass, StartDecoding_switch, hl, e1, e2, h1, h2]
      · simp [StartDecoding_pass, StartDecoding_switch, hl, e1, e2, h1, h2]
  · have hw : StartDecoding_while decode (f + 3) (DecodeFrameWorker.new mp length)
        e_state.init
        = some ((DecodeFrameWorker.new mp length).decode decode length, e_state.done) := by
      rw [hwhile]
      simp [h1]
    refine ⟨1, _, by omega, by omega, hw, ?_, ?_, rfl, rfl, rfl, ?_, ?_, ?_, ?_⟩
    · simp [StartDecoding_pass, StartDecoding_switch, hl, e1, h1]
    · intro j hj
      interval_cases j
      simp
    · simp [StartDecoding_pass, StartDecoding_switch, hl, e1, h1]
    · simp [StartDecoding_pass, StartDecoding_switch, hl, e1, h1]
    · simp [StartDecoding_pass, StartDecoding_switch, hl, e1, h1]
    · simp [StartDecoding_pass, StartDecoding_switch, hl, e1, h1]

/-- `Execute`, traced against the inner decoder itself: with fuel for three
passes it returns after `k` inner calls, 1 ≤ k ≤ 3 (one call when the length
is not positive); the calls made are the first `k` calls of `innerCall`, and
`samplesRead`, `isError` and `needData` are computed from the value returned
by call number `k` of the inner decoder. -/
theorem Execute_inner (fuel : Nat) (hfuel : 3 ≤ fuel) (mp : σ) (length : Int) :
    ∃ (k : Nat) (w : DecodeFrameWorker σ), 1 ≤ k ∧ k ≤ 3 ∧
      Execute decode fuel (DecodeFrameWorker.new mp length) = some w ∧
      (0 < length → StartDecoding decode fuel (DecodeFrameWorker.new mp length) = some w) ∧
      (length ≤ 0 → k = 1) ∧
      (w.samplesRead, w.data, w.mp) = innerCall decode mp length (k - 1) ∧
      w.calls = innerTrace decode mp length k ∧
      w.isError = decide ((innerCall decode mp length (k - 1)).1 < 0) ∧
      w.needData = decide ((innerCall decode mp length (k - 1)).1 = 0) := by
  by_cases hl : 0 < length
  · obtain ⟨k, w1, hk1, hk3, hw, _, _, hres, hcalls, _⟩ :=
      bootstrap_run decode fuel hfuel mp length
    have hpos : (DecodeFrameWorker.new mp length).length > 0 := hl
    have hn : w1.samplesRead = (innerCall decode mp length (k - 1)).1 :=
      congrArg Prod.fst hres
    have hstart : StartDecoding decode fuel (DecodeFrameWorker.new mp length)
        = some { w1 with isError := decide (w1.samplesRead < 0),
                         needData := decide (e_state.done = e_state.done) &&
                           decide (w1.samplesRead = 0) } := by
      simp [StartDecoding, hw]
    refine ⟨k, _, hk1, hk3, ?_, fun _ => hstart, fun h => absurd hl (not_lt.mpr h), hres,
      hcalls, ?_, ?_⟩
    · simp only [Execute, hpos, if_true]
      exact hstart
    · show decide (w1.samplesRead < 0) = _
      rw [hn]
    · show (decide (e_state.done = e_state.done) && decide (w1.samplesRead = 0)) = _
      rw [hn]
      simp
  · refine ⟨1, { (DecodeFrameWorker.new mp length).decode decode length with
        isError := decide (((DecodeFrameWorker.new mp length).decode decode length).samplesRead < 0),
        needData := decide (((DecodeFrameWorker.new mp length).decode decode length).samplesRead = 0) },
      le_refl 1, by omega, ?_, fun h => absurd h hl, fun _ => rfl, rfl, rfl, rfl, rfl⟩
    have hnp : ¬ (DecodeFrameWorker.new mp length).length > 0 := hl
    simp only [Execute, hnp, if_false]
    rfl

/-- C6 (counterexample): with an inner decoder that returns -1, the result
object delivered by `decodeFrame` has `error = true` and `sampleCount = -1`,
which is neither `≥ 0` nor `0`. -/
theorem C6_counterexample :
    (decodeFrame failingDecoder 16 3 initHandle 4096).map
        (fun p => (p.1.error, p.1.sampleCount)) = some (true, -1) ∧
      ¬ ((0 : Int) ≤ -1) := by
  decide

/-- C6 (amended): every decode call returns after `k` inner decoder calls,
1 ≤ k ≤ 3, which are the first `k` calls of `innerCall` (the inner decoder
applied to the input length, then to length 0); the `sampleCount` of the
result object delivered is the value n that call number `k` of the inner
decoder returned; it is `≥ 0` exactly when `error` is false, and when n is
negative the result has `error = true` and `sampleCount = n < 0`. -/
theorem C6_sampleCount_is_inner_result (bits : Int) (fuel : Nat) (h : DecoderHandle σ)
    (length : Int) (hfuel : 3 ≤ fuel) :
    ∃ (k : Nat) (w : DecodeFrameWorker σ) (r : DecodeResult) (h1 : DecoderHandle σ),
      1 ≤ k ∧ k ≤ 3 ∧
      Execute decode fuel (DecodeFrameWorker.new h.mp length) = some w ∧
      w.calls = innerTrace decode h.mp length k ∧
      decodeFrame decode bits fuel h length = some (r, h1) ∧
      r.sampleCount = (innerCall decode h.mp length (k - 1)).1 ∧
      (0 ≤ r.sampleCount ↔ r.error = false) ∧
      (r.sampleCount < 0 ↔ r.error = true) ∧
      ((innerCall decode h.mp length (k - 1)).1 < 0 →
        r.error = true ∧ r.sampleCount = (innerCall decode h.mp length (k - 1)).1 ∧
          r.sampleCount ≠ 0) := by
  obtain ⟨k, w, hk1, hk3, hw, _, _, hres, hcalls, herr, _⟩ :=
    Execute_inner decode fuel hfuel h.mp length
  have hn : w.samplesRead = (innerCall decode h.mp length (k - 1)).1 := congrArg Prod.fst hres
  have hs : (HandleOKCallback bits w h).1.sampleCount = w.samplesRead := rfl
  have he : (HandleOKCallback bits w h).1.error = w.isError := rfl
  refine ⟨k, w, (HandleOKCallback bits w h).1, (HandleOKCallback bits w h).2, hk1, hk3, hw,
    hcalls, decodeFrame_eq decode bits fuel h length w hw, by rw [hs, hn], ?_, ?_, ?_⟩
  · rw [hs, he, herr, hn]
    simp
  · rw [hs, he, herr, hn]
    simp
  · intro hneg
    rw [hs, he, herr, hn]
    refine ⟨by simpa using hneg, rfl, by omega⟩

/-- C6 (amended), instance: the inner decoder finds no header in 4096 bytes
and returns -7 on the flush call; the result has `sampleCount = -7` and
`error = true`. -/
theorem C6_sampleCount_is_inner_result_witness :
    3 ≤ 3 ∧
    (decodeFrame scriptedDecoder 16 3 errorOnFlushHandle 4096).map
        (fun p => (p.1.sampleCount, p.1.error, p.1.needMoreData)) = some (-7, true, false) ∧
    (Execute scriptedDecoder 3 (DecodeFrameWorker.new errorOnFlushHandle.mp 4096)).map
        (fun w => w.calls) = some [(4096, 0), (0, -7)] ∧
    ∃ (k : Nat) (w : DecodeFrameWorker (List (Int × mp3data_struct))) (r : DecodeResult)
        (h1 : DecoderHandle (List (Int × mp3data_struct))),
      1 ≤ k ∧ k ≤ 3 ∧
      Execute scriptedDecoder 3 (DecodeFrameWorker.new errorOnFlushHandle.mp 4096) = some w ∧
      w.calls = innerTrace scriptedDecoder errorOnFlushHandle.mp 4096 k ∧
      decodeFrame scriptedDecoder 16 3 errorOnFlushHandle 4096 = some (r, h1) ∧
      r.sampleCount = (innerCall scriptedDecoder errorOnFlushHandle.mp 4096 (k - 1)).1 ∧
      (0 ≤ r.sampleCount ↔ r.error = false) ∧
      (r.sampleCount < 0 ↔ r.error = true) ∧
      ((innerCall scriptedDecoder errorOnFlushHandle.mp 4096 (k - 1)).1 < 0 →
        r.error = true ∧
          r.sampleCount = (innerCall scriptedDecoder errorOnFlushHandle.mp 4096 (k - 1)).1 ∧
          r.sampleCount ≠ 0) :=
  ⟨by decide, by decide, by decide,
    C6_sampleCount_is_inner_result scriptedDecoder 16 3 errorOnFlushHandle 4096 (by decide)⟩

/-- C7 (behaviour of the code): the result object carries `samplesLeft` and
`samplesRight` exactly when `sampleCount` is non-zero; in particular they
are present when the inner decoder reported an error (`sampleCount < 0`). -/
theorem C7_samples_present_iff_nonzero (bits : Int) (fuel : Nat) (h : DecoderHandle σ)
    (length : Int) (hfuel : 3 ≤ fuel) :
    ∃ r h1, decodeFrame decode bits fuel h length = some (r, h1) ∧
      (r.samplesLeft = some BufferRef.left ↔ r.sampleCount ≠ 0) ∧
      (r.samplesRight = some BufferRef.right ↔ r.sampleCount ≠ 0) ∧
      (r.samplesLeft = none ↔ r.sampleCount = 0) ∧
      (r.samplesRight = none ↔ r.sampleCount = 0) ∧
      (r.sampleCount < 0 →
        r.error = true ∧ r.samplesLeft = some BufferRef.left ∧
          r.samplesRight = some BufferRef.right) := by
  obtain ⟨w, hw, _, herr, _⟩ :=
    Execute_returns decode fuel hfuel (DecodeFrameWorker.new h.mp length)
  refine ⟨(HandleOKCallback bits w h).1, (HandleOKCallback bits w h).2,
    decodeFrame_eq decode bits fuel h length w hw, ?_, ?_, ?_, ?_, ?_⟩
  · by_cases h0 : w.samplesRead = 0 <;> simp [HandleOKCallback, h0]
  · by_cases h0 : w.samplesRead = 0 <;> simp [HandleOKCallback, h0]
  · by_cases h0 : w.samplesRead = 0 <;> simp [HandleOKCallback, h0]
  · by_cases h0 : w.samplesRead = 0 <;> simp [HandleOKCallback, h0]
  · intro hneg
    have h0 : w.samplesRead ≠ 0 := by
      simp only [HandleOKCallback] at hneg; omega
    have h1 : w.samplesRead < 0 := by simpa [HandleOKCallback] using hneg
    simp [HandleOKCallback, h0, herr, h1]

/-- C7, failing input: an inner decoder error. The result reports the error
and still carries both sample buffers. -/
theorem C7_samples_present_iff_nonzero_witness :
    3 ≤ 3 ∧
    (decodeFrame failingDecoder 16 3 initHandle 4096).map Prod.fst
      = some { sampleCount := -1, needMoreData := false, error := true, frameInfo := none,
               samplesLeft := some BufferRef.left, samplesRight := some BufferRef.right } ∧
    ∃ r h1, decodeFrame failingDecoder 16 3 initHandle 4096 = some (r, h1) ∧
      (r.samplesLeft = some BufferRef.left ↔ r.sampleCount ≠ 0) ∧
      (r.samplesRight = some BufferRef.right ↔ r.sampleCount ≠ 0) ∧
      (r.samplesLeft = none ↔ r.sampleCount = 0) ∧
      (r.samplesRight = none ↔ r.sampleCount = 0) ∧
      (r.sampleCount < 0 →
        r.error = true ∧ r.samplesLeft = some BufferRef.left ∧
          r.samplesRight = some BufferRef.right) :=
  ⟨by decide, by decide,
    C7_samples_present_iff_nonzero failingDecoder 16 3 initHandle 4096 (by decide)⟩

/-- C8 (behaviour of the code): right after `initDecoder` has succeeded,
`getLastFrameInfo` does not return `undefined`: `memchr` finds a zero byte in
the zeroed cache, so an object built from the all-zero record is returned. -/
theorem C8_getLastFrameInfo_after_init (InitMP3 : σ → σ) (h : DecoderHandle σ) :
    (initDecoder InitMP3 h).2 = 0 ∧
      (initDecoder InitMP3 h).1.lastFrame = mp3data_zero ∧
      getLastFrameInfo (some (initDecoder InitMP3 h).1)
        = .ok (some { bitrate := 0, channels := 0, samplerate := 0,
                      bitsPerSample := h.bitsPerSample, layer := 0, version := "MPEG1",
                      mode := 0 }) := by
  have hv : wrap32 (wrap32 HIP_SIGNATURE - HIP_SIGNATURE) = 0 := by decide
  have hm : memchr (mp3data_bytes mp3data_zero) 0 sizeof_mp3data_struct = some 0 := by decide
  refine ⟨rfl, rfl, ?_⟩
  simp only [getLastFrameInfo, initDecoder, hip_decode_init, hip_validate, hv, if_true, hm]
  simp [GetFrameInfoObject, mp3data_zero, VERSIONS]

theorem memcmp_eq_zero_iff (n : Nat) :
    ∀ (a b : List Nat), n ≤ a.length → n ≤ b.length →
      (memcmp a b n = 0 ↔ a.take n = b.take n) := by
  induction n with
  | zero => intro a b _ _; simp [memcmp]
  | succ n ih =>
    intro a b ha hb
    cases a with
    | nil => simp at ha
    | cons x xs =>
      cases b with
      | nil => simp at hb
      | cons y ys =>
        simp only [List.length_cons, Nat.add_le_add_iff_right] at ha hb
        by_cases hxy : x = y
        · subst hxy
          simp [memcmp, ih xs ys ha hb]
        · by_cases hlt : x < y <;> simp [memcmp, hxy, hlt]

theorem mp3data_bytes_length (d : mp3data_struct) : (mp3data_bytes d).length = 56 := by
  simp [mp3data_bytes, int_bytes, ulong_bytes]

theorem significant_length (d : mp3data_struct) : (significant d).length = 28 := by
  simp [significant, int_bytes]

theorem mp3data_bytes_take (d : mp3data_struct) :
    (mp3data_bytes d).take SIGNIFICANT_FRAME_INFO_SIZE = significant d := by
  have h : mp3data_bytes d = significant d ++ (int_bytes d.mode_ext ++ int_bytes d.framesize
      ++ [0, 0, 0, 0] ++ ulong_bytes d.nsamp ++ int_bytes d.totalframes ++ [0, 0, 0, 0]) := by
    simp [mp3data_bytes, significant, List.append_assoc]
  rw [h, List.take_left' (by simp [SIGNIFICANT_FRAME_INFO_SIZE, significant_length])]

theorem IsNewFrameInfo_iff (current last : mp3data_struct) :
    IsNewFrameInfo current last = true
      ↔ current.header_parsed ≠ 0 ∧ significant current ≠ significant last := by
  have hm := memcmp_eq_zero_iff SIGNIFICANT_FRAME_INFO_SIZE (mp3data_bytes current)
    (mp3data_bytes last) (by rw [mp3data_bytes_length]; decide)
    (by rw [mp3data_bytes_length]; decide)
  rw [mp3data_bytes_take, mp3data_bytes_take] at hm
  simp [IsNewFrameInfo, hm]

theorem int_bytes_inj (x y : Int) (hx : IsCInt x) (hy : IsCInt y)
    (h : int_bytes x = int_bytes y) : x = y := by
  obtain ⟨hx1, hx2⟩ := hx
  obtain ⟨hy1, hy2⟩ := hy
  simp only [int_bytes, List.cons.injEq, and_true] at h
  obtain ⟨h0, h1, h2, h3⟩ := h
  omega

theorem significant_eq_of_same (a b : mp3data_struct)
    (hp : a.header_parsed = b.header_parsed) (h : sameParams a b) :
    significant a = significant b := by
  obtain ⟨h1, h2, h3, h4, h5, h6⟩ := h
  simp [significant, hp, h1, h2, h3, h4, h5, h6]

theorem int_bytes_append_inj (x y : Int) (l1 l2 : List Nat)
    (h : int_bytes x ++ l1 = int_bytes y ++ l2) : int_bytes x = int_bytes y ∧ l1 = l2 :=
  List.append_inj h (by simp [int_bytes])

theorem sameParams_of_significant_eq (a b : mp3data_struct)
    (ha : paramsInRange a) (hb : paramsInRange b)
    (h : significant a = significant b) : sameParams a b := by
  obtain ⟨a1, a2, a3, a4, a5, a6⟩ := ha
  obtain ⟨b1, b2, b3, b4, b5, b6⟩ := hb
  unfold significant at h
  obtain ⟨_, h⟩ := int_bytes_append_inj _ _ _ _ h
  obtain ⟨e1, h⟩ := int_bytes_append_inj _ _ _ _ h
  obtain ⟨e2, h⟩ := int_bytes_append_inj _ _ _ _ h
  obtain ⟨e3, h⟩ := int_bytes_append_inj _ _ _ _ h
  obtain ⟨e4, h⟩ := int_bytes_append_inj _ _ _ _ h
  obtain ⟨e5, e6⟩ := int_bytes_append_inj _ _ _ _ h
  exact ⟨int_bytes_inj _ _ a1 b1 e1, int_bytes_inj _ _ a2 b2 e2, int_bytes_inj _ _ a3 b3 e3,
    int_bytes_inj _ _ a4 b4 e4, int_bytes_inj _ _ a5 b5 e5, int_bytes_inj _ _ a6 b6 e6⟩

theorem emitTrace_append (xs ys : List mp3data_struct) :
    ∀ c, emitTrace c (xs ++ ys) = emitTrace c xs ++ emitTrace (cacheAfter c xs) ys := by
  induction xs with
  | nil => intro c; rfl
  | cons x xs ih => intro c; simp [emitTrace, cacheAfter, ih]

theorem cacheAfter_append (xs ys : List mp3data_struct) :
    ∀ c, cacheAfter c (xs ++ ys) = cacheAfter (cacheAfter c xs) ys := by
  induction xs with
  | nil => intro c; rfl
  | cons x xs ih => intro c; simp [cacheAfter, ih]

theorem IsNewFrameInfo_unparsed (d c : mp3data_struct) (h : d.header_parsed = 0) :
    IsNewFrameInfo d c = false := by
  simp [IsNewFrameInfo, h]

theorem IsNewFrameInfo_same (d c : mp3data_struct) (h : significant d = significant c) :
    IsNewFrameInfo d c = false := by
  have := IsNewFrameInfo_iff d c
  cases hb : IsNewFrameInfo d c with
  | false => rfl
  | true => exact absurd h (this.mp hb).2

theorem quiet_unparsed (pre : List mp3data_struct) (c : mp3data_struct)
    (h : ∀ x ∈ pre, x.header_parsed = 0) :
    emitTrace c pre = List.replicate pre.length false ∧ cacheAfter c pre = c := by
  induction pre with
  | nil => exact ⟨rfl, rfl⟩
  | cons x xs ih =>
    have hx := IsNewFrameInfo_unparsed x c (h x (by simp))
    have := ih (fun y hy => h y (List.mem_cons_of_mem _ hy))
    simp [emitTrace, cacheAfter, hx, this, List.replicate_succ]

theorem quiet_same (rest : List mp3data_struct) (c d : mp3data_struct)
    (hd : d.header_parsed = 1) (hc : significant c = significant d)
    (h : ∀ x ∈ rest, x.header_parsed = 0 ∨ (x.header_parsed = 1 ∧ sameParams x d)) :
    emitTrace c rest = List.replicate rest.length false ∧ cacheAfter c rest = c := by
  induction rest with
  | nil => exact ⟨rfl, rfl⟩
  | cons x xs ih =>
    have hx : IsNewFrameInfo x c = false := by
      rcases h x (by simp) with h0 | ⟨h1, hs⟩
      · exact IsNewFrameInfo_unparsed x c h0
      · exact IsNewFrameInfo_same x c
          ((significant_eq_of_same x d (by rw [h1, hd]) hs).trans hc.symm)
    have := ih (fun y hy => h y (List.mem_cons_of_mem _ hy))
    simp [emitTrace, cacheAfter, hx, this, List.replicate_succ]

/-- Over a stretch with constant parameters that starts from a cache holding
other parameters, `frameInfo` is emitted once, on the first header-parsed
record, which the cache then holds. -/
theorem stretch_trace (pre : List mp3data_struct) (d : mp3data_struct)
    (rest : List mp3data_struct) (c : mp3data_struct) (hs : Stretch pre d rest)
    (hne : significant d ≠ significant c) :
    emitTrace c (pre ++ d :: rest)
        = List.replicate pre.length false ++ true :: List.replicate rest.length false ∧
      cacheAfter c (pre ++ d :: rest) = d := by
  obtain ⟨hpre, hd, hrest⟩ := hs
  obtain ⟨p1, p2⟩ := quiet_unparsed pre c hpre
  obtain ⟨r1, r2⟩ := quiet_same rest d d hd rfl hrest
  have hnew : IsNewFrameInfo d c = true :=
    (IsNewFrameInfo_iff d c).mpr ⟨by rw [hd]; decide, hne⟩
  constructor
  · rw [emitTrace_append, p1, p2]
    simp [emitTrace, hnew, r1]
  · rw [cacheAfter_append, p2]
    simp [cacheAfter, hnew, r2]

theorem significant_ne_zero (d : mp3data_struct) (hd : d.header_parsed = 1) :
    significant d ≠ significant mp3data_zero := by
  intro h
  unfold significant at h
  have h1 := (int_bytes_append_inj _ _ _ _ h).1
  rw [hd] at h1
  exact absurd h1 (by decide)

/-- A run of decode calls returns, and which of its results carry
`frameInfo` is determined by the cache and the `data` records of the calls. -/
theorem decodeRun_trace (bits : Int) (fuel : Nat) (hfuel : 3 ≤ fuel) (lengths : List Int) :
    ∀ (h : DecoderHandle σ), ∃ outs h1,
      decodeRun decode bits fuel h lengths = some (outs, h1) ∧
      outs.length = lengths.length ∧
      outs.map (fun o => o.2.frameInfo.isSome) = emitTrace h.lastFrame (outs.map Prod.fst) ∧
      h1.lastFrame = cacheAfter h.lastFrame (outs.map Prod.fst) := by
  induction lengths with
  | nil => intro h; exact ⟨[], h, rfl, rfl, rfl, rfl⟩
  | cons len rest ih =>
    intro h
    obtain ⟨w, hw, _⟩ := Execute_returns decode fuel hfuel (DecodeFrameWorker.new h.mp len)
    obtain ⟨outs, h1, hrun, hlen, htr, hca⟩ := ih (HandleOKCallback bits w h).2
    refine ⟨(w.data, (HandleOKCallback bits w h).1) :: outs, h1, ?_, by simp [hlen], ?_, ?_⟩
    · simp [decodeRun, hw, hrun]
    · have hl : (HandleOKCallback bits w h).2.lastFrame
          = if IsNewFrameInfo w.data h.lastFrame then w.data else h.lastFrame := by
        by_cases hn : IsNewFrameInfo w.data h.lastFrame = true <;> simp [HandleOKCallback, hn]
      rw [hl] at htr
      simp only [List.map_cons, emitTrace, htr]
      by_cases hn : IsNewFrameInfo w.data h.lastFrame = true <;> simp [HandleOKCallback, hn]
    · have hl : (HandleOKCallback bits w h).2.lastFrame
          = if IsNewFrameInfo w.data h.lastFrame then w.data else h.lastFrame := by
        by_cases hn : IsNewFrameInfo w.data h.lastFrame = true <;> simp [HandleOKCallback, hn]
      rw [hl] at hca
      simp only [List.map_cons, cacheAfter, hca]

/-- C9: a sequence of decode calls on a freshly initialised decoder (cache
zeroed) returns. If every header-parsed frame info of the run carries the
same six parameters, `frameInfo` is present on exactly one result, the first
whose data is header-parsed. If the run then continues with a stretch of
results whose header-parsed frame infos carry other parameters, `frameInfo`
is present on exactly one further result, the first with the new parameters. -/
theorem C9_frameInfo_once_per_parameter_set (bits : Int) (fuel : Nat) (h : DecoderHandle σ)
    (lengths : List Int) (hfuel : 3 ≤ fuel) (hzero : h.lastFrame = mp3data_zero) :
    ∃ outs h1, decodeRun decode bits fuel h lengths = some (outs, h1) ∧
      outs.length = lengths.length ∧
      (∀ pre d rest, outs.map Prod.fst = pre ++ d :: rest → Stretch pre d rest →
        outs.map (fun o => o.2.frameInfo.isSome)
          = List.replicate pre.length false ++ true :: List.replicate rest.length false) ∧
      (∀ pre d rest pre2 d2 rest2,
        outs.map Prod.fst = (pre ++ d :: rest) ++ (pre2 ++ d2 :: rest2) →
        Stretch pre d rest → Stretch pre2 d2 rest2 →
        paramsInRange d → paramsInRange d2 → ¬ sameParams d2 d →
        outs.map (fun o => o.2.frameInfo.isSome)
          = (List.replicate pre.length false ++ true :: List.replicate rest.length false)
            ++ (List.replicate pre2.length false ++ true :: List.replicate rest2.length false)) := by
  obtain ⟨outs, h1, hrun, hlen, htr, _⟩ := decodeRun_trace decode bits fuel hfuel lengths h
  rw [hzero] at htr
  refine ⟨outs, h1, hrun, hlen, ?_, ?_⟩
  · intro pre d rest hsplit hs
    rw [htr, hsplit]
    exact (stretch_trace pre d rest mp3data_zero hs (significant_ne_zero d hs.2.1)).1
  · intro pre d rest pre2 d2 rest2 hsplit hs hs2 hr hr2 hdiff
    obtain ⟨t1, c1⟩ := stretch_trace pre d rest mp3data_zero hs (significant_ne_zero d hs.2.1)
    have hne : significant d2 ≠ significant d :=
      fun he => hdiff (sameParams_of_significant_eq d2 d hr2 hr he)
    rw [htr, hsplit, emitTrace_append, t1, c1]
    rw [(stretch_trace pre2 d2 rest2 d hs2 hne).1]

/-- C9, concrete run (scenario E3): five calls on an initialised handle; the
first finds no header, the next two decode frames at 128 kbit/s, the last two
frames at 64 kbit/s. `frameInfo` is on the second and the fourth result. -/
theorem C9_frameInfo_once_per_parameter_set_witness :
    3 ≤ 3 ∧ scriptHandle.lastFrame = mp3data_zero ∧
      ∃ outs h1, decodeRun scriptedDecoder 16 3 scriptHandle [4096, 4096, 4096, 4096, 4096]
          = some (outs, h1) ∧
        outs.map Prod.fst = [unparsedInfo, parsedInfo 128, parsedInfo 128, parsedInfo 64,
          parsedInfo 64] ∧
        outs.map (fun o => o.2.frameInfo.isSome) = [false, true, false, true, false] := by
  obtain ⟨outs, h1, hrun, _, _, hB⟩ := C9_frameInfo_once_per_parameter_set scriptedDecoder 16 3
    scriptHandle [4096, 4096, 4096, 4096, 4096] (by decide) rfl
  have hdata : (decodeRun scriptedDecoder 16 3 scriptHandle [4096, 4096, 4096, 4096, 4096]).map
      (fun r => r.1.map Prod.fst)
      = some [unparsedInfo, parsedInfo 128, parsedInfo 128, parsedInfo 64, parsedInfo 64] := by
    decide
  rw [hrun] at hdata
  simp only [Option.map_some', Option.some.injEq] at hdata
  refine ⟨by decide, rfl, outs, h1, hrun, hdata, ?_⟩
  have := hB [unparsedInfo] (parsedInfo 128) [parsedInfo 128] [] (parsedInfo 64) [parsedInfo 64]
    (by rw [hdata]; rfl) (by decide) (by decide) (by decide) (by decide) (by decide)
  simpa using this

/-- C10: for every inner decoder and every input length > 0 (given fuel for
three passes of the loop) the worker returns after `k` inner decoder calls,
1 ≤ k ≤ 3, which are the first `k` calls of `innerCall` (the inner decoder
applied to the input length, then to length 0 on what the call before left);
with n the value that call number `k` of the inner decoder returned,
`samplesRead = n`, `isError = (n < 0)` and `needData = (n == 0)`; the
delivered result carries the same three values, and exactly one of `error`,
`needMoreData` and `sampleCount > 0` holds. -/
theorem C10_worker_outputs (bits : Int) (fuel : Nat) (h : DecoderHandle σ) (length : Int)
    (hfuel : 3 ≤ fuel) (hlen : 0 < length) :
    ∃ (k : Nat) (w : DecodeFrameWorker σ) (r : DecodeResult) (h1 : DecoderHandle σ),
      1 ≤ k ∧ k ≤ 3 ∧
      StartDecoding decode fuel (DecodeFrameWorker.new h.mp length) = some w ∧
      Execute decode fuel (DecodeFrameWorker.new h.mp length) = some w ∧
      w.calls = innerTrace decode h.mp length k ∧
      (∃ len, w.calls.getLast? = some (len, (innerCall decode h.mp length (k - 1)).1)) ∧
      (w.samplesRead, w.data, w.mp) = innerCall decode h.mp length (k - 1) ∧
      w.isError = decide ((innerCall decode h.mp length (k - 1)).1 < 0) ∧
      w.needData = decide ((innerCall decode h.mp length (k - 1)).1 = 0) ∧
      decodeFrame decode bits fuel h length = some (r, h1) ∧
      r.sampleCount = (innerCall decode h.mp length (k - 1)).1 ∧
      r.error = decide ((innerCall decode h.mp length (k - 1)).1 < 0) ∧
      r.needMoreData = decide ((innerCall decode h.mp length (k - 1)).1 = 0) ∧
      ((r.error = true ∧ r.needMoreData = false ∧ ¬ 0 < r.sampleCount) ∨
       (r.error = false ∧ r.needMoreData = true ∧ ¬ 0 < r.sampleCount) ∨
       (r.error = false ∧ r.needMoreData = false ∧ 0 < r.sampleCount)) := by
  obtain ⟨k, w, hk1, hk3, hw, hstart, _, hres, hcalls, herr, hneed⟩ :=
    Execute_inner decode fuel hfuel h.mp length
  have hn : w.samplesRead = (innerCall decode h.mp length (k - 1)).1 := congrArg Prod.fst hres
  have hs : (HandleOKCallback bits w h).1.sampleCount = w.samplesRead := rfl
  have he : (HandleOKCallback bits w h).1.error = w.isError := rfl
  have hd : (HandleOKCallback bits w h).1.needMoreData = w.needData := rfl
  have hlast : ∃ len, w.calls.getLast? = some (len, (innerCall decode h.mp length (k - 1)).1) := by
    rw [hcalls]
    obtain ⟨j, rfl⟩ : ∃ j, k = j + 1 := ⟨k - 1, by omega⟩
    refine ⟨if j = 0 then length else 0, ?_⟩
    simp [innerTrace, List.range_succ]
  refine ⟨k, w, (HandleOKCallback bits w h).1, (HandleOKCallback bits w h).2, hk1, hk3,
    hstart hlen, hw, hcalls, hlast, hres, herr, hneed,
    decodeFrame_eq decode bits fuel h length w hw, by rw [hs, hn], by rw [he, herr],
    by rw [hd, hneed], ?_⟩
  rw [hs, he, hd, herr, hneed, hn]
  rcases lt_trichotomy (innerCall decode h.mp length (k - 1)).1 0 with hneg | hzero | hpos
  · left
    have : ¬ (innerCall decode h.mp length (k - 1)).1 = 0 := by omega
    have : ¬ 0 < (innerCall decode h.mp length (k - 1)).1 := by omega
    simp [*]
  · right; left
    simp [hzero]
  · right; right
    have : ¬ (innerCall decode h.mp length (k - 1)).1 = 0 := by omega
    have : ¬ (innerCall decode h.mp length (k - 1)).1 < 0 := by omega
    simp [*]

/-- C10, instance: on 4096 bytes the inner decoder finds no header, parses
the header on the first flush call and returns 1152 samples on the second;
the worker makes these three calls and ends with `samplesRead = 1152`, no
error and no need for data. -/
theorem C10_worker_outputs_witness :
    3 ≤ 3 ∧ (0 : Int) < 4096 ∧
    (Execute scriptedDecoder 3 (DecodeFrameWorker.new threeCallHandle.mp 4096)).map
        (fun w => (w.calls, w.samplesRead, w.isError, w.needData))
      = some ([(4096, 0), (0, 0), (0, 1152)], 1152, false, false) ∧
    (decodeFrame scriptedDecoder 16 3 threeCallHandle 4096).map
        (fun p => (p.1.sampleCount, p.1.error, p.1.needMoreData)) = some (1152, false, false) ∧
    ∃ (k : Nat) (w : DecodeFrameWorker (List (Int × mp3data_struct))) (r : DecodeResult)
        (h1 : DecoderHandle (List (Int × mp3data_struct))),
      1 ≤ k ∧ k ≤ 3 ∧
      StartDecoding scriptedDecoder 3 (DecodeFrameWorker.new threeCallHandle.mp 4096) = some w ∧
      Execute scriptedDecoder 3 (DecodeFrameWorker.new threeCallHandle.mp 4096) = some w ∧
      w.calls = innerTrace scriptedDecoder threeCallHandle.mp 4096 k ∧
      (∃ len, w.calls.getLast?
        = some (len, (innerCall scriptedDecoder threeCallHandle.mp 4096 (k - 1)).1)) ∧
      (w.samplesRead, w.data, w.mp) = innerCall scriptedDecoder threeCallHandle.mp 4096 (k - 1) ∧
      w.isError = decide ((innerCall scriptedDecoder threeCallHandle.mp 4096 (k - 1)).1 < 0) ∧
      w.needData = decide ((innerCall scriptedDecoder threeCallHandle.mp 4096 (k - 1)).1 = 0) ∧
      decodeFrame scriptedDecoder 16 3 threeCallHandle 4096 = some (r, h1) ∧
      r.sampleCount = (innerCall scriptedDecoder threeCallHandle.mp 4096 (k - 1)).1 ∧
      r.error = decide ((innerCall scriptedDecoder threeCallHandle.mp 4096 (k - 1)).1 < 0) ∧
      r.needMoreData
        = decide ((innerCall scriptedDecoder threeCallHandle.mp 4096 (k - 1)).1 = 0) ∧
      ((r.error = true ∧ r.needMoreData = false ∧ ¬ 0 < r.sampleCount) ∨
       (r.error = false ∧ r.needMoreData = true ∧ ¬ 0 < r.sampleCount) ∨
       (r.error = false ∧ r.needMoreData = false ∧ 0 < r.sampleCount)) :=
  ⟨by decide, by decide, by decide, by decide,
    C10_worker_outputs scriptedDecoder 16 3 threeCallHandle 4096 (by decide) (by decide)⟩

/-- C11 (counterexample): a `decodeFrame` call on 4096 fresh bytes whose
inner decoder parses the header and produces no samples (terminal result 0,
`header_parsed = 1`) delivers `sampleCount = 0`, a frameInfo object, and
`needMoreData = true`, not `false`. -/
theorem C11_counterexample :
    (Execute scriptedDecoder 3 (DecodeFrameWorker.new headerOnlyHandle.mp 4096)).map
        (fun w => (w.samplesRead, w.data.header_parsed)) = some (0, 1) ∧
      (decodeFrame scriptedDecoder 16 3 headerOnlyHandle 4096).map
        (fun p => (p.1.sampleCount, p.1.needMoreData, p.1.frameInfo.isSome))
          = some (0, true, true) := by
  decide

/-- C11 (amended): a `decodeFrame` call returns; when it ends with the header
parsed but no samples produced (terminal inner result 0, `header_parsed = 1`),
the delivered result has `sampleCount = 0`, `needMoreData = true`,
`error = false`, no sample buffers, and a frameInfo object exactly when the
parsed parameters differ from the cached ones, in particular on a handle
whose cache is still zeroed. -/
theorem C11_header_without_samples {σ : Type} (decode : InnerDecoder σ) (bits : Int)
    (fuel : Nat) (h : DecoderHandle σ) (length : Int) (hfuel : 3 ≤ fuel) :
    ∃ w r h1, Execute decode fuel (DecodeFrameWorker.new h.mp length) = some w ∧
      decodeFrame decode bits fuel h length = some (r, h1) ∧
      (w.samplesRead = 0 → w.data.header_parsed = 1 →
        r.sampleCount = 0 ∧ r.needMoreData = true ∧ r.error = false ∧
        r.samplesLeft = none ∧ r.samplesRight = none ∧
        r.frameInfo = (if significant w.data = significant h.lastFrame then none
                       else some (GetFrameInfoObject w.data bits)) ∧
        (h.lastFrame = mp3data_zero → r.frameInfo = some (GetFrameInfoObject w.data bits))) := by
  obtain ⟨w, hw, _, herr, hneed⟩ :=
    Execute_returns decode fuel hfuel (DecodeFrameWorker.new h.mp length)
  refine ⟨w, (HandleOKCallback bits w h).1, (HandleOKCallback bits w h).2, hw,
    decodeFrame_eq decode bits fuel h length w hw, ?_⟩
  intro hn hp
  have hiff := IsNewFrameInfo_iff w.data h.lastFrame
  have hinfo : (HandleOKCallback bits w h).1.frameInfo
      = (if significant w.data = significant h.lastFrame then none
         else some (GetFrameInfoObject w.data bits)) := by
    by_cases hs : significant w.data = significant h.lastFrame
    · have hb : IsNewFrameInfo w.data h.lastFrame = false := by
        cases hb : IsNewFrameInfo w.data h.lastFrame with
        | false => rfl
        | true => exact absurd hs (hiff.mp hb).2
      simp [HandleOKCallback, hb, hs]
    · have hb : IsNewFrameInfo w.data h.lastFrame = true :=
        hiff.mpr ⟨by rw [hp]; decide, hs⟩
      simp [HandleOKCallback, hb, hs]
  refine ⟨hn, ?_, ?_, ?_, ?_, hinfo, ?_⟩
  · show w.needData = true
    rw [hneed, hn]; decide
  · show w.isError = false
    rw [herr, hn]; decide
  · simp [HandleOKCallback, hn]
  · simp [HandleOKCallback, hn]
  · intro hz
    rw [hinfo, hz, if_neg (significant_ne_zero w.data hp)]

/-- C11 (amended), instance: the header-only script on 4096 fresh bytes. -/
theorem C11_header_without_samples_witness :
    (3 : Nat) ≤ 3 ∧
      ∃ w r h1,
        Execute scriptedDecoder 3 (DecodeFrameWorker.new headerOnlyHandle.mp 4096) = some w ∧
        decodeFrame scriptedDecoder 16 3 headerOnlyHandle 4096 = some (r, h1) ∧
        (w.samplesRead = 0 → w.data.header_parsed = 1 →
          r.sampleCount = 0 ∧ r.needMoreData = true ∧ r.error = false ∧
          r.samplesLeft = none ∧ r.samplesRight = none ∧
          r.frameInfo = (if significant w.data = significant headerOnlyHandle.lastFrame then none
                         else some (GetFrameInfoObject w.data 16)) ∧
          (headerOnlyHandle.lastFrame = mp3data_zero →
            r.frameInfo = some (GetFrameInfoObject w.data 16))) :=
  ⟨le_refl 3, C11_header_without_samples scriptedDecoder 16 3 headerOnlyHandle 4096 (le_refl 3)⟩

/-- C12 (failing run): `initDecoder` called with a host buffer of fewer bytes
than the size query reports returns the success code 0 and writes: after the
stores of `InitMP3` it stores the signature word and zeroes the 56 bytes of
the frame-info cache at `Length - 60`. That cache range begins before the end
of the decoder state (it overwrites state bytes, or begins before the buffer
when the buffer has fewer than 60 bytes, which is a write outside it), and
the signature store is outside a buffer that ends before the signature
field. -/
theorem C12_initDecoder_ignores_buffer_size (InitMP3_stores : List Store)
    (sizeof_hip_global_flags signature_offset length : Nat)
    (hsize : sizeof_hip_global_flags + 60 < 2147483648)
    (hsmall : (length : Int) < initDecoder_size sizeof_hip_global_flags) :
    (initDecoder_stores InitMP3_stores signature_offset length).2 = 0 ∧
      (initDecoder_stores InitMP3_stores signature_offset length).1
        = InitMP3_stores ++ [{ offset := (signature_offset : Int), size := 4 },
            { offset := (length : Int) - 60, size := 56 }] ∧
      (length : Int) - 60 < (sizeof_hip_global_flags : Int) ∧
      (length < 60 → ¬ Store.inBounds length { offset := (length : Int) - 60, size := 56 }) ∧
      (length < signature_offset + 4 →
        ¬ Store.inBounds length { offset := (signature_offset : Int), size := 4 }) := by
  have hrep : initDecoder_size sizeof_hip_global_flags = (sizeof_hip_global_flags : Int) + 60 := by
    unfold initDecoder_size
    rw [SimpleVad.wrap32_of_range _ (by simp [sizeof_mp3data_struct]; omega)
      (by simp [sizeof_mp3data_struct]; omega)]
    simp [sizeof_mp3data_struct]; omega
  rw [hrep] at hsmall
  refine ⟨rfl, ?_, by omega, ?_, ?_⟩
  · simp [initDecoder_stores, hip_decode_init_stores, GetFrameInfo, sizeof_mp3data_struct]
    omega
  · intro hl hb
    have := hb.1
    simp only at this
    omega
  · intro hl hb
    have := hb.2
    simp only at this
    omega

/-- C12 (failing run), instance: a 16-byte buffer where the size query
reports 160 bytes. -/
theorem C12_initDecoder_ignores_buffer_size_witness :
    (100 : Nat) + 60 < 2147483648 ∧ ((16 : Nat) : Int) < initDecoder_size 100 ∧
      (initDecoder_stores [] 96 16).2 = 0 ∧
      (initDecoder_stores [] 96 16).1
        = [] ++ [{ offset := ((96 : Nat) : Int), size := 4 },
            { offset := ((16 : Nat) : Int) - 60, size := 56 }] ∧
      ((16 : Nat) : Int) - 60 < ((100 : Nat) : Int) ∧
      (16 < 60 → ¬ Store.inBounds 16 { offset := ((16 : Nat) : Int) - 60, size := 56 }) ∧
      (16 < 96 + 4 → ¬ Store.inBounds 16 { offset := ((96 : Nat) : Int), size := 4 }) :=
  ⟨by decide, by decide,
    C12_initDecoder_ignores_buffer_size [] 100 96 16 (by decide) (by decide)⟩

theorem header_of_significant_eq (a b : mp3data_struct) (ha : IsCInt a.header_parsed)
    (hb : IsCInt b.header_parsed) (h : significant a = significant b) :
    a.header_parsed = b.header_parsed := by
  unfold significant at h
  exact int_bytes_inj _ _ ha hb (int_bytes_append_inj _ _ _ _ h).1

/-- C24: `IsNewFrameInfo(current, last)` is true if and only if
`current.header_parsed` is non-zero and the two records differ in their
first 28 bytes; for records whose fields are C `int`s the first 28 bytes are
equal exactly when header_parsed, version, layer, stereo, samplerate, bitrate
and mode are equal, so records that differ only in mode_ext, framesize, nsamp
or totalframes are reported as the same metadata. -/
theorem C24_significant_prefix_decides (current last : mp3data_struct)
    (hc : IsCInt current.header_parsed ∧ paramsInRange current)
    (hl : IsCInt last.header_parsed ∧ paramsInRange last) :
    (IsNewFrameInfo current last = true
        ↔ current.header_parsed ≠ 0 ∧
          (mp3data_bytes current).take 28 ≠ (mp3data_bytes last).take 28) ∧
      ((mp3data_bytes current).take 28 = (mp3data_bytes last).take 28
        ↔ current.header_parsed = last.header_parsed ∧ sameParams current last) ∧
      (∀ (mode_ext framesize : Int) (nsamp : Nat) (totalframes : Int),
        IsNewFrameInfo { current with mode_ext := mode_ext, framesize := framesize,
                                      nsamp := nsamp, totalframes := totalframes } current
          = false) := by
  have t1 := mp3data_bytes_take current
  have t2 := mp3data_bytes_take last
  simp only [SIGNIFICANT_FRAME_INFO_SIZE] at t1 t2
  rw [t1, t2]
  refine ⟨IsNewFrameInfo_iff current last, ?_, ?_⟩
  · constructor
    · intro h
      exact ⟨header_of_significant_eq current last hc.1 hl.1 h,
        sameParams_of_significant_eq current last hc.2 hl.2 h⟩
    · intro h
      exact significant_eq_of_same current last h.1 h.2
  · intro m f ns tf
    exact IsNewFrameInfo_same _ _ rfl

/-- C24, instance: a parsed record at 128 kbit/s against one at 64 kbit/s. -/
theorem C24_significant_prefix_decides_witness :
    (IsCInt (parsedInfo 128).header_parsed ∧ paramsInRange (parsedInfo 128)) ∧
      (IsCInt (parsedInfo 64).header_parsed ∧ paramsInRange (parsedInfo 64)) ∧
      ((IsNewFrameInfo (parsedInfo 128) (parsedInfo 64) = true
          ↔ (parsedInfo 128).header_parsed ≠ 0 ∧
            (mp3data_bytes (parsedInfo 128)).take 28 ≠ (mp3data_bytes (parsedInfo 64)).take 28) ∧
        ((mp3data_bytes (parsedInfo 128)).take 28 = (mp3data_bytes (parsedInfo 64)).take 28
          ↔ (parsedInfo 128).header_parsed = (parsedInfo 64).header_parsed ∧
            sameParams (parsedInfo 128) (parsedInfo 64)) ∧
        (∀ (mode_ext framesize : Int) (nsamp : Nat) (totalframes : Int),
          IsNewFrameInfo { parsedInfo 128 with mode_ext := mode_ext, framesize := framesize,
                                               nsamp := nsamp, totalframes := totalframes }
            (parsedInfo 128) = false)) ∧
      IsNewFrameInfo (parsedInfo 128) (parsedInfo 64) = true :=
  ⟨by decide, by decide,
    C24_significant_prefix_decides (parsedInfo 128) (parsedInfo 64) (by decide) (by decide),
    by decide⟩

/-- C25: a decode call returns; `frameInfo` is emitted exactly when
`IsNewFrameInfo` reports a change against the cache; if it is emitted, the
cache in the handle becomes the call's whole `mp3data_struct` and the cached
bits per sample become `sizeof(T) * 8` (16 for `decodeFrame`, 32 for
`decodeFrameFloat`); if it is not, both are unchanged. -/
theorem C25_cache_follows_emission (T : SampleType) (fuel : Nat) (h : DecoderHandle σ)
    (length : Int) (hfuel : 3 ≤ fuel) :
    ∃ w r h1, Execute decode fuel (DecodeFrameWorker.new h.mp length) = some w ∧
      decodeFrame decode T.bits fuel h length = some (r, h1) ∧
      r.frameInfo.isSome = IsNewFrameInfo w.data h.lastFrame ∧
      (r.frameInfo.isSome = true →
        r.frameInfo = some (GetFrameInfoObject w.data T.bits) ∧
        h1.lastFrame = w.data ∧ h1.bitsPerSample = T.bits) ∧
      (r.frameInfo.isSome = false →
        h1.lastFrame = h.lastFrame ∧ h1.bitsPerSample = h.bitsPerSample) ∧
      SampleType.int16_t.bits = 16 ∧ SampleType.float.bits = 32 := by
  obtain ⟨w, hw, _⟩ := Execute_returns decode fuel hfuel (DecodeFrameWorker.new h.mp length)
  refine ⟨w, (HandleOKCallback T.bits w h).1, (HandleOKCallback T.bits w h).2, hw,
    decodeFrame_eq decode T.bits fuel h length w hw, ?_, ?_, ?_, rfl, rfl⟩
  · cases hb : IsNewFrameInfo w.data h.lastFrame <;> simp [HandleOKCallback, hb]
  · cases hb : IsNewFrameInfo w.data h.lastFrame <;> simp [HandleOKCallback, hb]
  · cases hb : IsNewFrameInfo w.data h.lastFrame <;> simp [HandleOKCallback, hb]

/-- C25, instance: the first float decode call of the scripted stream leaves
the cache as it was; the call on the header-only stream fills it. -/
theorem C25_cache_follows_emission_witness :
    (3 : Nat) ≤ 3 ∧
      (∃ w r h1,
        Execute scriptedDecoder 3 (DecodeFrameWorker.new headerOnlyHandle.mp 4096) = some w ∧
        decodeFrame scriptedDecoder SampleType.float.bits 3 headerOnlyHandle 4096
          = some (r, h1) ∧
        r.frameInfo.isSome = IsNewFrameInfo w.data headerOnlyHandle.lastFrame ∧
        (r.frameInfo.isSome = true →
          r.frameInfo = some (GetFrameInfoObject w.data SampleType.float.bits) ∧
          h1.lastFrame = w.data ∧ h1.bitsPerSample = SampleType.float.bits) ∧
        (r.frameInfo.isSome = false →
          h1.lastFrame = headerOnlyHandle.lastFrame ∧
          h1.bitsPerSample = headerOnlyHandle.bitsPerSample) ∧
        SampleType.int16_t.bits = 16 ∧ SampleType.float.bits = 32) ∧
      (decodeFrame scriptedDecoder SampleType.float.bits 3 headerOnlyHandle 4096).map
        (fun p => (p.1.frameInfo.isSome, p.2.lastFrame, p.2.bitsPerSample))
          = some (true, parsedInfo 128, 32) ∧
      (decodeFrame scriptedDecoder SampleType.float.bits 3 scriptHandle 4096).map
        (fun p => (p.1.frameInfo.isSome, p.2.lastFrame, p.2.bitsPerSample))
          = some (false, mp3data_zero, 0) :=
  ⟨le_refl 3,
    C25_cache_follows_emission scriptedDecoder SampleType.float 3 headerOnlyHandle 4096
      (le_refl 3),
    by decide, by decide⟩

theorem hip_validate_eq_zero_iff (h : DecoderHandle σ) :
    hip_validate h = 0 ↔ h.signature % 4294967296 = HIP_SIGNATURE := by
  unfold hip_validate SimpleVad.wrap32 HIP_SIGNATURE
  omega

/-- C26: `hip_validate` returns 0 if and only if the handle is `NULL` or its
signature word is 0xDEADC0DE; it rejects a zero-filled region with a non-zero
result, on which `freeDecoder` throws, and it accepts any region on which
`hip_decode_init` has run, on which `freeDecoder` succeeds. -/
theorem C26_signature_guard (InitMP3 ExitMP3 : σ → σ) (h : DecoderHandle σ) (mp : σ)
    (hip : Option (DecoderHandle σ)) :
    (hip_validate_ptr hip = 0
        ↔ hip = none ∨ ∃ x, hip = some x ∧ x.signature % 4294967296 = HIP_SIGNATURE) ∧
      HIP_SIGNATURE = 0xDEADC0DE ∧
      hip_validate_ptr (some (zeroHandle mp)) ≠ 0 ∧
      freeDecoder ExitMP3 (some (zeroHandle mp)) = .error TypeError.invalidDecoderState ∧
      (hip_decode_init InitMP3 h).2 = 0 ∧
      hip_validate_ptr (some (hip_decode_init InitMP3 h).1) = 0 ∧
      freeDecoder ExitMP3 (some (hip_decode_init InitMP3 h).1)
        = .ok (some { (hip_decode_init InitMP3 h).1 with mp := ExitMP3 (InitMP3 h.mp) }) := by
  have hz : hip_validate (zeroHandle mp) ≠ 0 := by
    rw [Ne, hip_validate_eq_zero_iff]
    show ¬ ((0 : Int) % 4294967296 = HIP_SIGNATURE)
    decide
  have hi : hip_validate (hip_decode_init InitMP3 h).1 = 0 := by
    rw [hip_validate_eq_zero_iff]
    show SimpleVad.wrap32 HIP_SIGNATURE % 4294967296 = HIP_SIGNATURE
    decide
  refine ⟨?_, rfl, hz, ?_, rfl, hi, ?_⟩
  · cases hip with
    | none => simp [hip_validate_ptr]
    | some x => simp [hip_validate_ptr, hip_validate_eq_zero_iff]
  · simp [freeDecoder, hip_validate_ptr, hz]
  · simp only [freeDecoder, hip_validate_ptr, hi, ne_eq, not_true_eq_false, if_false]
    rfl

/-- C27: `initDecoder` without a buffer returns N = (size of the inner decoder
state) + (size of the frame-info cache record) + (size of the bits-per-sample
`int`), which is positive; `initDecoder` with a buffer of at least N bytes
returns 0, leaves the handle passing `hip_validate` and zeroes the cached
record; its signature and cache stores lie inside the buffer and the cache
begins at or after the end of the decoder state. -/
theorem C27_two_phase_init (InitMP3 : σ → σ) (InitMP3_stores : List Store)
    (h : DecoderHandle σ) (sizeof_hip_global_flags signature_offset length : Nat)
    (hsize : sizeof_hip_global_flags + 60 < 2147483648)
    (hsig : signature_offset + 4 ≤ sizeof_hip_global_flags)
    (hlen : initDecoder_size sizeof_hip_global_flags ≤ (length : Int)) :
    initDecoder_size sizeof_hip_global_flags
        = (sizeof_hip_global_flags : Int) + (sizeof_mp3data_struct : Int) + 4 ∧
      0 < initDecoder_size sizeof_hip_global_flags ∧
      (initDecoder InitMP3 h).2 = 0 ∧
      hip_validate (initDecoder InitMP3 h).1 = 0 ∧
      (initDecoder InitMP3 h).1.lastFrame = mp3data_zero ∧
      (initDecoder_stores InitMP3_stores signature_offset length).2 = 0 ∧
      (initDecoder_stores InitMP3_stores signature_offset length).1
        = InitMP3_stores ++ [{ offset := (signature_offset : Int), size := 4 },
            { offset := GetFrameInfo length, size := sizeof_mp3data_struct }] ∧
      Store.inBounds length { offset := (signature_offset : Int), size := 4 } ∧
      Store.inBounds length { offset := GetFrameInfo length, size := sizeof_mp3data_struct } ∧
      (sizeof_hip_global_flags : Int) ≤ GetFrameInfo length := by
  have hrep : initDecoder_size sizeof_hip_global_flags
      = (sizeof_hip_global_flags : Int) + (sizeof_mp3data_struct : Int) + 4 := by
    unfold initDecoder_size
    rw [SimpleVad.wrap32_of_range _ (by simp [sizeof_mp3data_struct]; omega)
      (by simp [sizeof_mp3data_struct]; omega)]
  have h56 : (sizeof_mp3data_struct : Int) = 56 := rfl
  rw [hrep, h56] at hlen
  have hv : hip_validate (initDecoder InitMP3 h).1 = 0 := by
    rw [hip_validate_eq_zero_iff]
    show SimpleVad.wrap32 HIP_SIGNATURE % 4294967296 = HIP_SIGNATURE
    decide
  refine ⟨hrep, by rw [hrep, h56]; omega, rfl, hv, rfl, rfl, ?_, ?_, ?_, ?_⟩
  · simp [initDecoder_stores, hip_decode_init_stores]
  · constructor
    · show (0 : Int) ≤ (signature_offset : Int)
      omega
    · show (signature_offset : Int) + ((4 : Nat) : Int) ≤ (length : Int)
      omega
  · constructor
    · show (0 : Int) ≤ (length : Int) - (sizeof_mp3data_struct : Int) - 4
      rw [h56]; omega
    · show (length : Int) - (sizeof_mp3data_struct : Int) - 4
        + ((sizeof_mp3data_struct : Nat) : Int) ≤ (length : Int)
      omega
  · show (sizeof_hip_global_flags : Int) ≤ (length : Int) - (sizeof_mp3data_struct : Int) - 4
    rw [h56]; omega

/-- C27, instance: a decoder state of 100 bytes with the signature in its
last word, and a buffer of exactly 160 bytes. -/
theorem C27_two_phase_init_witness :
    (100 : Nat) + 60 < 2147483648 ∧ (96 : Nat) + 4 ≤ 100 ∧
      initDecoder_size 100 ≤ ((160 : Nat) : Int) ∧
      initDecoder_size 100 = 160 ∧
      (initDecoder_size 100 = ((100 : Nat) : Int) + (sizeof_mp3data_struct : Int) + 4 ∧
        0 < initDecoder_size 100 ∧
        (initDecoder (fun _ : Unit => ()) (zeroHandle ())).2 = 0 ∧
        hip_validate (initDecoder (fun _ : Unit => ()) (zeroHandle ())).1 = 0 ∧
        (initDecoder (fun _ : Unit => ()) (zeroHandle ())).1.lastFrame = mp3data_zero ∧
        (initDecoder_stores [] 96 160).2 = 0 ∧
        (initDecoder_stores [] 96 160).1
          = [] ++ [{ offset := ((96 : Nat) : Int), size := 4 },
              { offset := GetFrameInfo 160, size := sizeof_mp3data_struct }] ∧
        Store.inBounds 160 { offset := ((96 : Nat) : Int), size := 4 } ∧
        Store.inBounds 160 { offset := GetFrameInfo 160, size := sizeof_mp3data_struct } ∧
        ((100 : Nat) : Int) ≤ GetFrameInfo 160) :=
  ⟨by decide, by decide, by decide, by decide,
    C27_two_phase_init (fun _ : Unit => ()) [] (zeroHandle ()) 100 96 160 (by decide)
      (by decide) (by decide)⟩

/-- C29: a decode call entered with length 0 returns (with any fuel) after
exactly one inner decoder call, made with input length 0, and reports that
call's return value n directly: `sampleCount = n`, `error = (n < 0)`,
`needMoreData = (n == 0)`. -/
theorem C29_flush_call (bits : Int) (fuel : Nat) (h : DecoderHandle σ) :
    ∃ w r h1, Execute decode fuel (DecodeFrameWorker.new h.mp 0) = some w ∧
      decodeFrame decode bits fuel h 0 = some (r, h1) ∧
      w.calls = [(0, (decode h.mp 0 mp3data_zero).1)] ∧
      r.sampleCount = (decode h.mp 0 mp3data_zero).1 ∧
      r.error = decide ((decode h.mp 0 mp3data_zero).1 < 0) ∧
      r.needMoreData = decide ((decode h.mp 0 mp3data_zero).1 = 0) := by
  have hw : Execute decode fuel (DecodeFrameWorker.new h.mp 0)
      = some { (DecodeFrameWorker.new h.mp 0).decode decode 0 with
          isError := decide (((DecodeFrameWorker.new h.mp 0).decode decode 0).samplesRead < 0)
          needData := decide (((DecodeFrameWorker.new h.mp 0).decode decode 0).samplesRead = 0) } := by
    simp [Execute, DecodeFrameWorker.new]
  refine ⟨_, _, _, hw, decodeFrame_eq decode bits fuel h 0 _ hw, ?_, ?_, ?_, ?_⟩ <;>
    simp [DecodeFrameWorker.decode, DecodeFrameWorker.new, HandleOKCallback]

theorem transform_spec (buf : List ℚ) (n : Nat) (op : ℚ → ℚ) (h : n ≤ buf.length) :
    ∃ t, transform buf n op = some t ∧ t.length = buf.length ∧
      (∀ i : Nat, i < n → t[i]? = (buf[i]?).map op) ∧
      (∀ i : Nat, n ≤ i → t[i]? = buf[i]?) := by
  refine ⟨(buf.take n).map op ++ buf.drop n, by simp [transform, h], ?_, ?_, ?_⟩
  · simp [List.length_take]; omega
  · intro i hi
    rw [List.getElem?_append_left (by simp [List.length_take]; omega)]
    rw [List.getElem?_map, List.getElem?_take_of_lt hi]
  · intro i hi
    rw [List.getElem?_append_right (by simp [List.length_take]; omega)]
    simp only [List.length_map, List.length_take, List.getElem?_drop]
    congr 1
    omega

theorem roundTiesEven_int (j : Int) : roundTiesEven (j : ℚ) = j := by
  unfold roundTiesEven
  rw [Int.floor_intCast]
  simp

theorem roundTiesEven_abs_le (q : ℚ) (N : Int) (h : |q| ≤ (N : ℚ)) : |roundTiesEven q| ≤ N := by
  obtain ⟨h1, h2⟩ := abs_le.mp h
  have hf1 : -N ≤ ⌊q⌋ := Int.le_floor.mpr (by push_cast; exact h1)
  have hf2 : (⌊q⌋ : ℚ) ≤ q := Int.floor_le q
  have hf3 : ⌊q⌋ ≤ N := by
    have : ((⌊q⌋ : Int) : ℚ) ≤ (N : ℚ) := le_trans hf2 h2
    exact_mod_cast this
  rw [abs_le]
  unfold roundTiesEven
  have hup : ¬ q - ⌊q⌋ < 1 / 2 → ⌊q⌋ + 1 ≤ N := by
    intro hfrac
    by_contra hc
    have heq : ⌊q⌋ = N := by omega
    have : (N : ℚ) ≤ q := by rw [← heq]; exact hf2
    have hq : q = N := le_antisymm h2 this
    apply hfrac
    rw [heq, hq]
    norm_num
  split_ifs with a b c
  · exact ⟨hf1, hf3⟩
  · exact ⟨by omega, hup a⟩
  · exact ⟨hf1, hf3⟩
  · exact ⟨by omega, hup a⟩

theorem normalise_exact (s : ℚ) (h : 1 / 2 ^ 111 ≤ |s|) : normalise s = s * (1 / 32768) := by
  unfold normalise
  rw [if_pos]
  rw [abs_mul]
  have : |(1 / 32768 : ℚ)| = 1 / 32768 := abs_of_pos (by norm_num)
  rw [this]
  have h2 : (1 : ℚ) / 2 ^ 126 = 1 / 2 ^ 111 * (1 / 32768) := by norm_num
  rw [h2]
  exact mul_le_mul_of_nonneg_right h (by norm_num)

theorem normalise_exact_grid (s : ℚ) (j : Int) (h : s = (j : ℚ) / 2 ^ 134) :
    normalise s = s * (1 / 32768) := by
  unfold normalise
  split_ifs with a
  · rfl
  · have hp : s * (1 / 32768) * 2 ^ 149 = (j : ℚ) := by
      rw [h]
      ring
    rw [hp, roundTiesEven_int, ← hp]
    ring

theorem normalise_zero : normalise 0 = 0 := by
  rw [normalise_exact_grid 0 0 (by norm_num)]
  norm_num

theorem normalise_big (s : ℚ) (h : 32768 < |s|) : 1 < |normalise s| := by
  rw [normalise_exact s (by
    have : (1 : ℚ) / 2 ^ 111 ≤ 32768 := by norm_num
    linarith)]
  rw [abs_mul]
  have : |(1 / 32768 : ℚ)| = 1 / 32768 := abs_of_pos (by norm_num)
  rw [this]
  linarith

theorem normalise_float (s : ℚ) (hs : isFloat32 s) : isFloat32 (normalise s) := by
  obtain ⟨m, e, hm, he1, he2, rfl⟩ := hs
  unfold normalise
  split_ifs with a
  · have h2pos : (0 : ℚ) < (2 : ℚ) ^ e := zpow_pos (by norm_num) e
    have habs : |(m : ℚ) * (2 : ℚ) ^ e * (1 / 32768)| = |(m : ℚ)| * (2 : ℚ) ^ e * (1 / 32768) := by
      rw [abs_mul, abs_mul, abs_of_pos h2pos, abs_of_pos (by norm_num : (0 : ℚ) < 1 / 32768)]
    rw [habs] at a
    have hmq : |(m : ℚ)| < 2 ^ 24 := by
      have : ((|m| : Int) : ℚ) < ((2 ^ 24 : Int) : ℚ) := by exact_mod_cast hm
      simpa using this
    have hlt : (1 : ℚ) / 2 ^ 126 < 2 ^ 24 * (2 : ℚ) ^ e * (1 / 32768) := by
      refine lt_of_le_of_lt a ?_
      have : |(m : ℚ)| * (2 : ℚ) ^ e < 2 ^ 24 * (2 : ℚ) ^ e := mul_lt_mul_of_pos_right hmq h2pos
      exact mul_lt_mul_of_pos_right this (by norm_num)
    have he : -135 < e := by
      by_contra hc
      have hle : e ≤ -135 := by omega
      have : (2 : ℚ) ^ e ≤ (2 : ℚ) ^ (-135 : Int) := zpow_le_zpow_right₀ (by norm_num) hle
      have h135 : (2 : ℚ) ^ (-135 : Int) = 1 / 2 ^ 135 := by
        rw [zpow_neg]
        norm_num
      rw [h135] at this
      have : (2 : ℚ) ^ 24 * (2 : ℚ) ^ e * (1 / 32768) ≤ 2 ^ 24 * (1 / 2 ^ 135) * (1 / 32768) := by
        gcongr
      have h3 : (2 : ℚ) ^ 24 * (1 / 2 ^ 135) * (1 / 32768) = 1 / 2 ^ 126 := by norm_num
      linarith
    refine ⟨m, e - 15, hm, by omega, by omega, ?_⟩
    rw [zpow_sub₀ (by norm_num : (2 : ℚ) ≠ 0)]
    norm_num
    ring
  · refine ⟨roundTiesEven ((m : ℚ) * (2 : ℚ) ^ e * (1 / 32768) * 2 ^ 149), -149, ?_,
      le_refl _, by decide, ?_⟩
    · have hlt : |(m : ℚ) * (2 : ℚ) ^ e * (1 / 32768)| < 1 / 2 ^ 126 := not_le.mp a
      have hb : |(m : ℚ) * (2 : ℚ) ^ e * (1 / 32768) * 2 ^ 149| ≤ ((2 ^ 23 : Int) : ℚ) := by
        rw [abs_mul, abs_of_pos (by norm_num : (0 : ℚ) < 2 ^ 149)]
        have : |(m : ℚ) * (2 : ℚ) ^ e * (1 / 32768)| * 2 ^ 149 ≤ 1 / 2 ^ 126 * 2 ^ 149 :=
          mul_le_mul_of_nonneg_right (le_of_lt hlt) (by norm_num)
        refine le_trans this ?_
        norm_num
      have := roundTiesEven_abs_le _ _ hb
      omega
    · rw [zpow_neg]
      norm_num
      ring

/-- What `transform(buf, buf + n, buf, normalise)` does to a buffer of finite
floats that holds at least `n` samples. -/
theorem transform_normalise (buf : List ℚ) (n : Nat) (h : n ≤ buf.length)
    (hf : ∀ s ∈ buf, isFloat32 s) :
    ∃ t, transform buf n normalise = some t ∧ t.length = buf.length ∧
      (∀ i : Nat, i < n → t[i]? = (buf[i]?).map normalise) ∧
      (∀ (i : Nat) (s : ℚ), i < n → buf[i]? = some s → (s = 0 ∨ 1 / 2 ^ 111 ≤ |s|) →
        t[i]? = some (s * (1 / 32768))) ∧
      (∀ (i : Nat) (s : ℚ), i < n → buf[i]? = some s → 32768 < |s| →
        ∃ u, t[i]? = some u ∧ 1 < |u|) ∧
      (∀ i : Nat, n ≤ i → t[i]? = buf[i]?) ∧
      (∀ s ∈ t, isFloat32 s) := by
  obtain ⟨t, ht, hlen, h1, h2⟩ := transform_spec buf n normalise h
  refine ⟨t, ht, hlen, h1, ?_, ?_, h2, ?_⟩
  · intro i s hi hs hrange
    rw [h1 i hi, hs, Option.map_some']
    rcases hrange with h0 | hbig
    · rw [h0, normalise_zero]
      norm_num
    · rw [normalise_exact s hbig]
  · intro i s hi hs hbig
    exact ⟨normalise s, by rw [h1 i hi, hs, Option.map_some'], normalise_big s hbig⟩
  · intro s hs
    obtain ⟨i, hi⟩ := List.mem_iff_getElem?.mp hs
    by_cases hin : i < n
    · rw [h1 i hin] at hi
      obtain ⟨u, hu, rfl⟩ := Option.map_eq_some'.mp hi
      exact normalise_float u (hf u (List.mem_iff_getElem?.mpr ⟨i, hu⟩))
    · rw [h2 i (by omega)] at hi
      exact hf s (List.mem_iff_getElem?.mpr ⟨i, hi⟩)

/-- C30: in the float decode path, with n the value returned by the inner
unclipped decoder and buffers of finite floats that hold at least n samples,
the call returns n; each of the first n left-channel samples s is replaced by
the float product s × (1/32768), which is the exact quotient s / 32768 when s
is 0 or has magnitude at least 2^-111 (the product does not underflow); the
first n right-channel samples are replaced likewise when the frame has more
than one channel and the right buffer is untouched otherwise; no sample at an
index ≥ n is changed, so nothing is changed when n ≤ 0; the samples left are
finite floats; and a sample with |s| > 32768 yields an output outside
[-1, +1]. -/
theorem C30_float_normalisation (inner : InnerUnclipped σ) (hip : σ) (length : Int)
    (left right : List ℚ) (data : mp3data_struct)
    (hl : (inner hip length left right data).ret
      ≤ ((inner hip length left right data).left.length : Int))
    (hr : (inner hip length left right data).data.stereo > 1 →
      (inner hip length left right data).ret
        ≤ ((inner hip length left right data).right.length : Int))
    (hfl : ∀ s ∈ (inner hip length left right data).left, isFloat32 s)
    (hfr : ∀ s ∈ (inner hip length left right data).right, isFloat32 s) :
    ∃ out, Decoder_float_decode inner hip length left right data = some out ∧
      out.ret = (inner hip length left right data).ret ∧
      out.data = (inner hip length left right data).data ∧
      out.left.length = (inner hip length left right data).left.length ∧
      out.right.length = (inner hip length left right data).right.length ∧
      (∀ i : Nat, (i : Int) < (inner hip length left right data).ret →
        out.left[i]? = ((inner hip length left right data).left[i]?).map normalise) ∧
      (∀ (i : Nat) (s : ℚ), (i : Int) < (inner hip length left right data).ret →
        (inner hip length left right data).left[i]? = some s →
        (s = 0 ∨ 1 / 2 ^ 111 ≤ |s|) → out.left[i]? = some (s * (1 / 32768))) ∧
      (∀ (i : Nat) (s : ℚ), (i : Int) < (inner hip length left right data).ret →
        (inner hip length left right data).left[i]? = some s → 32768 < |s| →
        ∃ u, out.left[i]? = some u ∧ 1 < |u|) ∧
      (∀ i : Nat, (inner hip length left right data).ret ≤ (i : Int) →
        out.left[i]? = (inner hip length left right data).left[i]?) ∧
      ((inner hip length left right data).data.stereo > 1 →
        (∀ i : Nat, (i : Int) < (inner hip length left right data).ret →
          out.right[i]? = ((inner hip length left right data).right[i]?).map normalise) ∧
        (∀ (i : Nat) (s : ℚ), (i : Int) < (inner hip length left right data).ret →
          (inner hip length left right data).right[i]? = some s →
          (s = 0 ∨ 1 / 2 ^ 111 ≤ |s|) → out.right[i]? = some (s * (1 / 32768))) ∧
        (∀ (i : Nat) (s : ℚ), (i : Int) < (inner hip length left right data).ret →
          (inner hip length left right data).right[i]? = some s → 32768 < |s| →
          ∃ u, out.right[i]? = some u ∧ 1 < |u|) ∧
        (∀ i : Nat, (inner hip length left right data).ret ≤ (i : Int) →
          out.right[i]? = (inner hip length left right data).right[i]?)) ∧
      ((inner hip length left right data).data.stereo ≤ 1 →
        out.right = (inner hip length left right data).right) ∧
      ((inner hip length left right data).ret ≤ 0 →
        out.left = (inner hip length left right data).left ∧
        out.right = (inner hip length left right data).right) ∧
      (∀ s ∈ out.left, isFloat32 s) ∧ (∀ s ∈ out.right, isFloat32 s) ∧
      (∀ s : ℚ, 1 / 2 ^ 111 ≤ |s| → normalise s = s * (1 / 32768)) ∧
      (∀ s : ℚ, 32768 < |s| → 1 < |normalise s|) := by
  generalize hres : inner hip length left right data = r at hl hr hfl hfr
  by_cases hpos : r.ret > 0
  · have hln : r.ret.toNat ≤ r.left.length := by omega
    obtain ⟨l, hlt, hll, hl1, hl2, hl3, hl4, hl5⟩ :=
      transform_normalise r.left r.ret.toNat hln hfl
    have a1 : ∀ i : Nat, (i : Int) < r.ret → l[i]? = (r.left[i]?).map normalise :=
      fun i hi => hl1 i (by omega)
    have a2 : ∀ (i : Nat) (s : ℚ), (i : Int) < r.ret → r.left[i]? = some s →
        (s = 0 ∨ 1 / 2 ^ 111 ≤ |s|) → l[i]? = some (s * (1 / 32768)) :=
      fun i s hi => hl2 i s (by omega)
    have a3 : ∀ (i : Nat) (s : ℚ), (i : Int) < r.ret → r.left[i]? = some s → 32768 < |s| →
        ∃ u, l[i]? = some u ∧ 1 < |u| :=
      fun i s hi => hl3 i s (by omega)
    have a4 : ∀ i : Nat, r.ret ≤ (i : Int) → l[i]? = r.left[i]? :=
      fun i hi => hl4 i (by omega)
    by_cases hst : r.data.stereo > 1
    · have hrn : r.ret.toNat ≤ r.right.length := by
        have := hr hst
        omega
      obtain ⟨rr, hrt, hrl, hr1, hr2, hr3, hr4, hr5⟩ :=
        transform_normalise r.right r.ret.toNat hrn hfr
      refine ⟨{ r with left := l, right := rr }, ?_, rfl, rfl, hll, hrl, a1, a2, a3, a4, ?_, ?_,
        ?_, hl5, hr5, normalise_exact, normalise_big⟩
      · simp only [Decoder_float_decode, hres, hpos, if_true, hlt, hst, hrt]
      · intro _
        exact ⟨fun i hi => hr1 i (by omega), fun i s hi => hr2 i s (by omega),
          fun i s hi => hr3 i s (by omega), fun i hi => hr4 i (by omega)⟩
      · intro h1
        omega
      · intro h0
        omega
    · refine ⟨{ r with left := l }, ?_, rfl, rfl, hll, rfl, a1, a2, a3, a4, ?_, ?_, ?_, hl5, hfr,
        normalise_exact, normalise_big⟩
      · simp only [Decoder_float_decode, hres, hpos, if_true, hlt, hst, if_false]
      · intro h1
        exact absurd h1 hst
      · intro _
        rfl
      · intro h0
        omega
  · refine ⟨r, ?_, rfl, rfl, rfl, rfl, ?_, ?_, ?_, ?_, ?_, ?_, ?_, hfl, hfr, normalise_exact,
      normalise_big⟩
    · simp only [Decoder_float_decode, hres, hpos, if_false]
    · intro i hi
      omega
    · intro i s hi
      omega
    · intro i s hi
      omega
    · intro i _
      rfl
    · intro _
      exact ⟨fun i hi => by omega, fun i s hi => by omega, fun i s hi => by omega,
        fun i _ => rfl⟩
    · intro _
      rfl
    · intro _
      exact ⟨rfl, rfl⟩

theorem underflow_samples : normalise (1 / 2 ^ 140) = 0 ∧ normalise (1 / 2 ^ 120) = 1 / 2 ^ 135 := by
  constructor
  · unfold normalise
    rw [if_neg (by rw [abs_of_pos (by norm_num)]; norm_num)]
    have h : roundTiesEven ((1 : ℚ) / 2 ^ 140 * (1 / 32768) * 2 ^ 149) = 0 := by
      norm_num [roundTiesEven, Int.floor_eq_iff]
    rw [h]
    norm_num
  · rw [normalise_exact_grid (1 / 2 ^ 120) (2 ^ 14) (by norm_num)]
    norm_num

/-- C30, instance: a mono frame of two samples whose first left sample 2^-140
underflows to 0 and whose second, 2^-120, becomes the subnormal 2^-135; the
third slot and the right buffer are left as they were. A stereo frame whose
left sample 65536 becomes 2, outside [-1, +1]. -/
theorem C30_float_normalisation_witness :
    (∃ out, Decoder_float_decode replayUnclipped underflowOutcome 4096 [] [] mp3data_zero
        = some out ∧
      out.left = [0, 1 / 2 ^ 135, 7] ∧ out.right = [5, 6, 9]) ∧
    (∃ out, Decoder_float_decode replayUnclipped stereoOutcome 4096 [] [] mp3data_zero = some out ∧
      out.left = [2, -1 / 2, 7] ∧ out.right = [1, 0, 9]) ∧
    (replayUnclipped underflowOutcome 4096 [] [] mp3data_zero).ret
        ≤ (((replayUnclipped underflowOutcome 4096 [] [] mp3data_zero).left.length : Nat) : Int) ∧
    ((replayUnclipped underflowOutcome 4096 [] [] mp3data_zero).data.stereo > 1 →
      (replayUnclipped underflowOutcome 4096 [] [] mp3data_zero).ret
        ≤ (((replayUnclipped underflowOutcome 4096 [] [] mp3data_zero).right.length : Nat) : Int)) ∧
    (∀ s ∈ (replayUnclipped underflowOutcome 4096 [] [] mp3data_zero).left, isFloat32 s) ∧
    (∀ s ∈ (replayUnclipped underflowOutcome 4096 [] [] mp3data_zero).right, isFloat32 s) ∧
    (∃ out, Decoder_float_decode replayUnclipped underflowOutcome 4096 [] [] mp3data_zero
        = some out ∧
      out.ret = (replayUnclipped underflowOutcome 4096 [] [] mp3data_zero).ret ∧
      out.data = (replayUnclipped underflowOutcome 4096 [] [] mp3data_zero).data ∧
      out.left.length = (replayUnclipped underflowOutcome 4096 [] [] mp3data_zero).left.length ∧
      out.right.length
        = (replayUnclipped underflowOutcome 4096 [] [] mp3data_zero).right.length ∧
      (∀ i : Nat, (i : Int) < (replayUnclipped underflowOutcome 4096 [] [] mp3data_zero).ret →
        out.left[i]?
          = ((replayUnclipped underflowOutcome 4096 [] [] mp3data_zero).left[i]?).map
              normalise) ∧
      (∀ (i : Nat) (s : ℚ),
        (i : Int) < (replayUnclipped underflowOutcome 4096 [] [] mp3data_zero).ret →
        (replayUnclipped underflowOutcome 4096 [] [] mp3data_zero).left[i]? = some s →
        (s = 0 ∨ 1 / 2 ^ 111 ≤ |s|) → out.left[i]? = some (s * (1 / 32768))) ∧
      (∀ (i : Nat) (s : ℚ),
        (i : Int) < (replayUnclipped underflowOutcome 4096 [] [] mp3data_zero).ret →
        (replayUnclipped underflowOutcome 4096 [] [] mp3data_zero).left[i]? = some s →
        32768 < |s| → ∃ u, out.left[i]? = some u ∧ 1 < |u|) ∧
      (∀ i : Nat, (replayUnclipped underflowOutcome 4096 [] [] mp3data_zero).ret ≤ (i : Int) →
        out.left[i]? = (replayUnclipped underflowOutcome 4096 [] [] mp3data_zero).left[i]?) ∧
      ((replayUnclipped underflowOutcome 4096 [] [] mp3data_zero).data.stereo > 1 →
        (∀ i : Nat, (i : Int) < (replayUnclipped underflowOutcome 4096 [] [] mp3data_zero).ret →
          out.right[i]?
            = ((replayUnclipped underflowOutcome 4096 [] [] mp3data_zero).right[i]?).map
                normalise) ∧
        (∀ (i : Nat) (s : ℚ),
          (i : Int) < (replayUnclipped underflowOutcome 4096 [] [] mp3data_zero).ret →
          (replayUnclipped underflowOutcome 4096 [] [] mp3data_zero).right[i]? = some s →
          (s = 0 ∨ 1 / 2 ^ 111 ≤ |s|) → out.right[i]? = some (s * (1 / 32768))) ∧
        (∀ (i : Nat) (s : ℚ),
          (i : Int) < (replayUnclipped underflowOutcome 4096 [] [] mp3data_zero).ret →
          (replayUnclipped underflowOutcome 4096 [] [] mp3data_zero).right[i]? = some s →
          32768 < |s| → ∃ u, out.right[i]? = some u ∧ 1 < |u|) ∧
        (∀ i : Nat, (replayUnclipped underflowOutcome 4096 [] [] mp3data_zero).ret ≤ (i : Int) →
          out.right[i]?
            = (replayUnclipped underflowOutcome 4096 [] [] mp3data_zero).right[i]?)) ∧
      ((replayUnclipped underflowOutcome 4096 [] [] mp3data_zero).data.stereo ≤ 1 →
        out.right = (replayUnclipped underflowOutcome 4096 [] [] mp3data_zero).right) ∧
      ((replayUnclipped underflowOutcome 4096 [] [] mp3data_zero).ret ≤ 0 →
        out.left = (replayUnclipped underflowOutcome 4096 [] [] mp3data_zero).left ∧
        out.right = (replayUnclipped underflowOutcome 4096 [] [] mp3data_zero).right) ∧
      (∀ s ∈ out.left, isFloat32 s) ∧ (∀ s ∈ out.right, isFloat32 s) ∧
      (∀ s : ℚ, 1 / 2 ^ 111 ≤ |s| → normalise s = s * (1 / 32768)) ∧
      (∀ s : ℚ, 32768 < |s| → 1 < |normalise s|)) := by
  have h1 : (replayUnclipped underflowOutcome 4096 [] [] mp3data_zero).ret
      ≤ (((replayUnclipped underflowOutcome 4096 [] [] mp3data_zero).left.length : Nat) : Int) := by
    decide
  have h2 : (replayUnclipped underflowOutcome 4096 [] [] mp3data_zero).data.stereo > 1 →
      (replayUnclipped underflowOutcome 4096 [] [] mp3data_zero).ret
        ≤ (((replayUnclipped underflowOutcome 4096 [] [] mp3data_zero).right.length : Nat) : Int) :=
    fun _ => by decide
  have h3 : ∀ s ∈ (replayUnclipped underflowOutcome 4096 [] [] mp3data_zero).left,
      isFloat32 s := by
    intro s hs
    have hs2 : s = 1 / 2 ^ 140 ∨ s = 1 / 2 ^ 120 ∨ s = 7 := by
      simpa [replayUnclipped, underflowOutcome] using hs
    rcases hs2 with rfl | rfl | rfl
    · exact ⟨1, -140, by norm_num, by norm_num, by norm_num, by rw [zpow_neg]; norm_num⟩
    · exact ⟨1, -120, by norm_num, by norm_num, by norm_num, by rw [zpow_neg]; norm_num⟩
    · exact ⟨7, 0, by norm_num, by norm_num, by norm_num, by norm_num⟩
  have h4 : ∀ s ∈ (replayUnclipped underflowOutcome 4096 [] [] mp3data_zero).right,
      isFloat32 s := by
    intro s hs
    have hs2 : s = 5 ∨ s = 6 ∨ s = 9 := by
      simpa [replayUnclipped, underflowOutcome] using hs
    rcases hs2 with rfl | rfl | rfl
    · exact ⟨5, 0, by norm_num, by norm_num, by norm_num, by norm_num⟩
    · exact ⟨6, 0, by norm_num, by norm_num, by norm_num, by norm_num⟩
    · exact ⟨9, 0, by norm_num, by norm_num, by norm_num, by norm_num⟩
  have n1 : normalise 65536 = 2 := by
    rw [normalise_exact 65536 (by rw [abs_of_pos (by norm_num)]; norm_num)]
    norm_num
  have n2 : normalise (-16384) = -1 / 2 := by
    rw [normalise_exact (-16384) (by rw [abs_of_neg (by norm_num)]; norm_num)]
    norm_num
  have n3 : normalise 32768 = 1 := by
    rw [normalise_exact 32768 (by rw [abs_of_pos (by norm_num)]; norm_num)]
    norm_num
  refine ⟨?_, ?_, h1, h2, h3, h4,
    C30_float_normalisation replayUnclipped underflowOutcome 4096 [] [] mp3data_zero h1 h2 h3 h4⟩
  · refine ⟨{ ret := 2, left := [0, 1 / 2 ^ 135, 7], right := [5, 6, 9],
               data := { parsedInfo 128 with stereo := 1 }, mp := underflowOutcome }, ?_, rfl, rfl⟩
    simp only [Decoder_float_decode, replayUnclipped, underflowOutcome, transform, parsedInfo,
      mp3data_zero]
    simp
    constructor
    · rw [inv_eq_one_div]
      exact underflow_samples.1
    · rw [inv_eq_one_div, inv_eq_one_div]
      exact underflow_samples.2
  · refine ⟨{ ret := 2, left := [2, -1 / 2, 7], right := [1, 0, 9], data := parsedInfo 128,
               mp := stereoOutcome }, ?_, rfl, rfl⟩
    simp [Decoder_float_decode, replayUnclipped, stereoOutcome, transform, parsedInfo,
      mp3data_zero, n1, n2, n3, normalise_zero]

/-- C31 (failing run): `hip_decode_exit` returns 0 for every argument; on a
zero-filled region, which `hip_validate` rejects, it runs the release of the
inner state and still returns 0. -/
theorem C31_hip_decode_exit_never_rejects (ExitMP3 : σ → σ)
    (hip : Option (DecoderHandle σ)) (mp : σ) :
    (hip_decode_exit ExitMP3 hip).2 = 0 ∧
      hip_validate_ptr (some (zeroHandle mp)) ≠ 0 ∧
      hip_decode_exit ExitMP3 (some (zeroHandle mp))
        = (some { zeroHandle mp with mp := ExitMP3 mp }, 0) := by
  refine ⟨?_, ?_, rfl⟩
  · cases hip <;> rfl
  · show hip_validate (zeroHandle mp) ≠ 0
    rw [Ne, hip_validate_eq_zero_iff]
    show ¬ ((0 : Int) % 4294967296 = HIP_SIGNATURE)
    decide

theorem StartDecoding_switch_calls (w : DecodeFrameWorker σ) (s : e_state)
    (hs : s ≠ e_state.done) :
    (StartDecoding_switch decode w s).1.calls
      = w.calls ++ [(spec_action_length s w.length,
          (StartDecoding_switch decode w s).1.samplesRead)] := by
  cases s with
  | init => simp [StartDecoding_switch, DecodeFrameWorker.decode, spec_action_length]
  | head => simp [StartDecoding_switch, DecodeFrameWorker.decode, spec_action_length]
  | frame => simp [StartDecoding_switch, DecodeFrameWorker.decode, spec_action_length]
  | done => exact absurd rfl hs

theorem StartDecoding_switch_refines (w : DecodeFrameWorker σ) (s t : e_state)
    (h : spec_transition s (StartDecoding_switch decode w s).1.samplesRead
      (StartDecoding_switch decode w s).1.data.header_parsed = some t) :
    (StartDecoding_switch decode w s).2 = t := by
  cases s with
  | init =>
    simp only [StartDecoding_switch, spec_transition] at h ⊢
    by_cases h1 : (w.decode decode w.length).samplesRead = 0
    · by_cases h2 : (w.decode decode w.length).data.header_parsed = 0
      · simp [h1, h2] at h ⊢
        exact h
      · simp [h1, h2] at h ⊢
        exact h
    · by_cases h3 : (w.decode decode w.length).samplesRead > 0
      · simp [h1, h3] at h ⊢
        exact h
      · simp [h1, h3] at h
  | head =>
    simp only [StartDecoding_switch, spec_transition] at h ⊢
    by_cases h1 : (w.decode decode 0).samplesRead = 0
    · by_cases h2 : (w.decode decode 0).data.header_parsed = 0
      · simp [h1, h2] at h ⊢
        exact h
      · simp [h1, h2] at h ⊢
        exact h
    · by_cases h3 : (w.decode decode 0).samplesRead > 0
      · simp [h1, h3] at h ⊢
        exact h
      · by_cases h2 : (w.decode decode 0).data.header_parsed = 0
        · simp [h1, h3, h2] at h ⊢
          exact h
        · simp [h1, h3, h2] at h
  | frame =>
    simp only [StartDecoding_switch, spec_transition] at h ⊢
    exact Option.some.inj h
  | done => simp [spec_transition] at h

/-- One pass through the `switch` in a state other than `done` is one call of
the inner decoder, on the worker's inner state and record, with the length
the table gives for the state; the worker then holds what the call returned. -/
theorem StartDecoding_switch_inner (w : DecodeFrameWorker σ) (s : e_state)
    (hs : s ≠ e_state.done) :
    ((StartDecoding_switch decode w s).1.samplesRead, (StartDecoding_switch decode w s).1.data,
        (StartDecoding_switch decode w s).1.mp)
      = decode w.mp (spec_action_length s w.length) w.data ∧
    (StartDecoding_switch decode w s).1.calls
      = w.calls ++ [(spec_action_length s w.length,
          (decode w.mp (spec_action_length s w.length) w.data).1)] := by
  cases s with
  | init => exact ⟨rfl, rfl⟩
  | head => exact ⟨rfl, rfl⟩
  | frame => exact ⟨rfl, rfl⟩
  | done => exact absurd rfl hs

/-- C34: for every inner decoder and every length > 0 the loop of
`StartDecoding` follows the transition table of section 4.2. Each pass is one
call of the inner decoder, with the input length in `init` and length 0 in
`head` and `frame`, and moves to the state the table gives for the values n
and `header_parsed` that call returned (and to `done` when n is negative, a
case the table leaves open). The run starts in `init`, takes `k` passes,
1 ≤ k ≤ 3, none of which starts in `done`, and ends in `done`; its inner
calls are the first `k` calls of `innerCall`: the inner decoder applied to the
input length, then to length 0 on what the call before left. After the first
call the state is `done` if it returned n ≠ 0, `head` if it returned 0
without a parsed header and `frame` if it returned 0 with a parsed header;
from `head` the state is `frame` only if the second call returned 0 with the
header parsed and `done` otherwise; from `frame` it is `done`. -/
theorem C34_bootstrap_follows_table (fuel : Nat) (mp : σ) (length : Int) (hfuel : 3 ≤ fuel)
    (hlen : 0 < length) :
    (∀ (w : DecodeFrameWorker σ) (s t : e_state), s ≠ e_state.done →
      ((StartDecoding_switch decode w s).1.samplesRead,
          (StartDecoding_switch decode w s).1.data, (StartDecoding_switch decode w s).1.mp)
        = decode w.mp (spec_action_length s w.length) w.data ∧
      (StartDecoding_switch decode w s).1.calls
        = w.calls ++ [(spec_action_length s w.length,
            (decode w.mp (spec_action_length s w.length) w.data).1)] ∧
      (spec_transition s (decode w.mp (spec_action_length s w.length) w.data).1
          (decode w.mp (spec_action_length s w.length) w.data).2.1.header_parsed = some t →
        (StartDecoding_switch decode w s).2 = t) ∧
      ((decode w.mp (spec_action_length s w.length) w.data).1 < 0 →
        (StartDecoding_switch decode w s).2 = e_state.done)) ∧
    ∃ (k : Nat) (w1 : DecodeFrameWorker σ), 1 ≤ k ∧ k ≤ 3 ∧
      (StartDecoding_pass decode)^[k] (DecodeFrameWorker.new mp length, e_state.init)
        = (w1, e_state.done) ∧
      (∀ j, j < k →
        ((StartDecoding_pass decode)^[j]
          (DecodeFrameWorker.new mp length, e_state.init)).2 ≠ e_state.done) ∧
      StartDecoding_while decode fuel (DecodeFrameWorker.new mp length) e_state.init
        = some (w1, e_state.done) ∧
      (∃ w2, Execute decode fuel (DecodeFrameWorker.new mp length) = some w2 ∧
        w2.calls = w1.calls ∧ w2.samplesRead = w1.samplesRead) ∧
      w1.calls.map Prod.fst = length :: List.replicate (k - 1) 0 ∧
      (w1.samplesRead, w1.data, w1.mp) = innerCall decode mp length (k - 1) ∧
      w1.calls = innerTrace decode mp length k ∧
      ((StartDecoding_pass decode)^[1] (DecodeFrameWorker.new mp length, e_state.init)).2
        = (if (innerCall decode mp length 0).1 ≠ 0 then e_state.done
           else if (innerCall decode mp length 0).2.1.header_parsed = 0 then e_state.head
           else e_state.frame) ∧
      (((StartDecoding_pass decode)^[1]
          (DecodeFrameWorker.new mp length, e_state.init)).2 = e_state.head →
        ((StartDecoding_pass decode)^[2] (DecodeFrameWorker.new mp length, e_state.init)).2
          = (if (innerCall decode mp length 1).1 ≠ 0 ∨
                (innerCall decode mp length 1).2.1.header_parsed = 0 then e_state.done
             else e_state.frame)) ∧
      (((StartDecoding_pass decode)^[1]
          (DecodeFrameWorker.new mp length, e_state.init)).2 = e_state.frame →
        ((StartDecoding_pass decode)^[2] (DecodeFrameWorker.new mp length, e_state.init)).2
          = e_state.done) ∧
      (((StartDecoding_pass decode)^[2]
          (DecodeFrameWorker.new mp length, e_state.init)).2 = e_state.frame →
        ((StartDecoding_pass decode)^[3] (DecodeFrameWorker.new mp length, e_state.init)).2
          = e_state.done) := by
  constructor
  · intro w s t hs
    obtain ⟨hres, hcalls⟩ := StartDecoding_switch_inner decode w s hs
    have hn : (StartDecoding_switch decode w s).1.samplesRead
        = (decode w.mp (spec_action_length s w.length) w.data).1 := congrArg Prod.fst hres
    have hd : (StartDecoding_switch decode w s).1.data
        = (decode w.mp (spec_action_length s w.length) w.data).2.1 :=
      congrArg (fun p => p.2.1) hres
    refine ⟨hres, hcalls, ?_, ?_⟩
    · rw [← hn, ← hd]
      exact StartDecoding_switch_refines decode w s t
    · rw [← hn]
      intro hneg
      cases s with
      | init =>
        have h1 : ¬ (w.decode decode w.length).samplesRead = 0 := by
          simp only [StartDecoding_switch] at hneg
          omega
        simp [StartDecoding_switch, h1]
      | head =>
        have h1 : ¬ (w.decode decode 0).samplesRead = 0 := by
          simp only [StartDecoding_switch] at hneg
          omega
        simp [StartDecoding_switch, h1]
      | frame => simp [StartDecoding_switch]
      | done => exact absurd rfl hs
  · obtain ⟨k, w1, hk1, hk3, hw, hpass, hnot, hres, hcalls, _, hs1, hs2, hs3, hs4⟩ :=
      bootstrap_run decode fuel hfuel mp length
    have hpos : (DecodeFrameWorker.new mp length).length > 0 := hlen
    have hexec : ∃ w2, Execute decode fuel (DecodeFrameWorker.new mp length) = some w2 ∧
        w2.calls = w1.calls ∧ w2.samplesRead = w1.samplesRead := by
      refine ⟨{ w1 with isError := decide (w1.samplesRead < 0),
                        needData := decide (e_state.done = e_state.done) &&
                          decide (w1.samplesRead = 0) }, ?_, rfl, rfl⟩
      simp [Execute, hpos, StartDecoding, hw]
    have hlens : w1.calls.map Prod.fst = length :: List.replicate (k - 1) 0 := by
      rw [hcalls]
      interval_cases k <;> simp [innerTrace, List.range_succ, List.replicate]
    exact ⟨k, w1, hk1, hk3, hpass, hnot, hw, hexec, hlens, hres, hcalls, hs1, hs2, hs3, hs4⟩

/-- C34, instance: on 4096 bytes the inner decoder finds no header, parses
the header on the first flush call and returns 1152 samples on the second;
the run takes the path init, head, frame, done with the calls
(4096, 0), (0, 0), (0, 1152). The scripted stream takes init, head, done and
the header-only stream init, frame, done. -/
theorem C34_bootstrap_follows_table_witness :
    (3 : Nat) ≤ 3 ∧ (0 : Int) < 4096 ∧
      (List.range 4).map (fun j => ((StartDecoding_pass scriptedDecoder)^[j]
          (DecodeFrameWorker.new threeCallHandle.mp 4096, e_state.init)).2)
        = [e_state.init, e_state.head, e_state.frame, e_state.done] ∧
      (StartDecoding_while scriptedDecoder 3 (DecodeFrameWorker.new threeCallHandle.mp 4096)
        e_state.init).map (fun p => (p.1.calls, p.1.samplesRead, p.1.data, p.2))
        = some ([(4096, 0), (0, 0), (0, 1152)], 1152, parsedInfo 128, e_state.done) ∧
      (StartDecoding_while scriptedDecoder 3 (DecodeFrameWorker.new scriptHandle.mp 4096)
        e_state.init).map (fun p => p.1.calls) = some [(4096, 0), (0, 0)] ∧
      (StartDecoding_while scriptedDecoder 3 (DecodeFrameWorker.new headerOnlyHandle.mp 4096)
        e_state.init).map (fun p => p.1.calls) = some [(4096, 0), (0, 0)] ∧
      ((∀ (w : DecodeFrameWorker (List (Int × mp3data_struct))) (s t : e_state),
        s ≠ e_state.done →
        ((StartDecoding_switch scriptedDecoder w s).1.samplesRead,
            (StartDecoding_switch scriptedDecoder w s).1.data,
            (StartDecoding_switch scriptedDecoder w s).1.mp)
          = scriptedDecoder w.mp (spec_action_length s w.length) w.data ∧
        (StartDecoding_switch scriptedDecoder w s).1.calls
          = w.calls ++ [(spec_action_length s w.length,
              (scriptedDecoder w.mp (spec_action_length s w.length) w.data).1)] ∧
        (spec_transition s (scriptedDecoder w.mp (spec_action_length s w.length) w.data).1
            (scriptedDecoder w.mp (spec_action_length s w.length) w.data).2.1.header_parsed
            = some t →
          (StartDecoding_switch scriptedDecoder w s).2 = t) ∧
        ((scriptedDecoder w.mp (spec_action_length s w.length) w.data).1 < 0 →
          (StartDecoding_switch scriptedDecoder w s).2 = e_state.done)) ∧
      ∃ (k : Nat) (w1 : DecodeFrameWorker (List (Int × mp3data_struct))), 1 ≤ k ∧ k ≤ 3 ∧
        (StartDecoding_pass scriptedDecoder)^[k]
          (DecodeFrameWorker.new threeCallHandle.mp 4096, e_state.init) = (w1, e_state.done) ∧
        (∀ j, j < k →
          ((StartDecoding_pass scriptedDecoder)^[j]
            (DecodeFrameWorker.new threeCallHandle.mp 4096, e_state.init)).2 ≠ e_state.done) ∧
        StartDecoding_while scriptedDecoder 3 (DecodeFrameWorker.new threeCallHandle.mp 4096)
          e_state.init = some (w1, e_state.done) ∧
        (∃ w2, Execute scriptedDecoder 3 (DecodeFrameWorker.new threeCallHandle.mp 4096)
            = some w2 ∧
          w2.calls = w1.calls ∧ w2.samplesRead = w1.samplesRead) ∧
        w1.calls.map Prod.fst = 4096 :: List.replicate (k - 1) 0 ∧
        (w1.samplesRead, w1.data, w1.mp)
          = innerCall scriptedDecoder threeCallHandle.mp 4096 (k - 1) ∧
        w1.calls = innerTrace scriptedDecoder threeCallHandle.mp 4096 k ∧
        ((StartDecoding_pass scriptedDecoder)^[1]
            (DecodeFrameWorker.new threeCallHandle.mp 4096, e_state.init)).2
          = (if (innerCall scriptedDecoder threeCallHandle.mp 4096 0).1 ≠ 0 then e_state.done
             else if (innerCall scriptedDecoder threeCallHandle.mp 4096 0).2.1.header_parsed = 0
               then e_state.head
             else e_state.frame) ∧
        (((StartDecoding_pass scriptedDecoder)^[1]
            (DecodeFrameWorker.new threeCallHandle.mp 4096, e_state.init)).2 = e_state.head →
          ((StartDecoding_pass scriptedDecoder)^[2]
              (DecodeFrameWorker.new threeCallHandle.mp 4096, e_state.init)).2
            = (if (innerCall scriptedDecoder threeCallHandle.mp 4096 1).1 ≠ 0 ∨
                  (innerCall scriptedDecoder threeCallHandle.mp 4096 1).2.1.header_parsed = 0
                then e_state.done
               else e_state.frame)) ∧
        (((StartDecoding_pass scriptedDecoder)^[1]
            (DecodeFrameWorker.new threeCallHandle.mp 4096, e_state.init)).2 = e_state.frame →
          ((StartDecoding_pass scriptedDecoder)^[2]
              (DecodeFrameWorker.new threeCallHandle.mp 4096, e_state.init)).2
            = e_state.done) ∧
        (((StartDecoding_pass scriptedDecoder)^[2]
            (DecodeFrameWorker.new threeCallHandle.mp 4096, e_state.init)).2 = e_state.frame →
          ((StartDecoding_pass scriptedDecoder)^[3]
              (DecodeFrameWorker.new threeCallHandle.mp 4096, e_state.init)).2
            = e_state.done)) :=
  ⟨le_refl 3, by decide, by decide, by decide, by decide, by decide,
    C34_bootstrap_follows_table scriptedDecoder 3 threeCallHandle.mp 4096 (le_refl 3)
      (by decide)⟩

end DecoderTheorems

end Mpa

namespace Mpadec

section HeaderTheorems

open Mpa (mp3data_struct)

open SimpleVad (wrap32 toSizeT)

theorem frame_size_table : ∀ lsf ∈ bitValues, ∀ lay ∈ layerValues,
    ∀ bi ∈ bitrateIndexValues, ∀ sf ∈ samplingValues lsf, ∀ pad ∈ bitValues,
      (frame_size_of lay lsf bi sf pad).toOption.isSome = true ∧
      -4 ≤ (frame_size_of lay lsf bi sf pad).toOption.getD 0 ∧
      (frame_size_of lay lsf bi sf pad).toOption.getD 0 ≤ 2880 ∧
      (index freqs sf).toOption = some (freqOf sf) ∧ freqOf sf ≠ 0 ∧
      ((index smpls lsf).toOption.bind (fun row => (index row lay).toOption))
        = some (samplesOf lsf lay) ∧ samplesOf lsf lay ≠ 0 ∧
      (((index tabsel_123 lsf).toOption.bind (fun p => (index p (lay - 1)).toOption)).bind
        (fun l => (index l bi).toOption)) = some (bitrateOf lsf lay bi) ∧
      (lay ≠ 1 → bi ≠ 0 →
        (frame_size_of lay lsf bi sf pad).toOption.getD 0
            = bitrateOf lsf lay bi * 144000
                / (freqOf sf * 2 ^ (if lay = 3 then lsf.toNat else 0)) + pad - 4 ∧
        0 < (frame_size_of lay lsf bi sf pad).toOption.getD 0 ∧
        8 * (4 + (frame_size_of lay lsf bi sf pad).toOption.getD 0) * freqOf sf < 2147483648 ∧
        (2 * (8 * (4 + (frame_size_of lay lsf bi sf pad).toOption.getD 0) * freqOf sf)
            + 1000 * samplesOf lsf lay) / (2 * (1000 * samplesOf lsf lay))
          = bitrateOf lsf lay bi ∧
        0 < freqOf sf ∧ 0 < samplesOf lsf lay) := by
  decide

theorem decode_header_switch_eq (fr : frame) (hlay : fr.lay = 1 ∨ fr.lay = 2 ∨ fr.lay = 3)
    (hold : ¬ (fr.lay = 3 ∧ fr.framesize > MAX_INPUT_FRAMESIZE)) (sz : Int)
    (hsz : frame_size_of fr.lay fr.lsf fr.bitrate_index fr.sampling_frequency fr.padding
      = .ok sz) :
    ∃ fr2, decode_header_switch fr = .ok (fr2, 1) ∧ fr2.framesize = sz ∧
      fr2.lay = fr.lay ∧ fr2.lsf = fr.lsf ∧ fr2.mpeg25 = fr.mpeg25 ∧
      fr2.bitrate_index = fr.bitrate_index ∧
      fr2.sampling_frequency = fr.sampling_frequency ∧ fr2.padding = fr.padding ∧
      fr2.mode = fr.mode ∧ fr2.mode_ext = fr.mode_ext ∧ fr2.stereo = fr.stereo := by
  rcases hlay with h | h | h
  · simp only [decode_header_switch, frame_size_of, h, if_true] at hsz ⊢
    cases h1 : index tabsel_123 fr.lsf with
    | error e => simp [h1, bind, Except.bind] at hsz
    | ok row =>
      cases h2 : index row 0 with
      | error e => simp [h1, h2, bind, Except.bind] at hsz
      | ok col =>
        cases h3 : index col fr.bitrate_index with
        | error e => simp [h1, h2, h3, bind, Except.bind] at hsz
        | ok t =>
          cases h4 : index freqs fr.sampling_frequency with
          | error e => simp [h1, h2, h3, h4, bind, Except.bind] at hsz
          | ok f =>
            cases h5 : divide (t * 12000) f with
            | error e => simp [h1, h2, h3, h4, h5, bind, Except.bind] at hsz
            | ok q =>
              simp only [h1, h2, h3, h4, h5, bind, Except.bind] at hsz ⊢
              cases hsz
              exact ⟨_, rfl, rfl, rfl, rfl, rfl, rfl, rfl, rfl, rfl, rfl, rfl⟩
  · have hne : ¬ (fr.lay = 1) := by omega
    simp only [decode_header_switch, frame_size_of, h] at hsz ⊢
    norm_num at hsz ⊢
    cases h1 : index tabsel_123 fr.lsf with
    | error e => simp [h1, bind, Except.bind] at hsz
    | ok row =>
      cases h2 : index row 1 with
      | error e => simp [h1, h2, bind, Except.bind] at hsz
      | ok col =>
        cases h3 : index col fr.bitrate_index with
        | error e => simp [h1, h2, h3, bind, Except.bind] at hsz
        | ok t =>
          cases h4 : index freqs fr.sampling_frequency with
          | error e => simp [h1, h2, h3, h4, bind, Except.bind] at hsz
          | ok f =>
            cases h5 : divide (t * 144000) f with
            | error e => simp [h1, h2, h3, h4, h5, bind, Except.bind] at hsz
            | ok q =>
              simp only [h1, h2, h3, h4, h5, bind, Except.bind] at hsz ⊢
              cases hsz
              exact ⟨_, rfl, rfl, rfl, rfl, rfl, rfl, rfl, rfl, rfl, rfl, rfl⟩
  · have hf : ¬ fr.framesize > MAX_INPUT_FRAMESIZE := fun hgt => hold ⟨h, hgt⟩
    simp only [decode_header_switch, frame_size_of, h] at hsz ⊢
    norm_num at hsz ⊢
    simp only [gt_iff_lt] at hf
    by_cases hb : fr.bitrate_index = 0
    · simp only [hb, if_true, hf, if_false] at hsz ⊢
      cases hsz
      exact ⟨_, rfl, rfl, rfl, rfl, rfl, rfl, rfl, rfl, rfl, rfl, rfl⟩
    · simp only [hb, if_false, hf] at hsz ⊢
      cases h1 : index tabsel_123 fr.lsf with
      | error e => simp [h1, bind, Except.bind] at hsz
      | ok row =>
        cases h2 : index row 2 with
        | error e => simp [h1, h2, bind, Except.bind] at hsz
        | ok col =>
          cases h3 : index col fr.bitrate_index with
          | error e => simp [h1, h2, h3, bind, Except.bind] at hsz
          | ok t =>
            cases h4 : index freqs fr.sampling_frequency with
            | error e => simp [h1, h2, h3, h4, bind, Except.bind] at hsz
            | ok f =>
              cases h5 : divide (t * 144000) (f * 2 ^ fr.lsf.toNat) with
              | error e => simp [h1, h2, h3, h4, h5, bind, Except.bind] at hsz
              | ok q =>
                simp only [h1, h2, h3, h4, h5, bind, Except.bind] at hsz ⊢
                cases hsz
                exact ⟨_, rfl, rfl, rfl, rfl, rfl, rfl, rfl, rfl, rfl, rfl, rfl⟩

theorem sync_mask (x : Nat) : x &&& 0xffe00000 = (x / 2 ^ 21 % 2 ^ 11) * 2 ^ 21 := by
  apply Nat.eq_of_testBit_eq
  intro i
  have hc : (0xffe00000 : Nat) = (2 ^ 11 - 1) * 2 ^ 21 := by norm_num
  rw [Nat.testBit_and, hc, ← Nat.shiftLeft_eq, ← Nat.shiftLeft_eq, Nat.testBit_shiftLeft,
    Nat.testBit_shiftLeft, Nat.testBit_two_pow_sub_one, Nat.testBit_mod_two_pow,
    ← Nat.shiftRight_eq_div_pow, Nat.testBit_shiftRight]
  by_cases h : 21 ≤ i
  · have e : 21 + (i - 21) = i := by omega
    rw [e]
    cases x.testBit i <;> simp [h]
  · simp [h]

theorem field2 (x k : Nat) : (x >>> k) &&& 0x3 = x / 2 ^ k % 4 := by
  rw [Nat.shiftRight_eq_div_pow]
  exact Nat.and_pow_two_sub_one_eq_mod _ 2

theorem field4 (x k : Nat) : (x >>> k) &&& 0xf = x / 2 ^ k % 16 := by
  rw [Nat.shiftRight_eq_div_pow]
  exact Nat.and_pow_two_sub_one_eq_mod _ 4

theorem field1 (x k : Nat) : (x >>> k) &&& 0x1 = x / 2 ^ k % 2 := by
  rw [Nat.shiftRight_eq_div_pow]
  exact Nat.and_pow_two_sub_one_eq_mod _ 1

theorem low2 (x : Nat) : x &&& 0x3 = x % 4 := Nat.and_pow_two_sub_one_eq_mod x 2

theorem bit_mask (x k : Nat) : x &&& (1 <<< k) = (x / 2 ^ k % 2) * 2 ^ k := by
  rw [Nat.one_shiftLeft, Nat.and_two_pow, Nat.testBit_to_div_mod]
  by_cases h : x / 2 ^ k % 2 = 1
  · simp [h]
  · have : x / 2 ^ k % 2 = 0 := by omega
    simp [this]

theorem testBit_iff (x i : Nat) : x.testBit i = true ↔ x / 2 ^ i % 2 = 1 := by
  rw [Nat.testBit_to_div_mod]
  simp

theorem testBit_false_iff (x i : Nat) : x.testBit i = false ↔ x / 2 ^ i % 2 = 0 := by
  rw [Nat.testBit_to_div_mod]
  simp


/-- What `head_check` demands of a header, in terms of its bit fields. -/
theorem head_check_arith (head : Nat) (check_layer : Int) :
    head_check head check_layer = true
      ↔ head / 2 ^ 21 % 2 ^ 11 = 2047 ∧ head / 2 ^ 17 % 4 ≠ 0 ∧ head / 2 ^ 12 % 16 ≠ 15 ∧
        head / 2 ^ 10 % 4 ≠ 3 ∧ head % 4 ≠ 2 ∧
        (check_layer > 0 → 4 - ((head / 2 ^ 17 % 4 : Nat) : Int) = check_layer) := by
  unfold head_check
  simp only [sync_mask, field2, field4, low2]
  norm_num
  simp only [Nat.shiftRight_eq_div_pow]
  push_cast
  omega

/-- The frame that the assignments of `decode_header` leave for a header
whose sampling-rate index is not 3. -/
theorem decode_header_fields_ok (fr : frame) (head : Nat) (hc : head / 2 ^ 10 % 4 ≠ 3) :
    ∃ fr1, decode_header_fields fr head = .ok fr1 ∧
      fr1.lay = 4 - ((head / 2 ^ 17 % 4 : Nat) : Int) ∧
      fr1.bitrate_index = ((head / 2 ^ 12 % 16 : Nat) : Int) ∧
      fr1.padding = ((head / 2 ^ 9 % 2 : Nat) : Int) ∧
      fr1.mode = ((head / 2 ^ 6 % 4 : Nat) : Int) ∧
      fr1.mode_ext = ((head / 2 ^ 4 % 4 : Nat) : Int) ∧
      fr1.stereo = (if head / 2 ^ 6 % 4 = 3 then 1 else 2) ∧
      fr1.framesize = fr.framesize ∧
      fr1.mpeg25 = (if head / 2 ^ 20 % 2 = 1 then 0 else 1) ∧
      fr1.lsf = (if head / 2 ^ 20 % 2 = 1 ∧ head / 2 ^ 19 % 2 = 1 then 0 else 1) ∧
      fr1.sampling_frequency
        = (if head / 2 ^ 20 % 2 = 1 then
            (if head / 2 ^ 19 % 2 = 1 then ((head / 2 ^ 10 % 4 : Nat) : Int)
             else ((head / 2 ^ 10 % 4 : Nat) : Int) + 3)
           else 6 + ((head / 2 ^ 10 % 4 : Nat) : Int)) := by
  have hbit : ∀ k, (head &&& (1 <<< k) ≠ 0) ↔ head / 2 ^ k % 2 = 1 := by
    intro k
    rw [bit_mask]
    have hlt : head / 2 ^ k % 2 < 2 := Nat.mod_lt _ (by decide)
    have hp : 0 < 2 ^ k := Nat.two_pow_pos k
    constructor
    · intro h
      by_contra hne
      have h0 : head / 2 ^ k % 2 = 0 := by omega
      rw [h0] at h
      exact h (Nat.zero_mul _)
    · intro h
      rw [h, Nat.one_mul]
      omega
  have h20 := hbit 20
  have h19 := hbit 19
  have hc3 : ¬ ((head >>> 10) &&& 0x3 = 0x3) := by
    rw [field2]
    exact hc
  unfold decode_header_fields
  simp only [h20, h19, hc3, if_false]
  refine ⟨_, rfl, ?_, ?_, ?_, ?_, ?_, ?_, rfl, ?_, ?_, ?_⟩
  · simp only [field2]
  · simp only [field4]
  · simp only [field1]
  · simp only [field2]
  · simp only [field2]
  · simp only [field2, MPG_MD_MONO]
    split_ifs <;> first | rfl | omega
  · rfl
  · by_cases a : head / 2 ^ 20 % 2 = 1 <;> by_cases b : head / 2 ^ 19 % 2 = 1 <;>
      simp only [a, b, if_true, if_false, and_self, and_false, false_and, ne_eq,
        not_true_eq_false, not_false_eq_true, one_ne_zero, zero_ne_one]
  · by_cases a : head / 2 ^ 20 % 2 = 1 <;> by_cases b : head / 2 ^ 19 % 2 = 1 <;>
      simp only [a, b, if_true, if_false, field2, ne_eq, not_true_eq_false,
        not_false_eq_true, one_ne_zero, zero_ne_one, Int.mul_comm, Int.one_mul, Int.zero_mul,
        Int.mul_zero, Int.add_zero, Int.mul_one]

theorem toOption_isSome {α : Type} (e : Except Fault α) (h : e.toOption.isSome = true) :
    ∃ x, e = .ok x ∧ e.toOption = some x := by
  cases e with
  | error err => simp [Except.toOption] at h
  | ok x => exact ⟨x, rfl, rfl⟩

theorem toOption_eq_some {α : Type} (e : Except Fault α) (x : α) (h : e.toOption = some x) :
    e = .ok x := by
  cases e with
  | error err => simp [Except.toOption] at h
  | ok y =>
    simp only [Except.toOption, Option.some.injEq] at h
    rw [h]

theorem HeaderFields_mem (head : Nat) (fr : frame) (hh : head_check head 0 = true)
    (hf : HeaderFields head fr) :
    fr.lsf ∈ bitValues ∧ fr.lay ∈ layerValues ∧ fr.bitrate_index ∈ bitrateIndexValues ∧
      fr.sampling_frequency ∈ samplingValues fr.lsf ∧ fr.padding ∈ bitValues := by
  obtain ⟨_, ha, hb, hc, _, _⟩ := (head_check_arith head 0).mp hh
  obtain ⟨h1, h2, h3, _, _, _, _, h8, h9⟩ := hf
  have hlsf : fr.lsf = 0 ∨ fr.lsf = 1 := by
    rw [h8]
    split_ifs
    · exact Or.inl rfl
    · exact Or.inr rfl
  have ha4 : head / 2 ^ 17 % 4 < 4 := Nat.mod_lt _ (by decide)
  have hb16 : head / 2 ^ 12 % 16 < 16 := Nat.mod_lt _ (by decide)
  have hc4 : head / 2 ^ 10 % 4 < 4 := Nat.mod_lt _ (by decide)
  have hp2 : head / 2 ^ 9 % 2 < 2 := Nat.mod_lt _ (by decide)
  refine ⟨?_, ?_, ?_, ?_, ?_⟩
  · simp only [bitValues, List.mem_cons, List.mem_singleton, List.not_mem_nil, or_false]
    exact hlsf
  · simp only [layerValues, List.mem_cons, List.mem_singleton, List.not_mem_nil, or_false]
    omega
  · simp only [bitrateIndexValues, List.mem_cons, List.mem_singleton, List.not_mem_nil,
      or_false]
    omega
  · rw [h8, h9]
    by_cases a : head / 2 ^ 20 % 2 = 1 <;> by_cases b : head / 2 ^ 19 % 2 = 1 <;>
      simp only [a, b, and_self, and_false, false_and, if_true, if_false, samplingValues,
        one_ne_zero, List.mem_cons, List.mem_singleton, List.not_mem_nil, or_false] <;>
      omega
  · simp only [bitValues, List.mem_cons, List.mem_singleton, List.not_mem_nil, or_false]
    omega

/-- `decode_header` returns on every header accepted by `head_check`, with
the members derived from the bit fields; it returns 0 exactly for a layer III
header met while the frame still holds a frame size above
`MAX_INPUT_FRAMESIZE`, and otherwise 1 with the frame size of the `switch`. -/
theorem decode_header_accepted (fr : frame) (head : Nat) (hh : head_check head 0 = true) :
    ∃ fr2 ret, decode_header fr head = .ok (fr2, ret) ∧ HeaderFields head fr2 ∧
      ((ret = 1 ∧ ¬ (fr2.lay = 3 ∧ fr.framesize > MAX_INPUT_FRAMESIZE) ∧
          frame_size_of fr2.lay fr2.lsf fr2.bitrate_index fr2.sampling_frequency fr2.padding
            = .ok fr2.framesize) ∨
        (ret = 0 ∧ fr2.lay = 3 ∧ fr.framesize > MAX_INPUT_FRAMESIZE ∧
          fr2.framesize = MAX_INPUT_FRAMESIZE)) := by
  obtain ⟨_, _, _, hc, _, _⟩ := (head_check_arith head 0).mp hh
  obtain ⟨fr1, hfields, f1, f2, f3, f4, f5, f6, f7, f8, f9, f10⟩ :=
    decode_header_fields_ok fr head hc
  have hF : HeaderFields head fr1 := ⟨f1, f2, f3, f4, f5, f6, f8, f9, f10⟩
  obtain ⟨m1, m2, m3, m4, m5⟩ := HeaderFields_mem head fr1 hh hF
  have hlay : fr1.lay = 1 ∨ fr1.lay = 2 ∨ fr1.lay = 3 := by
    simpa [layerValues] using m2
  have hdec : decode_header fr head = decode_header_switch fr1 := by
    simp [decode_header, hfields, bind, Except.bind]
  by_cases hold : fr1.lay = 3 ∧ fr1.framesize > MAX_INPUT_FRAMESIZE
  · refine ⟨{ fr1 with framesize := MAX_INPUT_FRAMESIZE }, 0, ?_, hF, Or.inr ⟨rfl, hold.1, ?_, rfl⟩⟩
    · rw [hdec]
      have hne1 : ¬ fr1.lay = 1 := by omega
      have hne2 : ¬ fr1.lay = 2 := by omega
      simp [decode_header_switch, hold.1, hold.2]
    · rw [← f7]
      exact hold.2
  · obtain ⟨hsome, _⟩ := frame_size_table fr1.lsf m1 fr1.lay m2 fr1.bitrate_index m3
      fr1.sampling_frequency m4 fr1.padding m5
    obtain ⟨sz, hsz, _⟩ := toOption_isSome _ hsome
    obtain ⟨fr2, hsw, g1, g2, g3, g4, g5, g6, g7, g8, g9, g10⟩ :=
      decode_header_switch_eq fr1 hlay hold sz hsz
    refine ⟨fr2, 1, by rw [hdec, hsw], ?_, Or.inl ⟨rfl, ?_, ?_⟩⟩
    · unfold HeaderFields
      rw [g2, g3, g4, g5, g6, g7, g8, g9, g10]
      exact ⟨f1, f2, f3, f4, f5, f6, f8, f9, f10⟩
    · rw [g2, ← f7]
      exact hold
    · rw [g2, g3, g5, g6, g7, g1]
      exact hsz

theorem truncate_half (x y : Int) (hx : 0 ≤ x) (hy : 0 < y) :
    truncate ((x : ℚ) / (y : ℚ) + 1 / 2) = (2 * x + y) / (2 * y) := by
  have hyq : (0 : ℚ) < (y : ℚ) := by exact_mod_cast hy
  have hxq : (0 : ℚ) ≤ (x : ℚ) := by exact_mod_cast hx
  have hq : (0 : ℚ) ≤ (x : ℚ) / (y : ℚ) + 1 / 2 := by positivity
  have he : (x : ℚ) / (y : ℚ) + 1 / 2 = ((2 * x + y : Int) : ℚ) / (((2 * y).toNat : Nat) : ℚ) := by
    have h2 : (((2 * y).toNat : Nat) : ℚ) = 2 * (y : ℚ) := by
      have : (((2 * y).toNat : Nat) : Int) = 2 * y := Int.toNat_of_nonneg (by omega)
      exact_mod_cast this
    rw [h2]
    push_cast
    field_simp
    ring
  unfold truncate
  rw [if_pos hq, he, Rat.floor_intCast_div_natCast, Int.toNat_of_nonneg (by omega)]

theorem bind_toOption_some {α β : Type} (e : Except Fault α) (f : α → Option β) (x : β)
    (h : e.toOption.bind f = some x) : ∃ r, e = .ok r ∧ f r = some x := by
  cases e with
  | error err => simp [Except.toOption] at h
  | ok r => exact ⟨r, rfl, by simpa [Except.toOption] using h⟩

/-- The frame-info population returns whenever its block is entered with a
frame whose members are among the values `decode_header` derives from an
accepted header. -/
theorem info_ok (pmp : MPSTR) (d : mp3data_struct) (e1 e2 : Int)
    (m1 : pmp.fr.lsf ∈ bitValues) (m2 : pmp.fr.lay ∈ layerValues)
    (m3 : pmp.fr.bitrate_index ∈ bitrateIndexValues)
    (m4 : pmp.fr.sampling_frequency ∈ samplingValues pmp.fr.lsf)
    (m5 : pmp.fr.padding ∈ bitValues)
    (hpop : pmp.header_parsed ≠ 0 ∨ pmp.fsizeold > 0 ∨ pmp.framesize > 0) :
    ∃ info a b, decode1_headersB_clipchoice_info pmp d e1 e2 = .ok (info, a, b) ∧
      info.header_parsed = 1 ∧ info.stereo = pmp.fr.stereo ∧
      info.samplerate = freqOf pmp.fr.sampling_frequency ∧ info.mode = pmp.fr.mode ∧
      info.mode_ext = pmp.fr.mode_ext ∧ info.framesize = samplesOf pmp.fr.lsf pmp.fr.lay ∧
      info.layer = pmp.fr.lay ∧ info.version = wrap32 (pmp.fr.lsf + pmp.fr.mpeg25) ∧
      info.bitrate
        = (if pmp.fsizeold > 0 then
            truncate (((wrap32 (8 * (4 + pmp.fsizeold)
                * freqOf pmp.fr.sampling_frequency) : Int) : ℚ)
              / (1000 * ((samplesOf pmp.fr.lsf pmp.fr.lay : Int) : ℚ)) + 1 / 2)
          else if pmp.framesize > 0 then
            truncate (((wrap32 (8 * (4 + pmp.framesize)
                * freqOf pmp.fr.sampling_frequency) : Int) : ℚ)
              / (1000 * ((samplesOf pmp.fr.lsf pmp.fr.lay : Int) : ℚ)) + 1 / 2)
          else bitrateOf pmp.fr.lsf pmp.fr.lay pmp.fr.bitrate_index) := by
  obtain ⟨_, _, _, hf, _, hs, hs0, ht, _⟩ := frame_size_table pmp.fr.lsf m1 pmp.fr.lay m2
    pmp.fr.bitrate_index m3 pmp.fr.sampling_frequency m4 pmp.fr.padding m5
  have hf1 := toOption_eq_some _ _ hf
  obtain ⟨row, hrow, hs2⟩ := bind_toOption_some _ _ _ hs
  have hsp := toOption_eq_some _ _ hs2
  obtain ⟨line, ht1, ht3⟩ := Option.bind_eq_some.mp ht
  obtain ⟨plane, hplane, hline0⟩ := bind_toOption_some _ _ _ ht1
  have hline := toOption_eq_some _ _ hline0
  have hbit := toOption_eq_some _ _ ht3
  have hb : ∀ size : Int, bitrate_of_size size (freqOf pmp.fr.sampling_frequency)
      (samplesOf pmp.fr.lsf pmp.fr.lay)
      = .ok (truncate (((wrap32 (8 * (4 + size) * freqOf pmp.fr.sampling_frequency) : Int) : ℚ)
          / (1000 * ((samplesOf pmp.fr.lsf pmp.fr.lay : Int) : ℚ)) + 1 / 2)) := by
    intro size
    simp only [bitrate_of_size, hs0, if_false]
  unfold decode1_headersB_clipchoice_info
  simp only [hpop, if_true, hf1, hrow, hsp, hplane, hline, hbit, hb, bind, Except.bind]
  by_cases h1 : pmp.fsizeold > 0
  · by_cases hn : pmp.num_frames > 0
    · simp only [h1, if_true, hn]
      exact ⟨_, _, _, rfl, rfl, rfl, rfl, rfl, rfl, rfl, rfl, rfl, rfl⟩
    · simp only [h1, if_true, hn, if_false]
      exact ⟨_, _, _, rfl, rfl, rfl, rfl, rfl, rfl, rfl, rfl, rfl, rfl⟩
  · by_cases h2 : pmp.framesize > 0
    · by_cases hn : pmp.num_frames > 0
      · simp only [h1, h2, if_true, if_false, hn]
        exact ⟨_, _, _, rfl, rfl, rfl, rfl, rfl, rfl, rfl, rfl, rfl, rfl⟩
      · simp only [h1, h2, if_true, hn, if_false]
        exact ⟨_, _, _, rfl, rfl, rfl, rfl, rfl, rfl, rfl, rfl, rfl, rfl⟩
    · by_cases hn : pmp.num_frames > 0
      · simp only [h1, h2, if_false, hn, if_true, hplane, hline, hbit]
        exact ⟨_, _, _, rfl, rfl, rfl, rfl, rfl, rfl, rfl, rfl, rfl, rfl⟩
      · simp only [h1, h2, hn, if_false, hplane, hline, hbit]
        exact ⟨_, _, _, rfl, rfl, rfl, rfl, rfl, rfl, rfl, rfl, rfl, rfl⟩


theorem field_bit (x k w i : Nat) (h : i < w) :
    (x / 2 ^ k % 2 ^ w) / 2 ^ i % 2 = x / 2 ^ (k + i) % 2 := by
  rw [← Nat.toNat_testBit, ← Nat.toNat_testBit, Nat.testBit_mod_two_pow,
    ← Nat.shiftRight_eq_div_pow, Nat.testBit_shiftRight]
  simp [h]


theorem mem_two (x : Nat) (h : x < 2) : x ∈ [0, 1] := by
  simp only [List.mem_cons, List.mem_singleton, List.not_mem_nil, or_false]
  omega

theorem mem_three (x : Nat) (h : x < 4) (h3 : x ≠ 3) : x ∈ [0, 1, 2] := by
  simp only [List.mem_cons, List.mem_singleton, List.not_mem_nil, or_false]
  omega

theorem mem_layers (x : Nat) (h : x < 4) (h0 : x ≠ 0) : x ∈ [1, 2, 3] := by
  simp only [List.mem_cons, List.mem_singleton, List.not_mem_nil, or_false]
  omega

theorem two_bits (v : Nat) (h : v < 4) : v = 2 * (v / 2 ^ 1 % 2) + v % 2 := by
  omega

theorem layer_cases (a : Nat) (h : a < 4) (h0 : a ≠ 0) :
    (4 : Int) - (a : Int) = 1 ∨ (4 : Int) - (a : Int) = 2 ∨ (4 : Int) - (a : Int) = 3 := by
  omega


/-- C35: `head_check(head, check_layer)` returns TRUE if and only if bits
31..21 of `head` are all set, the layer bits (18, 17) are not 00, the bitrate
index bits (15..12) are not 1111, the sampling-rate index bits (11, 10) are
not 11, the emphasis bits (1, 0) are not 10 and, when `check_layer > 0`, the
layer 4 − layer_bits equals `check_layer`. -/
theorem C35_head_check_iff (head : Nat) (check_layer : Int) :
    head_check head check_layer = true
      ↔ (∀ i, 21 ≤ i → i < 32 → head.testBit i = true) ∧
        ¬ (head.testBit 18 = false ∧ head.testBit 17 = false) ∧
        ¬ (head.testBit 15 = true ∧ head.testBit 14 = true ∧ head.testBit 13 = true ∧
            head.testBit 12 = true) ∧
        ¬ (head.testBit 11 = true ∧ head.testBit 10 = true) ∧
        ¬ (head.testBit 1 = true ∧ head.testBit 0 = false) ∧
        (check_layer > 0 →
          4 - (2 * ((head.testBit 18).toNat : Int) + ((head.testBit 17).toNat : Int))
            = check_layer) := by
  have e2047 : (2047 : Nat) = 2 ^ 11 - 1 := by norm_num
  have hsync : (∀ i, 21 ≤ i → i < 32 → head.testBit i = true)
      ↔ head / 2 ^ 21 % 2 ^ 11 = 2047 := by
    constructor
    · intro h
      apply Nat.eq_of_testBit_eq
      intro j
      rw [e2047, Nat.testBit_two_pow_sub_one, Nat.testBit_mod_two_pow,
        ← Nat.shiftRight_eq_div_pow, Nat.testBit_shiftRight]
      by_cases hj : j < 11
      · simp [hj, h (21 + j) (by omega) (by omega)]
      · simp [hj]
    · intro h i h1 h2
      have hb := congrArg (fun n => n.testBit (i - 21)) h
      simp only at hb
      rw [e2047, Nat.testBit_two_pow_sub_one, Nat.testBit_mod_two_pow,
        ← Nat.shiftRight_eq_div_pow, Nat.testBit_shiftRight] at hb
      have e : 21 + (i - 21) = i := by omega
      have hlt : i - 21 < 11 := by omega
      rw [e] at hb
      simpa [hlt] using hb
  have h18 : ((head.testBit 18).toNat : Int) = ((head / 2 ^ 18 % 2 : Nat) : Int) := by
    rw [Nat.toNat_testBit]
  have h17 : ((head.testBit 17).toNat : Int) = ((head / 2 ^ 17 % 2 : Nat) : Int) := by
    rw [Nat.toNat_testBit]
  rw [hsync, h18, h17, head_check_arith]
  simp only [testBit_iff, testBit_false_iff]
  have b18 := field_bit head 17 2 1 (by decide)
  have b17 := field_bit head 17 2 0 (by decide)
  have b15 := field_bit head 12 4 3 (by decide)
  have b14 := field_bit head 12 4 2 (by decide)
  have b13 := field_bit head 12 4 1 (by decide)
  have b12 := field_bit head 12 4 0 (by decide)
  have b11 := field_bit head 10 2 1 (by decide)
  have b10 := field_bit head 10 2 0 (by decide)
  have b1 := field_bit head 0 2 1 (by decide)
  have b0 := field_bit head 0 2 0 (by decide)
  simp only [Nat.reduceAdd, Nat.reducePow, Nat.div_one] at b18 b17 b15 b14 b13 b12 b11 b10 b1 b0
  simp only [Nat.reducePow, Nat.div_one]
  rw [← b18, ← b17, ← b15, ← b14, ← b13, ← b12, ← b11, ← b10, ← b1, ← b0]
  have l2 : head / 131072 % 4 < 4 := Nat.mod_lt _ (by decide)
  have l4 : head / 4096 % 16 < 16 := Nat.mod_lt _ (by decide)
  have l3 : head / 1024 % 4 < 4 := Nat.mod_lt _ (by decide)
  have l0 : head % 4 < 4 := Nat.mod_lt _ (by decide)
  have ha : ∀ a < 4, (a ≠ 0 ↔ ¬ (a / 2 % 2 = 0 ∧ a % 2 = 0)) ∧ a = 2 * (a / 2 % 2) + a % 2 := by
    decide
  have hb : ∀ b < 16, (b ≠ 15
      ↔ ¬ (b / 8 % 2 = 1 ∧ b / 4 % 2 = 1 ∧ b / 2 % 2 = 1 ∧ b % 2 = 1)) := by
    decide
  have hc : ∀ c < 4, (c ≠ 3 ↔ ¬ (c / 2 % 2 = 1 ∧ c % 2 = 1)) ∧
      (c ≠ 2 ↔ ¬ (c / 2 % 2 = 1 ∧ c % 2 = 0)) := by
    decide
  have hl : ((head / 131072 % 4 : Nat) : Int)
      = 2 * ((head / 131072 % 4 / 2 % 2 : Nat) : Int) + ((head / 131072 % 4 % 2 : Nat) : Int) := by
    exact_mod_cast (ha _ l2).2
  rw [(ha _ l2).1, hb _ l4, (hc _ l3).1, (hc _ l0).2, ← hl]

/-- C36: for every header accepted by `head_check(head, 0)`, `decode_header`
returns without a table read out of bounds and without a division by zero;
the frame it leaves has its layer in 1..3, its bitrate index at most 14, its
`sampling_frequency` in 0..8 and `lsf` in {0, 1}; the `freqs` entry used as a
divisor is non-zero, and the frame-info population on that frame returns as
well. -/
theorem C36_header_lookups_in_bounds (fr : frame) (head : Nat) (pmp : MPSTR)
    (d : mp3data_struct) (e1 e2 : Int) (hh : head_check head 0 = true) :
    ∃ fr1 ret, decode_header fr head = .ok (fr1, ret) ∧
      1 ≤ fr1.lay ∧ fr1.lay ≤ 3 ∧ 0 ≤ fr1.bitrate_index ∧ fr1.bitrate_index ≤ 14 ∧
      0 ≤ fr1.sampling_frequency ∧ fr1.sampling_frequency ≤ 8 ∧
      (fr1.lsf = 0 ∨ fr1.lsf = 1) ∧
      (∃ f, index freqs fr1.sampling_frequency = .ok f ∧ f ≠ 0) ∧
      (∃ s, (index smpls fr1.lsf).bind (fun row => index row fr1.lay) = .ok s ∧ s ≠ 0) ∧
      (pmp.fr = fr1 → ∃ r, decode1_headersB_clipchoice_info pmp d e1 e2 = .ok r) := by
  obtain ⟨fr1, ret, hdec, hF, _⟩ := decode_header_accepted fr head hh
  obtain ⟨m1, m2, m3, m4, m5⟩ := HeaderFields_mem head fr1 hh hF
  obtain ⟨_, _, _, hf, hf0, hs, hs0, _⟩ := frame_size_table fr1.lsf m1 fr1.lay m2
    fr1.bitrate_index m3 fr1.sampling_frequency m4 fr1.padding m5
  have k1 : fr1.lsf = 0 ∨ fr1.lsf = 1 := by simpa [bitValues] using m1
  have k2 : fr1.lay = 1 ∨ fr1.lay = 2 ∨ fr1.lay = 3 := by simpa [layerValues] using m2
  have k3 : 0 ≤ fr1.bitrate_index ∧ fr1.bitrate_index ≤ 14 := by
    simp only [bitrateIndexValues, List.mem_cons, List.mem_singleton, List.not_mem_nil,
      or_false] at m3
    omega
  have k4 : 0 ≤ fr1.sampling_frequency ∧ fr1.sampling_frequency ≤ 8 := by
    rcases k1 with h | h <;>
      simp only [h, samplingValues, if_true, one_ne_zero, if_false, List.mem_cons,
        List.mem_singleton, List.not_mem_nil, or_false] at m4 <;>
      omega
  obtain ⟨row, hrow, hs2⟩ := bind_toOption_some _ _ _ hs
  refine ⟨fr1, ret, hdec, by omega, by omega, k3.1, k3.2, k4.1, k4.2, k1,
    ⟨_, toOption_eq_some _ _ hf, hf0⟩, ⟨_, ?_, hs0⟩, ?_⟩
  · rw [hrow]
    exact toOption_eq_some _ _ hs2
  · intro hfr
    by_cases hpop : pmp.header_parsed ≠ 0 ∨ pmp.fsizeold > 0 ∨ pmp.framesize > 0
    · obtain ⟨info, a, b, hinfo, _⟩ := info_ok pmp d e1 e2 (by rw [hfr]; exact m1)
        (by rw [hfr]; exact m2) (by rw [hfr]; exact m3) (by rw [hfr]; exact m4)
        (by rw [hfr]; exact m5) hpop
      exact ⟨_, hinfo⟩
    · exact ⟨({ d with header_parsed := 0 }, e1, e2),
        by simp only [decode1_headersB_clipchoice_info, hpop, if_false]⟩

/-- C36, instance: the header 0xFFFB9000 (MPEG1, layer III, 128 kbit/s,
44.1 kHz). -/
theorem C36_header_lookups_in_bounds_witness :
    head_check 0xFFFB9000 0 = true ∧
      ∃ fr1 ret, decode_header frame_zero 0xFFFB9000 = .ok (fr1, ret) ∧
        1 ≤ fr1.lay ∧ fr1.lay ≤ 3 ∧ 0 ≤ fr1.bitrate_index ∧ fr1.bitrate_index ≤ 14 ∧
        0 ≤ fr1.sampling_frequency ∧ fr1.sampling_frequency ≤ 8 ∧
        (fr1.lsf = 0 ∨ fr1.lsf = 1) ∧
        (∃ f, index freqs fr1.sampling_frequency = .ok f ∧ f ≠ 0) ∧
        (∃ s, (index smpls fr1.lsf).bind (fun row => index row fr1.lay) = .ok s ∧ s ≠ 0) ∧
        ((parsedState frame_zero).fr = fr1 →
          ∃ r, decode1_headersB_clipchoice_info (parsedState frame_zero) Mpa.mp3data_zero 0 0
            = .ok r) :=
  ⟨by decide,
    C36_header_lookups_in_bounds frame_zero 0xFFFB9000 (parsedState frame_zero)
      Mpa.mp3data_zero 0 0 (by decide)⟩

theorem version_table : ∀ b20 ∈ [0, 1], ∀ b19 ∈ [0, 1], ∀ c ∈ [0, 1, 2], ∀ a ∈ [1, 2, 3],
    (wrap32 ((if b20 = 1 ∧ b19 = 1 then (0 : Int) else 1) + (if b20 = 1 then (0 : Int) else 1))
        = 0 ↔ 2 * b20 + b19 = 3) ∧
    (wrap32 ((if b20 = 1 ∧ b19 = 1 then (0 : Int) else 1) + (if b20 = 1 then (0 : Int) else 1))
        = 1 ↔ 2 * b20 + b19 = 2) ∧
    (wrap32 ((if b20 = 1 ∧ b19 = 1 then (0 : Int) else 1) + (if b20 = 1 then (0 : Int) else 1))
        = 2 ↔ b20 = 0) ∧
    freqOf (if b20 = 1 then (if b19 = 1 then ((c : Nat) : Int) else ((c : Nat) : Int) + 3)
        else 6 + ((c : Nat) : Int))
      = standard_rate
          (wrap32 ((if b20 = 1 ∧ b19 = 1 then (0 : Int) else 1)
            + (if b20 = 1 then (0 : Int) else 1))) c ∧
    samplesOf (if b20 = 1 ∧ b19 = 1 then (0 : Int) else 1) (4 - ((a : Nat) : Int))
      = standard_samples_per_frame
          (wrap32 ((if b20 = 1 ∧ b19 = 1 then (0 : Int) else 1)
            + (if b20 = 1 then (0 : Int) else 1))) (4 - ((a : Nat) : Int)) := by
  decide

/-- C32 (counterexample): the header 0xFFEA9000 is accepted by `head_check`;
its version bits (20, 19) are 01, not 00, and the frame info derived from it
reports version 2, which the bindings name "MPEG2.5". -/
theorem C32_counterexample :
    head_check 0xFFEA9000 0 = true ∧ 0xFFEA9000 / 2 ^ 19 % 4 = 1 ∧
      ∃ fr1 ret info a b, decode_header frame_zero 0xFFEA9000 = .ok (fr1, ret) ∧
        decode1_headersB_clipchoice_info (parsedState fr1) Mpa.mp3data_zero 0 0
          = .ok (info, a, b) ∧
        info.version = 2 ∧ (Mpa.GetFrameInfoObject info 16).version = "MPEG2.5" := by
  refine ⟨by decide, by decide, ?_⟩
  obtain ⟨fr1, ret, hdec, hF, _⟩ := decode_header_accepted frame_zero 0xFFEA9000 (by decide)
  obtain ⟨m1, m2, m3, m4, m5⟩ := HeaderFields_mem _ fr1 (by decide) hF
  obtain ⟨info, a, b, hinfo, _, _, _, _, _, _, _, hv, _⟩ :=
    info_ok (parsedState fr1) Mpa.mp3data_zero 0 0 m1 m2 m3 m4 m5
      (Or.inl (by simp [parsedState]))
  obtain ⟨_, _, _, _, _, _, h7, h8, _⟩ := hF
  have e7 : fr1.mpeg25 = 1 := by rw [h7]; decide
  have e8 : fr1.lsf = 1 := by rw [h8]; decide
  have hv2 : info.version = 2 := by
    rw [hv]
    show wrap32 (fr1.lsf + fr1.mpeg25) = 2
    rw [e7, e8]
    decide
  refine ⟨fr1, ret, info, a, b, hdec, hinfo, hv2, ?_⟩
  show Mpa.VERSIONS.getD (Int.tmod info.version 3).toNat "" = "MPEG2.5"
  rw [hv2]
  rfl

/-- C32 (amended): for every header accepted by `head_check`, the frame info
populated from the frame `decode_header` leaves reports version MPEG1 (0)
iff the version bits (20, 19) are 11, MPEG2 (1) iff they are 10, and MPEG2.5
(2) iff bit 20 is clear (bits 00 or 01); the layer is 4 minus the layer bits
and lies in {1, 2, 3}; the channel count is 1 iff the mode is mono, else 2;
the sample rate is the standard table entry for that version and rate index;
samples-per-frame is 384 for layer I, 1152 for layer II and MPEG1 layer III,
and 576 for MPEG2 and MPEG2.5 layer III. -/
theorem C32_frame_info_of_header (fr : frame) (head : Nat) (pmp : MPSTR)
    (d : mp3data_struct) (e1 e2 : Int) (hh : head_check head 0 = true)
    (hfr : ∃ ret, decode_header fr head = .ok (pmp.fr, ret))
    (hpop : pmp.header_parsed ≠ 0 ∨ pmp.fsizeold > 0 ∨ pmp.framesize > 0) :
    ∃ info a b, decode1_headersB_clipchoice_info pmp d e1 e2 = .ok (info, a, b) ∧
      info.header_parsed = 1 ∧
      (info.version = 0 ↔ head / 2 ^ 19 % 4 = 3) ∧
      (info.version = 1 ↔ head / 2 ^ 19 % 4 = 2) ∧
      (info.version = 2 ↔ head / 2 ^ 20 % 2 = 0) ∧
      info.layer = 4 - ((head / 2 ^ 17 % 4 : Nat) : Int) ∧
      (info.layer = 1 ∨ info.layer = 2 ∨ info.layer = 3) ∧
      (info.stereo = 1 ↔ head / 2 ^ 6 % 4 = 3) ∧
      (info.stereo = 2 ↔ head / 2 ^ 6 % 4 ≠ 3) ∧
      info.samplerate = standard_rate info.version (head / 2 ^ 10 % 4) ∧
      info.framesize = standard_samples_per_frame info.version info.layer := by
  obtain ⟨ret, hret⟩ := hfr
  obtain ⟨fr2, ret2, hdec, hF, _⟩ := decode_header_accepted fr head hh
  have hfr2 : pmp.fr = fr2 := by
    rw [hret] at hdec
    injection hdec with h
    exact (Prod.mk.inj h).1
  rw [← hfr2] at hF
  obtain ⟨m1, m2, m3, m4, m5⟩ := HeaderFields_mem head pmp.fr hh hF
  obtain ⟨info, a, b, hinfo, i1, i2, i3, _, _, i6, i7, i8, _⟩ :=
    info_ok pmp d e1 e2 m1 m2 m3 m4 m5 hpop
  obtain ⟨_, ha, _, hc, _, _⟩ := (head_check_arith head 0).mp hh
  obtain ⟨h1, _, _, _, _, h6, h7, h8, h9⟩ := hF
  have q20 : head / 2 ^ 20 % 2 ∈ [0, 1] := mem_two _ (Nat.mod_lt _ (by decide))
  have q19 : head / 2 ^ 19 % 2 ∈ [0, 1] := mem_two _ (Nat.mod_lt _ (by decide))
  have qc : head / 2 ^ 10 % 4 ∈ [0, 1, 2] := mem_three _ (Nat.mod_lt _ (by decide)) hc
  have qa : head / 2 ^ 17 % 4 ∈ [1, 2, 3] := mem_layers _ (Nat.mod_lt _ (by decide)) ha
  obtain ⟨v0, v1, v2, vr, vs⟩ := version_table _ q20 _ q19 _ qc _ qa
  have hv : head / 2 ^ 19 % 4 = 2 * (head / 2 ^ 20 % 2) + head / 2 ^ 19 % 2 := by
    have b1 := field_bit head 19 2 1 (by decide)
    have b0 := field_bit head 19 2 0 (by decide)
    simp only [Nat.reduceAdd, Nat.pow_zero, Nat.div_one, Nat.pow_one] at b1 b0
    rw [← b1, ← b0]
    exact two_bits _ (Nat.mod_lt _ (by decide))
  rw [← h8, ← h7] at v0 v1 v2 vr vs
  rw [← h9] at vr
  rw [← h1] at vs
  rw [← i8] at v0 v1 v2 vr vs
  refine ⟨info, a, b, hinfo, i1, ?_, ?_, v2, ?_, ?_, ?_, ?_, ?_, ?_⟩
  · rw [hv]; exact v0
  · rw [hv]; exact v1
  · rw [i7]; exact h1
  · rw [i7, h1]
    exact layer_cases _ (Nat.mod_lt _ (by decide)) ha
  · rw [i2, h6]
    split_ifs <;> simp_all
  · rw [i2, h6]
    split_ifs <;> simp_all
  · rw [i3]; exact vr
  · rw [i6, i7]; exact vs

/-- C32 (amended), instance: the header 0xFFFB9000 is MPEG1, layer III,
stereo, 44.1 kHz, 1152 samples per frame. -/
theorem C32_frame_info_of_header_witness :
    head_check 0xFFFB9000 0 = true ∧
      ∃ fr1 ret, decode_header frame_zero 0xFFFB9000 = .ok (fr1, ret) ∧
        ((parsedState fr1).header_parsed ≠ 0 ∨ (parsedState fr1).fsizeold > 0 ∨
          (parsedState fr1).framesize > 0) ∧
        ∃ info a b, decode1_headersB_clipchoice_info (parsedState fr1) Mpa.mp3data_zero 0 0
            = .ok (info, a, b) ∧
          info.header_parsed = 1 ∧
          (info.version = 0 ↔ 0xFFFB9000 / 2 ^ 19 % 4 = 3) ∧
          (info.version = 1 ↔ 0xFFFB9000 / 2 ^ 19 % 4 = 2) ∧
          (info.version = 2 ↔ 0xFFFB9000 / 2 ^ 20 % 2 = 0) ∧
          info.layer = 4 - ((0xFFFB9000 / 2 ^ 17 % 4 : Nat) : Int) ∧
          (info.layer = 1 ∨ info.layer = 2 ∨ info.layer = 3) ∧
          (info.stereo = 1 ↔ 0xFFFB9000 / 2 ^ 6 % 4 = 3) ∧
          (info.stereo = 2 ↔ 0xFFFB9000 / 2 ^ 6 % 4 ≠ 3) ∧
          info.samplerate = standard_rate info.version (0xFFFB9000 / 2 ^ 10 % 4) ∧
          info.framesize = standard_samples_per_frame info.version info.layer := by
  have hh : head_check 0xFFFB9000 0 = true := by decide
  obtain ⟨fr1, ret, hdec, _⟩ := decode_header_accepted frame_zero 0xFFFB9000 hh
  have hp : (parsedState fr1).header_parsed ≠ 0 ∨ (parsedState fr1).fsizeold > 0 ∨
      (parsedState fr1).framesize > 0 := Or.inl (by simp [parsedState])
  exact ⟨hh, fr1, ret, hdec, hp,
    C32_frame_info_of_header frame_zero 0xFFFB9000 (parsedState fr1) Mpa.mp3data_zero 0 0 hh
      ⟨ret, hdec⟩ hp⟩

/-- C33 (counterexample): the layer I header 0xFFFE1000 (MPEG1, bitrate
index 1, 44.1 kHz, no padding) is accepted by `head_check`; `decode_header`
gives it the frame size 28, from which the bitrate is computed as 29, while
`tabsel_123` holds 32 for this header. -/
theorem C33_counterexample :
    head_check 0xFFFE1000 0 = true ∧
      (decode_header frame_zero 0xFFFE1000).toOption.map
          (fun p => (p.1.lay, p.1.lsf, p.1.bitrate_index, p.1.sampling_frequency,
            p.1.framesize, p.2)) = some (1, 0, 1, 0, 28, 1) ∧
      bitrate_of_size 28 (freqOf 0) (samplesOf 0 1) = .ok 29 ∧
      bitrateOf 0 1 1 = 32 := by
  refine ⟨by decide, by decide, ?_, by decide⟩
  have hf : freqOf 0 = 44100 := by decide
  have hs : samplesOf 0 1 = 384 := by decide
  have hw : wrap32 (8 * (4 + 28) * 44100) = 11289600 := by decide
  rw [hf, hs]
  simp only [bitrate_of_size, hw]
  norm_num [truncate, Int.floor_eq_iff]

/-- C33 (amended): for every header of layer II or III accepted by
`head_check` with a non-zero bitrate index, and either padding bit, the
bitrate that the frame-info population computes from the frame size produced
by `decode_header` (whether it reaches it as the previous or as the current
frame size) equals the entry of `tabsel_123` for that header, which is also
what the population reports when it has no frame size and looks the bitrate
up. -/
theorem C33_bitrate_from_frame_size (fr : frame) (head : Nat) (pmp : MPSTR)
    (d : mp3data_struct) (e1 e2 : Int) (hh : head_check head 0 = true)
    (hdec : decode_header fr head = .ok (pmp.fr, 1)) (hlay : pmp.fr.lay ≠ 1)
    (hbi : pmp.fr.bitrate_index ≠ 0)
    (hsize : pmp.fsizeold = pmp.fr.framesize ∨
      (pmp.fsizeold ≤ 0 ∧ pmp.framesize = pmp.fr.framesize)) :
    ∃ info a b, decode1_headersB_clipchoice_info pmp d e1 e2 = .ok (info, a, b) ∧
      info.bitrate = bitrateOf pmp.fr.lsf pmp.fr.lay pmp.fr.bitrate_index ∧
      ∃ info2 a2 b2,
        decode1_headersB_clipchoice_info
            { pmp with header_parsed := 1, fsizeold := 0, framesize := 0 } d e1 e2
          = .ok (info2, a2, b2) ∧
        info2.bitrate = info.bitrate := by
  obtain ⟨fr2, ret2, hdec2, hF, hcase⟩ := decode_header_accepted fr head hh
  have hpair : (pmp.fr, (1 : Int)) = (fr2, ret2) := by
    rw [hdec] at hdec2
    injection hdec2
  have hfr2 : pmp.fr = fr2 := (Prod.mk.inj hpair).1
  have hret : ret2 = 1 := (Prod.mk.inj hpair).2.symm
  rw [← hfr2] at hF hcase
  obtain ⟨m1, m2, m3, m4, m5⟩ := HeaderFields_mem head pmp.fr hh hF
  have hsz : frame_size_of pmp.fr.lay pmp.fr.lsf pmp.fr.bitrate_index
      pmp.fr.sampling_frequency pmp.fr.padding = .ok pmp.fr.framesize := by
    rcases hcase with ⟨_, _, h⟩ | ⟨h0, _⟩
    · exact h
    · rw [hret] at h0
      exact absurd h0 (by decide)
  obtain ⟨_, _, _, _, _, _, _, _, hform⟩ := frame_size_table pmp.fr.lsf m1 pmp.fr.lay m2
    pmp.fr.bitrate_index m3 pmp.fr.sampling_frequency m4 pmp.fr.padding m5
  obtain ⟨_, hpos, hrange, hround, hfpos, hspos⟩ := hform hlay hbi
  rw [hsz] at hpos hrange hround
  have hpos : 0 < pmp.fr.framesize := hpos
  have hrange : 8 * (4 + pmp.fr.framesize) * freqOf pmp.fr.sampling_frequency < 2147483648 :=
    hrange
  have hx : 0 ≤ 8 * (4 + pmp.fr.framesize) * freqOf pmp.fr.sampling_frequency := by
    positivity
  have hy : 0 < 1000 * samplesOf pmp.fr.lsf pmp.fr.lay := by positivity
  have hcomp : truncate (((wrap32 (8 * (4 + pmp.fr.framesize)
        * freqOf pmp.fr.sampling_frequency) : Int) : ℚ)
      / (1000 * ((samplesOf pmp.fr.lsf pmp.fr.lay : Int) : ℚ)) + 1 / 2)
      = bitrateOf pmp.fr.lsf pmp.fr.lay pmp.fr.bitrate_index := by
    rw [SimpleVad.wrap32_of_range _ (by linarith) hrange]
    have hc : (1000 * ((samplesOf pmp.fr.lsf pmp.fr.lay : Int) : ℚ))
        = ((1000 * samplesOf pmp.fr.lsf pmp.fr.lay : Int) : ℚ) := by push_cast; rfl
    rw [hc, truncate_half _ _ hx hy]
    exact hround
  have hpop : pmp.header_parsed ≠ 0 ∨ pmp.fsizeold > 0 ∨ pmp.framesize > 0 := by
    rcases hsize with h | ⟨_, h⟩
    · right; left; rw [h]; exact hpos
    · right; right; rw [h]; exact hpos
  obtain ⟨info, a, b, hinfo, _, _, _, _, _, _, _, _, hbr⟩ :=
    info_ok pmp d e1 e2 m1 m2 m3 m4 m5 hpop
  have hb1 : info.bitrate = bitrateOf pmp.fr.lsf pmp.fr.lay pmp.fr.bitrate_index := by
    rw [hbr]
    rcases hsize with h | ⟨h0, h⟩
    · have hgt : pmp.fsizeold > 0 := by rw [h]; exact hpos
      rw [if_pos hgt, h]
      exact hcomp
    · have hle : ¬ pmp.fsizeold > 0 := not_lt.mpr h0
      have hgt : pmp.framesize > 0 := by rw [h]; exact hpos
      rw [if_neg hle, if_pos hgt, h]
      exact hcomp
  obtain ⟨info2, a2, b2, hinfo2, _, _, _, _, _, _, _, _, hbr2⟩ :=
    info_ok { pmp with header_parsed := 1, fsizeold := 0, framesize := 0 } d e1 e2 m1 m2 m3
      m4 m5 (Or.inl (show (1 : Int) ≠ 0 by decide))
  refine ⟨info, a, b, hinfo, hb1, info2, a2, b2, hinfo2, ?_⟩
  rw [hb1, hbr2]
  have n1 : ¬ ((0 : Int) > 0) := by decide
  simp only [n1, if_false]

/-- C33 (amended), instance: the padded layer III header 0xFFFB9200
(128 kbit/s at 44.1 kHz, frame size 414). -/
theorem C33_bitrate_from_frame_size_witness :
    head_check 0xFFFB9200 0 = true ∧
      ∃ fr1, decode_header frame_zero 0xFFFB9200 = .ok (fr1, 1) ∧ fr1.lay ≠ 1 ∧
        fr1.bitrate_index ≠ 0 ∧
        ∃ info a b,
          decode1_headersB_clipchoice_info
              { parsedState fr1 with framesize := fr1.framesize } Mpa.mp3data_zero 0 0
            = .ok (info, a, b) ∧
          info.bitrate = bitrateOf fr1.lsf fr1.lay fr1.bitrate_index ∧
          ∃ info2 a2 b2,
            decode1_headersB_clipchoice_info
                { ({ parsedState fr1 with framesize := fr1.framesize } : MPSTR) with
                  header_parsed := 1, fsizeold := 0, framesize := 0 } Mpa.mp3data_zero 0 0
              = .ok (info2, a2, b2) ∧
            info2.bitrate = info.bitrate := by
  have hh : head_check 0xFFFB9200 0 = true := by decide
  obtain ⟨fr1, ret, hdec, hF, hcase⟩ := decode_header_accepted frame_zero 0xFFFB9200 hh
  have hret : ret = 1 := by
    rcases hcase with ⟨h, _⟩ | ⟨_, _, h, _⟩
    · exact h
    · exact absurd h (by decide)
  rw [hret] at hdec
  obtain ⟨h1, h2, _⟩ := hF
  have hlay : fr1.lay ≠ 1 := by rw [h1]; decide
  have hbi : fr1.bitrate_index ≠ 0 := by rw [h2]; decide
  exact ⟨hh, fr1, hdec, hlay, hbi,
    C33_bitrate_from_frame_size frame_zero 0xFFFB9200
      { parsedState fr1 with framesize := fr1.framesize } Mpa.mp3data_zero 0 0 hh hdec hlay hbi
      (Or.inr ⟨show (0 : Int) ≤ 0 by decide, rfl⟩)⟩

theorem index_getD (buf : List Nat) (i : Int) (h0 : 0 ≤ i) (h1 : i < (buf.length : Int)) :
    index buf i = .ok (buf.getD i.toNat 0) := by
  have hlt : i.toNat < buf.length := by omega
  unfold index
  rw [if_neg (not_lt.mpr h0), List.getElem?_eq_getElem hlt, List.getD_eq_getElem _ _ hlt]

theorem shl_or (a b i : Nat) (h : b < 2 ^ i) : (a <<< i) ||| b = a * 2 ^ i + b := by
  rw [Nat.shiftLeft_eq, Nat.mul_comm, ← Nat.mul_add_lt_is_or h, Nat.mul_comm]

theorem getD_lt (buf : List Nat) (hb : ∀ b ∈ buf, b < 256) (i : Nat) : buf.getD i 0 < 256 := by
  by_cases h : i < buf.length
  · rw [List.getD_eq_getElem _ _ h]
    exact hb _ (List.getElem_mem _)
  · rw [List.getD_eq_default _ _ (by omega)]
    decide

theorem ExtractI4_ok (buf : List Nat) (hb : ∀ b ∈ buf, b < 256) (ofs : Int) (h0 : 0 ≤ ofs)
    (h1 : ofs + 3 < (buf.length : Int)) :
    ExtractI4 buf ofs = .ok (wrap32 ((bigEndian32 buf ofs.toNat : Nat) : Int)) := by
  have e1 : (ofs + 1).toNat = ofs.toNat + 1 := by omega
  have e2 : (ofs + 2).toNat = ofs.toNat + 2 := by omega
  have e3 : (ofs + 3).toNat = ofs.toNat + 3 := by omega
  unfold ExtractI4
  rw [index_getD buf ofs h0 (by omega), index_getD buf (ofs + 1) (by omega) (by omega),
    index_getD buf (ofs + 2) (by omega) (by omega),
    index_getD buf (ofs + 3) (by omega) (by omega), e1, e2, e3]
  simp only [bind, Except.bind]
  have l1 := getD_lt buf hb (ofs.toNat + 1)
  have l2 := getD_lt buf hb (ofs.toNat + 2)
  have l3 := getD_lt buf hb (ofs.toNat + 3)
  rw [shl_or _ _ 8 l1, shl_or _ _ 8 l2, shl_or _ _ 8 l3]
  have : ((buf.getD ofs.toNat 0 * 2 ^ 8 + buf.getD (ofs.toNat + 1) 0) * 2 ^ 8
      + buf.getD (ofs.toNat + 2) 0) * 2 ^ 8 + buf.getD (ofs.toNat + 3) 0
      = bigEndian32 buf ofs.toNat := by
    unfold bigEndian32
    ring
  rw [this]

theorem matchTag_ok (buf : List Nat) (tag : List Nat) :
    ∀ (ofs : Int), 0 ≤ ofs → ofs + (tag.length : Int) ≤ (buf.length : Int) →
      matchTag buf ofs tag = .ok (decide ((buf.drop ofs.toNat).take tag.length = tag)) := by
  induction tag with
  | nil => intro ofs _ _; simp [matchTag]
  | cons c cs ih =>
    intro ofs h0 h1
    simp only [List.length_cons, Nat.cast_add, Nat.cast_one] at h1
    have hlt : ofs.toNat < buf.length := by omega
    have e1 : (ofs + 1).toNat = ofs.toNat + 1 := by omega
    have hd : buf.drop ofs.toNat = buf.getD ofs.toNat 0 :: buf.drop (ofs.toNat + 1) := by
      rw [List.getD_eq_getElem _ _ hlt]
      exact (List.drop_eq_getElem_cons hlt)
    unfold matchTag
    rw [index_getD buf ofs h0 (by omega)]
    simp only [bind, Except.bind]
    rw [hd]
    generalize buf.getD ofs.toNat 0 = b
    by_cases hc : b = c
    · rw [if_pos hc, ih (ofs + 1) (by omega) (by omega), e1]
      simp [hc]
    · rw [if_neg hc]
      simp [hc]

theorem readToc_ok (buf : List Nat) (k : Nat) :
    ∀ (ofs : Int), 0 ≤ ofs → ofs + (k : Int) ≤ (buf.length : Int) →
      readToc buf ofs k = .ok ((buf.drop ofs.toNat).take k) := by
  induction k with
  | zero => intro ofs _ _; simp [readToc]
  | succ k ih =>
    intro ofs h0 h1
    simp only [Nat.cast_add, Nat.cast_one] at h1
    have hlt : ofs.toNat < buf.length := by omega
    have e1 : (ofs + 1).toNat = ofs.toNat + 1 := by omega
    have hd : buf.drop ofs.toNat = buf.getD ofs.toNat 0 :: buf.drop (ofs.toNat + 1) := by
      rw [List.getD_eq_getElem _ _ hlt]
      exact (List.drop_eq_getElem_cons hlt)
    unfold readToc
    rw [index_getD buf ofs h0 (by omega), ih (ofs + 1) (by omega) (by omega), e1, hd]
    simp [bind, Except.bind]

theorem enc_bound (x : Int) :
    (if x < 0 ∨ x > 3000 then (-1 : Int) else x) = -1 ∨
      (0 ≤ (if x < 0 ∨ x > 3000 then (-1 : Int) else x) ∧
        (if x < 0 ∨ x > 3000 then (-1 : Int) else x) ≤ 3000) := by
  split_ifs with h
  · exact Or.inl rfl
  · right
    omega

theorem GetVbrTag_fields_ok (t2 : VBRTAGDATA) (buf : List Nat) (hb : ∀ b ∈ buf, b < 256)
    (head_flags : Int) (ofs : Int) (h_id : Nat) (h_bitrate samprate : Int) (h0 : 0 ≤ ofs)
    (hlen : ofs + 136 ≤ (buf.length : Int)) (hs : samprate ≠ 0) :
    ∃ t, GetVbrTag_fields t2 buf head_flags ofs h_id h_bitrate samprate = .ok (t, true) ∧
      t.flags = t2.flags ∧
      (flagSet head_flags FRAMES_FLAG = true →
        t.frames = wrap32 ((bigEndian32 buf ofs.toNat : Nat) : Int)) ∧
      (flagSet head_flags FRAMES_FLAG = false → t.frames = t2.frames) ∧
      (t.enc_delay = -1 ∨ (0 ≤ t.enc_delay ∧ t.enc_delay ≤ 3000)) ∧
      (t.enc_padding = -1 ∨ (0 ≤ t.enc_padding ∧ t.enc_padding ≤ 3000)) := by
  have hd : divide (wrap32 (((h_id : Int) + 1) * 72000 * h_bitrate)) samprate
      = .ok (Int.tdiv (wrap32 (((h_id : Int) + 1) * 72000 * h_bitrate)) samprate) := by
    simp [divide, hs]
  have hN : ((NUMTOCENTRIES : Nat) : Int) = 100 := rfl
  unfold GetVbrTag_fields
  by_cases f1 : flagSet head_flags FRAMES_FLAG = true
  · have nf : ¬ (flagSet head_flags FRAMES_FLAG = false) := by simp [f1]
    by_cases f2 : flagSet head_flags BYTES_FLAG = true <;>
    by_cases f3 : flagSet head_flags TOC_FLAG = true <;>
    by_cases f4 : flagSet head_flags VBR_SCALE_FLAG = true <;>
    simp (disch := omega) only [f1, f2, f3, f4, if_true, if_false, bind, Except.bind, hd, hN,
      ExtractI4_ok buf hb, readToc_ok buf, index_getD buf, Bool.false_eq_true] <;>
    exact ⟨_, rfl, rfl, fun _ => rfl, fun h => absurd h (by decide), enc_bound _, enc_bound _⟩
  · by_cases f2 : flagSet head_flags BYTES_FLAG = true <;>
    by_cases f3 : flagSet head_flags TOC_FLAG = true <;>
    by_cases f4 : flagSet head_flags VBR_SCALE_FLAG = true <;>
    simp (disch := omega) only [f1, f2, f3, f4, if_true, if_false, bind, Except.bind, hd, hN,
      ExtractI4_ok buf hb, readToc_ok buf, index_getD buf, Bool.false_eq_true] <;>
    exact ⟨_, rfl, rfl, fun h => absurd h (by decide), fun _ => rfl, enc_bound _, enc_bound _⟩

theorem vbr_tables : ∀ h_id ∈ ([0, 1] : List Nat), ∀ bi ∈ List.range 16,
    ∀ k ∈ ([0, 1, 2] : List Int), ∀ sr ∈ List.range 4,
      (((index bitrate_table (h_id : Int)).toOption.bind
        (fun r => (index r (bi : Int)).toOption)).isSome = true) ∧
      (((index samplerate_table k).toOption.bind
        (fun r => (index r (sr : Int)).toOption)).isSome = true) ∧
      (((index samplerate_table k).toOption.bind
        (fun r => (index r (sr : Int)).toOption)).getD 0 ≠ 0) := by
  decide

theorem bind_isSome {α β : Type} (e : Except Fault α) (f : α → Option β)
    (h : (e.toOption.bind f).isSome = true) :
    ∃ r x, e = .ok r ∧ f r = some x ∧ e.toOption.bind f = some x := by
  cases e with
  | error err => simp [Except.toOption] at h
  | ok r =>
    simp only [Except.toOption, Option.some_bind] at h ⊢
    obtain ⟨x, hx⟩ := Option.isSome_iff_exists.mp h
    exact ⟨r, x, rfl, hx, hx⟩

/-- C38: on a buffer that holds the fields it reads, `GetVbrTag` returns; its
result is TRUE if and only if the layer bits of the header denote Layer III
and the four bytes at the offset given by the header (4 + 32 for MPEG1 that
is not mono, 4 + 17 for MPEG1 mono and MPEG2 that is not mono, 4 + 9 for
MPEG2 mono) spell "Xing" or "Info"; on success `flags` is the big-endian word
that follows the tag, `frames` is the next big-endian word when `FRAMES_FLAG`
is set and keeps its value otherwise, and `enc_delay` and `enc_padding` are
each either -1 or in [0, 3000]. -/
theorem C38_GetVbrTag (t : VBRTAGDATA) (buf : List Nat) (hb : ∀ b ∈ buf, b < 256)
    (hlen : 180 ≤ buf.length) :
    ∃ t1 r, GetVbrTag t buf = .ok (t1, r) ∧
      (r = true
        ↔ (buf.getD 1 0 >>> 1) &&& 3 = 1 ∧
          ((buf.drop (tagOffset ((buf.getD 1 0 >>> 3) &&& 1)
              ((buf.getD 3 0 >>> 6) &&& 3)).toNat).take 4 = VBRTag0 ∨
            (buf.drop (tagOffset ((buf.getD 1 0 >>> 3) &&& 1)
              ((buf.getD 3 0 >>> 6) &&& 3)).toNat).take 4 = VBRTag1)) ∧
      (r = true →
        t1.flags = wrap32 ((bigEndian32 buf ((tagOffset ((buf.getD 1 0 >>> 3) &&& 1)
            ((buf.getD 3 0 >>> 6) &&& 3)).toNat + 4) : Nat) : Int) ∧
        (flagSet t1.flags FRAMES_FLAG = true →
          t1.frames = wrap32 ((bigEndian32 buf ((tagOffset ((buf.getD 1 0 >>> 3) &&& 1)
            ((buf.getD 3 0 >>> 6) &&& 3)).toNat + 8) : Nat) : Int)) ∧
        (flagSet t1.flags FRAMES_FLAG = false → t1.frames = t.frames) ∧
        (t1.enc_delay = -1 ∨ (0 ≤ t1.enc_delay ∧ t1.enc_delay ≤ 3000)) ∧
        (t1.enc_padding = -1 ∨ (0 ≤ t1.enc_padding ∧ t1.enc_padding ≤ 3000))) := by
  have i1 := index_getD buf 1 (by decide) (by omega)
  have i2 := index_getD buf 2 (by decide) (by omega)
  have i3 := index_getD buf 3 (by decide) (by omega)
  have n1 : (1 : Int).toNat = 1 := rfl
  have n2 : (2 : Int).toNat = 2 := rfl
  have n3 : (3 : Int).toNat = 3 := rfl
  rw [n1] at i1
  rw [n2] at i2
  rw [n3] at i3
  generalize hB1 : buf.getD 1 0 = b1 at *
  generalize hB2 : buf.getD 2 0 = b2 at *
  generalize hB3 : buf.getD 3 0 = b3 at *
  have hid : (b1 >>> 3) &&& 1 ∈ ([0, 1] : List Nat) := by
    have : (b1 >>> 3) &&& 1 ≤ 1 := Nat.and_le_right
    simp only [List.mem_cons, List.mem_singleton, List.not_mem_nil, or_false]
    omega
  have hbi : (b2 >>> 4) &&& 0xf ∈ List.range 16 := by
    have : (b2 >>> 4) &&& 0xf ≤ 0xf := Nat.and_le_right
    exact List.mem_range.mpr (by omega)
  have hsr : (b2 >>> 2) &&& 3 ∈ List.range 4 := by
    have : (b2 >>> 2) &&& 3 ≤ 3 := Nat.and_le_right
    exact List.mem_range.mpr (by omega)
  have hk : (if b1 >>> 4 = 0xE then (2 : Int) else (((b1 >>> 3) &&& 1 : Nat) : Int))
      ∈ ([0, 1, 2] : List Int) := by
    simp only [List.mem_cons, List.mem_singleton, List.not_mem_nil, or_false] at hid ⊢
    split_ifs
    · right; right; rfl
    · rcases hid with h | h
      · left; rw [h]; rfl
      · right; left; rw [h]; rfl
  obtain ⟨t1, t2, t3⟩ := vbr_tables _ hid _ hbi _ hk _ hsr
  obtain ⟨bitrates, h_bitrate, hbr1, hbr2, _⟩ := bind_isSome _ _ t1
  obtain ⟨rates, samprate, hr1, hr2, hr3⟩ := bind_isSome _ _ t2
  rw [hr3] at t3
  have hs0 : samprate ≠ 0 := by simpa using t3
  have hbr2 := toOption_eq_some _ _ hbr2
  have hr2 := toOption_eq_some _ _ hr2
  have hofs : 0 ≤ tagOffset ((b1 >>> 3) &&& 1) ((b3 >>> 6) &&& 3) ∧
      tagOffset ((b1 >>> 3) &&& 1) ((b3 >>> 6) &&& 3) ≤ 36 := by
    unfold tagOffset
    split_ifs <;> omega
  generalize hE : tagOffset ((b1 >>> 3) &&& 1) ((b3 >>> 6) &&& 3) = ofs at *
  have hl0 : VBRTag0.length = 4 := rfl
  have hl1 : VBRTag1.length = 4 := rfl
  have hm0 := matchTag_ok buf VBRTag0 ofs hofs.1 (by rw [hl0]; omega)
  have hm1 := matchTag_ok buf VBRTag1 ofs hofs.1 (by rw [hl1]; omega)
  rw [hl0] at hm0
  rw [hl1] at hm1
  have hflags := ExtractI4_ok buf hb (ofs + 4) (by omega) (by omega)
  have e4 : (ofs + 4).toNat = ofs.toNat + 4 := by omega
  have e8 : (ofs + 4 + 4).toNat = ofs.toNat + 8 := by omega
  rw [e4] at hflags
  unfold GetVbrTag
  simp only [i1, bind, Except.bind]
  by_cases hlayer : (b1 >>> 1) &&& 3 = 1
  · simp only [hlayer, ne_eq, not_true_eq_false, if_false, i2, i3, hbr1, hbr2, hr1, hr2, hE,
      IsVbrTag, hm0, hm1, bind, Except.bind, true_and]
    by_cases htag : (buf.drop ofs.toNat).take 4 = VBRTag0 ∨
        (buf.drop ofs.toNat).take 4 = VBRTag1
    · have hdec : (decide ((buf.drop ofs.toNat).take 4 = VBRTag0) ||
          decide ((buf.drop ofs.toNat).take 4 = VBRTag1)) = true := by
        simpa using htag
      simp only [hdec, Bool.not_true, Bool.false_eq_true, if_false, hflags]
      obtain ⟨tt, htt, g1, g2, g3, g4, g5⟩ := GetVbrTag_fields_ok
        { t with flags := wrap32 ((bigEndian32 buf (ofs.toNat + 4) : Nat) : Int),
                 samprate := samprate, h_id := (((b1 >>> 3) &&& 1 : Nat) : Int) }
        buf hb (wrap32 ((bigEndian32 buf (ofs.toNat + 4) : Nat) : Int)) (ofs + 4 + 4)
        ((b1 >>> 3) &&& 1) h_bitrate samprate (by omega) (by omega) hs0
      rw [e8] at g2
      refine ⟨tt, true, htt, ?_, ?_⟩
      · simp [htag]
      · intro _
        refine ⟨g1, ?_, ?_, g4, g5⟩
        · intro hf
          rw [g1] at hf
          exact g2 hf
        · intro hf
          rw [g1] at hf
          exact g3 hf
    · have hdec : (decide ((buf.drop ofs.toNat).take 4 = VBRTag0) ||
          decide ((buf.drop ofs.toNat).take 4 = VBRTag1)) = false := by
        simpa using htag
      simp only [hdec, Bool.not_false, if_true]
      exact ⟨_, false, rfl, by simp [htag], by simp⟩
  · simp only [hlayer, ne_eq, not_false_eq_true, if_true]
    exact ⟨_, false, rfl, by simp, by simp⟩

set_option maxRecDepth 16000

theorem C38_GetVbrTag_witness :
    (∀ b ∈ xingFrame, b < 256) ∧ 180 ≤ xingFrame.length ∧
    (GetVbrTag VBRTAGDATA_zero xingFrame).toOption.map (fun p => (p.2, p.1.flags, p.1.frames))
      = some (true, 1, 100) ∧
    ∃ t1 r, GetVbrTag VBRTAGDATA_zero xingFrame = .ok (t1, r) ∧
      (r = true
        ↔ (xingFrame.getD 1 0 >>> 1) &&& 3 = 1 ∧
          ((xingFrame.drop (tagOffset ((xingFrame.getD 1 0 >>> 3) &&& 1)
              ((xingFrame.getD 3 0 >>> 6) &&& 3)).toNat).take 4 = VBRTag0 ∨
            (xingFrame.drop (tagOffset ((xingFrame.getD 1 0 >>> 3) &&& 1)
              ((xingFrame.getD 3 0 >>> 6) &&& 3)).toNat).take 4 = VBRTag1)) ∧
      (r = true →
        t1.flags = wrap32 ((bigEndian32 xingFrame ((tagOffset ((xingFrame.getD 1 0 >>> 3) &&& 1)
            ((xingFrame.getD 3 0 >>> 6) &&& 3)).toNat + 4) : Nat) : Int) ∧
        (flagSet t1.flags FRAMES_FLAG = true →
          t1.frames = wrap32 ((bigEndian32 xingFrame
            ((tagOffset ((xingFrame.getD 1 0 >>> 3) &&& 1)
              ((xingFrame.getD 3 0 >>> 6) &&& 3)).toNat + 8) : Nat) : Int)) ∧
        (flagSet t1.flags FRAMES_FLAG = false → t1.frames = VBRTAGDATA_zero.frames) ∧
        (t1.enc_delay = -1 ∨ (0 ≤ t1.enc_delay ∧ t1.enc_delay ≤ 3000)) ∧
        (t1.enc_padding = -1 ∨ (0 ≤ t1.enc_padding ∧ t1.enc_padding ≤ 3000))) :=
  ⟨by decide, by decide, by decide,
    C38_GetVbrTag VBRTAGDATA_zero xingFrame (by decide) (by decide)⟩

theorem nextBits_succ (bytes : List Nat) (pos n : Nat) :
    nextBits bytes pos (n + 1) = 2 * nextBits bytes pos n + streamBit bytes (pos + n) := by
  unfold nextBits
  rw [List.range_succ, List.foldl_append]
  rfl

theorem window_bit (b0 b1 b2 j : Nat) (h1 : b1 < 256) (h2 : b2 < 256) (hj : j < 24) :
    (b0 * 65536 + b1 * 256 + b2) / 2 ^ (23 - j) % 2
      = [b0, b1, b2].getD (j / 8) 0 / 2 ^ (7 - j % 8) % 2 := by
  interval_cases j <;> simp only [List.getD_cons_zero, List.getD_cons_succ, Nat.reduceDiv,
    Nat.reduceMod, Nat.reduceSub, Nat.reducePow] <;> omega

theorem window_eq (bytes : List Nat) (wp bi : Nat) (hb : ∀ b ∈ bytes, b < 256) (hbi : bi ≤ 7) :
    ∀ n, n + bi ≤ 24 →
      nextBits bytes (8 * wp + bi) n
        = ((bytes.getD wp 0 * 65536 + bytes.getD (wp + 1) 0 * 256 + bytes.getD (wp + 2) 0)
            * 2 ^ bi % 2 ^ 24) / 2 ^ (24 - n) := by
  intro n
  induction n with
  | zero =>
    intro _
    rw [Nat.div_eq_of_lt (Nat.mod_lt _ (Nat.two_pow_pos 24))]
    rfl
  | succ n ih =>
    intro hn
    have l0 := getD_lt bytes hb wp
    have l1 := getD_lt bytes hb (wp + 1)
    have l2 := getD_lt bytes hb (wp + 2)
    rw [nextBits_succ, ih (by omega)]
    generalize hW : bytes.getD wp 0 * 65536 + bytes.getD (wp + 1) 0 * 256
      + bytes.getD (wp + 2) 0 = W
    have hbit : streamBit bytes (8 * wp + bi + n) = W * 2 ^ bi % 2 ^ 24 / 2 ^ (23 - n) % 2 := by
      have e1 : W * 2 ^ bi % 2 ^ 24 / 2 ^ (23 - n) % 2 = W / 2 ^ (23 - (bi + n)) % 2 := by
        have hp : (2 : Nat) ^ 24 = 2 ^ (23 - n) * 2 ^ (n + 1) := by
          rw [← pow_add]; congr 1; omega
        have hq : (2 : Nat) ^ (23 - n) = 2 ^ (23 - (bi + n)) * 2 ^ bi := by
          rw [← pow_add]; congr 1; omega
        have hr : (2 : Nat) ^ (n + 1) = 2 ^ n * 2 := by rw [pow_succ]
        rw [hp, Nat.mod_mul_right_div_self, hq,
          Nat.mul_div_mul_right _ _ (Nat.two_pow_pos bi), hr, Nat.mod_mul_left_mod]
      rw [e1, ← hW, window_bit _ _ _ (bi + n) l1 l2 (by omega)]
      unfold streamBit
      have e2 : (8 * wp + bi + n) / 8 = wp + (bi + n) / 8 := by omega
      have e3 : (8 * wp + bi + n) % 8 = (bi + n) % 8 := by omega
      rw [e2, e3]
      have hc : (bi + n) / 8 = 0 ∨ (bi + n) / 8 = 1 ∨ (bi + n) / 8 = 2 := by omega
      rcases hc with h | h | h <;> rw [h] <;> rfl
    rw [hbit]
    generalize W * 2 ^ bi % 2 ^ 24 = X
    have hs : (2 : Nat) ^ (24 - n) = 2 ^ (23 - n) * 2 := by
      rw [← pow_succ]; congr 1; omega
    have hs2 : 24 - (n + 1) = 23 - n := by omega
    rw [hs, hs2, ← Nat.div_div_eq_div_mul]
    omega

theorem fast_window (Y b2 bi n : Nat) (h2 : b2 < 256) (hn : n + bi ≤ 16) :
    (Y * 2 ^ bi % 2 ^ 16) / 2 ^ (16 - n)
      = ((Y * 256 + b2) * 2 ^ bi % 2 ^ 24) / 2 ^ (24 - n) := by
  have hp : (2 : Nat) ^ 16 = 2 ^ (16 - n) * 2 ^ n := by
    rw [← pow_add]; congr 1; omega
  have hq : (2 : Nat) ^ 24 = 2 ^ (24 - n) * 2 ^ n := by
    rw [← pow_add]; congr 1; omega
  have hr : (2 : Nat) ^ (16 - n) = 2 ^ (16 - n - bi) * 2 ^ bi := by
    rw [← pow_add]; congr 1; omega
  have hs : (2 : Nat) ^ (24 - n) = 2 ^ 8 * 2 ^ (16 - n - bi) * 2 ^ bi := by
    rw [← pow_add, ← pow_add]; congr 1; omega
  have hY : (Y * 256 + b2) / 2 ^ 8 = Y := by omega
  rw [hp, hq, Nat.mod_mul_right_div_self, Nat.mod_mul_right_div_self, hr, hs,
    Nat.mul_div_mul_right _ _ (Nat.two_pow_pos bi),
    Nat.mul_div_mul_right _ _ (Nat.two_pow_pos bi), ← Nat.div_div_eq_div_mul, hY]

/-- C39: for a bit reader whose `bitindex` is in 0..7 and whose three bytes at
`wordpointer` are readable, and every `n` with `1 ≤ n` and `n + bitindex ≤ 24`,
`getbits` returns the next `n` bits of the byte stream, most significant
first, as an unsigned number; it advances the read position
`8 * wordpointer + bitindex` by exactly `n` and leaves `bitindex` in 0..7; and
`getbits_fast` returns the same value and the same reader whenever
`n + bitindex ≤ 16`. -/
theorem C39_getbits_next_bits (mp : BitReader) (wp bi n : Nat)
    (hwp : mp.wordpointer = some wp) (hbi : mp.bitindex = (bi : Int)) (hbi7 : bi ≤ 7)
    (hn : 1 ≤ n) (hnb : n + bi ≤ 24) (hlen : wp + 3 ≤ mp.bytes.length)
    (hb : ∀ b ∈ mp.bytes, b < 256) :
    ∃ mp1 wp1 bi1,
      getbits mp (n : Int) = .ok (nextBits mp.bytes (8 * wp + bi) n, mp1) ∧
      mp1.bytes = mp.bytes ∧ mp1.wordpointer = some wp1 ∧ mp1.bitindex = (bi1 : Int) ∧
      bi1 ≤ 7 ∧ 8 * wp1 + bi1 = 8 * wp + bi + n ∧
      (n + bi ≤ 16 →
        getbits_fast mp (n : Int) = .ok (nextBits mp.bytes (8 * wp + bi) n, mp1)) := by
  have l0 := getD_lt mp.bytes hb wp
  have l1 := getD_lt mp.bytes hb (wp + 1)
  have l2 := getD_lt mp.bytes hb (wp + 2)
  have i0 := index_getD mp.bytes (wp : Int) (by omega) (by omega)
  have i1 := index_getD mp.bytes ((wp : Int) + 1) (by omega) (by omega)
  have i2 := index_getD mp.bytes ((wp : Int) + 2) (by omega) (by omega)
  have e0 : (wp : Int).toNat = wp := by omega
  have e1 : ((wp : Int) + 1).toNat = wp + 1 := by omega
  have e2 : ((wp : Int) + 2).toNat = wp + 2 := by omega
  rw [e0] at i0
  rw [e1] at i1
  rw [e2] at i2
  have hw := window_eq mp.bytes wp bi hb hbi7 n hnb
  have hmask24 : ∀ x : Nat, x &&& 0xffffff = x % 2 ^ 24 :=
    fun x => Nat.and_pow_two_sub_one_eq_mod x 24
  have hmask16 : ∀ x : Nat, x &&& 0xffff = x % 2 ^ 16 :=
    fun x => Nat.and_pow_two_sub_one_eq_mod x 16
  have hseven : ∀ x : Nat, x &&& 7 = x % 8 := fun x => Nat.and_pow_two_sub_one_eq_mod x 3
  have hshift : ∀ x : Nat, x >>> 3 = x / 8 := fun x => Nat.shiftRight_eq_div_pow x 3
  have hsum : ((bi : Int) + (n : Int)).toNat = bi + n := by omega
  have hk24 : ((24 : Int) - (n : Int)).toNat = 24 - n := by omega
  have hbiN : ((bi : Nat) : Int).toNat = bi := by omega
  have hval : (((((mp.bytes.getD wp 0 <<< 8) ||| mp.bytes.getD (wp + 1) 0) <<< 8)
      ||| mp.bytes.getD (wp + 2) 0) <<< bi &&& 0xffffff) >>> (24 - n)
      = nextBits mp.bytes (8 * wp + bi) n := by
    have hW : (mp.bytes.getD wp 0 * 2 ^ 8 + mp.bytes.getD (wp + 1) 0) * 2 ^ 8
        + mp.bytes.getD (wp + 2) 0
        = mp.bytes.getD wp 0 * 65536 + mp.bytes.getD (wp + 1) 0 * 256
          + mp.bytes.getD (wp + 2) 0 := by ring
    rw [shl_or _ _ 8 l1, shl_or _ _ 8 l2, hmask24,
      Nat.shiftLeft_eq, Nat.shiftRight_eq_div_pow, hw, hW]
  have hsmall : nextBits mp.bytes (8 * wp + bi) n % 4294967296
      = nextBits mp.bytes (8 * wp + bi) n := by
    apply Nat.mod_eq_of_lt
    rw [hw]
    have : (mp.bytes.getD wp 0 * 65536 + mp.bytes.getD (wp + 1) 0 * 256
      + mp.bytes.getD (wp + 2) 0) * 2 ^ bi % 2 ^ 24 < 2 ^ 24 := Nat.mod_lt _ (Nat.two_pow_pos 24)
    exact lt_of_le_of_lt (Nat.div_le_self _ _) (by omega)
  refine ⟨{ mp with wordpointer := some (wp + (bi + n) / 8),
                    bitindex := (((bi + n) % 8 : Nat) : Int) },
    wp + (bi + n) / 8, (bi + n) % 8, ?_, rfl, rfl, ?_, by omega, by omega, ?_⟩
  · unfold getbits
    rw [hwp]
    simp only [hbi, i0, i1, i2, bind, Except.bind, hsum, hk24, hbiN, hval, hsmall]
    rw [if_neg (by omega), if_neg (by omega), hseven, hshift]
  · show (((bi + n) % 8 : Nat) : Int) = _
    omega
  · intro h16
    have hk16 : ((16 : Int) - (n : Int)).toNat = 16 - n := by omega
    have hvalf : ((((mp.bytes.getD wp 0 <<< 8) ||| mp.bytes.getD (wp + 1) 0) <<< bi)
        &&& 0xffff) >>> (16 - n) = nextBits mp.bytes (8 * wp + bi) n := by
      have hW : (mp.bytes.getD wp 0 * 2 ^ 8 + mp.bytes.getD (wp + 1) 0) * 256
          + mp.bytes.getD (wp + 2) 0
          = mp.bytes.getD wp 0 * 65536 + mp.bytes.getD (wp + 1) 0 * 256
            + mp.bytes.getD (wp + 2) 0 := by ring
      rw [shl_or _ _ 8 l1, hmask16,
        Nat.shiftLeft_eq, Nat.shiftRight_eq_div_pow, hw,
        fast_window _ (mp.bytes.getD (wp + 2) 0) bi n l2 h16, hW]
    unfold getbits_fast
    rw [hwp]
    simp only [hbi, i0, i1, bind, Except.bind, hsum, hk16, hbiN, hvalf, hsmall]
    rw [if_neg (by omega), hseven, hshift]

theorem C39_getbits_next_bits_witness :
    nextBits sampleReader.bytes (8 * 0 + 3) 7 = 20 ∧
    ∃ mp1 wp1 bi1,
      getbits sampleReader ((7 : Nat) : Int)
        = .ok (nextBits sampleReader.bytes (8 * 0 + 3) 7, mp1) ∧
      mp1.bytes = sampleReader.bytes ∧ mp1.wordpointer = some wp1 ∧
      mp1.bitindex = (bi1 : Int) ∧ bi1 ≤ 7 ∧ 8 * wp1 + bi1 = 8 * 0 + 3 + 7 ∧
      (7 + 3 ≤ 16 →
        getbits_fast sampleReader ((7 : Nat) : Int)
          = .ok (nextBits sampleReader.bytes (8 * 0 + 3) 7, mp1)) :=
  ⟨by decide, C39_getbits_next_bits sampleReader 0 3 7 rfl rfl (by decide) (by decide)
    (by decide) (by decide) (by decide)⟩

end HeaderTheorems

end Mpadec

namespace Spl

section BitReverseTheorems

theorem swap_spec {α : Type} (data : List α) (a b : Nat) (ha : a < data.length)
    (hb : b < data.length) :
    ∃ out, swap data a b = some out ∧ out.length = data.length ∧
      ∀ j, out[j]? = data[if j = b then a else if j = a then b else j]? := by
  unfold swap
  rw [List.getElem?_eq_getElem ha, List.getElem?_eq_getElem hb]
  refine ⟨_, rfl, by simp, ?_⟩
  intro j
  by_cases hjb : j = b
  · subst hjb
    simp [List.getElem?_set, ha, hb]
  · by_cases hja : j = a
    · subst hja
      simp [List.getElem?_set, ha, hb, hjb, Ne.symm hjb]
    · simp [List.getElem?_set, hjb, hja, Ne.symm hjb, Ne.symm hja]

theorem partner_cons (a b : Nat) (rest : List Nat) (j : Nat) :
    partner (a :: b :: rest) j = if j = a then b else if j = b then a else partner rest j :=
  rfl

theorem partner_mem : ∀ (index : List Nat) (j : Nat), partner index j = j ∨ partner index j ∈ index
  | [], _ => Or.inl rfl
  | [_], _ => Or.inl rfl
  | a :: b :: rest, j => by
    unfold partner
    by_cases hja : j = a
    · rw [if_pos hja]
      right
      simp
    · rw [if_neg hja]
      by_cases hjb : j = b
      · rw [if_pos hjb]
        right
        simp
      · rw [if_neg hjb]
        rcases partner_mem rest j with h | h
        · left; exact h
        · right
          simp [h]

theorem partner_not_mem : ∀ (index : List Nat) (j : Nat), j ∉ index → partner index j = j
  | [], _, _ => rfl
  | [_], _, _ => rfl
  | a :: b :: rest, j, h => by
    simp only [List.mem_cons, not_or] at h
    unfold partner
    rw [if_neg h.1, if_neg h.2.1]
    exact partner_not_mem rest j h.2.2

theorem distinct_cons (a : Nat) (rest : List Nat) (h : distinct (a :: rest) = true) :
    a ∉ rest ∧ distinct rest = true := by
  unfold distinct at h
  simpa using h

theorem swapAll_spec {α : Type} : ∀ (index : List Nat) (data : List α),
    distinct index = true → (∀ x ∈ index, x < data.length) →
    ∃ out, swapAll index data = some out ∧ out.length = data.length ∧
      ∀ j, out[j]? = data[partner index j]?
  | [], data, _, _ => ⟨data, rfl, rfl, fun _ => rfl⟩
  | [_], data, _, _ => ⟨data, rfl, rfl, fun _ => rfl⟩
  | a :: b :: rest, data, hd, hlt => by
    obtain ⟨ha, hd1⟩ := distinct_cons a (b :: rest) hd
    obtain ⟨hb, hd2⟩ := distinct_cons b rest hd1
    simp only [List.mem_cons, not_or] at ha
    obtain ⟨data1, hs, hl1, hg1⟩ := swap_spec data a b (hlt a (by simp)) (hlt b (by simp))
    obtain ⟨out, ho, hl, hg⟩ := swapAll_spec rest data1 hd2
      (fun x hx => by rw [hl1]; exact hlt x (by simp [hx]))
    refine ⟨out, ?_, by rw [hl, hl1], ?_⟩
    · unfold swapAll
      rw [hs]
      exact ho
    · intro j
      rw [hg j, hg1, partner_cons]
      by_cases hja : j = a
      · rw [if_pos hja, hja, partner_not_mem rest a ha.2, if_neg ha.1, if_pos rfl]
      · rw [if_neg hja]
        by_cases hjb : j = b
        · rw [if_pos hjb, hjb, partner_not_mem rest b hb, if_pos rfl]
        · rw [if_neg hjb]
          have hq : partner rest j ≠ a ∧ partner rest j ≠ b := by
            rcases partner_mem rest j with h | h
            · rw [h]; exact ⟨hja, hjb⟩
            · constructor
              · intro e; rw [e] at h; exact ha.2 h
              · intro e; rw [e] at h; exact hb h
          rw [if_neg hq.2, if_neg hq.1]

theorem tableLoop_eq {α : Type} (index : List Nat) : ∀ (k m : Nat) (data : List α),
    m + 2 * k ≤ index.length →
    tableLoop index k m data = swapAll ((index.drop m).take (2 * k)) data := by
  intro k
  induction k with
  | zero =>
    intro m data _
    simp [tableLoop, swapAll]
  | succ k ih =>
    intro m data h
    have h0 : m < index.length := by omega
    have h1 : m + 1 < index.length := by omega
    have hdrop : index.drop m = index[m] :: index[m + 1] :: index.drop (m + 2) := by
      rw [List.drop_eq_getElem_cons h0, List.drop_eq_getElem_cons h1]
    have htake : 2 * (k + 1) = 2 * k + 1 + 1 := by ring
    unfold tableLoop
    rw [hdrop, htake, List.take_succ_cons, List.take_succ_cons, List.getElem?_eq_getElem h0,
      List.getElem?_eq_getElem h1]
    unfold swapAll
    simp only [Option.bind_eq_bind, Option.some_bind]
    cases swap data index[m] index[m + 1] with
    | none => rfl
    | some data1 =>
      simp only [Option.some_bind]
      exact ih (m + 2) data1 (by omega)

theorem genericLoop_eq {α : Type} (stages n : Nat) : ∀ (k m mr : Nat) (data : List α)
    (index : List Nat), genericSwaps stages n k m mr = some index →
    genericLoop stages n k m mr data = swapAll index data := by
  intro k
  induction k with
  | zero =>
    intro m mr data index h
    simp only [genericSwaps, Option.some.injEq] at h
    subst h
    rfl
  | succ k ih =>
    intro m mr data index h
    unfold genericSwaps at h
    unfold genericLoop
    cases hl : halve (n - 1) mr (stages + 2) n with
    | none => simp [hl] at h
    | some l =>
      simp only [hl, Option.bind_eq_bind, Option.some_bind] at h ⊢
      cases hr : genericSwaps stages n k (m + 1)
          ((if l = 0 then mr else mr &&& (l - 1)) + l) with
      | none => simp [hr] at h
      | some rest =>
        simp only [hr, Option.some_bind] at h
        by_cases hle : (if l = 0 then mr else mr &&& (l - 1)) + l ≤ m
        · rw [if_pos hle] at h ⊢
          simp only [Option.some.injEq] at h
          subst h
          exact ih _ _ data rest hr
        · rw [if_neg hle] at h ⊢
          simp only [Option.some.injEq] at h
          subst h
          unfold swapAll
          cases swap data m ((if l = 0 then mr else mr &&& (l - 1)) + l) with
          | none => rfl
          | some data1 =>
            simp only [Option.some_bind]
            exact ih _ _ data1 rest hr

theorem index_7_reversal : isBitReversal 7 index_7 = true := by
  decide!

theorem index_8_reversal : isBitReversal 8 index_8 = true := by
  decide!

theorem genericSwaps_7 : genericSwaps 7 128 127 1 0 = some index_7 := by
  decide!

theorem genericSwaps_8 : genericSwaps 8 256 255 1 0 = some index_8 := by
  decide!

theorem bitReverse_7_involutive : (List.range (2 ^ 7)).all (fun j =>
    decide (bitReverse 7 j < 2 ^ 7) && bitReverse 7 (bitReverse 7 j) == j) = true := by
  decide!

theorem bitReverse_8_involutive : (List.range (2 ^ 8)).all (fun j =>
    decide (bitReverse 8 j < 2 ^ 8) && bitReverse 8 (bitReverse 8 j) == j) = true := by
  decide!

theorem bitReverse_involutive (stages : Nat) (hs : stages = 7 ∨ stages = 8) (j : Nat)
    (hj : j < 2 ^ stages) :
    bitReverse stages j < 2 ^ stages ∧ bitReverse stages (bitReverse stages j) = j := by
  rcases hs with h | h <;> subst h
  · have h := List.all_eq_true.mp bitReverse_7_involutive j (List.mem_range.mpr hj)
    simpa using h
  · have h := List.all_eq_true.mp bitReverse_8_involutive j (List.mem_range.mpr hj)
    simpa using h

theorem isBitReversal_spec (stages : Nat) (index : List Nat)
    (h : isBitReversal stages index = true) :
    distinct index = true ∧ (∀ x ∈ index, x < 2 ^ stages) ∧
      ∀ j, j < 2 ^ stages → partner index j = bitReverse stages j := by
  unfold isBitReversal at h
  simp only [Bool.and_eq_true, List.all_eq_true, decide_eq_true_eq, beq_iff_eq,
    List.mem_range] at h
  exact ⟨h.1.1, h.1.2, h.2⟩

theorem branches_swap (stages : Nat) (hs : stages = 7 ∨ stages = 8) :
    ∃ index, isBitReversal stages index = true ∧
      ∀ {α : Type} (data : List α),
        ComplexBitReverse_table data stages = swapAll index data ∧
        ComplexBitReverse_generic data stages = swapAll index data := by
  rcases hs with h | h <;> subst h
  · refine ⟨index_7, index_7_reversal, fun data => ⟨?_, ?_⟩⟩
    · have h := tableLoop_eq index_7 56 0 data (by decide!)
      have e : (index_7.drop 0).take (2 * 56) = index_7 := by decide!
      rw [e] at h
      exact h
    · exact genericLoop_eq 7 128 127 1 0 data index_7 genericSwaps_7
  · refine ⟨index_8, index_8_reversal, fun data => ⟨?_, ?_⟩⟩
    · have h := tableLoop_eq index_8 120 0 data (by decide!)
      have e : (index_8.drop 0).take (2 * 120) = index_8 := by decide!
      rw [e] at h
      exact h
    · exact genericLoop_eq 8 256 255 1 0 data index_8 genericSwaps_8

theorem branches_spec {α : Type} (stages : Nat) (hs : stages = 7 ∨ stages = 8) (data : List α)
    (hlen : data.length = 2 ^ stages) :
    ∃ out, ComplexBitReverse_table data stages = some out ∧
      ComplexBitReverse_generic data stages = some out ∧ out.length = 2 ^ stages ∧
      ∀ j, j < 2 ^ stages → out[j]? = data[bitReverse stages j]? := by
  obtain ⟨index, hrev, hrun⟩ := branches_swap stages hs
  obtain ⟨hd, hlt, hp⟩ := isBitReversal_spec stages index hrev
  obtain ⟨out, ho, hl, hg⟩ := swapAll_spec index data hd (fun x hx => by
    rw [hlen]; exact hlt x hx)
  refine ⟨out, ?_, ?_, by rw [hl, hlen], fun j hj => ?_⟩
  · rw [(hrun data).1, ho]
  · rw [(hrun data).2, ho]
  · rw [hg j, hp j hj]

/-- C40: for `stages` 7 and 8 and an array of `2 ^ stages` complex elements,
the table branch of `WebRtcSpl_ComplexBitReverse` returns the bit-reversal
permutation of the array: the element at index `i` ends at the index whose
`stages`-bit binary representation is that of `i` reversed; the generic branch
returns the same array for that `stages`; so does the function itself, and
applying it to its result restores the input. -/
theorem C40_table_branch_bit_reversal {α : Type} (data : List α) (stages : Nat)
    (hs : stages = 7 ∨ stages = 8) (hlen : data.length = 2 ^ stages) :
    ∃ out, ComplexBitReverse_table data stages = some out ∧ out.length = 2 ^ stages ∧
      (∀ i, i < 2 ^ stages →
        bitReverse stages i < 2 ^ stages ∧ out[bitReverse stages i]? = data[i]?) ∧
      ComplexBitReverse_generic data stages = some out ∧
      WebRtcSpl_ComplexBitReverse data stages = some out ∧
      WebRtcSpl_ComplexBitReverse out stages = some data := by
  obtain ⟨out, ht, hg, hl, hp⟩ := branches_spec stages hs data hlen
  obtain ⟨back, ht2, _, hl2, hp2⟩ := branches_spec stages hs out hl
  have hback : back = data := by
    apply List.ext_getElem?
    intro j
    by_cases hj : j < 2 ^ stages
    · obtain ⟨hr, hi⟩ := bitReverse_involutive stages hs j hj
      rw [hp2 j hj, hp _ hr, hi]
    · rw [List.getElem?_eq_none (by omega), List.getElem?_eq_none (by omega)]
  refine ⟨out, ht, hl, fun i hi => ?_, hg, ?_, ?_⟩
  · obtain ⟨hr, hii⟩ := bitReverse_involutive stages hs i hi
    refine ⟨hr, ?_⟩
    rw [hp _ hr, hii]
  · unfold WebRtcSpl_ComplexBitReverse
    rw [if_pos hs, ht]
  · unfold WebRtcSpl_ComplexBitReverse
    rw [if_pos hs, ht2, hback]

theorem C40_table_branch_bit_reversal_witness :
    (7 = 7 ∨ 7 = 8) ∧ (List.range 128).length = 2 ^ 7 ∧
    ∃ out, ComplexBitReverse_table (List.range 128) 7 = some out ∧ out.length = 2 ^ 7 ∧
      (∀ i, i < 2 ^ 7 → bitReverse 7 i < 2 ^ 7 ∧ out[bitReverse 7 i]? = (List.range 128)[i]?) ∧
      ComplexBitReverse_generic (List.range 128) 7 = some out ∧
      WebRtcSpl_ComplexBitReverse (List.range 128) 7 = some out ∧
      WebRtcSpl_ComplexBitReverse out 7 = some (List.range 128) :=
  ⟨Or.inl rfl, List.length_range 128,
    C40_table_branch_bit_reversal (List.range 128) 7 (Or.inl rfl) (List.length_range 128)⟩

end BitReverseTheorems

end Spl
